import Mathlib

/-!
Nofrendo NES core: MMC3 mapper, A12 filter, PPU timing, the work-RAM pager and
the catch-up scheduler.

A shallow embedding of the C sources `map004.c`, `map005.c`, `mapper_shims.c`,
`nes_ppu.c`, `wram.c`, `nesstate.c` and `nes.c`.  The C program keeps its state in file-scope variables; here the
whole machine is one record `World` with one sub-record per C module, and every
C function becomes a function on `World`.

Conventions.
* `uint8_t` / `uint16_t` values are `Nat`; stores that can leave the range are
  reduced with an explicit `% 256` / `% 65536`.
* `int` values (`dot`, `scanline`, the A12 low counter) are `Int`.
  For an `int` value `n`, the C expression `n & (2^k - 1)` is written
  `n % 2^k` (Euclidean remainder), which is the same number in two's complement.
* Byte arrays are functions from the index to the byte.
* Calls that leave the sources at hand (`nes6502_irq`, `nes6502_nmi`,
  `nes6502_clear_pending_irq`) are counted in the `Cpu` record.
-/

namespace Nofrendo

/-! ## State -/

/-- The record `irq_t` of `map004.c`. -/
structure irq_t where
  counter : Nat := 0
  latch : Nat := 0
  enabled : Bool := false
  reload_flag : Bool := false
deriving DecidableEq, Repr

/-- File-scope state of `map004.c`. -/
structure Map4 where
  irq : irq_t := {}
  reg8000 : Nat := 0
  vrombase : Nat := 0
  prg_bank6 : Nat := 0
  r7_prg_bank : Nat := 0
  fourscreen : Bool := false
  wram_en : Bool := false
  wram_wp : Bool := false
  wram_bank : Nat := 0
  chr_reg : Nat → Nat := fun _ => 0

/-- What the core can observe of the 6502 side: the external IRQ line of
`mapper_shims.c`, counters for the calls into the CPU core, and what the core
reads from it: `getbyte` is the result of `nes6502_getbyte`, `total_cycles`
the result of `nes6502_getcycles(false)`; `burned` sums the arguments of
`nes6502_burn` and `release_calls` counts `nes6502_release`.  `mem_page` is
the page table `cpu->mem_page[]` of the CPU context: one pointer (a host
address, `0` for `NULL`) per CPU page; `a_reg` .. `pc_reg` are the registers of
the context. -/
structure Cpu where
  ext_irq_line : Nat := 0
  irq_calls : Nat := 0
  irq_clears : Nat := 0
  nmi_calls : Nat := 0
  getbyte : Nat → Nat := fun _ => 0
  total_cycles : Nat := 0
  burned : Nat := 0
  release_calls : Nat := 0
  mem_page : Nat → Int := fun _ => 0
  a_reg : Nat := 0
  x_reg : Nat := 0
  y_reg : Nat := 0
  p_reg : Nat := 0
  s_reg : Nat := 0
  pc_reg : Nat := 0

/-- The functions that `ppu_set_mapper_hook` is called with in the sources. -/
inductive MapperHook where
  | map4_ppu_tick
deriving DecidableEq, Repr

/-- The colour record `rgb_t` (three `int` components). -/
structure rgb_t where
  r : Int := 0
  g : Int := 0
  b : Int := 0
deriving DecidableEq, Repr

/-- The background pipeline record `bg_t`. -/
structure bg_t where
  pt_lo : Nat := 0
  pt_hi : Nat := 0
  at_lo : Nat := 0
  at_hi : Nat := 0
  next_nt : Nat := 0
  next_at : Nat := 0
  next_pt_lo : Nat := 0
  next_pt_hi : Nat := 0
deriving DecidableEq, Repr

/-- One sprite output unit, `spr_unit_t`. -/
structure spr_unit_t where
  x : Nat := 0
  pt_lo : Nat := 0
  pt_hi : Nat := 0
  attr : Nat := 0
  in_range : Bool := false
deriving DecidableEq, Repr

/-- The file-scope struct `ppu` of `nes_ppu.c`.  The framebuffer pointer `fb`
is represented by the buffer it points to, indexed by the signed offset from
the pointer. -/
structure ppu_s where
  ctrl : Nat := 0
  mask : Nat := 0
  status : Nat := 0
  oam_addr : Nat := 0
  v : Nat := 0
  t : Nat := 0
  x : Nat := 0
  w : Nat := 0
  buffered_data : Nat := 0
  dot : Int := 0
  scanline : Int := 0
  odd_frame : Bool := false
  frame_complete : Bool := false
  phase_mod3 : Nat := 0
  pal_ppu_accum : Nat := 0
  is_pal_system : Bool := false
  nmi_prev : Bool := false
  nmi_delay : Nat := 0
  oam : Nat → Nat := fun _ => 0
  sec_oam : Nat → Nat := fun _ => 0
  bg : bg_t := {}
  spr : Nat → spr_unit_t := fun _ => {}
  sprite_count : Nat := 0
  sprite_zero_next : Bool := false
  sprite_zero_this : Bool := false
  next_sprite_xmin : Nat := 0
  sprite0_slot_next : Nat := 0
  sprite0_slot_this : Nat := 0
  eval_sprite_idx : Nat := 0
  eval_oam_addr : Nat := 0
  eval_sec_idx : Nat := 0
  eval_overflow : Bool := false
  eval_temp_y : Nat := 0
  sprite_in_range : Bool := false
  eval_byte_index : Nat := 0
  eval_read_latch : Nat := 0
  oam_write_during_eval : Bool := false
  spr_fetch_slot : Nat := 0
  spr_fetch_phase : Nat := 0
  spr_tmp_y : Nat := 0
  spr_tmp_tile : Nat := 0
  spr_tmp_attr : Nat := 0
  spr_tmp_x : Nat := 0
  spr_lo : Nat := 0
  spr_hi : Nat := 0
  spr_fetch_addr : Nat := 0
  palette : Nat → Nat := fun _ => 0
  fb : Int → Nat := fun _ => 0
  open_bus : Nat := 0

/-- The fields of the file-scope `nes_t nes` of `nes.c` that the scheduler uses.
The three cycle counters are `uint64_t`. -/
structure Nes where
  cpu_cycles_total : Nat := 0
  ppu_cycles_total : Nat := 0
  last_catchup_cpu_cycles : Nat := 0
  pal_fractional_acc : Nat := 0
  is_pal_region : Bool := false
  poweroff : Bool := false
  pause : Bool := false
  autoframeskip : Bool := false
  scanline_cycles : Int := 0
  scanline : Int := 0
  fiq_occurred : Bool := false
  fiq_state : Nat := 0
  fiq_cycles : Int := 0

/-- The fields of `rominfo_t` that the MMC3 mapper and the work-RAM pager read:
the number of 16 KiB PRG banks, the result of `flags & ROM_FLAG_FOURSCREEN`,
the pointer to cartridge RAM (`0` for `NULL`) and its number of banks. -/
structure RomInfo where
  rom_banks : Int := 0
  flag_fourscreen : Bool := false
  sram : Int := 0
  sram_banks : Int := 0

/-- File-scope state of `wram.c`, with the initialisers of the C file.
`dead_page` is the address of the static array `dead_page[PAGE_SIZE]`; the
array is the 8 KiB of host memory that start there. -/
structure Wram where
  base : Int := 0
  banks : Int := 1
  cur_bank : Int := 0
  wram_en : Bool := false
  wram_wp : Bool := false
  dead_page : Int := 0x100000

/-- The write handlers that the sources put into `nes->writehandler`. -/
inductive WriteFunc where
  | ram_write | ppu_write | apu_write | ppu_writehigh | io_write | wram_write | map4_write
deriving DecidableEq, Repr

/-- One entry `nes6502_memwrite` of the write-handler table; `write_func` is
`none` for `NULL`. -/
structure nes6502_memwrite where
  min_range : Nat := 0
  max_range : Nat := 0
  write_func : Option WriteFunc := none
deriving DecidableEq, Repr

/-- The record `irq` of `map005.c`. -/
structure irq5_t where
  counter : Int := 0
  latch : Int := 0
  enabled : Bool := false
  pending : Bool := false
deriving DecidableEq, Repr

/-- File-scope state of `map005.c`.  `exram` and `fill_ram` are the addresses
of the two static 1 KiB arrays, which are handed to `ppu_setpage`; their bytes
are the bytes of `chrmem` from these addresses on.  `nt_page` holds pointers
like the CHR page table. -/
structure Map5 where
  prg_mode : Nat := 0
  chr_mode : Nat := 0
  chr_high : Nat := 0
  prg_reg : Nat → Nat := fun _ => 0
  chr_spr : Nat → Nat := fun _ => 0
  chr_bg : Nat → Nat := fun _ => 0
  exram : Nat := 0x200000
  exram_mode : Nat := 0
  nt_fill : Nat := 0
  at_fill : Nat := 0
  fill_ram : Nat := 0x200400
  nt_page : Nat → Option Nat := fun _ => none
  split_ctrl : Nat := 0
  split_scroll : Nat := 0
  split_bank : Nat := 0
  mul : Nat → Nat := fun _ => 0
  irq : irq5_t := {}

/-- The whole machine: the struct `ppu`, the other file-scope variables of
`nes_ppu.c`, and the states of the mapper, the CPU side and the scheduler.

`hostmem` is the memory of the host that the CPU page table points into
(cartridge RAM, the dead page of `wram.c`); static arrays start zeroed.
`writehandler` is `nes.writehandler`.  `prg_bank` and `chr_bank` are what the
bank switching of `nes_mmc.c` has selected: the 8 KiB PRG bank of each 8 KiB
CPU slot (index `address >> 13`) and the 1 KiB CHR bank of each 1 KiB PPU page
(index `address >> 10`).  `chrmem` is the host memory that PPU-side pointers
lead into: cartridge CHR memory and the two arrays of the MMC5.  `joy_state`,
`joy_shift` and `joy_strobe` are the controller variables of `nes.c`.

`chr_page_ptrs` and `chrram_ptr` are pointers into cartridge CHR memory; they
are offsets into `chrmem`, with `none` for `NULL`.  `hook_log` records the
argument of every call made through `mapper_ppu_hook`, `latch_log` the
arguments of every call made through `ppu_latchfunc` (whose targets, the
MMC2/MMC4 mappers, are outside these sources; `ppu_latchfunc` says whether the
pointer is non-null).  `nes_palette` is the constant 64-entry table of
`nes_pal.h`. -/
structure World where
  ppu : ppu_s := {}
  a12_prev : Bool := false
  mmc3_a12_low_m2_count : Int := 0
  mmc3_a12_level : Bool := false
  mapper_ppu_hook : Option MapperHook := none
  hook_log : List Nat := []
  ciram : Nat → Nat := fun _ => 0
  nametable_mapping : Nat → Nat := fun i => i
  ppu_four_screen_enabled : Bool := false
  sprites_enabled : Bool := true
  draw_enabled : Bool := true
  ppu_is_pal : Bool := false
  ppu_latchfunc : Bool := false
  latch_log : List (Nat × Nat) := []
  bitrev : Nat → Nat := fun _ => 0
  nes_palette : Nat → rgb_t := fun _ => {}
  emphasis_lut : Nat → Nat → Nat := fun _ _ => 0
  emphasis_lut_init : Bool := false
  chr_page_ptrs : Nat → Option Nat := fun _ => none
  chrram_ptr : Option Nat := none
  chrram_size : Nat := 0
  chrmem : Nat → Nat := fun _ => 0
  map4 : Map4 := {}
  cpu : Cpu := {}
  nes : Nes := {}
  rominfo : RomInfo := {}
  wram : Wram := {}
  hostmem : Int → Nat := fun _ => 0
  writehandler : Nat → nes6502_memwrite := fun _ => {}
  prg_bank : Nat → Int := fun _ => 0
  chr_bank : Nat → Int := fun _ => 0
  map5 : Map5 := {}
  joy_state : Nat → Nat := fun _ => 0
  joy_shift : Nat → Nat := fun _ => 0
  joy_strobe : Nat := 0

/-! ## `mapper_shims.c` and the MMC3 IRQ counter (`map004.c`) -/

/-- `nes_irq`: raise the external IRQ line and notify the CPU core. -/
def nes_irq (w : World) : World :=
  { w with cpu := { w.cpu with ext_irq_line := 1, irq_calls := w.cpu.irq_calls + 1 } }

/-- `nes_irq_ack`: release the line and clear the pending IRQ. -/
def nes_irq_ack (w : World) : World :=
  { w with cpu := { w.cpu with ext_irq_line := 0, irq_clears := w.cpu.irq_clears + 1 } }

/-- `map4_clock_irq`, built with `MMC3_IRQ_NEWSTYLE = 1`.  The local
`decremented` is only read in the old-style build. -/
def map4_clock_irq (w : World) : World :=
  let w1 : World :=
    if w.map4.irq.reload_flag || w.map4.irq.counter == 0 then
      { w with map4 := { w.map4 with irq :=
          { w.map4.irq with counter := w.map4.irq.latch, reload_flag := false } } }
    else
      { w with map4 := { w.map4 with irq :=
          { w.map4.irq with counter := (w.map4.irq.counter - 1) % 256 } } }
  if w1.map4.irq.enabled then
    if w1.map4.irq.counter == 0 then nes_irq w1 else w1
  else w1

/-- The counter value that `map4_clock_irq` leaves, as a function of the IRQ
record before the call. -/
def map4_next_counter (i : irq_t) : Nat :=
  if i.reload_flag = true ∨ i.counter = 0 then i.latch else (i.counter - 1) % 256

/-- `map4_ppu_tick`: the address is ignored, the IRQ counter is clocked. -/
def map4_ppu_tick (_addr : Nat) (w : World) : World :=
  map4_clock_irq w

/-- A run of `n` calls of `map4_clock_irq` with nothing in between. -/
def map4_clocks : Nat → World → World
  | 0, w => w
  | n + 1, w => map4_clock_irq (map4_clocks n w)

/-- The `k`-th clock of the run (`k ≥ 1`) raised the IRQ: it called `nes_irq`. -/
def map4_irq_on_clock (w : World) (k : Nat) : Prop :=
  (map4_clocks k w).cpu.irq_calls = (map4_clocks (k - 1) w).cpu.irq_calls + 1

/-! ## The MMC3 A12 edge filter (`nes_ppu.c`) -/

/-- A call through the function pointer `mapper_ppu_hook`: the call is
recorded in `hook_log` and the pointed-to function runs. -/
def call_mapper_hook (h : MapperHook) (addr : Nat) (w : World) : World :=
  match h with
  | .map4_ppu_tick => map4_ppu_tick addr { w with hook_log := w.hook_log ++ [addr] }

/-- `mmc3_track_a12`. -/
def mmc3_track_a12 (addr : Nat) (w : World) : World :=
  let cur : Bool := (addr &&& 0x1000) != 0
  let w1 : World :=
    if !w.a12_prev && cur then
      let w2 : World :=
        if 3 ≤ w.mmc3_a12_low_m2_count then
          match w.mapper_ppu_hook with
          | some h => call_mapper_hook h (addr &&& 0x1FFF) w
          | none => w
        else w
      { w2 with mmc3_a12_low_m2_count := 0 }
    else w
  { w1 with a12_prev := cur, mmc3_a12_level := cur }

/-- `ppu_mmc3_m2_tick`. -/
def ppu_mmc3_m2_tick (cycles : Int) (w : World) : World :=
  if !w.mmc3_a12_level then
    let c : Int := w.mmc3_a12_low_m2_count + cycles
    { w with mmc3_a12_low_m2_count := if 8 < c then 8 else c }
  else w

/-- What can happen to the A12 filter between two edges: a CHR bus access at an
address, or a call of `ppu_mmc3_m2_tick`. -/
inductive A12Event where
  | access (addr : Nat)
  | tick (cycles : Int)

/-- One filter event. -/
def a12_step (e : A12Event) (w : World) : World :=
  match e with
  | .access addr => mmc3_track_a12 addr w
  | .tick cycles => ppu_mmc3_m2_tick cycles w

/-- A sequence of filter events, in order. -/
def a12_run : List A12Event → World → World
  | [], w => w
  | e :: es, w => a12_run es (a12_step e w)

/-- An access at `addr` is seen as a rising edge of A12 in state `w`. -/
def a12_rising (addr : Nat) (w : World) : Bool :=
  !w.a12_prev && ((addr &&& 0x1000) != 0)

/-- No access of the sequence is a rising edge. -/
def a12_no_rising : List A12Event → World → Bool
  | [], _ => true
  | .access addr :: es, w => !a12_rising addr w && a12_no_rising es (mmc3_track_a12 addr w)
  | .tick c :: es, w => a12_no_rising es (ppu_mmc3_m2_tick c w)

/-- Total number of M2 cycles ticked by the sequence while A12 is low. -/
def a12_low_ticks : List A12Event → World → Int
  | [], _ => 0
  | .access addr :: es, w => a12_low_ticks es (mmc3_track_a12 addr w)
  | .tick c :: es, w =>
      (if w.mmc3_a12_level then 0 else c) + a12_low_ticks es (ppu_mmc3_m2_tick c w)

/-! ## PPU: macros, nametable and palette access (`nes_ppu.c`) -/

/-- `RENDERING_ENABLED`: background or sprites are switched on in PPUMASK. -/
def RENDERING_ENABLED (w : World) : Bool := (w.ppu.mask &&& 0x18) != 0

/-- `IS_VISIBLE_LINE`. -/
def IS_VISIBLE_LINE (w : World) : Bool := decide (w.ppu.scanline < 240)

/-- `IS_PRERENDER_LINE`. -/
def IS_PRERENDER_LINE (w : World) : Bool :=
  decide (w.ppu.scanline = (if w.ppu_is_pal then 311 else 261))

/-- `PPU_SCANLINES_PER_FRAME`. -/
def PPU_SCANLINES_PER_FRAME (w : World) : Int := if w.ppu_is_pal then 312 else 262

/-- `INC_DOT`: advance the dot counter, and the line counter when the dot wraps. -/
def INC_DOT (w : World) : World :=
  if w.ppu.dot + 1 = 341 then
    if w.ppu.scanline + 1 = PPU_SCANLINES_PER_FRAME w then
      { w with ppu := { w.ppu with dot := 0, scanline := 0 } }
    else
      { w with ppu := { w.ppu with dot := 0, scanline := w.ppu.scanline + 1 } }
  else
    { w with ppu := { w.ppu with dot := w.ppu.dot + 1 } }

/-- `apply_grayscale`. -/
def apply_grayscale (idx : Nat) : Nat := (idx &&& 0x30) ||| (idx &&& 0x03)

/-- `ciram_ptr`: the index into `ciram` that the returned pointer designates. -/
def ciram_ptr (addr : Nat) (w : World) : Nat :=
  let nt := (addr >>> 10) &&& 3
  let mapped_nt := w.nametable_mapping nt
  let offset := addr &&& 0x3FF
  let mapped_nt :=
    if !w.ppu_four_screen_enabled then
      (if 2 ≤ mapped_nt then mapped_nt - 2 else mapped_nt)
    else mapped_nt
  (mapped_nt <<< 10) ||| offset

/-- The palette index computed at the top of `pal_read_raw` and `pal_write_raw`. -/
def pal_index (addr : Nat) : Nat :=
  let a := addr &&& 0x1F
  if (a &&& 0x13) = 0x10 then a &&& 0xFFEF else a

/-- `pal_read_raw`. -/
def pal_read_raw (addr : Nat) (w : World) : Nat := w.ppu.palette (pal_index addr)

/-- `pal_write_raw`. -/
def pal_write_raw (addr : Nat) (v : Nat) (w : World) : World :=
  let a := pal_index addr
  let val := v &&& 0x3F
  if (a &&& 0x03) = 0 then
    let pal := Function.update (Function.update w.ppu.palette a val) (a ^^^ 0x10) val
    { w with ppu := { w.ppu with palette := pal } }
  else
    { w with ppu := { w.ppu with palette := Function.update w.ppu.palette a val } }

/-! ## PPU: CHR bus -/

/-- `chr_read`: the byte read and the machine after the A12 filter has seen the
address. -/
def chr_read (addr : Nat) (w : World) : Nat × World :=
  let w1 := mmc3_track_a12 addr w
  if 0x2000 ≤ addr then (0, w1)
  else
    let page := (addr >>> 10) &&& 0x0F
    let off := addr &&& 0x3FF
    match w1.chr_page_ptrs page with
    | some p => (w1.chrmem (p + off), w1)
    | none =>
      match w1.chrram_ptr with
      | some r => if w1.chrram_size ≠ 0 then (w1.chrmem (r + addr % w1.chrram_size), w1)
                  else (0, w1)
      | none => (0, w1)

/-- `ppu_bus_read`. -/
def ppu_bus_read (addr : Nat) (w : World) : Nat × World :=
  let a := addr &&& 0x3FFF
  if a < 0x2000 then chr_read a w
  else if a < 0x3F00 then (w.ciram (ciram_ptr a w), w)
  else (pal_read_raw a w, w)

/-- `ppu_bus_write`. -/
def ppu_bus_write (addr : Nat) (v : Nat) (w : World) : World :=
  let a := addr &&& 0x3FFF
  if a < 0x2000 then
    let w1 : World :=
      match w.chrram_ptr with
      | some r => if w.chrram_size ≠ 0 then
                    { w with chrmem := Function.update w.chrmem (r + a % w.chrram_size) v }
                  else w
      | none => w
    mmc3_track_a12 a w1
  else if a < 0x3F00 then
    { w with ciram := Function.update w.ciram (ciram_ptr a w) v }
  else pal_write_raw a v w

/-! ## PPU: scroll registers -/

/-- `inc_x`. -/
def inc_x (w : World) : World :=
  if (w.ppu.v &&& 0x001F) = 31 then
    { w with ppu := { w.ppu with v := (w.ppu.v &&& 0xFFE0) ^^^ 0x0400 } }
  else
    { w with ppu := { w.ppu with v := (w.ppu.v + 1) % 65536 } }

/-- `inc_y`. -/
def inc_y (w : World) : World :=
  if (w.ppu.v &&& 0x7000) ≠ 0x7000 then
    { w with ppu := { w.ppu with v := (w.ppu.v + 0x1000) % 65536 } }
  else
    let v1 := w.ppu.v &&& 0x8FFF
    let y := (v1 &&& 0x03E0) >>> 5
    let v2 := if y = 29 then v1 ^^^ 0x0800 else v1
    let y2 := if y = 29 then 0 else if y = 31 then 0 else y + 1
    { w with ppu := { w.ppu with v := ((v2 &&& 0xFC1F) ||| (y2 <<< 5)) % 65536 } }

/-- `copy_x_from_t`. -/
def copy_x_from_t (w : World) : World :=
  { w with ppu := { w.ppu with v := (w.ppu.v &&& 0xFBE0) ||| (w.ppu.t &&& 0x041F) } }

/-- `copy_y_from_t`. -/
def copy_y_from_t (w : World) : World :=
  { w with ppu := { w.ppu with v := (w.ppu.v &&& 0x841F) ||| (w.ppu.t &&& 0x7BE0) } }

/-! ## PPU: background pipeline -/

/-- `bg_shift`: the four 16-bit shift registers move left by one bit. -/
def bg_shift (w : World) : World :=
  let b := w.ppu.bg
  let b2 : bg_t := { b with
    pt_lo := (b.pt_lo <<< 1) % 65536, pt_hi := (b.pt_hi <<< 1) % 65536,
    at_lo := (b.at_lo <<< 1) % 65536, at_hi := (b.at_hi <<< 1) % 65536 }
  { w with ppu := { w.ppu with bg := b2 } }

/-- `bg_reload_shifters`. -/
def bg_reload_shifters (w : World) : World :=
  let b := w.ppu.bg
  let attr := b.next_at
  let lo := if (attr &&& 1) ≠ 0 then 0xFFFF else 0x0000
  let hi := if (attr &&& 2) ≠ 0 then 0xFFFF else 0x0000
  let b2 : bg_t := { b with
    pt_lo := ((b.pt_lo &&& 0x00FF) ||| (b.next_pt_lo <<< 8)) % 65536,
    pt_hi := ((b.pt_hi &&& 0x00FF) ||| (b.next_pt_hi <<< 8)) % 65536,
    at_lo := (b.at_lo &&& 0x00FF) ||| (lo &&& 0xFF00),
    at_hi := (b.at_hi &&& 0x00FF) ||| (hi &&& 0xFF00) }
  { w with ppu := { w.ppu with bg := b2 } }

/-- A call through `ppu_latchfunc` (MMC2/MMC4), when the pointer is set. -/
def call_latchfunc (base tile : Nat) (w : World) : World :=
  if w.ppu_latchfunc then { w with latch_log := w.latch_log ++ [(base, tile)] } else w

/-- Case 1 of the switch of `bg_fetch`: the nametable byte. -/
def bg_fetch_nt (w : World) : World :=
  let r := ppu_bus_read (0x2000 ||| (w.ppu.v &&& 0x0FFF)) w
  { r.2 with ppu := { r.2.ppu with bg := { r.2.ppu.bg with next_nt := r.1 % 256 } } }

/-- Case 3 of the switch of `bg_fetch`: the attribute byte. -/
def bg_fetch_at (w : World) : World :=
  let v := w.ppu.v
  let at_addr := 0x23C0 ||| (v &&& 0x0C00) ||| ((v >>> 4) &&& 0x38) ||| ((v >>> 2) &&& 0x07)
  let r := ppu_bus_read at_addr w
  let shift := ((v >>> 4) &&& 4) ||| (v &&& 2)
  let nat := ((r.1 % 256) >>> shift) &&& 3
  { r.2 with ppu := { r.2.ppu with bg := { r.2.ppu.bg with next_at := nat } } }

/-- Case 5 of the switch of `bg_fetch`: the low pattern byte. -/
def bg_fetch_pt_lo (w : World) : World :=
  let base := if (w.ppu.ctrl &&& 0x10) ≠ 0 then 0x1000 else 0x0000
  let tile := w.ppu.bg.next_nt
  let addr := (base + tile * 16 + ((w.ppu.v >>> 12) &&& 7)) % 65536
  let wl := call_latchfunc base tile w
  let r := chr_read addr wl
  { r.2 with ppu := { r.2.ppu with bg := { r.2.ppu.bg with next_pt_lo := r.1 % 256 } } }

/-- Case 7 of the switch of `bg_fetch`: the high pattern byte and the reload. -/
def bg_fetch_pt_hi (w : World) : World :=
  let base := if (w.ppu.ctrl &&& 0x10) ≠ 0 then 0x1000 else 0x0000
  let tile := w.ppu.bg.next_nt
  let addr := (base + tile * 16 + ((w.ppu.v >>> 12) &&& 7) + 8) % 65536
  let r := chr_read addr w
  bg_reload_shifters
    { r.2 with ppu := { r.2.ppu with bg := { r.2.ppu.bg with next_pt_hi := r.1 % 256 } } }

/-- The switch of `bg_fetch` on `cyc = dot & 7`. -/
def bg_fetch_switch (w : World) : World :=
  let cyc : Int := w.ppu.dot % 8
  if cyc = 1 then bg_fetch_nt w
  else if cyc = 3 then bg_fetch_at w
  else if cyc = 5 then bg_fetch_pt_lo w
  else if cyc = 7 then bg_fetch_pt_hi w
  else w

/-- `bg_fetch`: the 8-dot background fetch cadence. -/
def bg_fetch (w : World) : World :=
  let cyc : Int := w.ppu.dot % 8
  let w1 := bg_fetch_switch w
  if cyc = 0 then inc_x w1 else w1

/-! ## PPU: sprite evaluation -/

/-- Conversion of an integer to `int16_t`. -/
def to_int16 (n : Int) : Int :=
  let m := n % 65536
  if 32768 ≤ m then m - 65536 else m

/-- `eval_sprite_read_primary`. -/
def eval_sprite_read_primary (w : World) : World :=
  if 255 < w.ppu.eval_oam_addr then w
  else if w.ppu.oam_write_during_eval then
    { w with ppu := { w.ppu with eval_read_latch := 0xFF, sprite_in_range := false } }
  else
    let latch := w.ppu.oam w.ppu.eval_oam_addr
    if w.ppu.eval_byte_index = 0 then
      let cur_line : Int := (w.ppu.scanline + 1) % 65536
      let spr_h : Int := if (w.ppu.ctrl &&& 0x20) ≠ 0 then 16 else 8
      let diff : Int := to_int16 (to_int16 cur_line - to_int16 (latch : Int))
      let inr : Bool := decide (0 ≤ diff) && decide (diff < spr_h)
      { w with ppu := { w.ppu with eval_read_latch := latch, sprite_in_range := inr,
                                   eval_sprite_idx := (w.ppu.eval_oam_addr >>> 2) % 256 } }
    else
      { w with ppu := { w.ppu with eval_read_latch := latch } }

/-- The tail of `eval_sprite_write_secondary`: step to the next OAM byte. -/
def eval_advance (w : World) : World :=
  { w with ppu := { w.ppu with
      eval_oam_addr := (w.ppu.eval_oam_addr + 1) &&& 0xFF,
      eval_byte_index := (w.ppu.eval_byte_index + 1) &&& 3 } }

/-- `eval_sprite_write_secondary`. -/
def eval_sprite_write_secondary (w : World) : World :=
  if 255 < w.ppu.eval_oam_addr then w
  else if w.ppu.oam_write_during_eval then w
  else if w.ppu.sprite_in_range && decide (w.ppu.eval_sec_idx < 32) then
    let idx := w.ppu.eval_sec_idx
    let idx2 := (idx + 1) % 256
    let sec := Function.update w.ppu.sec_oam idx w.ppu.eval_read_latch
    let w1 : World := { w with ppu := { w.ppu with sec_oam := sec, eval_sec_idx := idx2 } }
    let w2 : World :=
      if w1.ppu.eval_byte_index = 0 ∧ w1.ppu.eval_sprite_idx = 0 then
        let slot := if 0 < idx2 then (idx2 - 1) >>> 2 else 0
        { w1 with ppu := { w1.ppu with sprite_zero_next := true, sprite0_slot_next := slot } }
      else w1
    eval_advance w2
  else if 32 ≤ w.ppu.eval_sec_idx then
    let w1 : World :=
      if w.ppu.sprite_in_range && !w.ppu.eval_overflow then
        { w with ppu := { w.ppu with eval_overflow := true } }
      else w
    if w1.ppu.eval_byte_index = 0 then
      let a := (w1.ppu.eval_oam_addr + 5) &&& 0xFF
      if a < 5 then { w1 with ppu := { w1.ppu with eval_oam_addr := 256 } }
      else { w1 with ppu := { w1.ppu with eval_oam_addr := a, eval_byte_index := 0 } }
    else eval_advance w1
  else eval_advance w

/-! ## PPU: sprite output units -/

/-- One iteration of the loop of `sprite_shift`, on unit `u` with the running
minimum `min_x`. -/
def sprite_shift_unit (u : spr_unit_t) (min_x : Nat) : spr_unit_t × Nat :=
  if !u.in_range then (u, min_x)
  else
    let u2 : spr_unit_t :=
      if u.x = 0 then { u with pt_lo := (u.pt_lo <<< 1) % 256, pt_hi := (u.pt_hi <<< 1) % 256 }
      else { u with x := u.x - 1 }
    (u2, if u2.x < min_x then u2.x else min_x)

/-- The loop of `sprite_shift` from unit `i` for `n` more units. -/
def sprite_shift_loop : Nat → Nat → (Nat → spr_unit_t) → Nat → (Nat → spr_unit_t) × Nat
  | 0, _, spr, min_x => (spr, min_x)
  | n + 1, i, spr, min_x =>
    let r := sprite_shift_unit (spr i) min_x
    sprite_shift_loop n (i + 1) (Function.update spr i r.1) r.2

/-- `sprite_shift`. -/
def sprite_shift (w : World) : World :=
  let r := sprite_shift_loop 8 0 w.ppu.spr 255
  { w with ppu := { w.ppu with spr := r.1,
                               next_sprite_xmin := if r.2 = 255 then 0 else r.2 } }

/-! ## PPU: pixel composition -/

/-- `bg_pixel`: the pattern value and the palette row. -/
def bg_pixel (w : World) : Nat × Nat :=
  if (w.ppu.mask &&& 0x08) = 0 ∨ ((w.ppu.mask &&& 0x02) = 0 ∧ w.ppu.dot ≤ 8) then (0, 0)
  else
    let bit := 0x8000 >>> w.ppu.x
    let p0 := if (w.ppu.bg.pt_lo &&& bit) ≠ 0 then 1 else 0
    let p1 := if (w.ppu.bg.pt_hi &&& bit) ≠ 0 then 1 else 0
    let a0 := if (w.ppu.bg.at_lo &&& bit) ≠ 0 then 1 else 0
    let a1 := if (w.ppu.bg.at_hi &&& bit) ≠ 0 then 1 else 0
    ((p1 <<< 1) ||| p0, (a1 <<< 1) ||| a0)

/-- Result of `sprite_pixel`: the pixel value, the palette row, the priority. -/
structure SprPix where
  px : Nat := 0
  pal_row : Nat := 0
  prio : Nat := 0
deriving DecidableEq, Repr

/-- The sprite-0 hit test made in `sprite_pixel` for the opaque pixel of unit `i`. -/
def sprite0_hit (i : Nat) (w : World) : World :=
  if i = w.ppu.sprite0_slot_this ∧ w.ppu.sprite_zero_this = true ∧ (w.ppu.mask &&& 0x08) ≠ 0 ∧
      ((w.ppu.mask &&& 0x02) ≠ 0 ∨ 8 < w.ppu.dot) then
    let bit := 0x8000 >>> w.ppu.x
    let would_hit : Bool := ((w.ppu.bg.pt_lo &&& bit) != 0) || ((w.ppu.bg.pt_hi &&& bit) != 0)
    if would_hit = true ∧ w.ppu.dot = 255 then w
    else if would_hit = true ∧ w.ppu.dot ≠ 255 then
      { w with ppu := { w.ppu with status := w.ppu.status ||| 0x40 } }
    else w
  else w

/-- The loop over the sprite units in `sprite_pixel`, from unit `i` for `n`
more units; it returns at the first opaque pixel. -/
def sprite_pixel_loop : Nat → Nat → World → SprPix × World
  | 0, _, w => ({}, w)
  | n + 1, i, w =>
    let u := w.ppu.spr i
    if !u.in_range then sprite_pixel_loop n (i + 1) w
    else if u.x = 0 then
      let p0 := if (u.pt_lo &&& 0x80) ≠ 0 then 1 else 0
      let p1 := if (u.pt_hi &&& 0x80) ≠ 0 then 1 else 0
      let px := (p1 <<< 1) ||| p0
      if px ≠ 0 then
        ({ px := px, pal_row := u.attr &&& 0x03,
           prio := if (u.attr &&& 0x20) ≠ 0 then 1 else 0 }, sprite0_hit i w)
      else sprite_pixel_loop n (i + 1) w
    else sprite_pixel_loop n (i + 1) w

/-- `sprite_pixel`. -/
def sprite_pixel (w : World) : SprPix × World :=
  if !w.sprites_enabled ∨ (w.ppu.mask &&& 0x10) = 0 ∨
      ((w.ppu.mask &&& 0x04) = 0 ∧ w.ppu.dot ≤ 8) then ({}, w)
  else if 0 < w.ppu.next_sprite_xmin then
    ({}, { w with ppu := { w.ppu with next_sprite_xmin := w.ppu.next_sprite_xmin - 1 } })
  else sprite_pixel_loop 8 0 w

/-! ## PPU: NMI -/

/-- `nes_nmi`: forwarded to the CPU core. -/
def nes_nmi (w : World) : World :=
  { w with cpu := { w.cpu with nmi_calls := w.cpu.nmi_calls + 1 } }

/-- `nmi_check`. -/
def nmi_check (w : World) : World :=
  let nmi : Bool := ((w.ppu.ctrl &&& 0x80) != 0) && ((w.ppu.status &&& 0x80) != 0)
  let w1 : World :=
    if nmi && !w.ppu.nmi_prev then
      { w with ppu := { w.ppu with nmi_delay := if w.ppu_is_pal then 7 else 6 } }
    else w
  { w1 with ppu := { w1.ppu with nmi_prev := nmi } }

/-- `nmi_step`. -/
def nmi_step (w : World) : World :=
  if 0 < w.ppu.nmi_delay then
    let w1 : World := { w with ppu := { w.ppu with nmi_delay := w.ppu.nmi_delay - 1 } }
    if w1.ppu.nmi_delay = 0 ∧ (w1.ppu.ctrl &&& 0x80) ≠ 0 ∧ (w1.ppu.status &&& 0x80) ≠ 0 then
      nes_nmi w1
    else w1
  else w

/-! ## PPU: emphasis and bit-reverse tables -/

/-- The table `emph` of `init_emphasis_lut`: component `k` (0 red, 1 green,
2 blue) of row `e` is `0.75f` (true) or `1.00f` (false). -/
def emph_is75 (e k : Nat) : Bool :=
  match e, k with
  | 1, 1 => true | 1, 2 => true
  | 2, 0 => true | 2, 2 => true
  | 3, 0 => true | 3, 1 => true
  | 4, 1 => true
  | 5, 0 => true
  | 6, 2 => true
  | 7, _ => true
  | _, _ => false

/-- The value `(int)(c * emph[e][k])`.  For the 8-bit colour components of the
palette the product `c * 0.75f` is exact in single precision, so the cast is
the quotient of `3 * c` by 4 rounded towards zero. -/
def emph_scale (e k : Nat) (c : Int) : Int :=
  if emph_is75 e k then Int.tdiv (c * 3) 4 else c

/-- The inner loop of `init_emphasis_lut` over the candidates `j`, `n` more to
go, with the running `best` and `best_err`. -/
def emphasis_best_loop (pal : Nat → rgb_t) (r g b : Int) : Nat → Nat → Nat → Int → Nat
  | 0, _, best, _ => best
  | n + 1, j, best, best_err =>
    let cand := pal j
    let dr := r - cand.r
    let dg := g - cand.g
    let db := b - cand.b
    let err := dr * dr + dg * dg + db * db
    if err < best_err then emphasis_best_loop pal r g b n (j + 1) j err
    else emphasis_best_loop pal r g b n (j + 1) best best_err

/-- The entry `emphasis_lut[e][i]` that `init_emphasis_lut` computes. -/
def emphasis_entry (pal : Nat → rgb_t) (e i : Nat) : Nat :=
  let base := pal i
  emphasis_best_loop pal (emph_scale e 0 base.r) (emph_scale e 1 base.g)
    (emph_scale e 2 base.b) 64 0 0 (2 ^ 30) % 256

/-- `init_emphasis_lut`: fills the table on the first call. -/
def init_emphasis_lut (w : World) : World :=
  if w.emphasis_lut_init then w
  else
    let lut := fun e i => if e < 8 ∧ i < 64 then emphasis_entry w.nes_palette e i
                          else w.emphasis_lut e i
    { w with emphasis_lut := lut, emphasis_lut_init := true }

/-- `apply_emphasis_idx`. -/
def apply_emphasis_idx (idx mask : Nat) (w : World) : Nat × World :=
  let w1 := init_emphasis_lut w
  (w1.emphasis_lut ((mask >>> 5) &&& 0x07) (idx &&& 0x3F), w1)

/-- The byte that `init_bitrev` stores in `bitrev[i]`. -/
def bitrev_byte (i : Nat) : Nat :=
  let b := i % 256
  let b := (((b &&& 0xF0) >>> 4) ||| ((b &&& 0x0F) <<< 4)) % 256
  let b := (((b &&& 0xCC) >>> 2) ||| ((b &&& 0x33) <<< 2)) % 256
  (((b &&& 0xAA) >>> 1) ||| ((b &&& 0x55) <<< 1)) % 256

/-- `init_bitrev`. -/
def init_bitrev (w : World) : World :=
  { w with bitrev := fun i => if i < 256 then bitrev_byte i else w.bitrev i }

/-! ## PPU: public API -/

/-- `ppu_set_mapper_hook`. -/
def ppu_set_mapper_hook (fn : Option MapperHook) (w : World) : World :=
  { w with mapper_ppu_hook := fn }

/-- `ppu_set_region`. -/
def ppu_set_region (is_pal : Bool) (w : World) : World :=
  { w with ppu_is_pal := is_pal, ppu := { w.ppu with is_pal_system := is_pal } }

/-- `ppu_frame_complete`: the answer and the machine with the flag consumed. -/
def ppu_frame_complete (w : World) : Bool × World :=
  if w.ppu.frame_complete then (true, { w with ppu := { w.ppu with frame_complete := false } })
  else (false, w)

/-- `ppu_reset`.  `rnd` is the value returned by `rand()` and `vidbuf` the
buffer returned by `vid_getbuffer()`.  The `memset` zeroes every field of
`ppu`, which is the default value of every field of `ppu_s`. -/
def ppu_reset (_hard : Int) (rnd : Nat) (vidbuf : Int → Nat) (w : World) : World :=
  let p : ppu_s := { fb := vidbuf, status := rnd &&& 0xE0, is_pal_system := w.ppu_is_pal,
                     sprite0_slot_next := 0xFF, sprite0_slot_this := 0xFF }
  let nt := fun i => if i = 0 then 0 else if i = 1 then 1 else if i = 2 then 0
                     else if i = 3 then 1 else w.nametable_mapping i
  init_bitrev { w with ppu := p, a12_prev := false, mmc3_a12_level := false,
                       mmc3_a12_low_m2_count := 0, ppu_four_screen_enabled := false,
                       nametable_mapping := nt }

/-! ## PPU: the master clock `ppu_clock`, one definition per numbered block -/

/-- Start of `ppu_clock`: at dot 0 the sprite-zero flags of the next line
become those of this line. -/
def clock_latch_sprite0 (w : World) : World :=
  if w.ppu.dot = 0 then
    { w with ppu := { w.ppu with sprite_zero_this := w.ppu.sprite_zero_next,
                                 sprite0_slot_this := w.ppu.sprite0_slot_next } }
  else w

/-- The palette index chosen from the background and sprite pixels. -/
def compose_pixel (bg : Nat × Nat) (sp : SprPix) (w : World) : Nat :=
  if sp.px = 0 ∧ bg.1 = 0 then pal_read_raw 0 w
  else if sp.px = 0 then pal_read_raw ((bg.2 <<< 2) ||| bg.1) w
  else if bg.1 = 0 then pal_read_raw (0x10 ||| (sp.pal_row <<< 2) ||| sp.px) w
  else if sp.prio ≠ 0 then pal_read_raw ((bg.2 <<< 2) ||| bg.1) w
  else pal_read_raw (0x10 ||| (sp.pal_row <<< 2) ||| sp.px) w

/-- Block 1 of `ppu_clock` (visible pixel).  `NES_SCREEN_WIDTH` is 256. -/
def clock_pixel (w : World) : World :=
  if IS_VISIBLE_LINE w = true ∧ 1 ≤ w.ppu.dot ∧ w.ppu.dot ≤ 256 then
    let bg := bg_pixel w
    let r := sprite_pixel w
    let sp := r.1
    let w1 := r.2
    if w1.draw_enabled then
      let idx0 := compose_pixel bg sp w1
      let idx1 := if (w1.ppu.mask &&& 0x01) ≠ 0 then apply_grayscale idx0 else idx0
      let e := if (w1.ppu.mask &&& 0xE0) ≠ 0 then apply_emphasis_idx idx1 w1.ppu.mask w1
               else (idx1, w1)
      let w2 := e.2
      let fb := Function.update w2.ppu.fb (w2.ppu.scanline * 256 + (w2.ppu.dot - 1)) e.1
      { w2 with ppu := { w2.ppu with fb := fb } }
    else w1
  else w

/-- Block 2 of `ppu_clock` (shift registers). -/
def clock_shift (w : World) : World :=
  if RENDERING_ENABLED w then
    let w1 : World :=
      if (2 ≤ w.ppu.dot ∧ w.ppu.dot ≤ 257) ∨ (321 ≤ w.ppu.dot ∧ w.ppu.dot ≤ 336) then bg_shift w
      else w
    if IS_VISIBLE_LINE w1 = true ∧ 1 ≤ w1.ppu.dot ∧ w1.ppu.dot ≤ 256 then sprite_shift w1
    else w1
  else w

/-- Block 3 of `ppu_clock` (background fetch and scroll). -/
def clock_bg (w : World) : World :=
  if RENDERING_ENABLED w = true ∧ (IS_VISIBLE_LINE w = true ∨ IS_PRERENDER_LINE w = true) then
    let w1 : World :=
      if (1 ≤ w.ppu.dot ∧ w.ppu.dot ≤ 256) ∨ (321 ≤ w.ppu.dot ∧ w.ppu.dot ≤ 340) then bg_fetch w
      else w
    if w1.ppu.dot = 256 then inc_y w1
    else if w1.ppu.dot = 257 then copy_x_from_t w1
    else if IS_PRERENDER_LINE w1 = true ∧ 280 ≤ w1.ppu.dot ∧ w1.ppu.dot ≤ 304 then
      copy_y_from_t w1
    else w1
  else w

/-- Block 4 of `ppu_clock`, first part: at dot 1 the evaluation state is
initialised. -/
def clock_eval_init (w : World) : World :=
  if w.ppu.dot = 1 then
    let sec := fun i => if i < 32 then 0xFF else w.ppu.sec_oam i
    { w with ppu := { w.ppu with sec_oam := sec, eval_sprite_idx := 0, eval_oam_addr := 0,
                                 eval_sec_idx := 0, eval_overflow := false,
                                 sprite_zero_next := false, sprite0_slot_next := 0xFF,
                                 eval_byte_index := 0, eval_read_latch := 0 } }
  else w

/-- Block 4 of `ppu_clock`, second part: sprite evaluation on dots 65..256. -/
def clock_eval (w : World) : World :=
  if 65 ≤ w.ppu.dot ∧ w.ppu.dot ≤ 256 ∧
      (IS_VISIBLE_LINE w = true ∨ IS_PRERENDER_LINE w = true) ∧ RENDERING_ENABLED w = true then
    if w.ppu.dot % 2 = 1 then eval_sprite_read_primary w else eval_sprite_write_secondary w
  else w

/-- Block 4 of `ppu_clock`, third part: the latches made at dot 257. -/
def clock_dot257 (w : World) : World :=
  if w.ppu.dot = 257 then
    let st := if w.ppu.eval_overflow then w.ppu.status ||| 0x20 else w.ppu.status &&& 0xDF
    let cnt := w.ppu.eval_sec_idx >>> 2
    let spr := fun i => if i < 8 then { w.ppu.spr i with in_range := false } else w.ppu.spr i
    { w with ppu := { w.ppu with oam_addr := 0, oam_write_during_eval := false, status := st,
                                 sprite_count := if 8 < cnt then 8 else cnt,
                                 spr_fetch_slot := 0, spr_fetch_phase := 0,
                                 next_sprite_xmin := 255, spr := spr } }
  else w

/-- The pattern address computed in phase 4 of the sprite fetch. -/
def sprite_fetch_addr (spr_h : Nat) (cur_line : Nat) (w : World) : Nat :=
  let row0 : Nat := (((cur_line : Int) - (w.ppu.spr_tmp_y : Int)) % 256).toNat
  let row : Nat :=
    if (w.ppu.spr_tmp_attr &&& 0x80) ≠ 0 then
      ((((spr_h : Int) - 1) - (row0 : Int)) % 256).toNat
    else row0
  let tile := w.ppu.spr_tmp_tile
  if spr_h = 16 then
    let even_tile := tile &&& 0xFE
    let bank := if (tile &&& 1) ≠ 0 then 0x1000 else 0x0000
    let fine := row &&& 7
    let offset := if (row &&& 8) ≠ 0 then 16 else 0
    (bank + even_tile * 16 + offset + fine) % 65536
  else
    let base := if (w.ppu.ctrl &&& 0x08) ≠ 0 then 0x1000 else 0x0000
    (base + tile * 16 + row) % 65536

/-- Phase 4 of the sprite fetch: the low pattern byte of slot `slot`. -/
def sprite_fetch_lo (spr_h cur_line : Nat) (w0 : World) : World :=
  let tile := w0.ppu.spr_tmp_tile
  let addr := sprite_fetch_addr spr_h cur_line w0
  let spr_base :=
    if spr_h = 16 then (if (tile &&& 1) ≠ 0 then 0x1000 else 0x0000)
    else (if (w0.ppu.ctrl &&& 0x08) ≠ 0 then 0x1000 else 0x0000)
  let w1 := call_latchfunc spr_base tile w0
  let w2 : World := { w1 with ppu := { w1.ppu with spr_fetch_addr := addr } }
  let r := chr_read addr w2
  let lo := if (r.2.ppu.spr_tmp_attr &&& 0x40) ≠ 0 then r.2.bitrev (r.1 % 256) else r.1 % 256
  { r.2 with ppu := { r.2.ppu with spr_lo := lo } }

/-- Phase 5 of the sprite fetch: the high pattern byte. -/
def sprite_fetch_hi (w0 : World) : World :=
  let r := chr_read ((w0.ppu.spr_fetch_addr + 8) % 65536) w0
  let hi := if (r.2.ppu.spr_tmp_attr &&& 0x40) ≠ 0 then r.2.bitrev (r.1 % 256) else r.1 % 256
  { r.2 with ppu := { r.2.ppu with spr_hi := hi } }

/-- Phase 6 of the sprite fetch: a dummy read. -/
def sprite_fetch_dummy (w0 : World) : World :=
  (chr_read w0.ppu.spr_fetch_addr w0).2

/-- Phase 7 of the sprite fetch: a dummy read, then the unit of an in-range
slot is loaded. -/
def sprite_fetch_load (slot : Nat) (w0 : World) : World :=
  let w1 := (chr_read w0.ppu.spr_fetch_addr w0).2
  if slot < w1.ppu.sprite_count then
    let u : spr_unit_t := { x := w1.ppu.spr_tmp_x, pt_lo := w1.ppu.spr_lo,
                            pt_hi := w1.ppu.spr_hi, attr := w1.ppu.spr_tmp_attr,
                            in_range := true }
    let xmin := if w1.ppu.spr_tmp_x < w1.ppu.next_sprite_xmin then w1.ppu.spr_tmp_x
                else w1.ppu.next_sprite_xmin
    { w1 with ppu := { w1.ppu with spr := Function.update w1.ppu.spr slot u,
                                   next_sprite_xmin := xmin } }
  else w1

/-- Block 4 of `ppu_clock`, fourth part: the per-dot sprite fetch on dots
257..320. -/
def clock_sprite_fetch (w : World) : World :=
  if (IS_VISIBLE_LINE w = true ∨ IS_PRERENDER_LINE w = true) ∧ RENDERING_ENABLED w = true ∧
      257 ≤ w.ppu.dot ∧ w.ppu.dot ≤ 320 then
    let rel : Nat := ((w.ppu.dot - 257) % 256).toNat
    let slot := rel >>> 3
    let phase := rel &&& 7
    let w0 : World := { w with ppu := { w.ppu with spr_fetch_slot := slot,
                                                   spr_fetch_phase := phase } }
    let spr_h : Nat := if (w0.ppu.ctrl &&& 0x20) ≠ 0 then 16 else 8
    let cur_line : Nat :=
      if IS_PRERENDER_LINE w0 then 0 else ((w0.ppu.scanline + 1) % 65536).toNat
    if phase = 0 then
      { w0 with ppu := { w0.ppu with spr_tmp_y := w0.ppu.sec_oam (slot * 4 + 0) } }
    else if phase = 1 then
      { w0 with ppu := { w0.ppu with spr_tmp_tile := w0.ppu.sec_oam (slot * 4 + 1) } }
    else if phase = 2 then
      { w0 with ppu := { w0.ppu with spr_tmp_attr := w0.ppu.sec_oam (slot * 4 + 2) } }
    else if phase = 3 then
      { w0 with ppu := { w0.ppu with spr_tmp_x := w0.ppu.sec_oam (slot * 4 + 3) } }
    else if phase = 4 then sprite_fetch_lo spr_h cur_line w0
    else if phase = 5 then sprite_fetch_hi w0
    else if phase = 6 then sprite_fetch_dummy w0
    else sprite_fetch_load slot w0
  else w

/-- Block 4 of `ppu_clock`, last part: at dot 321 an unused sprite countdown is
cleared. -/
def clock_dot321 (w : World) : World :=
  if w.ppu.dot = 321 ∧ w.ppu.next_sprite_xmin = 255 then
    { w with ppu := { w.ppu with next_sprite_xmin := 0 } }
  else w

/-- Block 5 of `ppu_clock`, first statement: VBlank is set at line 241, dot 1. -/
def clock_vblank_set (w : World) : World :=
  if w.ppu.scanline = 241 ∧ w.ppu.dot = 1 then
    nmi_check { w with ppu := { w.ppu with status := w.ppu.status ||| 0x80 } }
  else w

/-- Block 5 of `ppu_clock`, second statement: VBlank, sprite-0 hit and overflow
are cleared at dot 1 of the pre-render line. -/
def clock_vblank_clear (w : World) : World :=
  if IS_PRERENDER_LINE w = true ∧ w.ppu.dot = 1 then
    nmi_check { w with ppu := { w.ppu with status := w.ppu.status &&& 0x1F } }
  else w

/-- Block 5 of `ppu_clock` (VBlank). -/
def clock_vblank (w : World) : World :=
  clock_vblank_clear (clock_vblank_set w)

/-- Block 6 of `ppu_clock` (odd-frame dot skip, NTSC only). -/
def clock_odd_skip (w : World) : World :=
  if w.ppu_is_pal = false ∧ IS_PRERENDER_LINE w = true ∧ w.ppu.dot = 339 ∧
      w.ppu.odd_frame = true ∧ RENDERING_ENABLED w = true then INC_DOT w
  else w

/-- End of `ppu_clock`: a new frame starts. -/
def clock_frame_end (w : World) : World :=
  if w.ppu.scanline = 0 ∧ w.ppu.dot = 0 then
    { w with ppu := { w.ppu with odd_frame := !w.ppu.odd_frame, frame_complete := true } }
  else w

/-- `ppu_clock`: advance the PPU by one dot. -/
def ppu_clock (w : World) : World :=
  let w := nmi_step w
  let w := clock_latch_sprite0 w
  let w := clock_pixel w
  let w := clock_shift w
  let w := clock_bg w
  let w := clock_eval_init w
  let w := clock_eval w
  let w := clock_dot257 w
  let w := clock_sprite_fetch w
  let w := clock_dot321 w
  let w := clock_vblank w
  let w := clock_odd_skip w
  let w := INC_DOT w
  clock_frame_end w

/-! ## The beam position: what `ppu_clock` needs to advance the counters -/

/-- The fields of the machine that decide how `ppu_clock` moves the dot and line
counters, together with the VBlank flag (bit 7 of PPUSTATUS). -/
structure Beam where
  dot : Int
  scanline : Int
  odd_frame : Bool
  frame_complete : Bool
  mask : Nat
  is_pal : Bool
  vblank : Bool
deriving DecidableEq, Repr

/-- The beam fields of a machine state. -/
def beam (w : World) : Beam :=
  { dot := w.ppu.dot, scanline := w.ppu.scanline, odd_frame := w.ppu.odd_frame,
    frame_complete := w.ppu.frame_complete, mask := w.ppu.mask, is_pal := w.ppu_is_pal,
    vblank := (w.ppu.status &&& 0x80) != 0 }

namespace Beam

/-- `RENDERING_ENABLED` on the beam fields. -/
def rendering (b : Beam) : Bool := (b.mask &&& 0x18) != 0

/-- `IS_PRERENDER_LINE` on the beam fields. -/
def prerender (b : Beam) : Bool := decide (b.scanline = (if b.is_pal then 311 else 261))

/-- `INC_DOT` on the beam fields. -/
def inc (b : Beam) : Beam :=
  if b.dot + 1 = 341 then
    if b.scanline + 1 = (if b.is_pal then 312 else 262) then { b with dot := 0, scanline := 0 }
    else { b with dot := 0, scanline := b.scanline + 1 }
  else { b with dot := b.dot + 1 }

/-- Block 5 of `ppu_clock` on the beam fields, first statement. -/
def vset (b : Beam) : Beam :=
  if b.scanline = 241 ∧ b.dot = 1 then { b with vblank := true } else b

/-- Block 5 of `ppu_clock` on the beam fields, second statement. -/
def vclr (b : Beam) : Beam :=
  if b.prerender = true ∧ b.dot = 1 then { b with vblank := false } else b

/-- Block 5 of `ppu_clock` on the beam fields. -/
def vbl (b : Beam) : Beam := vclr (vset b)

/-- Block 6 of `ppu_clock` on the beam fields. -/
def skip (b : Beam) : Beam :=
  if b.is_pal = false ∧ b.prerender = true ∧ b.dot = 339 ∧ b.odd_frame = true ∧
      b.rendering = true then b.inc
  else b

/-- The end of `ppu_clock` on the beam fields. -/
def fin (b : Beam) : Beam :=
  if b.scanline = 0 ∧ b.dot = 0 then
    { b with odd_frame := !b.odd_frame, frame_complete := true }
  else b

/-- Blocks 5, 6, 7 and the end of `ppu_clock` on the beam fields. -/
def step (b : Beam) : Beam := fin (inc (skip (vbl b)))

/-- The beam after `n` dots. -/
def steps : Nat → Beam → Beam
  | 0, b => b
  | n + 1, b => steps n (step b)

end Beam

/-- The machine after `n` calls of `ppu_clock`. -/
def ppu_clocks : Nat → World → World
  | 0, w => w
  | n + 1, w => ppu_clocks n (ppu_clock w)

/-- The beam fields together with the scheduler record: the part of the machine
that the rendering blocks of `ppu_clock` leave alone. -/
def core (w : World) : Beam × Nes := (beam w, w.nes)

/-! ## Counting frames -/

/-- This call of `ppu_clock` raises the frame-complete flag: with the flag
consumed by `ppu_frame_complete` beforehand, it is set afterwards. -/
def ppu_clock_raises (w : World) : Bool :=
  (ppu_clock (ppu_frame_complete w).2).ppu.frame_complete

/-- How many of the first `n` calls of `ppu_clock` raise the frame-complete flag. -/
def frames_raised : Nat → World → Nat
  | 0, _ => 0
  | n + 1, w => (if ppu_clock_raises w then 1 else 0) + frames_raised n (ppu_clock w)

namespace Beam

/-- The beam is inside the frame of its region. -/
def inrange (b : Beam) : Prop :=
  0 ≤ b.dot ∧ b.dot ≤ 340 ∧ 0 ≤ b.scanline ∧ b.scanline ≤ (if b.is_pal then 311 else 261)

/-- The linear position of the beam in the frame. -/
def lin (b : Beam) : Int := b.scanline * 341 + b.dot

/-- The NTSC beam goes to the start of the next frame on this dot: it is on the
last dot of the pre-render line, or on dot 339 of that line in an odd frame with
rendering enabled. -/
def wraps (b : Beam) : Prop :=
  (b.scanline = 261 ∧ b.dot = 339 ∧ b.odd_frame = true ∧ b.rendering = true) ∨
  (b.scanline = 261 ∧ b.dot = 340)

/-- The length in dots of the NTSC frame that starts at `b`. -/
def frame_len (b : Beam) : Nat :=
  if b.odd_frame = true ∧ b.rendering = true then 89341 else 89342

/-- The number of dots of the NTSC pre-render line that starts at `b`. -/
def prerender_len (b : Beam) : Nat :=
  if b.odd_frame = true ∧ b.rendering = true then 340 else 341

/-- `ppu_clock_raises` on the beam fields. -/
def raises (b : Beam) : Bool := (step { b with frame_complete := false }).frame_complete

/-- `frames_raised` on the beam fields. -/
def raised : Nat → Beam → Nat
  | 0, _ => 0
  | n + 1, b => (if raises b then 1 else 0) + raised n (step b)

end Beam

/-! ## PPU: CPU-side register interface -/

/-- The increment of `v` after a PPUDATA access. -/
def vram_inc (w : World) : Nat := if (w.ppu.ctrl &&& 0x04) ≠ 0 then 32 else 1

/-- Case 2 of `ppu_read`: PPUSTATUS. -/
def ppu_read_status (w : World) : Nat × World :=
  let ret := (w.ppu.status &&& 0xE0) ||| (w.ppu.open_bus &&& 0x1F)
  let w1 : World := { w with ppu := { w.ppu with status := w.ppu.status &&& 0x7F } }
  let w2 := nmi_check w1
  (ret, { w2 with ppu := { w2.ppu with w := 0, open_bus := ret } })

/-- Case 4 of `ppu_read`: OAMDATA. -/
def ppu_read_oamdata (w : World) : Nat × World :=
  let ret :=
    if RENDERING_ENABLED w = true ∧ (IS_VISIBLE_LINE w = true ∨ IS_PRERENDER_LINE w = true) ∧
        65 ≤ w.ppu.dot ∧ w.ppu.dot ≤ 256 then w.ppu.eval_read_latch
    else w.ppu.oam w.ppu.oam_addr
  (ret, { w with ppu := { w.ppu with open_bus := ret } })

/-- Case 7 of `ppu_read`: PPUDATA. -/
def ppu_read_data (w : World) : Nat × World :=
  let r : Nat × World :=
    if (w.ppu.v &&& 0x3F00) = 0x3F00 then
      let r1 := ppu_bus_read w.ppu.v w
      let r2 := ppu_bus_read (r1.2.ppu.v &&& 0x2FFF) r1.2
      (r1.1 % 256, { r2.2 with ppu := { r2.2.ppu with buffered_data := r2.1 % 256 } })
    else
      let r1 := ppu_bus_read w.ppu.v w
      (w.ppu.buffered_data, { r1.2 with ppu := { r1.2.ppu with buffered_data := r1.1 % 256 } })
  let w1 := r.2
  let v1 := ((w1.ppu.v + vram_inc w1) % 65536) &&& 0x7FFF
  (r.1, { w1 with ppu := { w1.ppu with open_bus := r.1, v := v1 } })

/-- `ppu_read`: a CPU read of a PPU register; the value read and the machine
afterwards. -/
def ppu_read (addr : Nat) (w : World) : Nat × World :=
  let a := addr &&& 7
  if a = 2 then ppu_read_status w
  else if a = 4 then ppu_read_oamdata w
  else if a = 7 then ppu_read_data w
  else (0xFF, { w with ppu := { w.ppu with open_bus := 0xFF } })

/-- Case 4 of `ppu_write`: OAMDATA. -/
def ppu_write_oamdata (value : Nat) (w : World) : World :=
  let w1 : World := { w with ppu := { w.ppu with
      oam := Function.update w.ppu.oam w.ppu.oam_addr value,
      oam_addr := (w.ppu.oam_addr + 1) % 256 } }
  if RENDERING_ENABLED w1 = true ∧ (IS_VISIBLE_LINE w1 = true ∨ IS_PRERENDER_LINE w1 = true) ∧
      65 ≤ w1.ppu.dot ∧ w1.ppu.dot ≤ 256 then
    { w1 with ppu := { w1.ppu with oam_write_during_eval := true } }
  else w1

/-- Case 5 of `ppu_write`: PPUSCROLL. -/
def ppu_write_scroll (value : Nat) (w : World) : World :=
  if w.ppu.w = 0 then
    { w with ppu := { w.ppu with x := value &&& 7,
                                 t := (w.ppu.t &&& 0xFFE0) ||| (value >>> 3), w := 1 } }
  else
    { w with ppu := { w.ppu with
        t := ((w.ppu.t &&& 0x8C1F) ||| ((value &&& 0x07) <<< 12) ||| ((value &&& 0xF8) <<< 2))
              % 65536,
        w := 0 } }

/-- Case 6 of `ppu_write`: PPUADDR. -/
def ppu_write_addr (value : Nat) (w : World) : World :=
  if w.ppu.w = 0 then
    { w with ppu := { w.ppu with t := (w.ppu.t &&& 0x00FF) ||| ((value &&& 0x3F) <<< 8),
                                 w := 1 } }
  else
    let t2 := (w.ppu.t &&& 0x7F00) ||| value
    { w with ppu := { w.ppu with t := t2, v := t2, w := 0 } }

/-- Case 7 of `ppu_write`: PPUDATA. -/
def ppu_write_data (value : Nat) (w : World) : World :=
  let w1 := ppu_bus_write w.ppu.v value w
  { w1 with ppu := { w1.ppu with v := ((w1.ppu.v + vram_inc w1) % 65536) &&& 0x7FFF } }

/-- `ppu_write`: a CPU write of the byte `value` to a PPU register. -/
def ppu_write (addr : Nat) (value : Nat) (w : World) : World :=
  let w0 : World := { w with ppu := { w.ppu with open_bus := value } }
  let a := addr &&& 7
  if a = 0 then
    nmi_check { w0 with ppu := { w0.ppu with
      ctrl := value, t := (w0.ppu.t &&& 0xF3FF) ||| ((value &&& 0x03) <<< 10) } }
  else if a = 1 then { w0 with ppu := { w0.ppu with mask := value } }
  else if a = 3 then { w0 with ppu := { w0.ppu with oam_addr := value } }
  else if a = 4 then ppu_write_oamdata value w0
  else if a = 5 then ppu_write_scroll value w0
  else if a = 6 then ppu_write_addr value w0
  else if a = 7 then ppu_write_data value w0
  else w0

/-! ## PPU: stepping with the CPU, OAM DMA -/

/-- The statement pair `ppu_clock(); nes->ppu_cycles_total++;`. -/
def clock_and_count (w : World) : World :=
  let w1 := ppu_clock w
  { w1 with nes := { w1.nes with ppu_cycles_total := (w1.nes.ppu_cycles_total + 1) % 2 ^ 64 } }

/-- The `while (ppu.pal_ppu_accum >= 5)` loop of `ppu_step_one_cpu_cycle`, with
an iteration bound. -/
def pal_accum_loop : Nat → World → World
  | 0, w => w
  | fuel + 1, w =>
    if 5 ≤ w.ppu.pal_ppu_accum then
      let w1 := clock_and_count w
      pal_accum_loop fuel
        { w1 with ppu := { w1.ppu with pal_ppu_accum := w1.ppu.pal_ppu_accum - 5 } }
    else w

/-- `ppu_step_one_cpu_cycle`.  The accumulator is a `uint8_t`, so 256 bounds the
number of iterations of the PAL loop. -/
def ppu_step_one_cpu_cycle (w : World) : World :=
  if w.ppu.is_pal_system = false then
    let w1 := clock_and_count (clock_and_count (clock_and_count w))
    { w1 with ppu := { w1.ppu with phase_mod3 := (w1.ppu.phase_mod3 + 1) % 3 } }
  else
    let w1 : World :=
      { w with ppu := { w.ppu with pal_ppu_accum := (w.ppu.pal_ppu_accum + 16) % 256 } }
    pal_accum_loop 256 w1

/-- The copy loop of the OAM DMA in `ppu_writehigh`: `n` more bytes from `i`. -/
def oam_dma_copy (base : Nat) : Nat → Nat → World → World
  | 0, _, w => w
  | n + 1, i, w =>
    oam_dma_copy base n (i + 1) { w with ppu := { w.ppu with
      oam := Function.update w.ppu.oam w.ppu.oam_addr (w.cpu.getbyte (base + i)),
      oam_addr := (w.ppu.oam_addr + 1) % 256 } }

/-- One iteration of the burn loop of the OAM DMA in `ppu_writehigh`. -/
def dma_burn_step (w : World) : World :=
  let w1 := ppu_mmc3_m2_tick 1 w
  let w2 := ppu_step_one_cpu_cycle w1
  let w3 : World := { w2 with cpu := { w2.cpu with burned := w2.cpu.burned + 1 } }
  { w3 with nes := { w3.nes with cpu_cycles_total := (w3.nes.cpu_cycles_total + 1) % 2 ^ 64 } }

/-- The burn loop of the OAM DMA. -/
def dma_burn_loop : Nat → World → World
  | 0, w => w
  | n + 1, w => dma_burn_loop n (dma_burn_step w)

/-- `ppu_writehigh` (built without `ENABLE_VS_SYSTEM`). -/
def ppu_writehigh (addr : Nat) (val : Nat) (w : World) : World :=
  if addr = 0x4014 then
    let base := (val <<< 8) % 65536
    let w1 := oam_dma_copy base 256 0 w
    let w2 : World := { w1 with ppu := { w1.ppu with oam_addr := 0 } }
    let dma_cycles := if (w2.cpu.total_cycles &&& 1) ≠ 0 then 514 else 513
    let w3 := dma_burn_loop dma_cycles w2
    { w3 with cpu := { w3.cpu with release_calls := w3.cpu.release_calls + 1 } }
  else w

/-! ## The scheduler (`nes.c`) -/

/-- The `while (nes.ppu_cycles_total < ppu_target)` loop of `ppu_catchup`, with
an iteration bound. -/
def catchup_loop (target : Nat) : Nat → World → World
  | 0, w => w
  | fuel + 1, w =>
    if w.nes.ppu_cycles_total < target then catchup_loop target fuel (clock_and_count w)
    else w

/-- The value of `ppu_target` and the bookkeeping done before the loop of
`ppu_catchup`. -/
def catchup_target (w : World) : Nat × World :=
  if w.nes.is_pal_region then
    let cpu_delta := (w.nes.cpu_cycles_total + 2 ^ 64 - w.nes.last_catchup_cpu_cycles) % 2 ^ 64
    let ppu_delta_base := ((cpu_delta * 16) % 2 ^ 64) / 5
    let remainder := ((cpu_delta * 16) % 2 ^ 64) % 5
    let acc := w.nes.pal_fractional_acc + remainder
    let extra_cycles := acc / 5
    let target := (w.nes.ppu_cycles_total + ppu_delta_base + extra_cycles) % 2 ^ 64
    let n : Nes := { w.nes with pal_fractional_acc := acc % 5,
                                last_catchup_cpu_cycles := w.nes.cpu_cycles_total }
    (target, { w with nes := n })
  else ((w.nes.cpu_cycles_total * 3) % 2 ^ 64, w)

/-- `ppu_catchup`.  The loop adds one to the counter per iteration, so the
distance to the target bounds the number of iterations. -/
def ppu_catchup (w : World) : World :=
  let r := catchup_target w
  catchup_loop r.1 (r.1 - r.2.nes.ppu_cycles_total) r.2

/-- The step of `nes_renderframe` that precedes the catch-up: the cycles of the
executed instruction are added to `cpu_cycles_total`. -/
def add_cpu_cycles (cycles : Nat) (w : World) : World :=
  { w with nes := { w.nes with cpu_cycles_total := (w.nes.cpu_cycles_total + cycles) % 2 ^ 64 } }

/-- `nes_setregion`. -/
def nes_setregion (is_pal : Bool) (w : World) : World :=
  { w with nes := { w.nes with is_pal_region := is_pal } }

/-- The code that `nes_reset` and `nes_init` call outside the sources at hand,
and the values they obtain from the C library and the video driver:
`hard_memory` is the `HARD_RESET` block (it clears the CPU RAM and fills the
cartridge CHR-RAM with `rand()` bytes), `init_ok` says that the allocations,
`apu_init` and `mmc_init` of `nes_init` succeed and `init_error` is the
(non-zero) error code otherwise. -/
structure Env where
  hard_memory : World → World := id
  apu_reset : World → World := id
  mmc_reset : World → World := id
  nes6502_reset : World → World := id
  rnd : Nat := 0
  vidbuf : Int → Nat := fun _ => 0
  init_ok : Bool := true
  init_error : Int := -1

/-- The external code leaves the scheduler record of `nes.c` alone. -/
def Env.keeps_nes (env : Env) : Prop :=
  (∀ w, (env.hard_memory w).nes = w.nes) ∧ (∀ w, (env.apu_reset w).nes = w.nes) ∧
  (∀ w, (env.mmc_reset w).nes = w.nes) ∧ (∀ w, (env.nes6502_reset w).nes = w.nes)

/-- The loop of `nes_reset` that clocks the PPU before the CPU leaves reset. -/
def reset_clock_loop : Nat → World → World
  | 0, w => w
  | n + 1, w => reset_clock_loop n (clock_and_count w)

/-- `nes_reset`; `hard` says that `reset_type` is `HARD_RESET`. -/
def nes_reset (env : Env) (hard : Bool) (w : World) : World :=
  let w1 := if hard then env.hard_memory w else w
  let w2 := env.apu_reset w1
  let w3 := ppu_reset (if hard then 1 else 0) env.rnd env.vidbuf w2
  let w4 := env.mmc_reset w3
  let n : Nat := if w4.nes.is_pal_region then (7 * 16) / 5 else 7 * 3
  let w5 := reset_clock_loop n w4
  let w6 : World :=
    { w5 with nes := { w5.nes with cpu_cycles_total := (w5.nes.cpu_cycles_total + 7) % 2 ^ 64 } }
  let w7 := env.nes6502_reset w6
  { w7 with nes := { w7.nes with fiq_occurred := false, fiq_state := 0, fiq_cycles := 29830,
                                 pal_fractional_acc := 0 } }

/-- `nes_init`: the error code on failure, the machine on success.  On success
the PPU has been created (`ppu_create` calls `ppu_reset(1)`) and the scheduler
is initialised. -/
def nes_init (env : Env) (w : World) : Except Int World :=
  let w1 := ppu_reset 1 env.rnd env.vidbuf w
  if env.init_ok then
    let n : Nes := { w1.nes with
      poweroff := false, pause := false, autoframeskip := true, scanline_cycles := 0,
      scanline := 0, fiq_occurred := false, fiq_state := 0, fiq_cycles := 29830,
      cpu_cycles_total := 0, ppu_cycles_total := 0, last_catchup_cpu_cycles := 0,
      is_pal_region := false }
    .ok { w1 with nes := n }
  else .error env.init_error

/-! ## PPU: the tables the mappers publish (`nes_ppu.c`) -/

/-- `ppu_set_chrram`. -/
def ppu_set_chrram (ptr : Option Nat) (size : Nat) (w : World) : World :=
  { w with chrram_ptr := ptr, chrram_size := size }

/-- The loop of `ppu_setpage`, entered with counter `i`; it runs while
`i < size && page + i < 16`, which is at most `16 - page` times, and the first
argument bounds the number of iterations from above. -/
def ppu_setpage_loop (size page : Int) (ptr : Option Nat) : Nat → Int → World → World
  | 0, _, w => w
  | n + 1, i, w =>
    if i < size ∧ page + i < 16 then
      let tbl := Function.update w.chr_page_ptrs (page + i).toNat
        (ptr.map fun p => p + i.toNat * 0x400)
      ppu_setpage_loop size page ptr n (i + 1) { w with chr_page_ptrs := tbl }
    else w

/-- `ppu_setpage(size, page, ptr)`: entries `page .. page + size - 1` of the CHR
page table (cut off at 16) point to consecutive 1 KiB blocks from `ptr`. -/
def ppu_setpage (size page : Int) (ptr : Option Nat) (w : World) : World :=
  if 16 ≤ page then w else ppu_setpage_loop size page ptr (16 - page).toNat 0 w

/-- `ppu_getpage`. -/
def ppu_getpage (page : Int) (w : World) : Option Nat :=
  if 16 ≤ page then none else w.chr_page_ptrs page.toNat

/-- `ppu_mirror`: the four entries of the nametable mapping are the arguments
`& 3` (for an `int`, the remainder modulo 4). -/
def ppu_mirror (page0 page1 page2 page3 : Int) (w : World) : World :=
  let nt := fun i => if i = 0 then (page0 % 4).toNat else if i = 1 then (page1 % 4).toNat
                     else if i = 2 then (page2 % 4).toNat
                     else if i = 3 then (page3 % 4).toNat else w.nametable_mapping i
  { w with nametable_mapping := nt }

/-- `ppu_mirrorhipages`. -/
def ppu_mirrorhipages (w : World) : World := ppu_mirror 0 1 0 1 w

/-! ## The work-RAM pager (`wram.c`) -/

def WINDOW_START : Nat := 0x6000

def WINDOW_END : Nat := 0x7FFF

def PAGE_SIZE : Int := 0x2000

/-- `remap_page`.  `nes_getcontextptr()` returns the address of the file-scope
`nes`, so the early return is never taken. -/
def remap_page (w : World) : World :=
  let page0 : Int :=
    if w.wram.wram_en = true ∧ w.wram.base ≠ 0 then w.wram.base + w.wram.cur_bank * PAGE_SIZE
    else w.wram.dead_page
  let tbl := Function.update (Function.update w.cpu.mem_page 6 page0) 7 (page0 + 0x1000)
  { w with cpu := { w.cpu with mem_page := tbl } }

/-- `wram_write`, the write gate of `$6000-$7FFF`.  The two arguments in capitals
are the macros `NES6502_BANKSHIFT` and `NES6502_BANKMASK` of `nes6502.h`. -/
def wram_write (NES6502_BANKSHIFT NES6502_BANKMASK : Nat) (addr val : Nat) (w : World) :
    World :=
  if w.wram.wram_en = false ∨ w.wram.base = 0 ∨ w.wram.wram_wp = true then w
  else
    let p : Int :=
      w.cpu.mem_page (addr >>> NES6502_BANKSHIFT) + ((addr &&& NES6502_BANKMASK : Nat) : Int)
    { w with hostmem := Function.update w.hostmem p val }

/-- Modelled from the spec: a CPU read of `addr` with no read handler returns the
byte of the mapped page, `mem_page[addr >> shift][addr & mask]`.  The 6502 core
(`bank_readbyte`) is not among the sources; `wram_write` makes the same access
for a store and `ram_read` of `nes.c` for a read of page 0. -/
def bank_readbyte (NES6502_BANKSHIFT NES6502_BANKMASK : Nat) (addr : Nat) (w : World) : Nat :=
  w.hostmem (w.cpu.mem_page (addr >>> NES6502_BANKSHIFT) + ((addr &&& NES6502_BANKMASK : Nat) : Int))

/-- The first loop of `add_write_handler`: is the gate already in the table?
The scan stops at the first entry without a handler; the first argument is the
number of entries of the table. -/
def wram_gate_installed (tbl : Nat → nes6502_memwrite) : Nat → Nat → Bool
  | 0, _ => false
  | n + 1, j =>
    match (tbl j).write_func with
    | none => false
    | some f =>
      if (tbl j).min_range = WINDOW_START ∧ (tbl j).max_range = WINDOW_END ∧
          f = WriteFunc.wram_write then true
      else wram_gate_installed tbl n (j + 1)

/-- The second loop of `add_write_handler`:
`while (writehandler[i].write_func && i < MAX_MEM_HANDLERS - 1) ++i`. -/
def first_free_handler (tbl : Nat → nes6502_memwrite) (MAX_MEM_HANDLERS : Nat) :
    Nat → Nat → Nat
  | 0, i => i
  | n + 1, i =>
    if (tbl i).write_func ≠ none ∧ i + 1 < MAX_MEM_HANDLERS then
      first_free_handler tbl MAX_MEM_HANDLERS n (i + 1)
    else i

/-- `add_write_handler`; `MAX_MEM_HANDLERS` is the macro of `nes.h`. -/
def add_write_handler (MAX_MEM_HANDLERS : Nat) (w : World) : World :=
  if wram_gate_installed w.writehandler MAX_MEM_HANDLERS 0 = true then w
  else
    let i := first_free_handler w.writehandler MAX_MEM_HANDLERS MAX_MEM_HANDLERS 0
    let gate : nes6502_memwrite :=
      { min_range := WINDOW_START, max_range := WINDOW_END,
        write_func := some WriteFunc.wram_write }
    let t1 := Function.update w.writehandler i gate
    let stop : nes6502_memwrite :=
      { min_range := 0xFFFFFFFF, max_range := (t1 (i + 1)).max_range, write_func := none }
    { w with writehandler := Function.update t1 (i + 1) stop }

/-- `mmc_bankwram`.  The parameter `bank` is a `uint8_t`; `%` on `int` is the
truncating remainder of C. -/
def mmc_bankwram (size_kib : Int) (addr : Nat) (bank : Nat) (w : World) : World :=
  if addr ≠ WINDOW_START ∨ (size_kib ≠ 8 ∧ size_kib ≠ 4) ∨ w.wram.banks = 0 then w
  else
    let b : Int := Int.tmod ((bank % 256 : Nat) : Int) w.wram.banks
    remap_page { w with wram := { w.wram with cur_bank := b } }

/-- `nes_set_wram_enable`. -/
def nes_set_wram_enable (enable : Bool) (w : World) : World :=
  remap_page { w with wram := { w.wram with wram_en := enable } }

/-- `nes_set_wram_write_protect`. -/
def nes_set_wram_write_protect (protect : Bool) (w : World) : World :=
  { w with wram := { w.wram with wram_wp := protect } }

/-- `wram_init`.  The `memset` fills the 8 KiB of the dead page with `$FF`. -/
def wram_init (MAX_MEM_HANDLERS : Nat) (w : World) : World :=
  if w.rominfo.sram = 0 then w
  else
    let wr : Wram := { w.wram with
      base := w.rominfo.sram,
      banks := if w.rominfo.sram_banks ≠ 0 then w.rominfo.sram_banks else 1,
      cur_bank := 0, wram_en := false, wram_wp := false }
    let mem : Int → Nat := fun a =>
      if w.wram.dead_page ≤ a ∧ a < w.wram.dead_page + PAGE_SIZE then 0xFF else w.hostmem a
    add_write_handler MAX_MEM_HANDLERS { w with wram := wr, hostmem := mem }

/-! ## Bank switching (`nes_mmc.c`) and the MMC3 register file (`map004.c`) -/

/-- Modelled from the spec: `mmc_bankrom(size, address, bank)` of `nes_mmc.c`
selects PRG bank number `bank`, in units of 8 KiB, for the 8 KiB CPU window at
`address`.  The sources call it with `size = 8` only; `prg_bank` keeps the
bank number selected for each window. -/
def mmc_bankrom (size : Int) (address : Nat) (bank : Int) (w : World) : World :=
  if size = 8 then { w with prg_bank := Function.update w.prg_bank (address >>> 13) bank }
  else w

/-- Modelled from the spec: `mmc_bankvrom(size, address, bank)` of `nes_mmc.c`
selects CHR bank number `bank`, in units of `size` KiB, for the `size` KiB PPU
window at `address`; in 1 KiB pages, page `(address >> 10) + i` gets 1 KiB bank
`size * bank + i` for `i < size`.  `chr_bank` keeps the 1 KiB bank selected for
each page. -/
def mmc_bankvrom (size : Int) (address : Nat) (bank : Int) (w : World) : World :=
  if size = 1 ∨ size = 2 ∨ size = 4 ∨ size = 8 then
    let lo := address >>> 10
    let tbl : Nat → Int := fun p =>
      if lo ≤ p ∧ ((p - lo : Nat) : Int) < size then size * bank + ((p - lo : Nat) : Int)
      else w.chr_bank p
    { w with chr_bank := tbl }
  else w

def FIXED_LAST (c : RomInfo) : Int := c.rom_banks * 2 - 1

def FIXED_PENULT (c : RomInfo) : Int := c.rom_banks * 2 - 2

/-- The eight `mmc_bankvrom` calls that `map4_write` makes when bit 7 of the
bank-select value has changed. -/
def map4_refresh_chr (w : World) : World :=
  let r0 := w.map4.chr_reg 0 &&& 0xFE
  let r1 := w.map4.chr_reg 1 &&& 0xFE
  let b := w.map4.vrombase
  let w := mmc_bankvrom 1 (b ^^^ 0x0000) r0 w
  let w := mmc_bankvrom 1 (b ^^^ 0x0400) (r0 + 1) w
  let w := mmc_bankvrom 1 (b ^^^ 0x0800) r1 w
  let w := mmc_bankvrom 1 (b ^^^ 0x0C00) (r1 + 1) w
  let w := mmc_bankvrom 1 (b ^^^ 0x1000) (w.map4.chr_reg 2) w
  let w := mmc_bankvrom 1 (b ^^^ 0x1400) (w.map4.chr_reg 3) w
  let w := mmc_bankvrom 1 (b ^^^ 0x1800) (w.map4.chr_reg 4) w
  mmc_bankvrom 1 (b ^^^ 0x1C00) (w.map4.chr_reg 5) w

/-- Case `$8000` of `map4_write`: bank select. -/
def map4_write_8000 (v : Nat) (w : World) : World :=
  let old_d7 := w.map4.reg8000 &&& 0x80
  let old_mode := w.map4.reg8000 &&& 0x40
  let w1 : World := { w with map4 := { w.map4 with
    reg8000 := v, vrombase := if (v &&& 0x80) ≠ 0 then 0x1000 else 0x0000 } }
  let w2 := if old_d7 ≠ (v &&& 0x80) then map4_refresh_chr w1 else w1
  let w3 := mmc_bankrom 8 (if (v &&& 0x40) ≠ 0 then 0x8000 else 0xC000)
    (FIXED_PENULT w2.rominfo) w2
  if old_mode ≠ (v &&& 0x40) then
    mmc_bankrom 8 (if (v &&& 0x40) ≠ 0 then 0xC000 else 0x8000) w3.map4.prg_bank6 w3
  else w3

/-- `chr_reg[k] = v`. -/
def set_chr_reg (k v : Nat) (w : World) : World :=
  { w with map4 := { w.map4 with chr_reg := Function.update w.map4.chr_reg k v } }

/-- Case `$8001` of `map4_write`: bank data. -/
def map4_write_8001 (v : Nat) (w : World) : World :=
  let r := w.map4.reg8000 &&& 7
  let b := w.map4.vrombase
  if r = 0 then
    let v := v &&& 0xFE
    mmc_bankvrom 1 (b ^^^ 0x0400) (v + 1) (mmc_bankvrom 1 (b ^^^ 0x0000) v (set_chr_reg 0 v w))
  else if r = 1 then
    let v := v &&& 0xFE
    mmc_bankvrom 1 (b ^^^ 0x0C00) (v + 1) (mmc_bankvrom 1 (b ^^^ 0x0800) v (set_chr_reg 1 v w))
  else if r = 2 then mmc_bankvrom 1 (b ^^^ 0x1000) v (set_chr_reg 2 v w)
  else if r = 3 then mmc_bankvrom 1 (b ^^^ 0x1400) v (set_chr_reg 3 v w)
  else if r = 4 then mmc_bankvrom 1 (b ^^^ 0x1800) v (set_chr_reg 4 v w)
  else if r = 5 then mmc_bankvrom 1 (b ^^^ 0x1C00) v (set_chr_reg 5 v w)
  else if r = 6 then
    let w1 : World := { w with map4 := { w.map4 with prg_bank6 := v } }
    mmc_bankrom 8 (if (w1.map4.reg8000 &&& 0x40) ≠ 0 then 0xC000 else 0x8000)
      w1.map4.prg_bank6 w1
  else if r = 7 then
    mmc_bankrom 8 0xA000 v { w with map4 := { w.map4 with r7_prg_bank := v } }
  else w

/-- Case `$A000` of `map4_write`: nametable mirroring. -/
def map4_write_A000 (v : Nat) (w : World) : World :=
  if w.map4.fourscreen = false then
    if (v &&& 1) = 0 then ppu_mirror 0 0 1 1 w else ppu_mirror 0 1 0 1 w
  else w

/-- Case `$A001` of `map4_write`: work-RAM enable and write protect. -/
def map4_write_A001 (v : Nat) (w : World) : World :=
  let en : Bool := (v &&& 0x80) != 0
  let wp : Bool := (v &&& 0x40) != 0
  let w1 : World := { w with map4 := { w.map4 with wram_en := en, wram_wp := wp } }
  mmc_bankwram 8 0x6000 0 (nes_set_wram_write_protect wp (nes_set_wram_enable en w1))

/-- `map4_write(a, v)`: a CPU write of the byte `v` to the mapper. -/
def map4_write (a v : Nat) (w : World) : World :=
  let r := a &&& 0xE001
  if r = 0x8000 then map4_write_8000 v w
  else if r = 0x8001 then map4_write_8001 v w
  else if r = 0xA000 then map4_write_A000 v w
  else if r = 0xA001 then map4_write_A001 v w
  else if r = 0xC000 then
    { w with map4 := { w.map4 with irq := { w.map4.irq with latch := v } } }
  else if r = 0xC001 then
    { w with map4 := { w.map4 with irq := { w.map4.irq with reload_flag := true, counter := 0 } } }
  else if r = 0xE000 then
    nes_irq_ack { w with map4 := { w.map4 with irq := { w.map4.irq with enabled := false } } }
  else if r = 0xE001 then
    { w with map4 := { w.map4 with irq := { w.map4.irq with enabled := true } } }
  else w

/-- `map4_init`, built with `MAP4_PPU_EDGE_IRQ = 1`. -/
def map4_init (w : World) : World :=
  let cart := w.rominfo
  let m : Map4 := { fourscreen := cart.flag_fourscreen }
  let w := { w with map4 := m }
  let w := mmc_bankrom 8 0xC000 (FIXED_PENULT cart) w
  let w := mmc_bankrom 8 0xE000 (FIXED_LAST cart) w
  let w := mmc_bankrom 8 0x8000 w.map4.prg_bank6 w
  let w := mmc_bankrom 8 0xA000 0 w
  let w := mmc_bankvrom 8 0x0000 0 w
  ppu_set_mapper_hook (some MapperHook.map4_ppu_tick) w

/-- A sequence of CPU writes `(address, value)` handed to `map4_write`, first
element first. -/
def map4_writes : List (Nat × Nat) → World → World
  | [], w => w
  | (a, v) :: rest, w => map4_writes rest (map4_write a v w)

/-! ## OAM DMA: what the PPU clock leaves alone -/

/-- `oam_kept w2 w1`: from `w1` to `w2` primary OAM, the counters of
`nes6502_burn` and `nes6502_release` and the region flag of the PPU are
unchanged, and OAMADDR is unchanged or has been cleared. -/
def oam_kept (w2 w1 : World) : Prop :=
  w2.ppu.oam = w1.ppu.oam ∧ (w2.ppu.oam_addr = w1.ppu.oam_addr ∨ w2.ppu.oam_addr = 0) ∧
  w2.cpu.burned = w1.cpu.burned ∧ w2.cpu.release_calls = w1.cpu.release_calls ∧
  w2.ppu.is_pal_system = w1.ppu.is_pal_system

/-- The PRG layout of the MMC3 in terms of the mapper's registers: the slot at
`$E000` holds the last bank, the slot at `$A000` holds R7, and with bit 6 of the
bank-select register clear the slot at `$8000` holds R6 and the slot at `$C000`
the penultimate bank, with bit 6 set the other way round. -/
def map4_prg_layout (w : World) : Prop :=
  w.prg_bank (0xE000 >>> 13) = FIXED_LAST w.rominfo ∧
  w.prg_bank (0xA000 >>> 13) = w.map4.r7_prg_bank ∧
  ((w.map4.reg8000 &&& 0x40) = 0 →
    w.prg_bank (0x8000 >>> 13) = w.map4.prg_bank6 ∧
    w.prg_bank (0xC000 >>> 13) = FIXED_PENULT w.rominfo) ∧
  ((w.map4.reg8000 &&& 0x40) ≠ 0 →
    w.prg_bank (0xC000 >>> 13) = w.map4.prg_bank6 ∧
    w.prg_bank (0x8000 >>> 13) = FIXED_PENULT w.rominfo)

/-! ## MMC3 save state (`map004.c`) -/

/-- The part `extraData.mapper4` of a `SnssMapperBlock` that the MMC3 code
uses: four `unsigned char` fields and the byte array `fill1`. -/
structure SnssMapper4 where
  irqCounter : Nat := 0
  irqLatchCounter : Nat := 0
  irqCounterEnabled : Nat := 0
  last8000Write : Nat := 0
  fill1 : Nat → Nat := fun _ => 0

/-- A `bool` stored into an `unsigned char`. -/
def bool_byte (b : Bool) : Nat := if b then 1 else 0

/-- `map4_getstate`: the block `s` after the call.  The `memcpy` puts the six
CHR registers into `fill1[5 .. 10]`. -/
def map4_getstate (s : SnssMapper4) (w : World) : SnssMapper4 :=
  let f : Nat → Nat := fun i =>
    if i = 0 then bool_byte w.map4.irq.reload_flag
    else if i = 1 then bool_byte w.map4.wram_en
    else if i = 2 then bool_byte w.map4.wram_wp
    else if i = 3 then w.map4.prg_bank6
    else if i = 4 then w.map4.r7_prg_bank
    else if 5 ≤ i ∧ i < 11 then w.map4.chr_reg (i - 5)
    else s.fill1 i
  { irqCounter := w.map4.irq.counter, irqLatchCounter := w.map4.irq.latch,
    irqCounterEnabled := bool_byte w.map4.irq.enabled, last8000Write := w.map4.reg8000,
    fill1 := f }

/-- `map4_setstate`. -/
def map4_setstate (s : SnssMapper4) (w : World) : World :=
  let q : irq_t := { counter := s.irqCounter, latch := s.irqLatchCounter,
                     enabled := s.irqCounterEnabled != 0, reload_flag := s.fill1 0 != 0 }
  let regs : Nat → Nat := fun i => if i < 6 then s.fill1 (5 + i) else w.map4.chr_reg i
  let m : Map4 := { w.map4 with irq := q, reg8000 := s.last8000Write,
                                wram_en := s.fill1 1 != 0, wram_wp := s.fill1 2 != 0,
                                prg_bank6 := s.fill1 3, r7_prg_bank := s.fill1 4,
                                chr_reg := regs }
  let w : World := { w with map4 := m }
  let w := nes_set_wram_enable w.map4.wram_en w
  let w := nes_set_wram_write_protect w.map4.wram_wp w
  let vb : Nat := if (w.map4.reg8000 &&& 0x80) ≠ 0 then 0x1000 else 0x0000
  let w : World := { w with map4 := { w.map4 with vrombase := vb } }
  let w := mmc_bankrom 8 (if (w.map4.reg8000 &&& 0x40) ≠ 0 then 0xC000 else 0x8000)
    w.map4.prg_bank6 w
  let w := mmc_bankrom 8 (if (w.map4.reg8000 &&& 0x40) ≠ 0 then 0x8000 else 0xC000)
    (FIXED_PENULT w.rominfo) w
  let w := mmc_bankrom 8 0xA000 w.map4.r7_prg_bank w
  let w := mmc_bankrom 8 0xE000 (FIXED_LAST w.rominfo) w
  map4_refresh_chr w

/-! ## Controller ports (`nes.c`) -/

/-- `nes_set_joy_state`. -/
def nes_set_joy_state (port : Int) (state : Nat) (w : World) : World :=
  if 0 ≤ port ∧ port < 2 then
    { w with joy_state := Function.update w.joy_state port.toNat state }
  else w

/-- `io_write`. -/
def io_write (address value : Nat) (w : World) : World :=
  if address = 0x4016 then
    let new_strobe := value &&& 1
    let w1 : World :=
      if new_strobe ≠ 0 then { w with joy_shift := fun i => if i < 2 then w.joy_state i
                                                            else w.joy_shift i }
      else if w.joy_strobe ≠ 0 then
        { w with joy_shift := fun i => if i < 2 then w.joy_state i else w.joy_shift i }
      else w
    { w1 with joy_strobe := new_strobe }
  else w

/-- `io_read`: the byte read and the machine afterwards. -/
def io_read (address : Nat) (w : World) : Nat × World :=
  let port := if address = 0x4017 then 1 else 0
  if w.joy_strobe ≠ 0 then (0x40 ||| (w.joy_state port &&& 1), w)
  else
    let bit := w.joy_shift port &&& 1
    let sh := ((w.joy_shift port >>> 1) ||| 0x80) % 256
    (0x40 ||| bit, { w with joy_shift := Function.update w.joy_shift port sh })

/-- The last of `n + 1` successive reads of `address`: the byte read and the
machine afterwards. -/
def io_read_nth (address : Nat) : Nat → World → Nat × World
  | 0, w => io_read address w
  | n + 1, w => io_read_nth address n (io_read address w).2

/-! ## The MMC5 mapper (`map005.c`) -/

/-- `x & ~k` for a non-negative `int` `x`: `~k` is the 32-bit pattern
`0xFFFFFFFF - k`. -/
def and_not32 (x k : Nat) : Nat := x &&& (0xFFFFFFFF - k)

/-- `sync_prg`. -/
def sync_prg (w : World) : World :=
  let m := w.map5.prg_mode &&& 3
  if m = 0 then
    let bank : Nat := and_not32 (w.map5.prg_reg 3 &&& 0x7F) 3
    let w := mmc_bankrom 8 0x8000 (bank + 0 : Nat) w
    let w := mmc_bankrom 8 0xA000 (bank + 1 : Nat) w
    let w := mmc_bankrom 8 0xC000 (bank + 2 : Nat) w
    mmc_bankrom 8 0xE000 (bank + 3 : Nat) w
  else if m = 1 then
    let bank0 : Nat := and_not32 (w.map5.prg_reg 1 &&& 0x7F) 1
    let bank1 : Nat := and_not32 (w.map5.prg_reg 3 &&& 0x7F) 1
    let w := mmc_bankrom 8 0x8000 bank0 w
    let w := mmc_bankrom 8 0xA000 (bank0 + 1 : Nat) w
    let w := mmc_bankrom 8 0xC000 bank1 w
    mmc_bankrom 8 0xE000 (bank1 + 1 : Nat) w
  else if m = 2 then
    let bank0 : Nat := w.map5.prg_reg 1 &&& 0x7F
    let bank1 : Nat := w.map5.prg_reg 2 &&& 0x7F
    let bank2 : Nat := and_not32 (w.map5.prg_reg 3 &&& 0x7F) 1
    let w := mmc_bankrom 8 0x8000 bank0 w
    let w := mmc_bankrom 8 0xA000 bank1 w
    let w := mmc_bankrom 8 0xC000 bank2 w
    mmc_bankrom 8 0xE000 (bank2 + 1 : Nat) w
  else
    let w := mmc_bankrom 8 0x8000 (w.map5.prg_reg 0 &&& 0x7F : Nat) w
    let w := mmc_bankrom 8 0xA000 (w.map5.prg_reg 1 &&& 0x7F : Nat) w
    let w := mmc_bankrom 8 0xC000 (w.map5.prg_reg 2 &&& 0x7F : Nat) w
    mmc_bankrom 8 0xE000 (w.map5.prg_reg 3 &&& 0x7F : Nat) w

/-- `sync_chr`. -/
def sync_chr (w : World) : World :=
  let m := w.map5.chr_mode &&& 3
  if m = 0 then mmc_bankvrom 8 0x0000 (w.map5.chr_spr 7) w
  else if m = 1 then
    mmc_bankvrom 4 0x1000 (w.map5.chr_bg 3) (mmc_bankvrom 4 0x0000 (w.map5.chr_spr 3) w)
  else if m = 2 then
    let w := mmc_bankvrom 2 0x0000 (w.map5.chr_spr 1) w
    let w := mmc_bankvrom 2 0x0800 (w.map5.chr_spr 3) w
    let w := mmc_bankvrom 2 0x1000 (w.map5.chr_bg 1) w
    mmc_bankvrom 2 0x1800 (w.map5.chr_bg 3) w
  else
    let w := mmc_bankvrom 1 0x0000 (w.map5.chr_spr 0) w
    let w := mmc_bankvrom 1 0x0400 (w.map5.chr_spr 1) w
    let w := mmc_bankvrom 1 0x0800 (w.map5.chr_spr 2) w
    let w := mmc_bankvrom 1 0x0C00 (w.map5.chr_spr 3) w
    let w := mmc_bankvrom 1 0x1000 (w.map5.chr_spr 4) w
    let w := mmc_bankvrom 1 0x1400 (w.map5.chr_spr 5) w
    let w := mmc_bankvrom 1 0x1800 (w.map5.chr_spr 6) w
    mmc_bankvrom 1 0x1C00 (w.map5.chr_spr 7) w

/-- `rebuild_fill`: 960 tile bytes, then 64 attribute bytes. -/
def rebuild_fill (w : World) : World :=
  let attr := w.map5.at_fill &&& 3
  let packed := (attr ||| (attr <<< 2) ||| (attr <<< 4) ||| (attr <<< 6)) % 256
  let mem : Nat → Nat := fun a =>
    if w.map5.fill_ram ≤ a ∧ a < w.map5.fill_ram + 0x3C0 then w.map5.nt_fill
    else if w.map5.fill_ram + 0x3C0 ≤ a ∧ a < w.map5.fill_ram + 0x400 then packed
    else w.chrmem a
  { w with chrmem := mem }

/-- One round of the loop of `map_nametables`, for slot `i`. -/
def map_nametable_slot (val : Nat) (i : Nat) (w : World) : World :=
  let sel := (val >>> (i * 2)) &&& 3
  if sel = 0 then ppu_setpage 1 (8 + i : Nat) (w.map5.nt_page 0) w
  else if sel = 1 then ppu_setpage 1 (8 + i : Nat) (w.map5.nt_page 1) w
  else if sel = 2 then ppu_setpage 1 (8 + i : Nat) (some w.map5.exram) w
  else ppu_setpage 1 (8 + i : Nat) (some w.map5.fill_ram) w

/-- `map_nametables`. -/
def map_nametables (val : Nat) (w : World) : World :=
  map_nametable_slot val 3 (map_nametable_slot val 2 (map_nametable_slot val 1
    (map_nametable_slot val 0 w)))

/-- `map5_hblank`. -/
def map5_hblank (_vblank : Int) (w : World) : World :=
  if w.map5.irq.enabled = false then w
  else if w.map5.irq.counter = 0 then
    let w1 := nes_irq w
    { w1 with map5 := { w1.map5 with irq := { w1.map5.irq with
        pending := true, counter := w1.map5.irq.latch } } }
  else
    { w with map5 := { w.map5 with irq := { w.map5.irq with
        counter := w.map5.irq.counter - 1 } } }

/-- The register cases of `map5_write` that only store into the mapper state. -/
def map5_write_plain (address value : Nat) (w : World) : World :=
  if address = 0x5104 then { w with map5 := { w.map5 with exram_mode := value &&& 3 } }
  else if address = 0x5200 then { w with map5 := { w.map5 with split_ctrl := value } }
  else if address = 0x5201 then { w with map5 := { w.map5 with split_scroll := value } }
  else if address = 0x5202 then { w with map5 := { w.map5 with split_bank := value } }
  else if address = 0x5203 then
    let q : irq5_t := { w.map5.irq with latch := value, counter := value, pending := false }
    { w with map5 := { w.map5 with irq := q } }
  else if address = 0x5204 then
    let q : irq5_t := { w.map5.irq with enabled := (value &&& 0x80) != 0, pending := false }
    { w with map5 := { w.map5 with irq := q } }
  else if address = 0x5205 then
    { w with map5 := { w.map5 with mul := Function.update w.map5.mul 0 value } }
  else if address = 0x5206 then
    { w with map5 := { w.map5 with mul := Function.update w.map5.mul 1 value } }
  else w

/-- `map5_write(address, value)`: a CPU write of the byte `value`. -/
def map5_write (address value : Nat) (w : World) : World :=
  if 0x5C00 ≤ address ∧ address ≤ 0x5FFF then
    if (w.map5.exram_mode &&& 3) ≠ 3 then
      { w with chrmem := Function.update w.chrmem (w.map5.exram + (address &&& 0x3FF)) value }
    else w
  else if address = 0x5100 then
    sync_prg { w with map5 := { w.map5 with prg_mode := value &&& 3 } }
  else if address = 0x5101 then
    sync_chr { w with map5 := { w.map5 with chr_mode := value &&& 3 } }
  else if address = 0x5105 then map_nametables value w
  else if address = 0x5106 then rebuild_fill { w with map5 := { w.map5 with nt_fill := value } }
  else if address = 0x5107 then rebuild_fill { w with map5 := { w.map5 with at_fill := value } }
  else if address = 0x5113 then mmc_bankwram 8 0x6000 value w
  else if 0x5114 ≤ address ∧ address ≤ 0x5117 then
    let r := Function.update w.map5.prg_reg (address &&& 3) value
    sync_prg { w with map5 := { w.map5 with prg_reg := r } }
  else if 0x5120 ≤ address ∧ address ≤ 0x5127 then
    let r := Function.update w.map5.chr_spr (address - 0x5120)
      (value ||| (w.map5.chr_high <<< 8))
    sync_chr { w with map5 := { w.map5 with chr_spr := r } }
  else if 0x5128 ≤ address ∧ address ≤ 0x512B then
    let r := Function.update w.map5.chr_bg (address - 0x5128)
      (value ||| (w.map5.chr_high <<< 8))
    sync_chr { w with map5 := { w.map5 with chr_bg := r } }
  else if address = 0x5130 then
    sync_chr { w with map5 := { w.map5 with chr_high := value &&& 0x3 } }
  else map5_write_plain address value w

/-- `map5_read(address)`: the byte read and the machine afterwards. -/
def map5_read (address : Nat) (w : World) : Nat × World :=
  if 0x5C00 ≤ address ∧ address ≤ 0x5FFF then
    (w.chrmem (w.map5.exram + (address &&& 0x3FF)), w)
  else if address = 0x5204 then
    let q : irq5_t := { w.map5.irq with pending := false }
    (if w.map5.irq.pending then 0x40 else 0x00, { w with map5 := { w.map5 with irq := q } })
  else if address = 0x5205 then (((w.map5.mul 0 * w.map5.mul 1) &&& 0xFF) % 256, w)
  else if address = 0x5206 then (((w.map5.mul 0 * w.map5.mul 1) >>> 8) % 256, w)
  else (0xFF, w)

/-- `map5_init`; `MMC_LASTBANK` is the macro of `nes_mmc.h`. -/
def map5_init (MMC_LASTBANK : Int) (w : World) : World :=
  let np : Nat → Option Nat := fun i =>
    if i < 4 then ppu_getpage (8 + i : Nat) w else w.map5.nt_page i
  let mem : Nat → Nat := fun a =>
    if w.map5.exram ≤ a ∧ a < w.map5.exram + 0x400 then 0 else w.chrmem a
  let w : World := { w with map5 := { w.map5 with nt_page := np }, chrmem := mem }
  let w := rebuild_fill w
  let w := mmc_bankrom 8 0x8000 MMC_LASTBANK w
  let w := mmc_bankrom 8 0xA000 MMC_LASTBANK w
  let w := mmc_bankrom 8 0xC000 MMC_LASTBANK w
  let w := mmc_bankrom 8 0xE000 MMC_LASTBANK w
  let q : irq5_t := { counter := 0, latch := 0, enabled := false, pending := false }
  { w with map5 := { w.map5 with irq := q, prg_mode := 3, chr_mode := 3 } }

/-! ## PPU state serialisation (`nes_ppu.c`) and the base block (`nesstate.c`) -/

/-- The record `ppu_state_t` of `new_ppu.h`. -/
structure ppu_state_t where
  ctrl : Nat := 0
  mask : Nat := 0
  status : Nat := 0
  oam_addr : Nat := 0
  v : Nat := 0
  t : Nat := 0
  x : Nat := 0
  w : Nat := 0
  buffered_data : Nat := 0
  dot : Int := 0
  scanline : Int := 0
  odd_frame : Bool := false
  eval_sprite_idx : Nat := 0
  eval_oam_addr : Nat := 0
  eval_sec_idx : Nat := 0
  eval_overflow : Bool := false
  eval_temp_y : Nat := 0
  sprite_in_range : Bool := false
  open_bus : Nat := 0
  a12_prev : Bool := false
  mmc3_a12_level : Bool := false
  mmc3_a12_low_m2_count : Int := 0
  bg_pt_lo : Nat := 0
  bg_pt_hi : Nat := 0
  bg_at_lo : Nat := 0
  bg_at_hi : Nat := 0
  bg_next_nt : Nat := 0
  bg_next_at : Nat := 0
  bg_next_pt_lo : Nat := 0
  bg_next_pt_hi : Nat := 0
  sprite_count : Nat := 0
  sprite_zero_this : Bool := false
  sprite_zero_next : Bool := false
  next_sprite_xmin : Nat := 0
  frame_complete : Bool := false

/-- The fields of `SnssBaseBlock` that `nesstate.c` names.  The type itself is
declared in `libsnss.h`, outside these sources; the byte arrays are functions of
the index and every scalar has the width of the field it is copied from, except
`regPc`, which is 16 bits wide. -/
structure SnssBaseBlock where
  regA : Nat := 0
  regX : Nat := 0
  regY : Nat := 0
  regFlags : Nat := 0
  regStack : Nat := 0
  regPc : Nat := 0
  reg2000 : Nat := 0
  reg2001 : Nat := 0
  cpuRam : Nat → Nat := fun _ => 0
  spriteRam : Nat → Nat := fun _ => 0
  ppuRam : Nat → Nat := fun _ => 0
  palette : Nat → Nat := fun _ => 0
  mirrorState : Nat → Nat := fun _ => 0
  vramAddress : Nat := 0
  spriteRamAddress : Nat := 0
  tileXOffset : Nat := 0

/-- `memcpy(dst, src, n)` between two byte arrays given as functions. -/
def memcpy_arr (dst src : Nat → Nat) (n : Nat) : Nat → Nat :=
  fun i => if i < n then src i else dst i

/-- `ppu_get_state`. -/
def ppu_get_state (w : World) : ppu_state_t :=
  { ctrl := w.ppu.ctrl, mask := w.ppu.mask, status := w.ppu.status,
    oam_addr := w.ppu.oam_addr, v := w.ppu.v, t := w.ppu.t, x := w.ppu.x, w := w.ppu.w,
    buffered_data := w.ppu.buffered_data, dot := w.ppu.dot, scanline := w.ppu.scanline,
    odd_frame := w.ppu.odd_frame, eval_sprite_idx := w.ppu.eval_sprite_idx,
    eval_oam_addr := w.ppu.eval_oam_addr, eval_sec_idx := w.ppu.eval_sec_idx,
    eval_overflow := w.ppu.eval_overflow, eval_temp_y := w.ppu.eval_temp_y,
    sprite_in_range := w.ppu.sprite_in_range, open_bus := w.ppu.open_bus,
    a12_prev := w.a12_prev, mmc3_a12_level := w.mmc3_a12_level,
    mmc3_a12_low_m2_count := w.mmc3_a12_low_m2_count,
    bg_pt_lo := w.ppu.bg.pt_lo, bg_pt_hi := w.ppu.bg.pt_hi,
    bg_at_lo := w.ppu.bg.at_lo, bg_at_hi := w.ppu.bg.at_hi,
    bg_next_nt := w.ppu.bg.next_nt, bg_next_at := w.ppu.bg.next_at,
    bg_next_pt_lo := w.ppu.bg.next_pt_lo, bg_next_pt_hi := w.ppu.bg.next_pt_hi,
    sprite_count := w.ppu.sprite_count, sprite_zero_this := w.ppu.sprite_zero_this,
    sprite_zero_next := w.ppu.sprite_zero_next, next_sprite_xmin := w.ppu.next_sprite_xmin,
    frame_complete := w.ppu.frame_complete }

/-- `ppu_set_state`. -/
def ppu_set_state (s : ppu_state_t) (w : World) : World :=
  let b : bg_t := { pt_lo := s.bg_pt_lo, pt_hi := s.bg_pt_hi, at_lo := s.bg_at_lo,
                    at_hi := s.bg_at_hi, next_nt := s.bg_next_nt, next_at := s.bg_next_at,
                    next_pt_lo := s.bg_next_pt_lo, next_pt_hi := s.bg_next_pt_hi }
  let p : ppu_s := { w.ppu with
    ctrl := s.ctrl, mask := s.mask, status := s.status, oam_addr := s.oam_addr,
    v := s.v, t := s.t, x := s.x, w := s.w, buffered_data := s.buffered_data,
    dot := s.dot, scanline := s.scanline, odd_frame := s.odd_frame,
    eval_sprite_idx := s.eval_sprite_idx, eval_oam_addr := s.eval_oam_addr,
    eval_sec_idx := s.eval_sec_idx, eval_overflow := s.eval_overflow,
    eval_temp_y := s.eval_temp_y, sprite_in_range := s.sprite_in_range,
    open_bus := s.open_bus, bg := b, sprite_count := s.sprite_count,
    sprite_zero_this := s.sprite_zero_this, sprite_zero_next := s.sprite_zero_next,
    next_sprite_xmin := s.next_sprite_xmin, frame_complete := s.frame_complete }
  { w with ppu := p, a12_prev := s.a12_prev, mmc3_a12_level := s.mmc3_a12_level,
           mmc3_a12_low_m2_count := s.mmc3_a12_low_m2_count }

/-- `ppu_get_oam`: the 256 bytes written to the caller's array `out`. -/
def ppu_get_oam (out : Nat → Nat) (w : World) : Nat → Nat := memcpy_arr out w.ppu.oam 256

/-- `ppu_set_oam`. -/
def ppu_set_oam (oam : Nat → Nat) (w : World) : World :=
  { w with ppu := { w.ppu with oam := memcpy_arr w.ppu.oam oam 256 } }

/-- `ppu_get_palette`. -/
def ppu_get_palette (out : Nat → Nat) (w : World) : Nat → Nat :=
  memcpy_arr out w.ppu.palette 32

/-- `ppu_set_palette`. -/
def ppu_set_palette (palette : Nat → Nat) (w : World) : World :=
  { w with ppu := { w.ppu with palette := memcpy_arr w.ppu.palette palette 32 } }

/-- `ppu_get_ciram`. -/
def ppu_get_ciram (out : Nat → Nat) (w : World) : Nat → Nat := memcpy_arr out w.ciram 0x1000

/-- `ppu_set_ciram`. -/
def ppu_set_ciram (ciram_in : Nat → Nat) (w : World) : World :=
  { w with ciram := memcpy_arr w.ciram ciram_in 0x1000 }

/-- `ppu_get_mirroring`. -/
def ppu_get_mirroring (out : Nat → Nat) (w : World) : Nat → Nat :=
  memcpy_arr out w.nametable_mapping 4

/-- `ppu_set_mirroring`. -/
def ppu_set_mirroring (mapping : Nat → Nat) (w : World) : World :=
  { w with nametable_mapping := memcpy_arr w.nametable_mapping mapping 4 }

/-- `save_baseblock`: the base block of the file after the call, `blk` being
the block before.  `nes6502_getcontext` copies the registers of the CPU core
into `state->cpu`, which is the record `w.cpu` here; the locals `ppu_state`
and `mirroring` are filled by the getters before they are read. -/
def save_baseblock (blk : SnssBaseBlock) (w : World) : SnssBaseBlock :=
  let ram : Nat → Nat := fun i =>
    if i < 0x800 then w.hostmem (w.cpu.mem_page 0 + (i : Int)) else blk.cpuRam i
  let ppu_state := ppu_get_state w
  let mirroring := ppu_get_mirroring (fun _ => 0) w
  { blk with
    regA := w.cpu.a_reg, regX := w.cpu.x_reg, regY := w.cpu.y_reg,
    regFlags := w.cpu.p_reg, regStack := w.cpu.s_reg, regPc := w.cpu.pc_reg % 65536,
    cpuRam := ram,
    spriteRam := ppu_get_oam blk.spriteRam w,
    ppuRam := ppu_get_ciram blk.ppuRam w,
    palette := ppu_get_palette blk.palette w,
    reg2000 := ppu_state.ctrl, reg2001 := ppu_state.mask,
    vramAddress := ppu_state.v, spriteRamAddress := ppu_state.oam_addr,
    tileXOffset := ppu_state.x,
    mirrorState := fun i => if i < 4 then mirroring i else blk.mirrorState i }

/-- `load_baseblock`.  The local `ppu_state` is not initialised: `junk` is the
content of its storage at entry, and only the thirteen fields assigned in the
function are defined by the block. -/
def load_baseblock (junk : ppu_state_t) (blk : SnssBaseBlock) (w : World) : World :=
  let c : Cpu := { w.cpu with a_reg := blk.regA, x_reg := blk.regX, y_reg := blk.regY,
                              p_reg := blk.regFlags, s_reg := blk.regStack,
                              pc_reg := blk.regPc }
  let base := w.cpu.mem_page 0
  let mem : Int → Nat := fun a =>
    if base ≤ a ∧ a < base + 0x800 then blk.cpuRam (a - base).toNat else w.hostmem a
  let w : World := { w with cpu := c, hostmem := mem }
  let ppu_state : ppu_state_t := { junk with
    ctrl := blk.reg2000, mask := blk.reg2001, status := 0,
    oam_addr := blk.spriteRamAddress, v := blk.vramAddress, t := 0,
    x := blk.tileXOffset, w := 0, buffered_data := 0, dot := 0, scanline := 0,
    odd_frame := false, open_bus := 0 }
  let w := ppu_set_state ppu_state w
  let w := ppu_set_oam blk.spriteRam w
  let w := ppu_set_ciram blk.ppuRam w
  let w := ppu_set_palette blk.palette w
  ppu_set_mirroring blk.mirrorState w

/-! ## Auxiliary definitions for the statements about the controller ports and the MMC5 -/

/-- The shift that a read with the strobe low applies to a shift register. -/
def joy_shift_step (x : Nat) : Nat := ((x >>> 1) ||| 0x80) % 256

/-- The port that `io_read` selects. -/
def joy_port (address : Nat) : Nat := if address = 0x4017 then 1 else 0

/-- The machine after `map5_init`, a write of `$24` to `$5106` and a write of
`$FF` to `$5105`, from the initial state of the model. -/
def fill_mode_machine (MMC_LASTBANK : Int) : World :=
  map5_write 0x5105 0xFF (map5_write 0x5106 0x24 (map5_init MMC_LASTBANK {}))

/-! ## Views of the machine for the statements about the framebuffer and the
sprite evaluation -/

/-- The fields of `ppu` that the sprite evaluation reads and writes, with
PPUCTRL. -/
structure EvalView where
  oam : Nat → Nat
  sec_oam : Nat → Nat
  eval_sprite_idx : Nat
  eval_oam_addr : Nat
  eval_sec_idx : Nat
  eval_overflow : Bool
  sprite_in_range : Bool
  eval_byte_index : Nat
  eval_read_latch : Nat
  oam_write_during_eval : Bool
  sprite_zero_next : Bool
  sprite0_slot_next : Nat
  ctrl : Nat

/-- The evaluation fields of a `ppu` record. -/
def evalv (p : ppu_s) : EvalView :=
  { oam := p.oam, sec_oam := p.sec_oam, eval_sprite_idx := p.eval_sprite_idx,
    eval_oam_addr := p.eval_oam_addr, eval_sec_idx := p.eval_sec_idx,
    eval_overflow := p.eval_overflow, sprite_in_range := p.sprite_in_range,
    eval_byte_index := p.eval_byte_index, eval_read_latch := p.eval_read_latch,
    oam_write_during_eval := p.oam_write_during_eval,
    sprite_zero_next := p.sprite_zero_next, sprite0_slot_next := p.sprite0_slot_next,
    ctrl := p.ctrl }

/-- The framebuffer, the palette RAM, the emphasis table and its flag. -/
def pix4 (w : World) : (Int → Nat) × (Nat → Nat) × (Nat → Nat → Nat) × Bool :=
  (w.ppu.fb, w.ppu.palette, w.emphasis_lut, w.emphasis_lut_init)

/-- Both views: what the blocks of `ppu_clock` other than the pixel output and
the sprite evaluation leave alone. -/
def rview (w : World) : ((Int → Nat) × (Nat → Nat) × (Nat → Nat → Nat) × Bool) × EvalView :=
  (pix4 w, evalv w.ppu)

/-- Every entry of the palette RAM is a 6-bit value. -/
def pal_ok (w : World) : Prop := ∀ i, w.ppu.palette i ≤ 0x3F

/-- Once the emphasis table is filled, its entries are palette indices. -/
def lut_ok (w : World) : Prop :=
  w.emphasis_lut_init = true → ∀ e i, e < 8 → i < 64 → w.emphasis_lut e i < 64

/-- The states reachable from `ppu_reset` by `ppu_clock`, `ppu_read` and
`ppu_write`.  The first `ppu_reset` runs in a state of the program in which
`emphasis_lut_init` still has its initial value `false`; a later `ppu_reset`
runs in a reachable state. -/
inductive PpuReachable : World → Prop where
  | boot (hard : Int) (rnd : Nat) (vidbuf : Int → Nat) (w0 : World) :
      w0.emphasis_lut_init = false → PpuReachable (ppu_reset hard rnd vidbuf w0)
  | reset (hard : Int) (rnd : Nat) (vidbuf : Int → Nat) (w : World) :
      PpuReachable w → PpuReachable (ppu_reset hard rnd vidbuf w)
  | clock (w : World) : PpuReachable w → PpuReachable (ppu_clock w)
  | read (addr : Nat) (w : World) : PpuReachable w → PpuReachable (ppu_read addr w).2
  | write (addr value : Nat) (w : World) : PpuReachable w → PpuReachable (ppu_write addr value w)

/-- Sprite `n` of the OAM `o` is in range for the line after `line`: its Y byte
satisfies `0 ≤ (line + 1) - Y < height`, the height being 16 when bit 5 of
PPUCTRL is set and 8 otherwise. -/
@[reducible] def sprite_on_next_line (o : Nat → Nat) (ctrl : Nat) (line : Int) (n : Nat) : Prop :=
  0 ≤ (line + 1) - (o (4 * n) : Int) ∧
  (line + 1) - (o (4 * n) : Int) < (if (ctrl &&& 0x20) ≠ 0 then 16 else 8)

/-- The state of the sprite evaluation before dot `d` of a line on which the
evaluation has copied nothing so far: OAM is `o`, PPUCTRL is `c`, no `$2004`
write was seen; from dot 2 on secondary OAM is all `$FF` and its index is 0;
up to dot 65 the OAM address is 0, from dot 65 on it has advanced by one for
every two dots, and the in-range flag is clear except before the Y byte of a
sprite is read. -/
def eval_idle (o : Nat → Nat) (c : Nat) (d : Int) (p : ppu_s) : Prop :=
  p.oam = o ∧ p.ctrl = c ∧ p.oam_write_during_eval = false ∧
  (2 ≤ d →
    (∀ i, i < 32 → p.sec_oam i = 0xFF) ∧ p.eval_sec_idx = 0 ∧
    (d ≤ 65 → p.eval_oam_addr = 0 ∧ p.eval_byte_index = 0) ∧
    (65 ≤ d → (p.eval_oam_addr : Int) = (d - 65) / 2 ∧
      p.eval_byte_index = p.eval_oam_addr % 4 ∧
      ((d % 2 = 0 ∨ p.eval_byte_index ≠ 0) → p.sprite_in_range = false)))

/-- A machine at dot 1 of the visible line 10 with rendering enabled, in which
sprite 24 has the Y byte 10 (in range for line 11) and every other OAM byte is
`$FF`. -/
def eval_gap_machine : World :=
  { ppu := { scanline := 10, dot := 1, mask := 0x18,
             oam := fun i => if i = 96 then 10 else 0xFF } }

/-! ## Auxiliary definitions for the statements about the MMC3 CHR layout, the
MMC5 work-RAM, the sprite fetch and the snapshot load -/

/-- A sequence of CPU writes `(address, value)` handed to `map5_write`, first
element first. -/
def map5_writes : List (Nat × Nat) → World → World
  | [], w => w
  | (a, v) :: rest, w => map5_writes rest (map5_write a v w)

/-- The CHR layout of the MMC3 in terms of the mapper's registers: with `b` =
`$1000` if bit 7 of the bank-select register is set, else 0, the 1 KiB pages at
`b XOR o` hold `R0 & $FE` and `(R0 & $FE) + 1` at `o = $0000, $0400`, `R1 & $FE`
and `(R1 & $FE) + 1` at `o = $0800, $0C00`, and R2, R3, R4, R5 at
`o = $1000, $1400, $1800, $1C00`. -/
def map4_chr_layout (w : World) : Prop :=
  let b : Nat := if (w.map4.reg8000 &&& 0x80) ≠ 0 then 0x1000 else 0x0000
  w.chr_bank ((b ^^^ 0x0000) >>> 10) = ((w.map4.chr_reg 0 &&& 0xFE : Nat) : Int) ∧
  w.chr_bank ((b ^^^ 0x0400) >>> 10) = ((w.map4.chr_reg 0 &&& 0xFE : Nat) : Int) + 1 ∧
  w.chr_bank ((b ^^^ 0x0800) >>> 10) = ((w.map4.chr_reg 1 &&& 0xFE : Nat) : Int) ∧
  w.chr_bank ((b ^^^ 0x0C00) >>> 10) = ((w.map4.chr_reg 1 &&& 0xFE : Nat) : Int) + 1 ∧
  w.chr_bank ((b ^^^ 0x1000) >>> 10) = (w.map4.chr_reg 2 : Int) ∧
  w.chr_bank ((b ^^^ 0x1400) >>> 10) = (w.map4.chr_reg 3 : Int) ∧
  w.chr_bank ((b ^^^ 0x1800) >>> 10) = (w.map4.chr_reg 4 : Int) ∧
  w.chr_bank ((b ^^^ 0x1C00) >>> 10) = (w.map4.chr_reg 5 : Int)

/-- The variable `vrombase` of `map004.c` agrees with bit 7 of the bank-select
register. -/
def map4_vrombase_ok (w : World) : Prop :=
  w.map4.vrombase = (if (w.map4.reg8000 &&& 0x80) ≠ 0 then 0x1000 else 0x0000)

/-- The CHR layout of `map4_chr_layout` as a property of the offset `b`, the
1 KiB page table `cb` and the CHR registers `cr`. -/
def chr_layout_at (b : Nat) (cb : Nat → Int) (cr : Nat → Nat) : Prop :=
  cb ((b ^^^ 0x0000) >>> 10) = ((cr 0 &&& 0xFE : Nat) : Int) ∧
  cb ((b ^^^ 0x0400) >>> 10) = ((cr 0 &&& 0xFE : Nat) : Int) + 1 ∧
  cb ((b ^^^ 0x0800) >>> 10) = ((cr 1 &&& 0xFE : Nat) : Int) ∧
  cb ((b ^^^ 0x0C00) >>> 10) = ((cr 1 &&& 0xFE : Nat) : Int) + 1 ∧
  cb ((b ^^^ 0x1000) >>> 10) = (cr 2 : Int) ∧
  cb ((b ^^^ 0x1400) >>> 10) = (cr 3 : Int) ∧
  cb ((b ^^^ 0x1800) >>> 10) = (cr 4 : Int) ∧
  cb ((b ^^^ 0x1C00) >>> 10) = (cr 5 : Int)

/-- A machine at dot 257 of the visible line 10 with rendering enabled and 8x8
sprites, whose secondary OAM holds `$FF` in every byte (all eight slots are
empty); `ctrl` is the value of PPUCTRL. -/
def empty_slot_machine (ctrl : Nat) : World :=
  { ppu := { scanline := 10, dot := 257, mask := 0x18, ctrl := ctrl,
             sec_oam := fun _ => 0xFF } }

/-! ## The shift registers, PPUSTATUS, the NMI and the latches of dot 257 -/

/-- The fields of the machine that are followed through `ppu_clock` for the
statements on the background shift registers, PPUSTATUS, the NMI and the
latches of dot 257: the four shift registers, `status`, `nmi_prev`,
`nmi_delay`, the number of `nes_nmi` calls, `sprite_count` and `oam_addr`. -/
structure StatView where
  pt_lo : Nat
  pt_hi : Nat
  at_lo : Nat
  at_hi : Nat
  status : Nat
  nmi_prev : Bool
  nmi_delay : Nat
  nmi_calls : Nat
  sprite_count : Nat
  oam_addr : Nat

/-- The `StatView` of a machine state. -/
def sview (w : World) : StatView :=
  { pt_lo := w.ppu.bg.pt_lo, pt_hi := w.ppu.bg.pt_hi, at_lo := w.ppu.bg.at_lo,
    at_hi := w.ppu.bg.at_hi, status := w.ppu.status, nmi_prev := w.ppu.nmi_prev,
    nmi_delay := w.ppu.nmi_delay, nmi_calls := w.cpu.nmi_calls,
    sprite_count := w.ppu.sprite_count, oam_addr := w.ppu.oam_addr }

/-- The effect of `nmi_step` on the view; `ctrl` is PPUCTRL. -/
def sv_nmi_step (ctrl : Nat) (s : StatView) : StatView :=
  { s with
    nmi_delay := s.nmi_delay - 1,
    nmi_calls := if s.nmi_delay = 1 ∧ (ctrl &&& 0x80) ≠ 0 ∧ (s.status &&& 0x80) ≠ 0
                 then s.nmi_calls + 1 else s.nmi_calls }

/-- The effect of `bg_shift` on the view. -/
def sv_bg_shift (s : StatView) : StatView :=
  { s with pt_lo := (s.pt_lo <<< 1) % 65536, pt_hi := (s.pt_hi <<< 1) % 65536,
           at_lo := (s.at_lo <<< 1) % 65536, at_hi := (s.at_hi <<< 1) % 65536 }

/-- The effect of block 2 of `ppu_clock` on the view; `ren` is
`RENDERING_ENABLED`. -/
def sv_shift (ren : Bool) (dot : Int) (s : StatView) : StatView :=
  if ren = true ∧ ((2 ≤ dot ∧ dot ≤ 257) ∨ (321 ≤ dot ∧ dot ≤ 336)) then sv_bg_shift s else s

/-- The effect of the dot-257 latches on the view; `ovf` and `idx` are
`eval_overflow` and `eval_sec_idx`. -/
def sv_dot257 (dot : Int) (ovf : Bool) (idx : Nat) (s : StatView) : StatView :=
  if dot = 257 then
    { s with status := if ovf then s.status ||| 0x20 else s.status &&& 0xDF,
             sprite_count := if 8 < idx >>> 2 then 8 else idx >>> 2,
             oam_addr := 0 }
  else s

/-- The effect of `nmi_check` on the view. -/
def sv_nmi_check (ctrl : Nat) (pal : Bool) (s : StatView) : StatView :=
  let nmi : Bool := ((ctrl &&& 0x80) != 0) && ((s.status &&& 0x80) != 0)
  { s with nmi_delay := if nmi && !s.nmi_prev then (if pal then 7 else 6) else s.nmi_delay,
           nmi_prev := nmi }

/-- The effect of block 5 of `ppu_clock` on the view; `pre` is
`IS_PRERENDER_LINE`. -/
def sv_vblank (scanline dot : Int) (pre : Bool) (ctrl : Nat) (pal : Bool) (s : StatView) :
    StatView :=
  let s1 := if scanline = 241 ∧ dot = 1 then
      sv_nmi_check ctrl pal { s with status := s.status ||| 0x80 } else s
  if pre = true ∧ dot = 1 then sv_nmi_check ctrl pal { s1 with status := s1.status &&& 0x1F }
  else s1

/-- The view `s2` is the view `s` after a reload of the shifters: the low bytes
of the four registers and every other field are those of `s`. -/
def sv_reloaded (s s2 : StatView) : Prop :=
  s2.pt_lo % 256 = s.pt_lo % 256 ∧ s2.pt_hi % 256 = s.pt_hi % 256 ∧
  s2.at_lo % 256 = s.at_lo % 256 ∧ s2.at_hi % 256 = s.at_hi % 256 ∧
  s2.status = s.status ∧ s2.nmi_prev = s.nmi_prev ∧ s2.nmi_delay = s.nmi_delay ∧
  s2.nmi_calls = s.nmi_calls ∧ s2.sprite_count = s.sprite_count ∧ s2.oam_addr = s.oam_addr

/-- The four 16-bit background shift registers `pt_lo`, `pt_hi`, `at_lo`,
`at_hi`. -/
def regs4 (w : World) : Nat × Nat × Nat × Nat :=
  (w.ppu.bg.pt_lo, w.ppu.bg.pt_hi, w.ppu.bg.at_lo, w.ppu.bg.at_hi)

/-- The dots at which block 3 of `ppu_clock` reloads the shifters: a visible or
the pre-render line, a fetch window, and `dot & 7 = 7`. -/
def reload_dot (w : World) : Prop :=
  (IS_VISIBLE_LINE w = true ∨ IS_PRERENDER_LINE w = true) ∧
  ((1 ≤ w.ppu.dot ∧ w.ppu.dot ≤ 256) ∨ (321 ≤ w.ppu.dot ∧ w.ppu.dot ≤ 340)) ∧
  w.ppu.dot % 8 = 7

/-- The shift window of block 2 of `ppu_clock`. -/
def shift_window (d : Int) : Prop := (2 ≤ d ∧ d ≤ 257) ∨ (321 ≤ d ∧ d ≤ 336)

instance (d : Int) : Decidable (shift_window d) := by unfold shift_window; infer_instance

/-- The four shift registers after block 2 of a `ppu_clock` run in state `w`:
shifted left by one bit when rendering is enabled and the dot is in the shift
window, unchanged otherwise. -/
def regs_after_shift (w : World) : Nat × Nat × Nat × Nat :=
  if RENDERING_ENABLED w = true ∧ shift_window w.ppu.dot then regs4 (bg_shift w) else regs4 w

/-- A machine on dot `d` of the visible line 10 with rendering enabled and
`$0100` in each of the four background shift registers. -/
def shift_window_machine (d : Int) : World :=
  { ppu := { scanline := 10, dot := d, mask := 0x18,
             bg := { pt_lo := 0x0100, pt_hi := 0x0100, at_lo := 0x0100, at_hi := 0x0100 } } }

/-- The low bytes of the four background shift registers are zero. -/
def low_bytes_zero (w : World) : Prop :=
  w.ppu.bg.pt_lo % 256 = 0 ∧ w.ppu.bg.pt_hi % 256 = 0 ∧
  w.ppu.bg.at_lo % 256 = 0 ∧ w.ppu.bg.at_hi % 256 = 0

/-- The fields of the `ppu` record that no register access touches: the
background pipeline, secondary OAM and its index, the overflow flag and the
sprite count. -/
def regview (w : World) : bg_t × (Nat → Nat) × Nat × Bool × Nat :=
  (w.ppu.bg, w.ppu.sec_oam, w.ppu.eval_sec_idx, w.ppu.eval_overflow, w.ppu.sprite_count)

/-- The evaluation step run by a `ppu_clock` in state `w` flags an overflow: the
dot is an even dot of 65..256 of a visible or the pre-render line with
rendering enabled, the evaluation is neither finished nor disturbed by a
`$2004` write, and an in-range sprite meets a full secondary OAM. -/
def overflow_event (w : World) : Bool :=
  decide (65 ≤ w.ppu.dot ∧ w.ppu.dot ≤ 256 ∧ w.ppu.dot % 2 = 0) &&
  (IS_VISIBLE_LINE w || IS_PRERENDER_LINE w) && RENDERING_ENABLED w &&
  decide (w.ppu.eval_oam_addr ≤ 255) && !w.ppu.oam_write_during_eval &&
  w.ppu.sprite_in_range && decide (32 ≤ w.ppu.eval_sec_idx)

/-- A machine on dot `d` of the visible line 10 with PPUMASK `mask`, in which
sprite 0 sits in output unit 0 with an opaque leftmost pixel at X counter 0
and the background shifters show an opaque pixel: everything a sprite-0 hit
needs except what `d` and `mask` decide. -/
def sprite0_machine (d : Int) (mask : Nat) : World :=
  { ppu := { scanline := 10, dot := d, mask := mask,
             sprite_zero_this := true, sprite0_slot_this := 0,
             bg := { pt_lo := 0x8000 },
             spr := fun i => if i = 0 then { x := 0, pt_lo := 0x80, in_range := true } else {} } }

/-- The value that `nmi_check` stores in `nmi_delay` on a rising edge of the
NMI condition: 7 dots on PAL, 6 on NTSC. -/
def nmi_delay_dots (pal : Bool) : Nat := if pal then 7 else 6

/-- The beam is on dot 1 of line 241, where the VBlank flag is set. -/
def at_vblank_start (w : World) : Prop := w.ppu.scanline = 241 ∧ w.ppu.dot = 1

/-- A machine on dot 1 of line 241 with NMI generation enabled in PPUCTRL and
the VBlank flag clear; `pal` selects the region. -/
def vblank_machine (pal : Bool) : World :=
  { ppu := { scanline := 241, dot := 1, ctrl := 0x80 }, ppu_is_pal := pal }

/-! ## The OAM DMA burn loop: the PAL accumulator and the A12 filter -/

/-- The PAL dot accumulator `ppu.pal_ppu_accum`, which only
`ppu_step_one_cpu_cycle` changes. -/
def accv (w : World) : Nat := w.ppu.pal_ppu_accum

/-- The state of the MMC3 A12 filter: the previous level, the count of M2
cycles with A12 low, and the current level. -/
def a12v (w : World) : Bool × Int × Bool :=
  (w.a12_prev, w.mmc3_a12_low_m2_count, w.mmc3_a12_level)

/-- The number of dots that `n` CPU cycles of `ppu_step_one_cpu_cycle` add to
`ppu_cycles_total`: 3 per cycle on NTSC, and on PAL 16 per 5 cycles with the
remainder kept in the accumulator `acc`. -/
def dma_dots (pal : Bool) (acc n : Nat) : Nat :=
  if pal then (acc + 16 * n) / 5 else 3 * n

/-- The count of M2 cycles with A12 low after `k` calls of `ppu_mmc3_m2_tick(1)`
with nothing else touching the filter: unchanged while A12 is high, else one
more per call, saturating at 8. -/
def m2_after (level : Bool) (c : Int) (k : Nat) : Int :=
  if level = true ∨ k = 0 then c else if 8 < c + k then 8 else c + k

/-- The machine of `ppu_writehigh($4014, val)` when its burn loop starts: the
256 bytes are copied and OAMADDR is reset. -/
def dma_after_copy (val : Nat) (w : World) : World :=
  let base := (val <<< 8) % 65536
  let w1 := oam_dma_copy base 256 0 w
  { w1 with ppu := { w1.ppu with oam_addr := 0 } }

/-- A machine on dot 130 of the visible line 10 with rendering enabled and 10
in every byte of OAM, so that all sprites lie on the next line, in the state
that sprite evaluation has then reached: secondary OAM is full (index 32) with
sprites 0..7 after dots 65..128, and the read of dot 129 has found the Y byte
of sprite 8 (OAM address 32) in range. -/
def overflow_machine : World :=
  { ppu := { scanline := 10, dot := 130, mask := 0x18,
             oam := fun _ => 10, sec_oam := fun _ => 10,
             sprite_zero_next := true, sprite0_slot_next := 0,
             eval_oam_addr := 32, eval_sec_idx := 32, eval_sprite_idx := 8,
             eval_byte_index := 0, eval_read_latch := 10, sprite_in_range := true } }

/-- The shift window in the words of the specification: dots 2..257 and
322..337. -/
def claimed_shift_window (d : Int) : Prop := (2 ≤ d ∧ d ≤ 257) ∨ (322 ≤ d ∧ d ≤ 337)

instance (d : Int) : Decidable (claimed_shift_window d) := by
  unfold claimed_shift_window; infer_instance

/-- The number of dots among the `n` dots from `lo` on that lie in the window
`win`: the number of shifts that the clocks of these dots make. -/
def shift_count (win : Int → Bool) (lo n : Nat) : Nat :=
  ((List.range n).filter (fun i => win ((lo + i : Nat) : Int))).length

/-- The next `m` clocks all run on the lines 240..260, the post-render line and
the VBlank lines of both regions, on which the PPU fetches nothing. -/
def vblank_room (w : World) (m : Nat) : Prop :=
  240 ≤ w.ppu.scanline ∧ 0 ≤ w.ppu.dot ∧ w.ppu.dot ≤ 340 ∧
  (w.ppu.scanline - 240) * 341 + w.ppu.dot + m ≤ 7161

instance (w : World) (m : Nat) : Decidable (vblank_room w m) := by
  unfold vblank_room; infer_instance

/-- The statements `nes6502_burn(1); nes->cpu_cycles_total++;` that end a round
of the burn loop. -/
def burn_and_count (w : World) : World :=
  let w3 : World := { w with cpu := { w.cpu with burned := w.cpu.burned + 1 } }
  { w3 with nes := { w3.nes with cpu_cycles_total := (w3.nes.cpu_cycles_total + 1) % 2 ^ 64 } }

/-! ## Theorems -/

theorem map4_clock_irq_counter (w : World) :
    (map4_clock_irq w).map4.irq.counter = map4_next_counter w.map4.irq := by
  unfold map4_clock_irq map4_next_counter nes_irq
  by_cases h1 : w.map4.irq.reload_flag = true <;> by_cases h2 : w.map4.irq.counter = 0 <;>
    by_cases h3 : w.map4.irq.enabled = true <;> by_cases h4 : w.map4.irq.latch = 0 <;>
    by_cases h5 : (w.map4.irq.counter - 1) % 256 = 0 <;> simp [h1, h2, h3, h4, h5]

theorem map4_clock_irq_latch (w : World) :
    (map4_clock_irq w).map4.irq.latch = w.map4.irq.latch := by
  unfold map4_clock_irq nes_irq
  by_cases h1 : w.map4.irq.reload_flag = true <;> by_cases h2 : w.map4.irq.counter = 0 <;>
    by_cases h3 : w.map4.irq.enabled = true <;> by_cases h4 : w.map4.irq.latch = 0 <;>
    by_cases h5 : (w.map4.irq.counter - 1) % 256 = 0 <;> simp [h1, h2, h3, h4, h5]

theorem map4_clock_irq_enabled (w : World) :
    (map4_clock_irq w).map4.irq.enabled = w.map4.irq.enabled := by
  unfold map4_clock_irq nes_irq
  by_cases h1 : w.map4.irq.reload_flag = true <;> by_cases h2 : w.map4.irq.counter = 0 <;>
    by_cases h3 : w.map4.irq.enabled = true <;> by_cases h4 : w.map4.irq.latch = 0 <;>
    by_cases h5 : (w.map4.irq.counter - 1) % 256 = 0 <;> simp [h1, h2, h3, h4, h5]

theorem map4_clock_irq_reload (w : World) :
    (map4_clock_irq w).map4.irq.reload_flag = false := by
  unfold map4_clock_irq nes_irq
  by_cases h1 : w.map4.irq.reload_flag = true <;> by_cases h2 : w.map4.irq.counter = 0 <;>
    by_cases h3 : w.map4.irq.enabled = true <;> by_cases h4 : w.map4.irq.latch = 0 <;>
    by_cases h5 : (w.map4.irq.counter - 1) % 256 = 0 <;> simp [h1, h2, h3, h4, h5]

theorem map4_clock_irq_calls (w : World) :
    (map4_clock_irq w).cpu.irq_calls = w.cpu.irq_calls +
      (if w.map4.irq.enabled = true ∧ map4_next_counter w.map4.irq = 0 then 1 else 0) := by
  unfold map4_clock_irq map4_next_counter nes_irq
  by_cases h1 : w.map4.irq.reload_flag = true <;> by_cases h2 : w.map4.irq.counter = 0 <;>
    by_cases h3 : w.map4.irq.enabled = true <;> by_cases h4 : w.map4.irq.latch = 0 <;>
    by_cases h5 : (w.map4.irq.counter - 1) % 256 = 0 <;> simp [h1, h2, h3, h4, h5]

theorem map4_clock_irq_line (w : World) :
    (map4_clock_irq w).cpu.ext_irq_line =
      (if w.map4.irq.enabled = true ∧ map4_next_counter w.map4.irq = 0 then 1
       else w.cpu.ext_irq_line) := by
  unfold map4_clock_irq map4_next_counter nes_irq
  by_cases h1 : w.map4.irq.reload_flag = true <;> by_cases h2 : w.map4.irq.counter = 0 <;>
    by_cases h3 : w.map4.irq.enabled = true <;> by_cases h4 : w.map4.irq.latch = 0 <;>
    by_cases h5 : (w.map4.irq.counter - 1) % 256 = 0 <;> simp [h1, h2, h3, h4, h5]

/-- State of the IRQ counter after `k` clocks of the cadence run, in terms
of the quotient and remainder of `k` by `N + 1`. -/
theorem map4_clocks_cadence_aux (N : Nat) (hN1 : 1 ≤ N) (hN2 : N ≤ 255) (w : World)
    (hc : w.map4.irq.counter = 0)
    (he : w.map4.irq.enabled = true) (hl : w.map4.irq.latch = N) (k : Nat) :
    ∃ q r, k = q * (N + 1) + r ∧ r ≤ N ∧
      (map4_clocks k w).cpu.irq_calls = w.cpu.irq_calls + q ∧
      (map4_clocks k w).map4.irq.counter = (if r = 0 then 0 else N + 1 - r) ∧
      (map4_clocks k w).map4.irq.enabled = true ∧
      (map4_clocks k w).map4.irq.latch = N := by
  induction k with
  | zero => exact ⟨0, 0, by simp, by omega, by simp [map4_clocks], by simp [map4_clocks, hc],
      by simp [map4_clocks, he], by simp [map4_clocks, hl]⟩
  | succ k ih =>
    obtain ⟨q, r, hk, hrN, h1, h2, h4, h5⟩ := ih
    have hrl : r ≠ 0 → (map4_clocks k w).map4.irq.reload_flag = false := by
      intro hr0
      cases k with
      | zero =>
        exfalso
        rcases Nat.eq_zero_or_pos q with hq | hq
        · subst hq; omega
        · have : 1 * (N + 1) ≤ q * (N + 1) := Nat.mul_le_mul_right _ hq
          omega
      | succ j => simp [map4_clocks, map4_clock_irq_reload]
    have hnc : map4_next_counter (map4_clocks k w).map4.irq
        = if r = 0 then N else N - r := by
      unfold map4_next_counter
      by_cases hr0 : r = 0
      · have hc0 : (map4_clocks k w).map4.irq.counter = 0 := by rw [h2]; simp [hr0]
        simp [hr0, hc0, h5]
      · have hc1 : (map4_clocks k w).map4.irq.counter = N + 1 - r := by rw [h2]; simp [hr0]
        have hne : N + 1 - r ≠ 0 := by omega
        rw [hrl hr0, hc1]
        simp only [hne, hr0, or_self, if_false, Bool.false_eq_true]
        omega
    by_cases hrN2 : r = N
    · have hz : (if r = 0 then N else N - r) = 0 := by split <;> omega
      refine ⟨q + 1, 0, by rw [hk, hrN2]; ring, by omega, ?_, ?_, ?_, ?_⟩
      · simp only [map4_clocks, map4_clock_irq_calls, hnc, h1, h4, hz]
        simp; omega
      · simp only [map4_clocks, map4_clock_irq_counter, hnc, hz]
        simp
      · simp only [map4_clocks, map4_clock_irq_enabled, h4]
      · simp only [map4_clocks, map4_clock_irq_latch, h5]
    · have hv : (if r = 0 then N else N - r) = N + 1 - (r + 1) := by split <;> omega
      have hnz : N + 1 - (r + 1) ≠ 0 := by omega
      refine ⟨q, r + 1, by omega, by omega, ?_, ?_, ?_, ?_⟩
      · simp only [map4_clocks, map4_clock_irq_calls, hnc, h1, h4, hv]
        simp only [hnz, and_false, if_false, true_and, Nat.add_zero]
      · simp only [map4_clocks, map4_clock_irq_counter, hnc, hv]
        simp
      · simp only [map4_clocks, map4_clock_irq_enabled, h4]
      · simp only [map4_clocks, map4_clock_irq_latch, h5]

/-- Number of IRQs raised by the first `k` clocks of the cadence run. -/
theorem map4_clocks_cadence_calls (N : Nat) (hN1 : 1 ≤ N) (hN2 : N ≤ 255) (w : World)
    (hc : w.map4.irq.counter = 0)
    (he : w.map4.irq.enabled = true) (hl : w.map4.irq.latch = N) (k : Nat) :
    (map4_clocks k w).cpu.irq_calls = w.cpu.irq_calls + k / (N + 1) := by
  obtain ⟨q, r, hk, hrN, h1, -, -, -⟩ := map4_clocks_cadence_aux N hN1 hN2 w hc he hl k
  have hpos : 0 < N + 1 := by omega
  have := (Nat.div_mod_unique hpos (a := k) (d := q) (c := r)).mpr
    ⟨by rw [hk]; ring, by omega⟩
  rw [h1, this.1]

/-- C1. One clock of the MMC3 IRQ counter (`map4_clock_irq`, new-style build):
the counter becomes the latch if the reload flag was set or the counter was 0,
and is decremented otherwise; the reload flag is cleared; latch and enable are
untouched; and `nes_irq` is called by this clock (exactly once, raising the
external IRQ line) if and only if IRQs are enabled and the new counter is 0. -/
theorem C1_map4_clock_irq_step (w : World) (hc : w.map4.irq.counter < 256) :
    (map4_clock_irq w).map4.irq.counter =
        (if w.map4.irq.reload_flag = true ∨ w.map4.irq.counter = 0
         then w.map4.irq.latch else w.map4.irq.counter - 1)
    ∧ (map4_clock_irq w).map4.irq.reload_flag = false
    ∧ (map4_clock_irq w).map4.irq.latch = w.map4.irq.latch
    ∧ (map4_clock_irq w).map4.irq.enabled = w.map4.irq.enabled
    ∧ ((map4_clock_irq w).cpu.irq_calls = w.cpu.irq_calls + 1 ↔
        (w.map4.irq.enabled = true ∧ (map4_clock_irq w).map4.irq.counter = 0))
    ∧ ((map4_clock_irq w).cpu.irq_calls = w.cpu.irq_calls ↔
        ¬ (w.map4.irq.enabled = true ∧ (map4_clock_irq w).map4.irq.counter = 0))
    ∧ ((w.map4.irq.enabled = true ∧ (map4_clock_irq w).map4.irq.counter = 0) →
        (map4_clock_irq w).cpu.ext_irq_line = 1) := by
  have hm : (w.map4.irq.counter - 1) % 256 = w.map4.irq.counter - 1 := by omega
  refine ⟨?_, map4_clock_irq_reload w, map4_clock_irq_latch w, map4_clock_irq_enabled w,
    ?_, ?_, ?_⟩
  · rw [map4_clock_irq_counter, map4_next_counter, hm]
  · rw [map4_clock_irq_calls, map4_clock_irq_counter]
    split <;> simp_all
  · rw [map4_clock_irq_calls, map4_clock_irq_counter]
    split <;> simp_all
  · intro h
    rw [map4_clock_irq_counter] at h
    rw [map4_clock_irq_line, if_pos h]

theorem C1_map4_clock_irq_step_witness :
    (5 : Nat) < 256 ∧
    (map4_clock_irq { map4 := { irq := { counter := 5, latch := 9, enabled := true } } }
      ).map4.irq.counter = 4 := by
  refine ⟨by decide, ?_⟩
  have h := (C1_map4_clock_irq_step
    { map4 := { irq := { counter := 5, latch := 9, enabled := true } } } (by decide)).1
  simpa using h

/-- C2. MMC3 IRQ cadence: with latch `N` in 1..255, starting from counter 0,
reload flag set and IRQs enabled, and only IRQ clocks from then on, the `k`-th
clock (`k ≥ 1`) raises the IRQ if and only if `k` is a multiple of `N + 1`;
for `N = 5` the only clock among the first 10 that raises it is the 6th, so the
IRQ is raised exactly once in 10 clocks. -/
theorem C2_map4_irq_cadence (N : Nat) (hN1 : 1 ≤ N) (hN2 : N ≤ 255) (w : World)
    (hc : w.map4.irq.counter = 0) (hr : w.map4.irq.reload_flag = true)
    (he : w.map4.irq.enabled = true) (hl : w.map4.irq.latch = N) :
    (∀ k, 1 ≤ k → (map4_irq_on_clock w k ↔ (N + 1) ∣ k))
    ∧ (N = 5 → (∀ k, 1 ≤ k → k ≤ 10 → (map4_irq_on_clock w k ↔ k = 6))
        ∧ (map4_clocks 10 w).cpu.irq_calls = w.cpu.irq_calls + 1) := by
  have _ := hr
  have gen : ∀ k, 1 ≤ k → (map4_irq_on_clock w k ↔ (N + 1) ∣ k) := by
    intro k hk
    unfold map4_irq_on_clock
    rw [map4_clocks_cadence_calls N hN1 hN2 w hc he hl k,
      map4_clocks_cadence_calls N hN1 hN2 w hc he hl (k - 1)]
    obtain ⟨j, rfl⟩ : ∃ j, k = j + 1 := ⟨k - 1, by omega⟩
    rw [Nat.add_sub_cancel, Nat.succ_div]
    by_cases hd : (N + 1) ∣ (j + 1)
    · simp [hd]; omega
    · simp [hd]
  refine ⟨gen, ?_⟩
  intro h5
  subst h5
  refine ⟨?_, ?_⟩
  · intro k hk1 hk2
    rw [gen k hk1]
    omega
  · rw [map4_clocks_cadence_calls 5 hN1 hN2 w hc he hl 10]

theorem C2_map4_irq_cadence_witness :
    map4_irq_on_clock
      { map4 := { irq := { counter := 0, latch := 5, enabled := true, reload_flag := true } } } 6 :=
  ((C2_map4_irq_cadence 5 (by decide) (by decide)
    { map4 := { irq := { counter := 0, latch := 5, enabled := true, reload_flag := true } } }
    rfl rfl rfl rfl).1 6 (by decide)).mpr (by decide)

/-! ### A12 filter -/

theorem map4_clock_irq_frame (w : World) :
    (map4_clock_irq w).hook_log = w.hook_log ∧
    (map4_clock_irq w).mapper_ppu_hook = w.mapper_ppu_hook ∧
    (map4_clock_irq w).a12_prev = w.a12_prev ∧
    (map4_clock_irq w).mmc3_a12_level = w.mmc3_a12_level ∧
    (map4_clock_irq w).mmc3_a12_low_m2_count = w.mmc3_a12_low_m2_count := by
  unfold map4_clock_irq nes_irq
  by_cases h1 : w.map4.irq.reload_flag = true <;> by_cases h2 : w.map4.irq.counter = 0 <;>
    by_cases h3 : w.map4.irq.enabled = true <;> by_cases h4 : w.map4.irq.latch = 0 <;>
    by_cases h5 : (w.map4.irq.counter - 1) % 256 = 0 <;> simp [h1, h2, h3, h4, h5]

theorem call_mapper_hook_frame (h : MapperHook) (addr : Nat) (w : World) :
    (call_mapper_hook h addr w).hook_log = w.hook_log ++ [addr] ∧
    (call_mapper_hook h addr w).mapper_ppu_hook = w.mapper_ppu_hook ∧
    (call_mapper_hook h addr w).a12_prev = w.a12_prev ∧
    (call_mapper_hook h addr w).mmc3_a12_level = w.mmc3_a12_level ∧
    (call_mapper_hook h addr w).mmc3_a12_low_m2_count = w.mmc3_a12_low_m2_count := by
  cases h
  simp only [call_mapper_hook, map4_ppu_tick]
  obtain ⟨a, b, c, d, e⟩ := map4_clock_irq_frame { w with hook_log := w.hook_log ++ [addr] }
  exact ⟨a, b, c, d, e⟩

/-- Effect of `mmc3_track_a12` on the filter state and on the hook log. -/
theorem mmc3_track_a12_spec (addr : Nat) (w : World) :
    (mmc3_track_a12 addr w).a12_prev = ((addr &&& 0x1000) != 0) ∧
    (mmc3_track_a12 addr w).mmc3_a12_level = ((addr &&& 0x1000) != 0) ∧
    (mmc3_track_a12 addr w).mapper_ppu_hook = w.mapper_ppu_hook ∧
    (mmc3_track_a12 addr w).mmc3_a12_low_m2_count =
      (if a12_rising addr w = true then 0 else w.mmc3_a12_low_m2_count) ∧
    (mmc3_track_a12 addr w).hook_log =
      (if a12_rising addr w = true ∧ 3 ≤ w.mmc3_a12_low_m2_count ∧ w.mapper_ppu_hook ≠ none
       then w.hook_log ++ [addr &&& 0x1FFF] else w.hook_log) := by
  unfold mmc3_track_a12 a12_rising
  by_cases hr : (!w.a12_prev && ((addr &&& 0x1000) != 0)) = true
  · by_cases hc : 3 ≤ w.mmc3_a12_low_m2_count
    · cases hh : w.mapper_ppu_hook with
      | none => simp [hr, hc, hh]
      | some h =>
        obtain ⟨a, b, c, d, e⟩ := call_mapper_hook_frame h (addr &&& 0x1FFF) w
        simp [hr, hc, hh, a, b]
    · simp [hr, hc]
  · simp [hr]

theorem ppu_mmc3_m2_tick_spec (c : Int) (w : World) :
    (ppu_mmc3_m2_tick c w).a12_prev = w.a12_prev ∧
    (ppu_mmc3_m2_tick c w).mmc3_a12_level = w.mmc3_a12_level ∧
    (ppu_mmc3_m2_tick c w).mapper_ppu_hook = w.mapper_ppu_hook ∧
    (ppu_mmc3_m2_tick c w).hook_log = w.hook_log ∧
    (ppu_mmc3_m2_tick c w).mmc3_a12_low_m2_count ≤
      w.mmc3_a12_low_m2_count + (if w.mmc3_a12_level then 0 else c) := by
  unfold ppu_mmc3_m2_tick
  by_cases hl : w.mmc3_a12_level = true
  · simp [hl]
  · simp only [hl, Bool.not_false, if_true, Bool.false_eq_true, if_false, true_and]
    split <;> omega

/-- Between two edges the low counter is bounded by what was ticked while A12
was low, and the hook is not called. -/
theorem a12_run_no_rising (es : List A12Event) (w : World) (h : a12_no_rising es w = true) :
    (a12_run es w).hook_log = w.hook_log ∧
    (a12_run es w).mapper_ppu_hook = w.mapper_ppu_hook ∧
    (a12_run es w).mmc3_a12_low_m2_count ≤ w.mmc3_a12_low_m2_count + a12_low_ticks es w := by
  induction es generalizing w with
  | nil => simp [a12_run, a12_low_ticks]
  | cons e es ih =>
    cases e with
    | access addr =>
      simp only [a12_no_rising, Bool.and_eq_true, Bool.not_eq_true'] at h
      obtain ⟨h1, h2, h3⟩ := ih (mmc3_track_a12 addr w) h.2
      obtain ⟨-, -, s3, s4, s5⟩ := mmc3_track_a12_spec addr w
      simp only [h.1, Bool.false_eq_true, if_false, false_and] at s4 s5
      simp only [a12_run, a12_step, a12_low_ticks]
      rw [h1, h2, s3, s5]
      rw [s4] at h3
      exact ⟨rfl, rfl, h3⟩
    | tick c =>
      simp only [a12_no_rising] at h
      obtain ⟨h1, h2, h3⟩ := ih (ppu_mmc3_m2_tick c w) h
      obtain ⟨-, -, s3, s4, s5⟩ := ppu_mmc3_m2_tick_spec c w
      simp only [a12_run, a12_step, a12_low_ticks]
      rw [h1, h2, s3, s4]
      exact ⟨rfl, rfl, by omega⟩

/-- C3. MMC3 A12 edge filter.  With a mapper hook installed, a CHR access whose
address has bit 12 set while the latched A12 was low calls the hook (once, with
the address masked to 13 bits) if and only if the low-M2 counter is at least 3,
and always leaves that counter at 0.  Hence, when such an edge is qualified and
is followed by filter events (CHR accesses that are not rising edges, M2 ticks)
during which fewer than 3 M2 cycles are ticked while A12 is low, and then by a
second rising edge, the hook has been called exactly once, for the first edge. -/
theorem C3_mmc3_a12_filter (w : World) (h : MapperHook) (addr1 addr2 : Nat)
    (es : List A12Event)
    (hh : w.mapper_ppu_hook = some h)
    (hb : addr1 &&& 0x1000 ≠ 0) (hp : w.a12_prev = false) :
    ((mmc3_track_a12 addr1 w).hook_log = w.hook_log ++ [addr1 &&& 0x1FFF] ↔
        3 ≤ w.mmc3_a12_low_m2_count)
    ∧ ((mmc3_track_a12 addr1 w).hook_log = w.hook_log ↔ ¬ 3 ≤ w.mmc3_a12_low_m2_count)
    ∧ (mmc3_track_a12 addr1 w).mmc3_a12_low_m2_count = 0
    ∧ (3 ≤ w.mmc3_a12_low_m2_count →
        a12_no_rising es (mmc3_track_a12 addr1 w) = true →
        a12_low_ticks es (mmc3_track_a12 addr1 w) < 3 →
        a12_rising addr2 (a12_run es (mmc3_track_a12 addr1 w)) = true →
        (mmc3_track_a12 addr2 (a12_run es (mmc3_track_a12 addr1 w))).hook_log
          = w.hook_log ++ [addr1 &&& 0x1FFF]) := by
  have hris : a12_rising addr1 w = true := by simp [a12_rising, hp, hb]
  obtain ⟨-, -, s3, s4, s5⟩ := mmc3_track_a12_spec addr1 w
  simp only [hris, hh, true_and, if_true, ne_eq, not_false_eq_true, and_true,
    reduceCtorEq] at s4 s5
  refine ⟨?_, ?_, s4, ?_⟩
  · rw [s5]; split <;> simp_all
  · rw [s5]; split <;> simp_all
  · intro hq hnr hlt hr2
    obtain ⟨r1, r2, r3⟩ := a12_run_no_rising es _ hnr
    obtain ⟨-, -, -, -, t5⟩ := mmc3_track_a12_spec addr2 (a12_run es (mmc3_track_a12 addr1 w))
    rw [s4] at r3
    have hlow : ¬ 3 ≤ (a12_run es (mmc3_track_a12 addr1 w)).mmc3_a12_low_m2_count := by omega
    rw [t5, if_neg (by tauto), r1, s5, if_pos hq]

theorem C3_mmc3_a12_filter_witness :
    (mmc3_track_a12 0x1008 (a12_run [.access 0x0000, .tick 2]
        (mmc3_track_a12 0x1000
          { mapper_ppu_hook := some .map4_ppu_tick, mmc3_a12_low_m2_count := 3 }))).hook_log
      = [] ++ [0x1000 &&& 0x1FFF] :=
  (C3_mmc3_a12_filter
    { mapper_ppu_hook := some .map4_ppu_tick, mmc3_a12_low_m2_count := 3 }
    .map4_ppu_tick 0x1000 0x1008 [.access 0x0000, .tick 2] rfl (by decide) rfl).2.2.2
    (by decide) (by decide) (by decide) (by decide)

/-! ### Frame lemmas: the rendering blocks leave the beam and the scheduler alone -/

theorem or_and_80 (s m : Nat) (h : m &&& 0x80 = 0) : (s ||| m) &&& 0x80 = s &&& 0x80 := by
  rw [Nat.and_distrib_right, h, Nat.or_zero]

theorem or40_and80 (s : Nat) : (s ||| 64) &&& 128 = s &&& 128 := or_and_80 s 64 rfl

theorem or20_and80 (s : Nat) : (s ||| 32) &&& 128 = s &&& 128 := or_and_80 s 32 rfl

theorem andDF_and80 (s : Nat) : (s &&& 223) &&& 128 = s &&& 128 := by
  rw [Nat.and_assoc]; rfl

theorem and1F_and80 (s : Nat) : (s &&& 31) &&& 128 = 0 := by
  rw [Nat.and_assoc]; exact Nat.and_zero s

theorem or80_and80 (s : Nat) : (s ||| 128) &&& 128 = 128 := by
  rw [Nat.and_distrib_right]
  show (s &&& 128) ||| 128 = 128
  apply Nat.eq_of_testBit_eq
  intro i
  rw [Nat.testBit_or, Nat.testBit_and]
  cases Nat.testBit 128 i <;> simp

theorem map4_clock_irq_ppu (w : World) :
    (map4_clock_irq w).ppu = w.ppu ∧ (map4_clock_irq w).nes = w.nes ∧
    (map4_clock_irq w).ppu_is_pal = w.ppu_is_pal := by
  unfold map4_clock_irq nes_irq
  by_cases h1 : w.map4.irq.reload_flag = true <;> by_cases h2 : w.map4.irq.counter = 0 <;>
    by_cases h3 : w.map4.irq.enabled = true <;> by_cases h4 : w.map4.irq.latch = 0 <;>
    by_cases h5 : (w.map4.irq.counter - 1) % 256 = 0 <;> simp [h1, h2, h3, h4, h5]

theorem call_mapper_hook_ppu (h : MapperHook) (addr : Nat) (w : World) :
    (call_mapper_hook h addr w).ppu = w.ppu ∧ (call_mapper_hook h addr w).nes = w.nes ∧
    (call_mapper_hook h addr w).ppu_is_pal = w.ppu_is_pal := by
  cases h
  simp only [call_mapper_hook, map4_ppu_tick]
  obtain ⟨a, b, c⟩ := map4_clock_irq_ppu { w with hook_log := w.hook_log ++ [addr] }
  exact ⟨a, b, c⟩

theorem mmc3_track_a12_ppu (addr : Nat) (w : World) :
    (mmc3_track_a12 addr w).ppu = w.ppu ∧ (mmc3_track_a12 addr w).nes = w.nes ∧
    (mmc3_track_a12 addr w).ppu_is_pal = w.ppu_is_pal := by
  unfold mmc3_track_a12
  by_cases hr : (!w.a12_prev && ((addr &&& 0x1000) != 0)) = true
  · by_cases hc : 3 ≤ w.mmc3_a12_low_m2_count
    · cases hh : w.mapper_ppu_hook with
      | none => simp [hr, hc, hh]
      | some h =>
        obtain ⟨a, b, c⟩ := call_mapper_hook_ppu h (addr &&& 0x1FFF) w
        simp [hr, hc, hh, a, b, c]
    · simp [hr, hc]
  · simp [hr]

theorem chr_read_world (addr : Nat) (w : World) :
    (chr_read addr w).2 = mmc3_track_a12 addr w := by
  unfold chr_read
  simp only
  split
  · rfl
  · split
    · rfl
    · split
      · split <;> rfl
      · rfl

/-- Machines with the same `ppu` record, region flag and scheduler record have
the same core. -/
theorem core_congr (w w' : World) (h1 : w'.ppu = w.ppu) (h2 : w'.ppu_is_pal = w.ppu_is_pal)
    (h3 : w'.nes = w.nes) : core w' = core w := by
  simp [core, beam, h1, h2, h3]

theorem core_track (addr : Nat) (w : World) : core (mmc3_track_a12 addr w) = core w :=
  core_congr _ _ (mmc3_track_a12_ppu addr w).1 (mmc3_track_a12_ppu addr w).2.2
    (mmc3_track_a12_ppu addr w).2.1

theorem core_chr_read (addr : Nat) (w : World) : core (chr_read addr w).2 = core w := by
  rw [chr_read_world]; exact core_track addr w

theorem core_bus_read (addr : Nat) (w : World) : core (ppu_bus_read addr w).2 = core w := by
  unfold ppu_bus_read
  simp only
  split_ifs
  all_goals first | rfl | exact core_chr_read _ w

theorem core_nmi_step (w : World) : core (nmi_step w) = core w := by
  unfold nmi_step nes_nmi
  simp only
  split_ifs <;> rfl

theorem core_latch_sprite0 (w : World) : core (clock_latch_sprite0 w) = core w := by
  unfold clock_latch_sprite0; split <;> rfl

theorem core_sprite0_hit (i : Nat) (w : World) : core (sprite0_hit i w) = core w := by
  unfold sprite0_hit
  simp only
  split_ifs
  all_goals first | rfl | simp [core, beam, or40_and80]

theorem core_sprite_pixel_loop (n i : Nat) (w : World) :
    core (sprite_pixel_loop n i w).2 = core w := by
  induction n generalizing i with
  | zero => rfl
  | succ n ih =>
    unfold sprite_pixel_loop
    simp only
    split_ifs
    all_goals first | exact ih _ | exact core_sprite0_hit i w

theorem core_sprite_pixel (w : World) : core (sprite_pixel w).2 = core w := by
  unfold sprite_pixel
  split_ifs
  all_goals first | rfl | exact core_sprite_pixel_loop 8 0 w

theorem core_apply_emphasis (idx mask : Nat) (w : World) :
    core (apply_emphasis_idx idx mask w).2 = core w := by
  unfold apply_emphasis_idx init_emphasis_lut
  simp only
  split <;> rfl

theorem core_clock_pixel (w : World) : core (clock_pixel w) = core w := by
  unfold clock_pixel
  simp only
  split_ifs
  all_goals first
    | rfl
    | exact core_sprite_pixel w
    | exact (core_apply_emphasis _ _ _).trans (core_sprite_pixel w)

theorem core_bg_shift (w : World) : core (bg_shift w) = core w := rfl

theorem core_sprite_shift (w : World) : core (sprite_shift w) = core w := rfl

theorem core_clock_shift (w : World) : core (clock_shift w) = core w := by
  unfold clock_shift
  simp only
  split_ifs
  all_goals rfl

theorem core_inc_x (w : World) : core (inc_x w) = core w := by
  unfold inc_x; split <;> rfl

theorem core_inc_y (w : World) : core (inc_y w) = core w := by
  unfold inc_y; split <;> simp [core, beam]

theorem core_copy_x (w : World) : core (copy_x_from_t w) = core w := rfl

theorem core_copy_y (w : World) : core (copy_y_from_t w) = core w := rfl

theorem core_reload (w : World) : core (bg_reload_shifters w) = core w := rfl

theorem core_latchfunc (b t : Nat) (w : World) : core (call_latchfunc b t w) = core w := by
  unfold call_latchfunc; split <;> rfl

/-- Storing into a field of the `bg` record does not move the core. -/
theorem core_set_bg (w : World) (b : bg_t) :
    core { w with ppu := { w.ppu with bg := b } } = core w := by
  simp [core, beam]


/-- Replacing the `ppu` record by one with the same beam fields keeps the core. -/
theorem core_set_ppu (w : World) (p : ppu_s) (hd : p.dot = w.ppu.dot)
    (hs : p.scanline = w.ppu.scanline) (ho : p.odd_frame = w.ppu.odd_frame)
    (hf : p.frame_complete = w.ppu.frame_complete) (hm : p.mask = w.ppu.mask)
    (hst : p.status &&& 0x80 = w.ppu.status &&& 0x80) :
    core { w with ppu := p } = core w := by
  simp [core, beam, hd, hs, ho, hf, hm, hst]

theorem core_bg_fetch_nt (w : World) : core (bg_fetch_nt w) = core w := by
  unfold bg_fetch_nt
  exact (core_set_bg _ _).trans (core_bus_read _ w)

theorem core_bg_fetch_at (w : World) : core (bg_fetch_at w) = core w := by
  unfold bg_fetch_at
  exact (core_set_bg _ _).trans (core_bus_read _ w)

theorem core_bg_fetch_pt_lo (w : World) : core (bg_fetch_pt_lo w) = core w := by
  unfold bg_fetch_pt_lo
  exact (core_set_bg _ _).trans ((core_chr_read _ _).trans (core_latchfunc _ _ w))

theorem core_bg_fetch_pt_hi (w : World) : core (bg_fetch_pt_hi w) = core w := by
  unfold bg_fetch_pt_hi
  exact (core_reload _).trans ((core_set_bg _ _).trans (core_chr_read _ w))

/-- A conditional keeps the core when both branches do. -/
theorem core_ite (c : Prop) [Decidable c] (a b w : World) (ha : core a = core w)
    (hb : core b = core w) : core (if c then a else b) = core w := by
  split <;> assumption

theorem core_bg_fetch_switch (w : World) : core (bg_fetch_switch w) = core w := by
  unfold bg_fetch_switch
  exact core_ite _ _ _ _ (core_bg_fetch_nt w) (core_ite _ _ _ _ (core_bg_fetch_at w)
    (core_ite _ _ _ _ (core_bg_fetch_pt_lo w) (core_ite _ _ _ _ (core_bg_fetch_pt_hi w) rfl)))

theorem core_bg_fetch (w : World) : core (bg_fetch w) = core w := by
  unfold bg_fetch
  exact core_ite _ _ _ _ ((core_inc_x _).trans (core_bg_fetch_switch w))
    (core_bg_fetch_switch w)

/-- The scroll updates that follow the fetch in block 3 keep the core. -/
theorem core_clock_bg_tail (w1 w : World) (h : core w1 = core w) :
    core (if w1.ppu.dot = 256 then inc_y w1
      else if w1.ppu.dot = 257 then copy_x_from_t w1
      else if IS_PRERENDER_LINE w1 = true ∧ 280 ≤ w1.ppu.dot ∧ w1.ppu.dot ≤ 304 then
        copy_y_from_t w1
      else w1) = core w :=
  core_ite _ _ _ _ ((core_inc_y _).trans h) (core_ite _ _ _ _ ((core_copy_x _).trans h)
    (core_ite _ _ _ _ ((core_copy_y _).trans h) h))

theorem core_clock_bg (w : World) : core (clock_bg w) = core w := by
  unfold clock_bg
  exact core_ite _ _ _ _
    (core_clock_bg_tail _ w (core_ite _ _ _ _ (core_bg_fetch w) rfl)) rfl

theorem core_eval_init (w : World) : core (clock_eval_init w) = core w := by
  unfold clock_eval_init; split <;> rfl

theorem core_eval_read (w : World) : core (eval_sprite_read_primary w) = core w := by
  unfold eval_sprite_read_primary
  dsimp only
  split_ifs <;> simp [core, beam]

theorem core_eval_advance (w : World) : core (eval_advance w) = core w := rfl

theorem core_eval_write (w : World) : core (eval_sprite_write_secondary w) = core w := by
  unfold eval_sprite_write_secondary
  dsimp only
  split_ifs <;> simp [core, beam, eval_advance]

theorem core_clock_eval (w : World) : core (clock_eval w) = core w := by
  unfold clock_eval
  exact core_ite _ _ _ _ (core_ite _ _ _ _ (core_eval_read w) (core_eval_write w)) rfl

theorem core_dot257 (w : World) : core (clock_dot257 w) = core w := by
  unfold clock_dot257
  dsimp only
  split_ifs <;> simp [core, beam, or20_and80, andDF_and80]

theorem core_sprite_fetch_lo (h c : Nat) (w : World) :
    core (sprite_fetch_lo h c w) = core w := by
  unfold sprite_fetch_lo
  exact (core_set_ppu _ _ rfl rfl rfl rfl rfl rfl).trans
    ((core_chr_read _ _).trans
      ((core_set_ppu _ _ rfl rfl rfl rfl rfl rfl).trans (core_latchfunc _ _ w)))

theorem core_sprite_fetch_hi (w : World) : core (sprite_fetch_hi w) = core w := by
  unfold sprite_fetch_hi
  exact (core_set_ppu _ _ rfl rfl rfl rfl rfl rfl).trans (core_chr_read _ w)

theorem core_sprite_fetch_dummy (w : World) : core (sprite_fetch_dummy w) = core w := by
  unfold sprite_fetch_dummy
  exact core_chr_read _ w

theorem core_sprite_fetch_load (slot : Nat) (w : World) :
    core (sprite_fetch_load slot w) = core w := by
  unfold sprite_fetch_load
  exact core_ite _ _ _ _
    ((core_set_ppu _ _ rfl rfl rfl rfl rfl rfl).trans (core_chr_read _ w)) (core_chr_read _ w)

theorem core_clock_sprite_fetch (w : World) : core (clock_sprite_fetch w) = core w := by
  unfold clock_sprite_fetch
  refine core_ite _ _ _ _ ?_ rfl
  have h0 : core { w with ppu := { w.ppu with
      spr_fetch_slot := ((w.ppu.dot - 257) % 256).toNat >>> 3,
      spr_fetch_phase := ((w.ppu.dot - 257) % 256).toNat &&& 7 } } = core w :=
    core_set_ppu _ _ rfl rfl rfl rfl rfl rfl
  exact core_ite _ _ _ _ ((core_set_ppu _ _ rfl rfl rfl rfl rfl rfl).trans h0)
    (core_ite _ _ _ _ ((core_set_ppu _ _ rfl rfl rfl rfl rfl rfl).trans h0)
    (core_ite _ _ _ _ ((core_set_ppu _ _ rfl rfl rfl rfl rfl rfl).trans h0)
    (core_ite _ _ _ _ ((core_set_ppu _ _ rfl rfl rfl rfl rfl rfl).trans h0)
    (core_ite _ _ _ _ ((core_sprite_fetch_lo _ _ _).trans h0)
    (core_ite _ _ _ _ ((core_sprite_fetch_hi _).trans h0)
    (core_ite _ _ _ _ ((core_sprite_fetch_dummy _).trans h0)
      ((core_sprite_fetch_load _ _).trans h0)))))))

theorem core_dot321 (w : World) : core (clock_dot321 w) = core w := by
  unfold clock_dot321; split <;> rfl

theorem core_nmi_check (w : World) : core (nmi_check w) = core w := by
  unfold nmi_check
  dsimp only
  split_ifs <;> simp [core, beam]

theorem core_clock_vblank_set (w : World) :
    core (clock_vblank_set w) = ((beam w).vset, w.nes) := by
  unfold clock_vblank_set Beam.vset
  by_cases h : w.ppu.scanline = 241 ∧ w.ppu.dot = 1
  · have h2 : (beam w).scanline = 241 ∧ (beam w).dot = 1 := h
    rw [if_pos h, if_pos h2, core_nmi_check]
    simp [core, beam, or80_and80]
  · have h2 : ¬ ((beam w).scanline = 241 ∧ (beam w).dot = 1) := h
    rw [if_neg h, if_neg h2]
    rfl

theorem core_clock_vblank_clear (w : World) :
    core (clock_vblank_clear w) = ((beam w).vclr, w.nes) := by
  unfold clock_vblank_clear Beam.vclr
  by_cases h : IS_PRERENDER_LINE w = true ∧ w.ppu.dot = 1
  · have h2 : (beam w).prerender = true ∧ (beam w).dot = 1 := h
    rw [if_pos h, if_pos h2, core_nmi_check]
    simp [core, beam, and1F_and80]
  · have h2 : ¬ ((beam w).prerender = true ∧ (beam w).dot = 1) := h
    rw [if_neg h, if_neg h2]
    rfl

theorem core_clock_vblank (w : World) :
    core (clock_vblank w) = ((beam w).vbl, w.nes) := by
  unfold clock_vblank Beam.vbl
  rw [core_clock_vblank_clear]
  have h := core_clock_vblank_set w
  simp only [core, Prod.mk.injEq] at h
  rw [h.1, h.2]

theorem core_INC_DOT (w : World) : core (INC_DOT w) = ((beam w).inc, w.nes) := by
  unfold INC_DOT Beam.inc PPU_SCANLINES_PER_FRAME
  by_cases h1 : w.ppu.dot + 1 = 341
  · by_cases h2 : w.ppu.scanline + 1 = (if w.ppu_is_pal = true then 312 else 262)
    · have h1b : (beam w).dot + 1 = 341 := h1
      have h2b : (beam w).scanline + 1 = (if (beam w).is_pal = true then 312 else 262) := h2
      rw [if_pos h1, if_pos h2, if_pos h1b, if_pos h2b]; rfl
    · have h1b : (beam w).dot + 1 = 341 := h1
      have h2b : ¬ (beam w).scanline + 1 = (if (beam w).is_pal = true then 312 else 262) := h2
      rw [if_pos h1, if_neg h2, if_pos h1b, if_neg h2b]; rfl
  · have h1b : ¬ (beam w).dot + 1 = 341 := h1
    rw [if_neg h1, if_neg h1b]; rfl

theorem core_clock_odd_skip (w : World) :
    core (clock_odd_skip w) = ((beam w).skip, w.nes) := by
  unfold clock_odd_skip Beam.skip
  by_cases h : w.ppu_is_pal = false ∧ IS_PRERENDER_LINE w = true ∧ w.ppu.dot = 339 ∧
      w.ppu.odd_frame = true ∧ RENDERING_ENABLED w = true
  · have h2 : (beam w).is_pal = false ∧ (beam w).prerender = true ∧ (beam w).dot = 339 ∧
        (beam w).odd_frame = true ∧ (beam w).rendering = true := h
    rw [if_pos h, if_pos h2, core_INC_DOT]
  · have h2 : ¬ ((beam w).is_pal = false ∧ (beam w).prerender = true ∧ (beam w).dot = 339 ∧
        (beam w).odd_frame = true ∧ (beam w).rendering = true) := h
    rw [if_neg h, if_neg h2]; rfl

theorem core_clock_frame_end (w : World) :
    core (clock_frame_end w) = ((beam w).fin, w.nes) := by
  unfold clock_frame_end Beam.fin
  by_cases h : w.ppu.scanline = 0 ∧ w.ppu.dot = 0
  · have h2 : (beam w).scanline = 0 ∧ (beam w).dot = 0 := h
    rw [if_pos h, if_pos h2]; rfl
  · have h2 : ¬ ((beam w).scanline = 0 ∧ (beam w).dot = 0) := h
    rw [if_neg h, if_neg h2]; rfl

/-- The beam of a machine is the first component of its core. -/
theorem beam_of_core {w' : World} {b : Beam} {n : Nes} (h : core w' = (b, n)) :
    beam w' = b ∧ w'.nes = n := by
  simp only [core, Prod.mk.injEq] at h; exact h

/-- One call of `ppu_clock` moves the beam fields by `Beam.step` and leaves the
scheduler record alone. -/
theorem core_ppu_clock (w : World) : core (ppu_clock w) = ((beam w).step, w.nes) := by
  have e : core (clock_dot321 (clock_sprite_fetch (clock_dot257 (clock_eval (clock_eval_init
      (clock_bg (clock_shift (clock_pixel (clock_latch_sprite0 (nmi_step w)))))))))) = core w := by
    rw [core_dot321, core_clock_sprite_fetch, core_dot257, core_clock_eval, core_eval_init,
      core_clock_bg, core_clock_shift, core_clock_pixel, core_latch_sprite0, core_nmi_step]
  obtain ⟨e1, e2⟩ := beam_of_core e
  unfold ppu_clock Beam.step
  dsimp only
  obtain ⟨a1, a2⟩ := beam_of_core (core_clock_vblank (clock_dot321 (clock_sprite_fetch
    (clock_dot257 (clock_eval (clock_eval_init (clock_bg (clock_shift (clock_pixel
    (clock_latch_sprite0 (nmi_step w)))))))))))
  obtain ⟨b1, b2⟩ := beam_of_core (core_clock_odd_skip (clock_vblank (clock_dot321
    (clock_sprite_fetch (clock_dot257 (clock_eval (clock_eval_init (clock_bg (clock_shift
    (clock_pixel (clock_latch_sprite0 (nmi_step w))))))))))))
  obtain ⟨c1, c2⟩ := beam_of_core (core_INC_DOT (clock_odd_skip (clock_vblank (clock_dot321
    (clock_sprite_fetch (clock_dot257 (clock_eval (clock_eval_init (clock_bg (clock_shift
    (clock_pixel (clock_latch_sprite0 (nmi_step w)))))))))))))
  rw [core_clock_frame_end, c1, c2, b1, b2, a1, a2, e1, e2]

theorem beam_ppu_clock (w : World) : beam (ppu_clock w) = (beam w).step :=
  (beam_of_core (core_ppu_clock w)).1

theorem nes_ppu_clock (w : World) : (ppu_clock w).nes = w.nes :=
  (beam_of_core (core_ppu_clock w)).2

theorem beam_ppu_clocks (n : Nat) (w : World) :
    beam (ppu_clocks n w) = Beam.steps n (beam w) := by
  induction n generalizing w with
  | zero => rfl
  | succ n ih => rw [ppu_clocks, Beam.steps, ih, beam_ppu_clock]

theorem nes_ppu_clocks (n : Nat) (w : World) : (ppu_clocks n w).nes = w.nes := by
  induction n generalizing w with
  | zero => rfl
  | succ n ih => rw [ppu_clocks, ih, nes_ppu_clock]

/-! ### The beam: range, single dots and runs of dots (NTSC) -/

namespace Beam
theorem vset_facts (b : Beam) :
    (vset b).dot = b.dot ∧ (vset b).scanline = b.scanline ∧ (vset b).is_pal = b.is_pal ∧
    (vset b).mask = b.mask ∧ (vset b).odd_frame = b.odd_frame ∧
    (vset b).frame_complete = b.frame_complete := by
  unfold vset; split_ifs <;> simp

theorem vclr_facts (b : Beam) :
    (vclr b).dot = b.dot ∧ (vclr b).scanline = b.scanline ∧ (vclr b).is_pal = b.is_pal ∧
    (vclr b).mask = b.mask ∧ (vclr b).odd_frame = b.odd_frame ∧
    (vclr b).frame_complete = b.frame_complete := by
  unfold vclr; split_ifs <;> simp

theorem vbl_facts (b : Beam) :
    (vbl b).dot = b.dot ∧ (vbl b).scanline = b.scanline ∧ (vbl b).is_pal = b.is_pal ∧
    (vbl b).mask = b.mask ∧ (vbl b).odd_frame = b.odd_frame ∧
    (vbl b).frame_complete = b.frame_complete := by
  unfold vbl
  obtain ⟨a1, a2, a3, a4, a5, a6⟩ := vclr_facts (vset b)
  obtain ⟨b1, b2, b3, b4, b5, b6⟩ := vset_facts b
  exact ⟨a1.trans b1, a2.trans b2, a3.trans b3, a4.trans b4, a5.trans b5, a6.trans b6⟩

theorem inc_facts (b : Beam) :
    (inc b).mask = b.mask ∧ (inc b).is_pal = b.is_pal ∧ (inc b).odd_frame = b.odd_frame ∧
    (inc b).frame_complete = b.frame_complete ∧ (inc b).vblank = b.vblank := by
  unfold inc
  split_ifs <;> simp

theorem inc_pos (b : Beam) :
    ((inc b).dot = b.dot + 1 ∧ (inc b).scanline = b.scanline ∧ b.dot + 1 ≠ 341) ∨
    ((inc b).dot = 0 ∧ (inc b).scanline = b.scanline + 1 ∧ b.dot + 1 = 341 ∧
        b.scanline + 1 ≠ (if b.is_pal then 312 else 262)) ∨
    ((inc b).dot = 0 ∧ (inc b).scanline = 0 ∧ b.dot + 1 = 341 ∧
        b.scanline + 1 = (if b.is_pal then 312 else 262)) := by
  unfold inc
  split_ifs <;> simp_all

theorem inc_inrange (b : Beam) (h : inrange b) : inrange (inc b) := by
  unfold inrange at *
  obtain ⟨-, hp, -, -, -⟩ := inc_facts b
  rw [hp]
  rcases inc_pos b with ⟨h1, h2, h3⟩ | ⟨h1, h2, h3, h4⟩ | ⟨h1, h2, h3, h4⟩ <;>
    rw [h1, h2] <;> cases hb : b.is_pal <;> simp only [hb, Bool.false_eq_true, if_false, if_true] at * <;> omega

theorem skip_inrange (b : Beam) (h : inrange b) : inrange (skip b) := by
  unfold skip
  split_ifs
  · exact inc_inrange b h
  · exact h

theorem fin_facts (b : Beam) :
    (fin b).dot = b.dot ∧ (fin b).scanline = b.scanline ∧ (fin b).is_pal = b.is_pal ∧
    (fin b).mask = b.mask ∧ (fin b).vblank = b.vblank := by
  unfold fin; split_ifs <;> simp

theorem step_inrange (b : Beam) (h : inrange b) : inrange (step b) := by
  have h1 : inrange (vbl b) := by
    obtain ⟨a1, a2, a3, -, -, -⟩ := vbl_facts b
    unfold inrange; rw [a1, a2, a3]; exact h
  have h2 := inc_inrange _ (skip_inrange _ h1)
  obtain ⟨a1, a2, a3, -, -⟩ := fin_facts (inc (skip (vbl b)))
  unfold step inrange
  rw [a1, a2, a3]; exact h2

theorem skip_facts (b : Beam) :
    (skip b).mask = b.mask ∧ (skip b).is_pal = b.is_pal ∧ (skip b).odd_frame = b.odd_frame ∧
    (skip b).frame_complete = b.frame_complete ∧ (skip b).vblank = b.vblank := by
  unfold skip
  split_ifs
  · exact inc_facts b
  · simp

theorem step_is_pal (b : Beam) : (step b).is_pal = b.is_pal ∧ (step b).mask = b.mask := by
  unfold step
  obtain ⟨-, -, a3, a4, -⟩ := fin_facts (inc (skip (vbl b)))
  obtain ⟨b1, b2, -, -, -⟩ := inc_facts (skip (vbl b))
  obtain ⟨c1, c2, -, -, -⟩ := skip_facts (vbl b)
  obtain ⟨-, -, d3, d4, -, -⟩ := vbl_facts b
  exact ⟨a3.trans (b2.trans (c2.trans d3)), a4.trans (b1.trans (c1.trans d4))⟩


theorem vset_vblank (b : Beam) :
    (vset b).vblank = (if b.scanline = 241 ∧ b.dot = 1 then true else b.vblank) := by
  unfold vset; split_ifs <;> rfl

theorem vclr_vblank (b : Beam) :
    (vclr b).vblank = (if b.prerender = true ∧ b.dot = 1 then false else b.vblank) := by
  unfold vclr; split_ifs <;> rfl

theorem vbl_vblank (b : Beam) :
    (vbl b).vblank = (if b.scanline = 241 ∧ b.dot = 1 then true
      else if b.prerender = true ∧ b.dot = 1 then false else b.vblank) := by
  obtain ⟨a1, a2, a3, -, -, -⟩ := vset_facts b
  have hpr : (vset b).prerender = b.prerender := by unfold prerender; rw [a2, a3]
  unfold vbl
  rw [vclr_vblank, hpr, a1, vset_vblank]
  by_cases h1 : b.scanline = 241 ∧ b.dot = 1
  · have h2 : ¬ (b.prerender = true ∧ b.dot = 1) := by
      intro h
      have := of_decide_eq_true h.1
      split at this <;> omega
    rw [if_neg h2, if_pos h1, if_pos h1]
  · rw [if_neg h1, if_neg h1]

theorem skip_eq (b : Beam) (hp : b.is_pal = false) :
    skip b = if b.scanline = 261 ∧ b.dot = 339 ∧ b.odd_frame = true ∧ b.rendering = true
      then inc b else b := by
  unfold skip prerender
  simp [hp]

theorem fin_eq (b : Beam) :
    (fin b).odd_frame = (if b.scanline = 0 ∧ b.dot = 0 then !b.odd_frame else b.odd_frame) ∧
    (fin b).frame_complete = (if b.scanline = 0 ∧ b.dot = 0 then true else b.frame_complete) := by
  unfold fin; split_ifs <;> simp

/-- One NTSC dot: on a wrapping dot the beam goes to (0, 0), the odd-frame flag
toggles and the frame-complete flag is raised; on any other dot the linear
position grows by one and both flags stay. -/
theorem step_ntsc (b : Beam) (hp : b.is_pal = false) (h : inrange b) :
    (wraps b → (step b).dot = 0 ∧ (step b).scanline = 0 ∧
        (step b).odd_frame = (!b.odd_frame) ∧ (step b).frame_complete = true) ∧
    (¬ wraps b → (step b).scanline * 341 + (step b).dot = b.scanline * 341 + b.dot + 1 ∧
        (step b).odd_frame = b.odd_frame ∧ (step b).frame_complete = b.frame_complete) := by
  obtain ⟨v1, v2, v3, v4, v5, v6⟩ := vbl_facts b
  have hr : (vbl b).rendering = b.rendering := by unfold rendering; rw [v4]
  have hsk := skip_eq (vbl b) (v3.trans hp)
  rw [v1, v2, v5, hr] at hsk
  obtain ⟨f1, f2, -, -, -⟩ := fin_facts (inc (skip (vbl b)))
  obtain ⟨g1, g2⟩ := fin_eq (inc (skip (vbl b)))
  unfold inrange at h
  rw [hp] at h
  simp only [Bool.false_eq_true, if_false] at h
  unfold step
  rw [f1, f2, g1, g2]
  by_cases hs : b.scanline = 261 ∧ b.dot = 339 ∧ b.odd_frame = true ∧ b.rendering = true
  · rw [if_pos hs] at hsk
    rw [hsk]
    obtain ⟨-, i2, i3, i4, -⟩ := inc_facts (vbl b)
    obtain ⟨-, j2, j3, j4, -⟩ := inc_facts (inc (vbl b))
    have hw : wraps b := Or.inl hs
    have k1 := inc_pos (vbl b)
    have k2 := inc_pos (inc (vbl b))
    rw [i2, v3, hp] at k2
    rw [v3, hp, v1, v2] at k1
    simp only [Bool.false_eq_true, if_false] at k1 k2
    have e1 : (inc (vbl b)).dot = 340 ∧ (inc (vbl b)).scanline = 261 := by
      rcases k1 with ⟨a, b', c⟩ | ⟨a, b', c, d⟩ | ⟨a, b', c, d⟩ <;> omega
    have e2 : (inc (inc (vbl b))).dot = 0 ∧ (inc (inc (vbl b))).scanline = 0 := by
      rcases k2 with ⟨a, b', c⟩ | ⟨a, b', c, d⟩ | ⟨a, b', c, d⟩ <;> omega
    refine ⟨fun _ => ⟨e2.1, e2.2, ?_, ?_⟩, fun hn => absurd hw hn⟩
    · rw [if_pos ⟨e2.2, e2.1⟩, j3, i3, v5]
    · rw [if_pos ⟨e2.2, e2.1⟩]
  · rw [if_neg hs] at hsk
    rw [hsk]
    obtain ⟨-, i2, i3, i4, -⟩ := inc_facts (vbl b)
    have k1 := inc_pos (vbl b)
    rw [v3, hp, v1, v2] at k1
    simp only [Bool.false_eq_true, if_false] at k1
    refine ⟨fun hw => ?_, fun hn => ?_⟩
    · have hw2 : b.scanline = 261 ∧ b.dot = 340 := by
        rcases hw with hw | hw
        · exact absurd hw hs
        · exact hw
      have e2 : (inc (vbl b)).dot = 0 ∧ (inc (vbl b)).scanline = 0 := by
        rcases k1 with ⟨a, b', c⟩ | ⟨a, b', c, d⟩ | ⟨a, b', c, d⟩ <;> omega
      refine ⟨e2.1, e2.2, ?_, ?_⟩
      · rw [if_pos ⟨e2.2, e2.1⟩, i3, v5]
      · rw [if_pos ⟨e2.2, e2.1⟩]
    · have hn2 : ¬ (b.scanline = 261 ∧ b.dot = 340) := fun hx => hn (Or.inr hx)
      have e2 : (inc (vbl b)).scanline * 341 + (inc (vbl b)).dot = b.scanline * 341 + b.dot + 1
          ∧ ¬ ((inc (vbl b)).scanline = 0 ∧ (inc (vbl b)).dot = 0) := by
        rcases k1 with ⟨a, b', c⟩ | ⟨a, b', c, d⟩ | ⟨a, b', c, d⟩ <;> omega
      refine ⟨e2.1, ?_, ?_⟩
      · rw [if_neg e2.2, i3, v5]
      · rw [if_neg e2.2, i4, v6]

theorem step_vblank (b : Beam) :
    (step b).vblank = (if b.scanline = 241 ∧ b.dot = 1 then true
      else if b.prerender = true ∧ b.dot = 1 then false else b.vblank) := by
  unfold step
  obtain ⟨-, -, -, -, f5⟩ := fin_facts (inc (skip (vbl b)))
  obtain ⟨-, -, -, -, i5⟩ := inc_facts (skip (vbl b))
  obtain ⟨-, -, -, -, s5⟩ := skip_facts (vbl b)
  rw [f5, i5, s5, vbl_vblank]


theorem steps_add (m n : Nat) (b : Beam) : steps (m + n) b = steps n (steps m b) := by
  induction m generalizing b with
  | zero => simp [steps]
  | succ m ih => rw [Nat.add_right_comm, steps, ih, steps]

theorem raised_add (m n : Nat) (b : Beam) :
    raised (m + n) b = raised m b + raised n (steps m b) := by
  induction m generalizing b with
  | zero => simp [steps, raised]
  | succ m ih => rw [Nat.add_right_comm, raised, ih, raised, steps]; omega

theorem wraps_clear (b : Beam) : wraps { b with frame_complete := false } ↔ wraps b := by
  unfold wraps rendering; simp

/-- On NTSC a dot raises the frame-complete flag exactly when it wraps. -/
theorem raises_iff (b : Beam) (hp : b.is_pal = false) (h : inrange b) :
    raises b = true ↔ wraps b := by
  unfold raises
  have h' : inrange { b with frame_complete := false } := h
  obtain ⟨s1, s2⟩ := step_ntsc { b with frame_complete := false } hp h'
  rw [wraps_clear] at s1 s2
  by_cases hw : wraps b
  · simp [hw, (s1 hw).2.2.2]
  · have := (s2 hw).2.2
    simp only at this
    simp [hw, this]

/-- A run of `n` dots that stays inside the frame (NTSC): the linear position
grows by `n`, no flag changes, and VBlank is untouched unless the run executes
the dot (241, 1) or the dot (261, 1). -/
theorem run_linear (n : Nat) (b : Beam) (hp : b.is_pal = false) (hr : inrange b)
    (hlim : lin b + n ≤ (if b.odd_frame = true ∧ b.rendering = true then 89340 else 89341)) :
    lin (steps n b) = lin b + n ∧ inrange (steps n b) ∧ (steps n b).is_pal = false ∧
    (steps n b).odd_frame = b.odd_frame ∧ (steps n b).mask = b.mask ∧
    (steps n b).frame_complete = b.frame_complete ∧ raised n b = 0 ∧
    ((lin b + n ≤ 82182 ∨ (82182 < lin b ∧ lin b + n ≤ 89002) ∨ 89002 < lin b) →
      (steps n b).vblank = b.vblank) := by
  induction n generalizing b with
  | zero => simp [steps, raised, hr, hp]
  | succ n ih =>
    have hr0 := hr
    unfold inrange at hr0
    rw [hp] at hr0
    simp only [Bool.false_eq_true, if_false] at hr0
    have hnw : ¬ wraps b := by
      unfold wraps
      unfold lin at hlim
      intro hw
      rcases hw with ⟨a1, a2, a3, a4⟩ | ⟨a1, a2⟩
      · rw [if_pos ⟨a3, a4⟩] at hlim; push_cast at hlim; omega
      · split at hlim <;> push_cast at hlim <;> omega
    obtain ⟨-, s2⟩ := step_ntsc b hp hr
    obtain ⟨t1, t2, t3⟩ := s2 hnw
    obtain ⟨u1, u2⟩ := step_is_pal b
    have hrend : (step b).rendering = b.rendering := by unfold rendering; rw [u2]
    have hlin : lin (step b) = lin b + 1 := by unfold lin; exact t1
    have hlim2 : lin (step b) + n ≤
        (if (step b).odd_frame = true ∧ (step b).rendering = true then 89340 else 89341) := by
      rw [hlin, t2, hrend]; push_cast at hlim; omega
    obtain ⟨i1, i2, i3, i4, i5, i6, i7, i8⟩ :=
      ih (step b) (u1.trans hp) (step_inrange b hr) hlim2
    have hra : raises b = false := by
      have := (raises_iff b hp hr).not.mpr hnw
      simpa using this
    refine ⟨?_, i2, i3, i4.trans t2, i5.trans u2, i6.trans t3, ?_, ?_⟩
    · rw [steps, i1, hlin]; push_cast; omega
    · rw [raised, hra, i7]; simp
    · intro hv
      rw [steps, i8 (by rw [hlin]; push_cast at hv; omega), step_vblank]
      unfold lin at hv
      unfold prerender
      rw [hp]
      have n1 : ¬ (b.scanline = 241 ∧ b.dot = 1) := by push_cast at hv; omega
      have n2 : ¬ (decide (b.scanline = if false = true then 311 else 261) = true ∧ b.dot = 1) := by
        simp only [Bool.false_eq_true, if_false, decide_eq_true_eq]
        push_cast at hv; omega
      rw [if_neg n1, if_neg n2]

end Beam

namespace Beam

/-- One whole NTSC frame from its first dot: the flag is raised by the last dot
of the frame and by no earlier one, and the next frame starts with the odd-frame
flag toggled. -/
theorem whole_frame (b : Beam) (hp : b.is_pal = false) (hs : b.scanline = 0) (hd : b.dot = 0) :
    raised (frame_len b - 1) b = 0 ∧ raised (frame_len b) b = 1 ∧
    (steps (frame_len b) b).is_pal = false ∧ (steps (frame_len b) b).scanline = 0 ∧
    (steps (frame_len b) b).dot = 0 ∧ (steps (frame_len b) b).odd_frame = (!b.odd_frame) ∧
    (steps (frame_len b) b).mask = b.mask := by
  have hr : inrange b := by
    unfold inrange; rw [hp, hs, hd]; simp
  have hl : lin b = 0 := by unfold lin; rw [hs, hd]; simp
  have hlen : frame_len b = (frame_len b - 1) + 1 := by unfold frame_len; split <;> omega
  have hlim : lin b + ((frame_len b - 1 : Nat) : Int) ≤
      (if b.odd_frame = true ∧ b.rendering = true then 89340 else 89341) := by
    rw [hl]; unfold frame_len; split <;> simp
  obtain ⟨r1, r2, r3, r4, r5, r6, r7, -⟩ := run_linear (frame_len b - 1) b hp hr hlim
  have hrend : (steps (frame_len b - 1) b).rendering = b.rendering := by
    unfold rendering; rw [r5]
  have hw : wraps (steps (frame_len b - 1) b) := by
    unfold wraps
    rw [r4, hrend]
    have r2' := r2
    unfold inrange at r2'
    rw [r3] at r2'
    simp only [Bool.false_eq_true, if_false] at r2'
    rw [hl] at r1
    unfold lin at r1
    by_cases hc : b.odd_frame = true ∧ b.rendering = true
    · have hv : ((frame_len b - 1 : Nat) : Int) = 89340 := by
        unfold frame_len; rw [if_pos hc]; rfl
      left
      refine ⟨?_, ?_, hc.1, hc.2⟩ <;> omega
    · have hv : ((frame_len b - 1 : Nat) : Int) = 89341 := by
        unfold frame_len; rw [if_neg hc]; rfl
      right
      constructor <;> omega
  obtain ⟨s1, -⟩ := step_ntsc _ r3 r2
  obtain ⟨w1, w2, w3, -⟩ := s1 hw
  obtain ⟨u1, u2⟩ := step_is_pal (steps (frame_len b - 1) b)
  have hra : raises (steps (frame_len b - 1) b) = true := (raises_iff _ r3 r2).mpr hw
  have hst : steps (frame_len b) b = step (steps (frame_len b - 1) b) := by
    conv_lhs => rw [hlen]
    rw [steps_add]; rfl
  refine ⟨r7, ?_, ?_, ?_, ?_, ?_, ?_⟩
  · conv_lhs => rw [hlen]
    rw [raised_add, r7]
    simp [raised, hra]
  · rw [hst, u1, r3]
  · rw [hst, w2]
  · rw [hst, w1]
  · rw [hst, w3, r4]
  · rw [hst, u2, r5]

/-- Two consecutive NTSC frames from the reset position. -/
theorem two_frames (b : Beam) (hp : b.is_pal = false) (hs : b.scanline = 0) (hd : b.dot = 0)
    (ho : b.odd_frame = false) :
    (b.rendering = true → raised 178682 b = 1 ∧ raised 178683 b = 2) ∧
    (b.rendering = false → raised 178683 b = 1 ∧ raised 178684 b = 2) := by
  have hlen : frame_len b = 89342 := by unfold frame_len; simp [ho]
  obtain ⟨-, f2, f3, f4, f5, f6, f7⟩ := whole_frame b hp hs hd
  rw [hlen] at f2 f3 f4 f5 f6 f7
  obtain ⟨g1, g2, -⟩ := whole_frame (steps 89342 b) f3 f4 f5
  have hrend : (steps 89342 b).rendering = b.rendering := by unfold rendering; rw [f7]
  have hlen2 : frame_len (steps 89342 b) = if b.rendering = true then 89341 else 89342 := by
    unfold frame_len; rw [f6, ho, hrend]; simp
  rw [hlen2] at g1 g2
  constructor
  · intro hre
    rw [if_pos hre] at g1 g2
    constructor
    · rw [show 178682 = 89342 + 89340 from rfl, raised_add, f2]
      simp only [show 89341 - 1 = 89340 from rfl] at g1
      rw [g1]
    · rw [show 178683 = 89342 + 89341 from rfl, raised_add, f2, g2]
  · intro hre
    have hre' : ¬ b.rendering = true := by simp [hre]
    rw [if_neg hre'] at g1 g2
    constructor
    · rw [show 178683 = 89342 + 89341 from rfl, raised_add, f2]
      simp only [show 89342 - 1 = 89341 from rfl] at g1
      rw [g1]
    · rw [show 178684 = 89342 + 89342 from rfl, raised_add, f2, g2]

end Beam

theorem beam_frame_complete (w : World) :
    beam (ppu_frame_complete w).2 = { beam w with frame_complete := false } := by
  unfold ppu_frame_complete
  by_cases h : w.ppu.frame_complete = true
  · rw [if_pos h]; rfl
  · rw [if_neg h]
    have : w.ppu.frame_complete = false := by simpa using h
    simp [beam, this]

theorem ppu_clock_raises_eq (w : World) : ppu_clock_raises w = (beam w).raises := by
  unfold ppu_clock_raises Beam.raises
  rw [← beam_frame_complete, ← beam_ppu_clock]
  rfl

theorem frames_raised_eq (n : Nat) (w : World) :
    frames_raised n w = Beam.raised n (beam w) := by
  induction n generalizing w with
  | zero => rfl
  | succ n ih => rw [frames_raised, Beam.raised, ih, ppu_clock_raises_eq, beam_ppu_clock]

/-! ### Claims on the dot and line counters -/

theorem beam_inrange_iff (w : World) :
    (beam w).inrange ↔ (0 ≤ w.ppu.dot ∧ w.ppu.dot ≤ 340 ∧ 0 ≤ w.ppu.scanline ∧
      w.ppu.scanline ≤ (if w.ppu_is_pal then 311 else 261)) := Iff.rfl

/-- C5. Counter range invariant: if the dot is in 0..340 and the scanline in
0..261 (NTSC) or 0..311 (PAL) before `ppu_clock`, the same bounds hold after it,
for every mask and odd-frame flag, and the region flag is unchanged; the state
produced by `ppu_reset` has dot 0 and scanline 0, inside the bounds. -/
theorem C5_counter_range (w : World)
    (hd : 0 ≤ w.ppu.dot ∧ w.ppu.dot ≤ 340)
    (hs : 0 ≤ w.ppu.scanline ∧ w.ppu.scanline ≤ (if w.ppu_is_pal then 311 else 261)) :
    ((ppu_clock w).ppu_is_pal = w.ppu_is_pal ∧
      0 ≤ (ppu_clock w).ppu.dot ∧ (ppu_clock w).ppu.dot ≤ 340 ∧
      0 ≤ (ppu_clock w).ppu.scanline ∧
      (ppu_clock w).ppu.scanline ≤ (if w.ppu_is_pal then 311 else 261)) ∧
    (∀ (hard : Int) (rnd : Nat) (vidbuf : Int → Nat) (w0 : World),
      (ppu_reset hard rnd vidbuf w0).ppu_is_pal = w0.ppu_is_pal ∧
      (ppu_reset hard rnd vidbuf w0).ppu.dot = 0 ∧
      (ppu_reset hard rnd vidbuf w0).ppu.scanline = 0 ∧
      (ppu_reset hard rnd vidbuf w0).ppu.scanline ≤ (if w0.ppu_is_pal then 311 else 261)) := by
  constructor
  · have h : (beam w).inrange := (beam_inrange_iff w).mpr ⟨hd.1, hd.2, hs.1, hs.2⟩
    have h2 := Beam.step_inrange (beam w) h
    rw [← beam_ppu_clock] at h2
    have hp : (ppu_clock w).ppu_is_pal = w.ppu_is_pal := by
      have := (Beam.step_is_pal (beam w)).1
      rw [← beam_ppu_clock] at this
      exact this
    obtain ⟨a, b, c, d⟩ := (beam_inrange_iff _).mp h2
    rw [hp] at d
    exact ⟨hp, a, b, c, d⟩
  · intro hard rnd vidbuf w0
    refine ⟨rfl, rfl, rfl, ?_⟩
    show (0 : Int) ≤ _
    split <;> decide

theorem C5_counter_range_witness :
    (ppu_clock { ppu := { dot := 339, scanline := 261, odd_frame := true, mask := 0x18 } }
      ).ppu.dot ≤ 340 :=
  (C5_counter_range { ppu := { dot := 339, scanline := 261, odd_frame := true, mask := 0x18 } }
    (by decide) (by decide)).1.2.2.1

/-- C4. NTSC frame length and odd-frame skip: from scanline 0, dot 0 with the
odd-frame flag clear, and with only `ppu_clock` calls (so the mask stays as it
is), the frame-complete flag is raised for the second time by call number
89342 + 89341 = 178683 when MASK = $18 and by call number 89342 + 89342 = 178684
when MASK = $00 (exactly one call among the earlier ones raises it). -/
theorem C4_frame_length (w : World) (hp : w.ppu_is_pal = false)
    (hs : w.ppu.scanline = 0) (hd : w.ppu.dot = 0) (ho : w.ppu.odd_frame = false) :
    (w.ppu.mask = 0x18 → frames_raised 178682 w = 1 ∧ frames_raised 178683 w = 2) ∧
    (w.ppu.mask = 0x00 → frames_raised 178683 w = 1 ∧ frames_raised 178684 w = 2) := by
  obtain ⟨t1, t2⟩ := Beam.two_frames (beam w) hp hs hd ho
  simp only [frames_raised_eq]
  constructor
  · intro hm
    apply t1
    show ((w.ppu.mask &&& 0x18) != 0) = true
    rw [hm]; decide
  · intro hm
    apply t2
    show ((w.ppu.mask &&& 0x18) != 0) = false
    rw [hm]; decide

theorem C4_frame_length_witness :
    frames_raised 178683 { ppu := { mask := 0x18 } } = 2 :=
  ((C4_frame_length { ppu := { mask := 0x18 } } rfl rfl rfl rfl).1 rfl).2

namespace Beam

/-- From dot 0 of the NTSC pre-render line: VBlank is clear after every number
of dots from 2 up to the dot before (241, 1) is executed, and set by the dot
executed at (241, 1). -/
theorem vblank_from_prerender (b : Beam) (hp : b.is_pal = false) (hs : b.scanline = 261)
    (hd : b.dot = 0) :
    (∀ k : Nat, 2 ≤ k → k ≤ prerender_len b + 82182 → (steps k b).vblank = false) ∧
    (steps (prerender_len b + 82183) b).vblank = true := by
  have hr : inrange b := by unfold inrange; rw [hp, hs, hd]; simp
  -- first dot, executed at (261, 0)
  have hnw : ¬ wraps b := by unfold wraps; rw [hd]; omega
  obtain ⟨p1, p2, p3⟩ := (step_ntsc b hp hr).2 hnw
  obtain ⟨q1, q2⟩ := step_is_pal b
  have hr1 := step_inrange b hr
  have hp1 : (step b).is_pal = false := q1.trans hp
  have hpos1 : (step b).scanline = 261 ∧ (step b).dot = 1 := by
    have := hr1; unfold inrange at this; rw [hp1] at this
    simp only [Bool.false_eq_true, if_false] at this
    rw [hs, hd] at p1; omega
  -- second dot, executed at (261, 1)
  have hnw1 : ¬ wraps (step b) := by unfold wraps; rw [hpos1.2]; omega
  obtain ⟨a1, a2, a3⟩ := (step_ntsc (step b) hp1 hr1).2 hnw1
  obtain ⟨c1, c2⟩ := step_is_pal (step b)
  have hr2 := step_inrange _ hr1
  have hp2 : (step (step b)).is_pal = false := c1.trans hp1
  have hv2 : (step (step b)).vblank = false := by
    rw [step_vblank]
    have n1 : ¬ ((step b).scanline = 241 ∧ (step b).dot = 1) := by omega
    have n2 : (step b).prerender = true ∧ (step b).dot = 1 := by
      unfold prerender; rw [hp1, hpos1.1]; exact ⟨by decide, hpos1.2⟩
    rw [if_neg n1, if_pos n2]
  have hlin2 : lin (step (step b)) = 89003 := by
    unfold lin; rw [hpos1.1, hpos1.2] at a1; omega
  have ho2 : (step (step b)).odd_frame = b.odd_frame := a2.trans p2
  have hm2 : (step (step b)).mask = b.mask := c2.trans q2
  have hre2 : (step (step b)).rendering = b.rendering := by unfold rendering; rw [hm2]
  have hst2 : ∀ m, steps (2 + m) b = steps m (step (step b)) := by
    intro m; rw [steps_add]; rfl
  -- the rest of the pre-render line
  have hrun1 : ∀ m : Nat, (m : Int) + 89003 ≤
      (if b.odd_frame = true ∧ b.rendering = true then 89340 else 89341) →
      lin (steps (2 + m) b) = 89003 + m ∧ inrange (steps (2 + m) b) ∧
      (steps (2 + m) b).is_pal = false ∧ (steps (2 + m) b).odd_frame = b.odd_frame ∧
      (steps (2 + m) b).mask = b.mask ∧ (steps (2 + m) b).vblank = false := by
    intro m hm
    have hlim : lin (step (step b)) + m ≤ (if (step (step b)).odd_frame = true ∧
        (step (step b)).rendering = true then 89340 else 89341) := by
      rw [hlin2, ho2, hre2]; omega
    obtain ⟨r1, r2, r3, r4, r5, -, -, r8⟩ := run_linear m _ hp2 hr2 hlim
    rw [hst2]
    refine ⟨by rw [r1, hlin2], r2, r3, r4.trans ho2, r5.trans hm2, ?_⟩
    rw [r8 (Or.inr (Or.inr (by rw [hlin2]; decide))), hv2]
  -- the wrapping dot
  have hL : (prerender_len b : Int) + 89000 =
      (if b.odd_frame = true ∧ b.rendering = true then 89340 else 89341) := by
    unfold prerender_len; split <;> simp
  have hL1 : 3 ≤ prerender_len b := by unfold prerender_len; split <;> omega
  obtain ⟨e1, e2, e3, e4, e5, e6⟩ := hrun1 (prerender_len b - 3) (by omega)
  have hsplit : 2 + (prerender_len b - 3) + 1 = prerender_len b := by omega
  have hw : wraps (steps (2 + (prerender_len b - 3)) b) := by
    have hre : (steps (2 + (prerender_len b - 3)) b).rendering = b.rendering := by
      unfold rendering; rw [e5]
    have e2' := e2
    unfold inrange at e2'
    rw [e3] at e2'
    simp only [Bool.false_eq_true, if_false] at e2'
    unfold wraps
    rw [e4, hre]
    unfold lin at e1
    by_cases hc : b.odd_frame = true ∧ b.rendering = true
    · rw [if_pos hc] at hL
      left; refine ⟨?_, ?_, hc.1, hc.2⟩ <;> omega
    · rw [if_neg hc] at hL
      right; constructor <;> omega
  obtain ⟨f1, f2, f3, -⟩ := (step_ntsc _ e3 e2).1 hw
  obtain ⟨g1, g2⟩ := step_is_pal (steps (2 + (prerender_len b - 3)) b)
  have hstL : steps (prerender_len b) b = step (steps (2 + (prerender_len b - 3)) b) := by
    conv_lhs => rw [← hsplit]
    rw [steps_add]; rfl
  have hvL : (steps (prerender_len b) b).vblank = false := by
    rw [hstL, step_vblank]
    have hdot : (steps (2 + (prerender_len b - 3)) b).dot ≠ 1 := by
      rcases hw with ⟨-, h, -, -⟩ | ⟨-, h⟩ <;> omega
    have n1 : ¬ ((steps (2 + (prerender_len b - 3)) b).scanline = 241 ∧
        (steps (2 + (prerender_len b - 3)) b).dot = 1) := fun h => hdot h.2
    have n2 : ¬ ((steps (2 + (prerender_len b - 3)) b).prerender = true ∧
        (steps (2 + (prerender_len b - 3)) b).dot = 1) := fun h => hdot h.2
    rw [if_neg n1, if_neg n2, e6]
  have hpL : (steps (prerender_len b) b).is_pal = false := by rw [hstL, g1, e3]
  have hrL : inrange (steps (prerender_len b) b) := by rw [hstL]; exact step_inrange _ e2
  have hlinL : lin (steps (prerender_len b) b) = 0 := by
    unfold lin; rw [hstL, f1, f2]; simp
  -- the next frame up to (241, 1)
  have hrun2 : ∀ m : Nat, m ≤ 82182 →
      lin (steps (prerender_len b + m) b) = m ∧ inrange (steps (prerender_len b + m) b) ∧
      (steps (prerender_len b + m) b).is_pal = false ∧
      (steps (prerender_len b + m) b).vblank = false := by
    intro m hm
    have hlim : lin (steps (prerender_len b) b) + m ≤
        (if (steps (prerender_len b) b).odd_frame = true ∧
          (steps (prerender_len b) b).rendering = true then 89340 else 89341) := by
      rw [hlinL]; split <;> omega
    obtain ⟨r1, r2, r3, -, -, -, -, r8⟩ := run_linear m _ hpL hrL hlim
    rw [steps_add]
    refine ⟨by rw [r1, hlinL]; simp, r2, r3, ?_⟩
    rw [r8 (Or.inl (by rw [hlinL]; omega)), hvL]
  constructor
  · intro k hk1 hk2
    by_cases hk : k < prerender_len b
    · obtain ⟨m, rfl⟩ : ∃ m, k = 2 + m := ⟨k - 2, by omega⟩
      exact (hrun1 m (by omega)).2.2.2.2.2
    · obtain ⟨m, rfl⟩ : ∃ m, k = prerender_len b + m := ⟨k - prerender_len b, by omega⟩
      exact (hrun2 m (by omega)).2.2.2
  · obtain ⟨z1, z2, z3, z4⟩ := hrun2 82182 (le_refl _)
    have z2' := z2
    unfold inrange at z2'
    rw [z3] at z2'
    simp only [Bool.false_eq_true, if_false] at z2'
    unfold lin at z1
    have hpos : (steps (prerender_len b + 82182) b).scanline = 241 ∧
        (steps (prerender_len b + 82182) b).dot = 1 := by
      push_cast at z1; omega
    have : steps (prerender_len b + 82183) b = step (steps (prerender_len b + 82182) b) := by
      rw [show prerender_len b + 82183 = (prerender_len b + 82182) + 1 from rfl, steps_add]; rfl
    rw [this, step_vblank, if_pos hpos]

end Beam

theorem status_of_vblank (w : World) :
    ((beam w).vblank = false ↔ w.ppu.status &&& 0x80 = 0) ∧
    ((beam w).vblank = true ↔ w.ppu.status &&& 0x80 ≠ 0) := by
  unfold beam
  simp

/-- C8 (amended). VBlank timing on NTSC with rendering enabled, from scanline 261
(pre-render), dot 0: STATUS bit 7 is set by the call of `ppu_clock` executed at
scanline 241, dot 1, so it is 1 after exactly 341 * 242 + 2 = 82524 calls
(82523 when the odd-frame flag is set, as dot 340 of the pre-render line is then
skipped), and it is 0 after every number of calls from 2 up to that, in
particular after 82182 calls. -/
theorem C8_vblank_timing (w : World) (hp : w.ppu_is_pal = false)
    (hs : w.ppu.scanline = 261) (hd : w.ppu.dot = 0) (hre : w.ppu.mask &&& 0x18 ≠ 0)
    (n : Nat) (hn : n = (if w.ppu.odd_frame = true then 82523 else 82524)) :
    (ppu_clocks n w).ppu.status &&& 0x80 ≠ 0 ∧
    (∀ k : Nat, 2 ≤ k → k < n → (ppu_clocks k w).ppu.status &&& 0x80 = 0) ∧
    (ppu_clocks 82182 w).ppu.status &&& 0x80 = 0 := by
  obtain ⟨v1, v2⟩ := Beam.vblank_from_prerender (beam w) hp hs hd
  have hrend : (beam w).rendering = true := by
    show ((w.ppu.mask &&& 0x18) != 0) = true
    simpa using hre
  have hlen : (beam w).prerender_len + 82183 = n := by
    unfold Beam.prerender_len
    rw [hrend, hn]
    show (if w.ppu.odd_frame = true ∧ true = true then 340 else 341) + 82183 = _
    by_cases ho : w.ppu.odd_frame = true
    · simp [ho]
    · simp [ho]
  have hall : ∀ k : Nat, 2 ≤ k → k < n → (ppu_clocks k w).ppu.status &&& 0x80 = 0 := by
    intro k hk1 hk2
    rw [← hlen] at hk2
    have := v1 k hk1 (by omega)
    rw [← beam_ppu_clocks] at this
    exact (status_of_vblank _).1.mp this
  refine ⟨?_, hall, ?_⟩
  · rw [← hlen]
    rw [← beam_ppu_clocks] at v2
    exact (status_of_vblank _).2.mp v2
  · apply hall 82182 (by decide)
    rw [hn]
    split <;> decide

theorem C8_vblank_timing_witness :
    (ppu_clocks 82524 { ppu := { scanline := 261, dot := 0, mask := 0x18 } }).ppu.status
      &&& 0x80 ≠ 0 :=
  (C8_vblank_timing { ppu := { scanline := 261, dot := 0, mask := 0x18 } }
    rfl rfl rfl (by decide) 82524 rfl).1

/-- C8, the claim as stated fails: on NTSC with MASK = $18, from scanline 261,
dot 0, STATUS bit 7 is 0 after exactly 82182 calls of `ppu_clock`. -/
theorem C8_counterexample :
    (ppu_clocks 82182 { ppu := { scanline := 261, dot := 0, mask := 0x18 } }).ppu.status
      &&& 0x80 = 0 := by
  obtain ⟨v1, -⟩ := Beam.vblank_from_prerender
    (beam { ppu := { scanline := 261, dot := 0, mask := 0x18 } }) rfl rfl rfl
  have := v1 82182 (by decide) (by unfold Beam.prerender_len; split <;> omega)
  rw [← beam_ppu_clocks] at this
  exact (status_of_vblank _).1.mp this

/-! ### The scheduler -/

theorem nes_clock_and_count (w : World) :
    (clock_and_count w).nes =
      { w.nes with ppu_cycles_total := (w.nes.ppu_cycles_total + 1) % 2 ^ 64 } := by
  unfold clock_and_count
  simp only [nes_ppu_clock]

theorem nes_reset_clock_loop (n : Nat) (w : World) (h : w.nes.ppu_cycles_total + n < 2 ^ 64) :
    (reset_clock_loop n w).nes =
      { w.nes with ppu_cycles_total := w.nes.ppu_cycles_total + n } := by
  induction n generalizing w with
  | zero => rfl
  | succ n ih =>
    have h1 : (w.nes.ppu_cycles_total + 1) % 2 ^ 64 = w.nes.ppu_cycles_total + 1 :=
      Nat.mod_eq_of_lt (by omega)
    have hn := nes_clock_and_count w
    rw [h1] at hn
    rw [reset_clock_loop, ih (clock_and_count w) (by rw [hn]; simp only; omega), hn]
    simp only [Nat.add_assoc, Nat.add_comm 1 n]

theorem nes_catchup_loop (target fuel : Nat) (w : World) (ht : target < 2 ^ 64)
    (hle : w.nes.ppu_cycles_total ≤ target) (hf : target - w.nes.ppu_cycles_total ≤ fuel) :
    (catchup_loop target fuel w).nes = { w.nes with ppu_cycles_total := target } := by
  induction fuel generalizing w with
  | zero =>
    have : w.nes.ppu_cycles_total = target := by omega
    rw [catchup_loop, ← this]
  | succ fuel ih =>
    rw [catchup_loop]
    by_cases hlt : w.nes.ppu_cycles_total < target
    · have h1 : (w.nes.ppu_cycles_total + 1) % 2 ^ 64 = w.nes.ppu_cycles_total + 1 :=
        Nat.mod_eq_of_lt (by omega)
      have hn := nes_clock_and_count w
      rw [h1] at hn
      rw [if_pos hlt, ih (clock_and_count w) (by rw [hn]; simp only; omega)
        (by rw [hn]; simp only; omega), hn]
    · have : w.nes.ppu_cycles_total = target := by omega
      rw [if_neg hlt, ← this]

theorem nes_ppu_reset (h : Int) (r : Nat) (v : Int → Nat) (w : World) :
    (ppu_reset h r v w).nes = w.nes := rfl

theorem nes_tick (c : Int) (w : World) :
    (ppu_mmc3_m2_tick c w).nes = w.nes ∧ (ppu_mmc3_m2_tick c w).ppu = w.ppu := by
  unfold ppu_mmc3_m2_tick
  split <;> exact ⟨rfl, rfl⟩

theorem nes_reset_counters (env : Env) (hard : Bool) (w : World) (hk : env.keeps_nes)
    (hb : w.nes.ppu_cycles_total + (if w.nes.is_pal_region then 22 else 21) < 2 ^ 64) :
    (nes_reset env hard w).nes.ppu_cycles_total =
        w.nes.ppu_cycles_total + (if w.nes.is_pal_region then 22 else 21) ∧
    (nes_reset env hard w).nes.cpu_cycles_total = (w.nes.cpu_cycles_total + 7) % 2 ^ 64 ∧
    (nes_reset env hard w).nes.last_catchup_cpu_cycles = w.nes.last_catchup_cpu_cycles ∧
    (nes_reset env hard w).nes.pal_fractional_acc = 0 ∧
    (nes_reset env hard w).nes.is_pal_region = w.nes.is_pal_region := by
  obtain ⟨k1, k2, k3, k4⟩ := hk
  have e1 : (if hard = true then env.hard_memory w else w).nes = w.nes := by
    split
    · exact k1 w
    · rfl
  have e4 : (env.mmc_reset (ppu_reset (if hard = true then 1 else 0) env.rnd env.vidbuf
      (env.apu_reset (if hard = true then env.hard_memory w else w)))).nes = w.nes := by
    rw [k3, nes_ppu_reset, k2, e1]
  unfold nes_reset
  simp only
  rw [k4]
  simp only
  have hn : ∀ n, n ≤ (if w.nes.is_pal_region then 22 else 21) → (reset_clock_loop n (env.mmc_reset (ppu_reset (if hard = true then 1 else 0)
      env.rnd env.vidbuf (env.apu_reset (if hard = true then env.hard_memory w else w))))).nes
      = { w.nes with ppu_cycles_total := w.nes.ppu_cycles_total + n } := by
    intro n hn
    rw [nes_reset_clock_loop n _ (by rw [e4]; omega), e4]
  rw [e4]
  by_cases hp : w.nes.is_pal_region = true
  · simp only [hp, if_true] at hn ⊢
    rw [hn _ (by decide)]
    simp [hp]
  · have hp' : w.nes.is_pal_region = false := by simpa using hp
    simp only [hp', Bool.false_eq_true, if_false] at hn ⊢
    rw [hn _ (by decide)]
    simp [hp']

theorem ppu_catchup_ntsc (w : World) (hp : w.nes.is_pal_region = false)
    (hle : w.nes.ppu_cycles_total ≤ 3 * w.nes.cpu_cycles_total)
    (hb : 3 * w.nes.cpu_cycles_total < 2 ^ 64) :
    (ppu_catchup w).nes = { w.nes with ppu_cycles_total := 3 * w.nes.cpu_cycles_total } := by
  have ht : catchup_target w = (3 * w.nes.cpu_cycles_total, w) := by
    unfold catchup_target
    rw [hp]
    simp only [Bool.false_eq_true, if_false]
    rw [Nat.mul_comm, Nat.mod_eq_of_lt hb]
  unfold ppu_catchup
  rw [ht]
  exact nes_catchup_loop _ _ w hb hle (le_refl _)

theorem nes_step_one_ntsc (w : World) (hp : w.ppu.is_pal_system = false)
    (hb : w.nes.ppu_cycles_total + 3 < 2 ^ 64) :
    (ppu_step_one_cpu_cycle w).nes =
      { w.nes with ppu_cycles_total := w.nes.ppu_cycles_total + 3 } := by
  unfold ppu_step_one_cpu_cycle
  rw [if_pos hp]
  simp only
  have h1 : (w.nes.ppu_cycles_total + 1) % 2 ^ 64 = w.nes.ppu_cycles_total + 1 :=
    Nat.mod_eq_of_lt (by omega)
  have h2 : (w.nes.ppu_cycles_total + 1 + 1) % 2 ^ 64 = w.nes.ppu_cycles_total + 1 + 1 :=
    Nat.mod_eq_of_lt (by omega)
  have h3 : (w.nes.ppu_cycles_total + 1 + 1 + 1) % 2 ^ 64 = w.nes.ppu_cycles_total + 1 + 1 + 1 :=
    Nat.mod_eq_of_lt (by omega)
  rw [nes_clock_and_count, nes_clock_and_count, nes_clock_and_count]
  simp only [h1, h2, h3]

/-- C6. NTSC scheduler alignment: `ppu_cycles_total = 3 * cpu_cycles_total`
holds after a successful `nes_init`; it is preserved by `nes_reset`, which adds
21 PPU dots and 7 CPU cycles; it is re-established by `ppu_catchup` after
`cpu_cycles_total` has grown by any number of cycles; and it is preserved by
every iteration of the OAM-DMA burn loop.  The 64-bit counters are assumed not
to wrap around. -/
theorem C6_ntsc_alignment :
    (∀ (env : Env) (w w1 : World), nes_init env w = .ok w1 →
      w1.nes.is_pal_region = false ∧
      w1.nes.ppu_cycles_total = 3 * w1.nes.cpu_cycles_total) ∧
    (∀ (env : Env) (hard : Bool) (w : World), env.keeps_nes →
      w.nes.is_pal_region = false →
      w.nes.ppu_cycles_total = 3 * w.nes.cpu_cycles_total →
      3 * (w.nes.cpu_cycles_total + 7) < 2 ^ 64 →
      (nes_reset env hard w).nes.ppu_cycles_total = w.nes.ppu_cycles_total + 21 ∧
      (nes_reset env hard w).nes.cpu_cycles_total = w.nes.cpu_cycles_total + 7 ∧
      (nes_reset env hard w).nes.ppu_cycles_total =
        3 * (nes_reset env hard w).nes.cpu_cycles_total) ∧
    (∀ (w : World) (cycles : Nat), w.nes.is_pal_region = false →
      w.nes.ppu_cycles_total = 3 * w.nes.cpu_cycles_total →
      3 * (w.nes.cpu_cycles_total + cycles) < 2 ^ 64 →
      (ppu_catchup (add_cpu_cycles cycles w)).nes.cpu_cycles_total
        = w.nes.cpu_cycles_total + cycles ∧
      (ppu_catchup (add_cpu_cycles cycles w)).nes.ppu_cycles_total =
        3 * (ppu_catchup (add_cpu_cycles cycles w)).nes.cpu_cycles_total) ∧
    (∀ (w : World), w.ppu.is_pal_system = false →
      w.nes.ppu_cycles_total = 3 * w.nes.cpu_cycles_total →
      3 * (w.nes.cpu_cycles_total + 1) < 2 ^ 64 →
      (dma_burn_step w).nes.cpu_cycles_total = w.nes.cpu_cycles_total + 1 ∧
      (dma_burn_step w).nes.ppu_cycles_total = 3 * (dma_burn_step w).nes.cpu_cycles_total) := by
  refine ⟨?_, ?_, ?_, ?_⟩
  · intro env w w1 h
    unfold nes_init at h
    by_cases hok : env.init_ok = true
    · simp only [hok, if_true, Except.ok.injEq] at h
      rw [← h]
      exact ⟨rfl, rfl⟩
    · simp only [hok, if_false] at h
      cases h
  · intro env hard w hk hp he hb
    have hb2 : w.nes.ppu_cycles_total + (if w.nes.is_pal_region then 22 else 21) < 2 ^ 64 := by
      rw [hp]; simp only [Bool.false_eq_true, if_false]; omega
    obtain ⟨r1, r2, -, -, -⟩ := nes_reset_counters env hard w hk hb2
    rw [hp] at r1
    simp only [Bool.false_eq_true, if_false] at r1
    have r2' : (nes_reset env hard w).nes.cpu_cycles_total = w.nes.cpu_cycles_total + 7 := by
      rw [r2]; exact Nat.mod_eq_of_lt (by omega)
    exact ⟨r1, r2', by rw [r1, r2']; omega⟩
  · intro w cycles hp he hb
    have hc : (add_cpu_cycles cycles w).nes.cpu_cycles_total = w.nes.cpu_cycles_total + cycles := by
      show (w.nes.cpu_cycles_total + cycles) % 2 ^ 64 = _
      exact Nat.mod_eq_of_lt (by omega)
    have hpp : (add_cpu_cycles cycles w).nes.ppu_cycles_total = w.nes.ppu_cycles_total := rfl
    have hn := ppu_catchup_ntsc (add_cpu_cycles cycles w) hp (by rw [hc, hpp]; omega)
      (by rw [hc]; exact hb)
    rw [hn]
    exact ⟨hc, rfl⟩
  · intro w hp he hb
    obtain ⟨t1, t2⟩ := nes_tick 1 w
    have hs := nes_step_one_ntsc (ppu_mmc3_m2_tick 1 w) (by rw [t2]; exact hp)
      (by rw [t1]; omega)
    unfold dma_burn_step
    simp only
    rw [hs, t1]
    simp only
    have hm : (w.nes.cpu_cycles_total + 1) % 2 ^ 64 = w.nes.cpu_cycles_total + 1 :=
      Nat.mod_eq_of_lt (by omega)
    rw [hm]
    exact ⟨rfl, by omega⟩

theorem C6_ntsc_alignment_witness :
    (ppu_catchup (add_cpu_cycles 4
        { nes := { cpu_cycles_total := 7, ppu_cycles_total := 21 } })).nes.ppu_cycles_total =
      3 * (ppu_catchup (add_cpu_cycles 4
        { nes := { cpu_cycles_total := 7, ppu_cycles_total := 21 } })).nes.cpu_cycles_total :=
  (C6_ntsc_alignment.2.2.1 { nes := { cpu_cycles_total := 7, ppu_cycles_total := 21 } } 4
    rfl rfl (by decide)).2

/-- The PAL branch of `ppu_catchup`, without wrap-around of the counters. -/
theorem ppu_catchup_pal (w : World) (hp : w.nes.is_pal_region = true)
    (hl : w.nes.last_catchup_cpu_cycles ≤ w.nes.cpu_cycles_total)
    (hc : w.nes.cpu_cycles_total < 2 ^ 59) (hq : w.nes.ppu_cycles_total < 2 ^ 63)
    (ha : w.nes.pal_fractional_acc < 5) :
    (ppu_catchup w).nes.ppu_cycles_total =
        w.nes.ppu_cycles_total +
          ((w.nes.cpu_cycles_total - w.nes.last_catchup_cpu_cycles) * 16) / 5 +
          (w.nes.pal_fractional_acc +
            ((w.nes.cpu_cycles_total - w.nes.last_catchup_cpu_cycles) * 16) % 5) / 5 ∧
    (ppu_catchup w).nes.cpu_cycles_total = w.nes.cpu_cycles_total ∧
    (ppu_catchup w).nes.last_catchup_cpu_cycles = w.nes.cpu_cycles_total ∧
    (ppu_catchup w).nes.pal_fractional_acc =
      (w.nes.pal_fractional_acc +
        ((w.nes.cpu_cycles_total - w.nes.last_catchup_cpu_cycles) * 16) % 5) % 5 ∧
    (ppu_catchup w).nes.is_pal_region = true := by
  have hd : (w.nes.cpu_cycles_total + 2 ^ 64 - w.nes.last_catchup_cpu_cycles) % 2 ^ 64
      = w.nes.cpu_cycles_total - w.nes.last_catchup_cpu_cycles := by omega
  have hm : ((w.nes.cpu_cycles_total - w.nes.last_catchup_cpu_cycles) * 16) % 2 ^ 64
      = (w.nes.cpu_cycles_total - w.nes.last_catchup_cpu_cycles) * 16 := by omega
  have ht : (w.nes.ppu_cycles_total +
      ((w.nes.cpu_cycles_total - w.nes.last_catchup_cpu_cycles) * 16) / 5 +
      (w.nes.pal_fractional_acc +
        ((w.nes.cpu_cycles_total - w.nes.last_catchup_cpu_cycles) * 16) % 5) / 5) < 2 ^ 64 := by
    omega
  have hn : (catchup_target w).1 = w.nes.ppu_cycles_total +
        ((w.nes.cpu_cycles_total - w.nes.last_catchup_cpu_cycles) * 16) / 5 +
        (w.nes.pal_fractional_acc +
          ((w.nes.cpu_cycles_total - w.nes.last_catchup_cpu_cycles) * 16) % 5) / 5 ∧
      (catchup_target w).2.nes = { w.nes with
        pal_fractional_acc := (w.nes.pal_fractional_acc +
          ((w.nes.cpu_cycles_total - w.nes.last_catchup_cpu_cycles) * 16) % 5) % 5,
        last_catchup_cpu_cycles := w.nes.cpu_cycles_total } := by
    unfold catchup_target
    simp only [hp, if_true, hd, hm, Nat.mod_eq_of_lt ht, and_self]
  obtain ⟨n1, n2⟩ := hn
  have hpp : (catchup_target w).2.nes.ppu_cycles_total = w.nes.ppu_cycles_total := by rw [n2]
  unfold ppu_catchup
  simp only
  rw [nes_catchup_loop (catchup_target w).1 _ (catchup_target w).2 (by rw [n1]; exact ht)
    (by rw [n1, hpp]; omega) (le_refl _), n2, n1]
  simp [hp]

/-- The default environment leaves the scheduler record alone. -/
theorem default_env_keeps_nes : ({} : Env).keeps_nes :=
  ⟨fun _ => rfl, fun _ => rfl, fun _ => rfl, fun _ => rfl⟩

/-- C7: the code at the failing input.  In the PAL region, after `nes_init`,
`nes_setregion(true)` and `nes_reset`, one instruction of 2 CPU cycles followed
by `ppu_catchup` leaves `cpu_cycles_total = 9` and `ppu_cycles_total = 50`,
while `floor(9 * 16 / 5) = 28`: the difference is 22, not 0 or 1. -/
theorem C7_pal_invariant_fails :
    ∃ w1 : World, nes_init {} {} = .ok w1 ∧
      (ppu_catchup (add_cpu_cycles 2 (nes_reset {} true (nes_setregion true w1)))
        ).nes.cpu_cycles_total = 9 ∧
      (ppu_catchup (add_cpu_cycles 2 (nes_reset {} true (nes_setregion true w1)))
        ).nes.ppu_cycles_total = 50 ∧
      (9 * 16 / 5 : Nat) = 28 := by
  refine ⟨_, rfl, ?_⟩
  generalize hw : nes_setregion true _ = w
  have h1 : w.nes.cpu_cycles_total = 0 := by rw [← hw]; rfl
  have h2 : w.nes.ppu_cycles_total = 0 := by rw [← hw]; rfl
  have h3 : w.nes.last_catchup_cpu_cycles = 0 := by rw [← hw]; rfl
  have h4 : w.nes.is_pal_region = true := by rw [← hw]; rfl
  obtain ⟨r1, r2, r3, r4, r5⟩ := nes_reset_counters {} true w default_env_keeps_nes
    (by rw [h2, h4]; decide)
  rw [h2, h4] at r1
  rw [h1] at r2
  rw [h3] at r3
  rw [h4] at r5
  have a1 : (add_cpu_cycles 2 (nes_reset {} true w)).nes.cpu_cycles_total = 9 := by
    show ((nes_reset {} true w).nes.cpu_cycles_total + 2) % 2 ^ 64 = 9
    rw [r2]; decide
  have a2 : (add_cpu_cycles 2 (nes_reset {} true w)).nes.ppu_cycles_total = 22 := by
    show (nes_reset {} true w).nes.ppu_cycles_total = 22
    rw [r1]; rfl
  have a3 : (add_cpu_cycles 2 (nes_reset {} true w)).nes.last_catchup_cpu_cycles = 0 := r3
  have a4 : (add_cpu_cycles 2 (nes_reset {} true w)).nes.pal_fractional_acc = 0 := r4
  have a5 : (add_cpu_cycles 2 (nes_reset {} true w)).nes.is_pal_region = true := r5
  obtain ⟨c1, c2, -, -, -⟩ := ppu_catchup_pal (add_cpu_cycles 2 (nes_reset {} true w)) a5
    (by rw [a3]; exact Nat.zero_le _) (by rw [a1]; decide) (by rw [a2]; decide)
    (by rw [a4]; decide)
  rw [a1, a2, a3, a4] at c1
  rw [a1] at c2
  exact ⟨c2, c1, by decide⟩

/-! ### The CPU-side registers -/

theorem status_nmi_check (w : World) :
    (nmi_check w).ppu.status = w.ppu.status ∧ (nmi_check w).ppu.open_bus = w.ppu.open_bus ∧
    (nmi_check w).ppu.w = w.ppu.w ∧ (nmi_check w).ppu.v = w.ppu.v ∧
    (nmi_check w).ppu.t = w.ppu.t := by
  unfold nmi_check
  dsimp only
  split_ifs <;> simp

theorem ppu_read_2002 (w : World) : ppu_read 0x2002 w = ppu_read_status w := by
  unfold ppu_read
  simp only [show (0x2002 &&& 7 : Nat) = 2 from rfl, if_true]

theorem ppu_read_status_spec (w : World) :
    (ppu_read_status w).1 = (w.ppu.status &&& 0xE0) ||| (w.ppu.open_bus &&& 0x1F) ∧
    (ppu_read_status w).2.ppu.status = w.ppu.status &&& 0x7F ∧
    (ppu_read_status w).2.ppu.w = 0 ∧
    (ppu_read_status w).2.ppu.open_bus = (w.ppu.status &&& 0xE0) ||| (w.ppu.open_bus &&& 0x1F) := by
  unfold ppu_read_status
  dsimp only
  obtain ⟨h1, -, -, -, -⟩ := status_nmi_check
    { w with ppu := { w.ppu with status := w.ppu.status &&& 0x7F } }
  exact ⟨rfl, h1, rfl, rfl⟩

theorem read_value_bit7 (s o : Nat) : ((s &&& 0xE0) ||| (o &&& 0x1F)) &&& 0x80 = s &&& 0x80 := by
  rw [Nat.and_distrib_right, Nat.and_assoc, Nat.and_assoc]
  show (s &&& 0x80) ||| (o &&& 0) = s &&& 0x80
  simp

theorem and7F_and80 (s : Nat) : (s &&& 0x7F) &&& 0x80 = 0 := by
  rw [Nat.and_assoc]; exact Nat.and_zero s

theorem and7F_and60 (s : Nat) : (s &&& 0x7F) &&& 0x60 = s &&& 0x60 := by
  rw [Nat.and_assoc]; rfl

/-- C9. CPU read of $2002: for every machine state the read returns
`(STATUS & $E0) | (open_bus & $1F)`, clears STATUS bit 7, sets the write toggle
`w` to 0 and leaves STATUS bits 6 and 5 as they were; the value returned has the
bit 7 that STATUS had, and an immediately following second read returns bit 7
clear. -/
theorem C9_status_read (w : World) :
    (ppu_read 0x2002 w).1 = (w.ppu.status &&& 0xE0) ||| (w.ppu.open_bus &&& 0x1F) ∧
    (ppu_read 0x2002 w).2.ppu.status &&& 0x80 = 0 ∧
    (ppu_read 0x2002 w).2.ppu.w = 0 ∧
    (ppu_read 0x2002 w).2.ppu.status &&& 0x60 = w.ppu.status &&& 0x60 ∧
    (ppu_read 0x2002 w).1 &&& 0x80 = w.ppu.status &&& 0x80 ∧
    (ppu_read 0x2002 (ppu_read 0x2002 w).2).1 &&& 0x80 = 0 := by
  obtain ⟨a1, a2, a3, -⟩ := ppu_read_status_spec w
  obtain ⟨b1, -, -, -⟩ := ppu_read_status_spec (ppu_read_status w).2
  rw [ppu_read_2002, ppu_read_2002]
  refine ⟨a1, ?_, a3, ?_, ?_, ?_⟩
  · rw [a2, and7F_and80]
  · rw [a2, and7F_and60]
  · rw [a1, read_value_bit7]
  · rw [b1, read_value_bit7, a2, and7F_and80]

theorem ppu_write_2006 (value : Nat) (w : World) :
    ppu_write 0x2006 value w =
      ppu_write_addr value { w with ppu := { w.ppu with open_bus := value } } := by
  unfold ppu_write
  simp only [show (0x2006 &&& 7 : Nat) = 6 from rfl]
  rfl

theorem addr_hi_mask (a : Nat) : ((a &&& 0x3F) <<< 8) &&& 0x7F00 = (a &&& 0x3F) <<< 8 := by
  have h : a &&& 0x3F < 64 := by
    have := Nat.and_le_right (n := a) (m := 0x3F)
    omega
  generalize a &&& 0x3F = y at h
  interval_cases y <;> rfl

theorem t_lo_mask (t : Nat) : (t &&& 0x00FF) &&& 0x7F00 = 0 := by
  rw [Nat.and_assoc]; exact Nat.and_zero t

/-- C10. Double write to $2006: for every machine state with `w = 0` and all
bytes `a`, `b`, after writing `a` alone `v` is unchanged and `w = 1`; after
writing `a` and then `b`, `t = ((a & $3F) << 8) | b`, `v = t` and `w = 0`. -/
theorem C10_ppuaddr_double_write (w : World) (a b : Nat) (hw : w.ppu.w = 0)
    (ha : a < 256) (hb : b < 256) :
    (ppu_write 0x2006 a w).ppu.v = w.ppu.v ∧
    (ppu_write 0x2006 a w).ppu.w = 1 ∧
    (ppu_write 0x2006 b (ppu_write 0x2006 a w)).ppu.t = ((a &&& 0x3F) <<< 8) ||| b ∧
    (ppu_write 0x2006 b (ppu_write 0x2006 a w)).ppu.v =
      (ppu_write 0x2006 b (ppu_write 0x2006 a w)).ppu.t ∧
    (ppu_write 0x2006 b (ppu_write 0x2006 a w)).ppu.w = 0 := by
  have _ := ha
  have _ := hb
  have e1 : ppu_write 0x2006 a w = { w with ppu := { w.ppu with
      open_bus := a, t := (w.ppu.t &&& 0x00FF) ||| ((a &&& 0x3F) <<< 8), w := 1 } } := by
    rw [ppu_write_2006]
    unfold ppu_write_addr
    simp only [hw, if_true]
  have e2 : ppu_write 0x2006 b (ppu_write 0x2006 a w) = { w with ppu := { w.ppu with
      open_bus := b,
      t := (((w.ppu.t &&& 0x00FF) ||| ((a &&& 0x3F) <<< 8)) &&& 0x7F00) ||| b,
      v := (((w.ppu.t &&& 0x00FF) ||| ((a &&& 0x3F) <<< 8)) &&& 0x7F00) ||| b,
      w := 0 } } := by
    rw [e1, ppu_write_2006]
    unfold ppu_write_addr
    simp
  rw [e2, e1]
  refine ⟨rfl, rfl, ?_, rfl, rfl⟩
  show (((w.ppu.t &&& 0x00FF) ||| ((a &&& 0x3F) <<< 8)) &&& 0x7F00) ||| b = _
  rw [Nat.and_distrib_right, t_lo_mask, addr_hi_mask, Nat.zero_or]

theorem C10_ppuaddr_double_write_witness :
    (ppu_write 0x2006 0x34 (ppu_write 0x2006 0xFF { ppu := { t := 0x7ABC, v := 5 } })).ppu.v
      = (ppu_write 0x2006 0x34 (ppu_write 0x2006 0xFF { ppu := { t := 0x7ABC, v := 5 } })).ppu.t :=
  (C10_ppuaddr_double_write { ppu := { t := 0x7ABC, v := 5 } } 0xFF 0x34 rfl
    (by decide) (by decide)).2.2.2.1

/-! ### Palette and PPUDATA -/

theorem and3F_lt (x : Nat) : x &&& 0x3F < 64 := by
  have := Nat.and_le_right (n := x) (m := 0x3F)
  omega

/-- Two writes to $2006 starting with the toggle clear leave `v = t =
((a & $3F) << 8) | b`, the toggle clear again, and touch nothing but `t`, `v`,
`w` and the open-bus latch. -/
theorem ppu_write_2006_pair (w : World) (a b : Nat) (hw : w.ppu.w = 0) :
    ppu_write 0x2006 b (ppu_write 0x2006 a w) = { w with ppu := { w.ppu with
      open_bus := b, t := ((a &&& 0x3F) <<< 8) ||| b, v := ((a &&& 0x3F) <<< 8) ||| b,
      w := 0 } } := by
  have e1 : ppu_write 0x2006 a w = { w with ppu := { w.ppu with
      open_bus := a, t := (w.ppu.t &&& 0x00FF) ||| ((a &&& 0x3F) <<< 8), w := 1 } } := by
    rw [ppu_write_2006]
    unfold ppu_write_addr
    simp only [hw, if_true]
  have e3 : (((w.ppu.t &&& 0x00FF) ||| ((a &&& 0x3F) <<< 8)) &&& 0x7F00) ||| b
      = ((a &&& 0x3F) <<< 8) ||| b := by
    rw [Nat.and_distrib_right, t_lo_mask, addr_hi_mask, Nat.zero_or]
  rw [e1, ppu_write_2006]
  unfold ppu_write_addr
  simp [e3]

theorem pal_index_lo (k : Nat) (hk : k = 0 ∨ k = 4 ∨ k = 8 ∨ k = 12) :
    pal_index (0x3F00 + k) = k ∧ pal_index (0x3F10 + k) = k ∧ k &&& 0x03 = 0 := by
  rcases hk with h | h | h | h <;> subst h <;> decide

theorem pal_mirror_raw (w : World) (k x : Nat) (hk : k = 0 ∨ k = 4 ∨ k = 8 ∨ k = 12) :
    pal_read_raw (0x3F00 + k) (pal_write_raw (0x3F10 + k) x w) = x &&& 0x3F ∧
    pal_read_raw (0x3F10 + k) (pal_write_raw (0x3F00 + k) x w) = x &&& 0x3F := by
  obtain ⟨h1, h2, h3⟩ := pal_index_lo k hk
  unfold pal_read_raw pal_write_raw
  simp only [h1, h2, h3, if_true]
  have hne : k ≠ k ^^^ 0x10 := by
    rcases hk with h | h | h | h <;> subst h <;> decide
  constructor <;> simp [Function.update, hne]

theorem bus_palette_read (a : Nat) (w : World) (h1 : 0x3F00 ≤ a) (h2 : a < 0x4000) :
    ppu_bus_read a w = (pal_read_raw a w, w) := by
  have e : a &&& 0x3FFF = a := by
    rw [show (0x3FFF : Nat) = 2 ^ 14 - 1 from rfl, Nat.and_pow_two_sub_one_eq_mod]
    exact Nat.mod_eq_of_lt h2
  unfold ppu_bus_read
  simp only [e]
  rw [if_neg (by omega), if_neg (by omega)]

theorem bus_palette_write (a x : Nat) (w : World) (h1 : 0x3F00 ≤ a) (h2 : a < 0x4000) :
    ppu_bus_write a x w = pal_write_raw a x w := by
  have e : a &&& 0x3FFF = a := by
    rw [show (0x3FFF : Nat) = 2 ^ 14 - 1 from rfl, Nat.and_pow_two_sub_one_eq_mod]
    exact Nat.mod_eq_of_lt h2
  unfold ppu_bus_write
  simp only [e]
  rw [if_neg (by omega), if_neg (by omega)]


theorem and_3FFF (v : Nat) : v &&& 0x3FFF = v % 16384 := by
  rw [show (0x3FFF : Nat) = 2 ^ 14 - 1 from rfl, Nat.and_pow_two_sub_one_eq_mod]

/-- The palette test of `ppu_read_data`, `(v & 0x3F00) == 0x3F00`, says that the
bus address `v & $3FFF` is at or above `$3F00`. -/
theorem palette_test_iff (v : Nat) : (v &&& 0x3F00 = 0x3F00) ↔ 0x3F00 ≤ (v &&& 0x3FFF) := by
  have e : v &&& 0x3F00 = (v &&& 0x3FFF) &&& 0x3F00 := by
    rw [Nat.and_assoc]; rfl
  have hr : v &&& 0x3FFF < 16384 := by rw [and_3FFF]; exact Nat.mod_lt _ (by norm_num)
  rw [e]
  generalize v &&& 0x3FFF = r at hr
  constructor
  · intro h
    have := Nat.and_le_left (n := r) (m := 0x3F00)
    omega
  · intro h
    obtain ⟨s, rfl⟩ : ∃ s, r = 2 ^ 8 * 0x3F + s := ⟨r - 0x3F00, by omega⟩
    have hs : s < 2 ^ 8 := by omega
    rw [Nat.mul_add_lt_is_or hs, Nat.and_distrib_right]
    have : s &&& 0x3F00 = 0 := by
      have e2 : s = s &&& 0xFF := by
        rw [show (0xFF : Nat) = 2 ^ 8 - 1 from rfl, Nat.and_pow_two_sub_one_eq_mod]
        exact (Nat.mod_eq_of_lt hs).symm
      rw [e2, Nat.and_assoc]; exact Nat.and_zero s
    rw [this]; rfl

theorem and_2FFF_range (v : Nat) (h : v &&& 0x3F00 = 0x3F00) :
    (v &&& 0x2FFF) &&& 0x3FFF = v &&& 0x2FFF ∧ 0x2000 ≤ v &&& 0x2FFF ∧ v &&& 0x2FFF < 0x3F00 := by
  refine ⟨by rw [Nat.and_assoc]; rfl, ?_, ?_⟩
  · have h1 : (v &&& 0x2FFF) &&& 0x2000 = 0x2000 := by
      have : (v &&& 0x2FFF) &&& 0x2000 = (v &&& 0x3F00) &&& 0x2000 := by
        rw [Nat.and_assoc, Nat.and_assoc]; rfl
      rw [this, h]; rfl
    have := Nat.and_le_left (n := v &&& 0x2FFF) (m := 0x2000)
    omega
  · have := Nat.and_le_right (n := v) (m := 0x2FFF)
    omega

theorem vram_wrap (x : Nat) : (x % 65536) &&& 0x7FFF = x &&& 0x7FFF := by
  rw [show (0x7FFF : Nat) = 2 ^ 15 - 1 from rfl, Nat.and_pow_two_sub_one_eq_mod,
    Nat.and_pow_two_sub_one_eq_mod]
  exact Nat.mod_mod_of_dvd x (by norm_num)

theorem bus_read_ppu (a : Nat) (w : World) : (ppu_bus_read a w).2.ppu = w.ppu := by
  unfold ppu_bus_read
  dsimp only
  split_ifs
  · rw [chr_read_world]; exact (mmc3_track_a12_ppu _ w).1
  · rfl
  · rfl

theorem bus_read_nametable (a : Nat) (w : World) (e : a &&& 0x3FFF = a) (h1 : 0x2000 ≤ a)
    (h2 : a < 0x3F00) : ppu_bus_read a w = (w.ciram (ciram_ptr a w), w) := by
  unfold ppu_bus_read
  simp only [e]
  rw [if_neg (by omega), if_pos h2]

theorem bus_read_palette (a : Nat) (w : World) (h : 0x3F00 ≤ (a &&& 0x3FFF)) :
    ppu_bus_read a w = (pal_read_raw (a &&& 0x3FFF) w, w) := by
  unfold ppu_bus_read
  dsimp only
  rw [if_neg (by omega), if_neg (by omega)]

theorem pal_read_raw_mask (a : Nat) (w : World) :
    pal_read_raw (a &&& 0x3FFF) w = pal_read_raw a w := by
  unfold pal_read_raw pal_index
  have : (a &&& 0x3FFF) &&& 0x1F = a &&& 0x1F := by rw [Nat.and_assoc]; rfl
  simp only [this]

theorem ppu_read_2007 (w : World) : ppu_read 0x2007 w = ppu_read_data w := by
  unfold ppu_read
  simp only [show (0x2007 &&& 7 : Nat) = 7 from rfl]
  rfl


theorem ppu_write_2007 (x : Nat) (w : World) :
    ppu_write 0x2007 x w = ppu_write_data x { w with ppu := { w.ppu with open_bus := x } } := by
  unfold ppu_write
  simp only [show (0x2007 &&& 7 : Nat) = 7 from rfl]
  rfl

theorem pal_read_raw_congr (a : Nat) (w w' : World) (h : w'.ppu.palette = w.ppu.palette) :
    pal_read_raw a w' = pal_read_raw a w := by
  unfold pal_read_raw; rw [h]

theorem pal_write_raw_frame (a x : Nat) (w : World) :
    (pal_write_raw a x w).ppu.w = w.ppu.w ∧ (pal_write_raw a x w).ppu.v = w.ppu.v ∧
    (pal_write_raw a x w).ppu.ctrl = w.ppu.ctrl := by
  unfold pal_write_raw
  dsimp only
  split_ifs <;> exact ⟨rfl, rfl, rfl⟩

theorem pal_write_raw_congr (a x : Nat) (w w' : World) (h : w'.ppu.palette = w.ppu.palette) :
    (pal_write_raw a x w').ppu.palette = (pal_write_raw a x w).ppu.palette := by
  unfold pal_write_raw
  dsimp only
  split_ifs <;> simp [h]

/-- A write to $2007 with `v` in the palette range stores through
`pal_write_raw` and leaves the write toggle alone. -/
theorem ppu_write_2007_palette (x : Nat) (w : World) (h1 : 0x3F00 ≤ w.ppu.v)
    (h2 : w.ppu.v < 0x4000) :
    (ppu_write 0x2007 x w).ppu.palette = (pal_write_raw w.ppu.v x w).ppu.palette ∧
    (ppu_write 0x2007 x w).ppu.w = w.ppu.w := by
  rw [ppu_write_2007]
  unfold ppu_write_data
  dsimp only
  rw [bus_palette_write _ _ _ h1 h2]
  exact ⟨pal_write_raw_congr _ _ _ _ rfl, (pal_write_raw_frame _ _ _).1⟩

/-- A read of $2007 with `v` in the palette range returns the palette entry. -/
theorem ppu_read_2007_palette (w : World) (hp : w.ppu.v &&& 0x3F00 = 0x3F00) :
    (ppu_read 0x2007 w).1 = pal_read_raw w.ppu.v w % 256 := by
  have hge := (palette_test_iff _).1 hp
  have b1 : ppu_bus_read w.ppu.v w = (pal_read_raw w.ppu.v w, w) := by
    rw [bus_read_palette _ _ hge, pal_read_raw_mask]
  rw [ppu_read_2007]
  unfold ppu_read_data
  simp only [hp, if_true, b1]

/-- Writing `x` to the palette address `$3F00 | lo1` through $2006/$2007 and
then reading `$3F00 | lo2` back through $2006/$2007 gives what `pal_read_raw`
gives after `pal_write_raw`. -/
theorem palette_through_registers (w : World) (lo1 lo2 x : Nat) (hw : w.ppu.w = 0)
    (h1 : lo1 < 256) (h2 : lo2 < 256) :
    (ppu_read 0x2007 (ppu_write 0x2006 lo2 (ppu_write 0x2006 0x3F
      (ppu_write 0x2007 x (ppu_write 0x2006 lo1 (ppu_write 0x2006 0x3F w)))))).1
      = pal_read_raw (0x3F00 + lo2) (pal_write_raw (0x3F00 + lo1) x w) % 256 := by
  have ea (lo : Nat) (h : lo < 256) : ((0x3F &&& 0x3F) <<< 8) ||| lo = 0x3F00 + lo := by
    have : lo < 2 ^ 8 := h
    rw [show ((0x3F &&& 0x3F) <<< 8 : Nat) = 2 ^ 8 * 0x3F from rfl,
      ← Nat.mul_add_lt_is_or this]
  have et (lo : Nat) (h : lo < 256) : (0x3F00 + lo) &&& 0x3F00 = 0x3F00 := by
    apply (palette_test_iff _).2
    rw [and_3FFF]; omega
  rw [ppu_write_2006_pair w 0x3F lo1 hw, ea lo1 h1]
  obtain ⟨p1, p2⟩ := ppu_write_2007_palette x { w with ppu := { w.ppu with
      open_bus := lo1, t := 0x3F00 + lo1, v := 0x3F00 + lo1, w := 0 } }
      (show 0x3F00 ≤ 0x3F00 + lo1 by omega) (show 0x3F00 + lo1 < 0x4000 by omega)
  rw [ppu_write_2006_pair _ 0x3F lo2 p2, ea lo2 h2, ppu_read_2007_palette _ (et lo2 h2)]
  congr 1
  exact (pal_read_raw_congr _ _ _ p1).trans
    (pal_read_raw_congr _ _ _ (pal_write_raw_congr _ _ _ _ rfl))

/-- C11. Palette mirror: for `k` in {0, 4, 8, 12} and every byte `x`, a palette
write of `x` at `$3F10 + k` makes a palette read at `$3F00 + k` return
`x & $3F`, and a write at `$3F00 + k` makes a read at `$3F10 + k` return
`x & $3F`; the same holds when the write and the read go through the CPU
registers $2006/$2007 (starting with the write toggle clear). -/
theorem C11_palette_mirror (w : World) (k x : Nat) (hk : k = 0 ∨ k = 4 ∨ k = 8 ∨ k = 12) :
    pal_read_raw (0x3F00 + k) (pal_write_raw (0x3F10 + k) x w) = x &&& 0x3F ∧
    pal_read_raw (0x3F10 + k) (pal_write_raw (0x3F00 + k) x w) = x &&& 0x3F ∧
    (w.ppu.w = 0 →
      (ppu_read 0x2007 (ppu_write 0x2006 k (ppu_write 0x2006 0x3F
        (ppu_write 0x2007 x (ppu_write 0x2006 (0x10 + k) (ppu_write 0x2006 0x3F w)))))).1
        = x &&& 0x3F ∧
      (ppu_read 0x2007 (ppu_write 0x2006 (0x10 + k) (ppu_write 0x2006 0x3F
        (ppu_write 0x2007 x (ppu_write 0x2006 k (ppu_write 0x2006 0x3F w)))))).1
        = x &&& 0x3F) := by
  obtain ⟨m1, m2⟩ := pal_mirror_raw w k x hk
  have hk2 : k < 16 := by omega
  have hb : (x &&& 0x3F) % 256 = x &&& 0x3F := Nat.mod_eq_of_lt (by have := and3F_lt x; omega)
  refine ⟨m1, m2, fun hw => ⟨?_, ?_⟩⟩
  · rw [palette_through_registers w (0x10 + k) k x hw (by omega) (by omega),
      show 0x3F00 + (0x10 + k) = 0x3F10 + k by omega, m1, hb]
  · rw [palette_through_registers w k (0x10 + k) x hw (by omega) (by omega),
      show 0x3F00 + (0x10 + k) = 0x3F10 + k by omega, m2, hb]

theorem C11_palette_mirror_witness :
    pal_read_raw 0x3F00 (pal_write_raw 0x3F10 0x3F { }) = 0x3F ∧
    pal_read_raw 0x3F14 (pal_write_raw 0x3F04 0x07 { }) = 0x07 :=
  ⟨(C11_palette_mirror { } 0 0x3F (Or.inl rfl)).1,
   (C11_palette_mirror { } 4 0x07 (Or.inr (Or.inl rfl))).2.1⟩

/-- C12. A read of $2007: when `(v & $3FFF) < $3F00` it returns the previous
read buffer and the buffer becomes the byte the PPU bus holds at `v`; otherwise
it returns the palette entry at `v` and the buffer becomes the nametable byte
at `v & $2FFF`; in both cases `v` becomes `(v + inc) & $7FFF`, with `inc = 32`
when CTRL bit 2 is set and `1` otherwise. -/
theorem C12_ppudata_read (w : World) :
    ((w.ppu.v &&& 0x3FFF) < 0x3F00 →
      (ppu_read 0x2007 w).1 = w.ppu.buffered_data ∧
      (ppu_read 0x2007 w).2.ppu.buffered_data = (ppu_bus_read w.ppu.v w).1 % 256) ∧
    (0x3F00 ≤ (w.ppu.v &&& 0x3FFF) →
      (ppu_read 0x2007 w).1 = pal_read_raw w.ppu.v w % 256 ∧
      (ppu_read 0x2007 w).2.ppu.buffered_data =
        w.ciram (ciram_ptr (w.ppu.v &&& 0x2FFF) w) % 256) ∧
    (ppu_read 0x2007 w).2.ppu.v =
      (w.ppu.v + (if w.ppu.ctrl &&& 0x04 ≠ 0 then 32 else 1)) &&& 0x7FFF := by
  rw [ppu_read_2007]
  by_cases hp : w.ppu.v &&& 0x3F00 = 0x3F00
  · have hge := (palette_test_iff _).1 hp
    obtain ⟨r1, r2, r3⟩ := and_2FFF_range _ hp
    have b1 : ppu_bus_read w.ppu.v w = (pal_read_raw w.ppu.v w, w) := by
      rw [bus_read_palette _ _ hge, pal_read_raw_mask]
    have b2 : ppu_bus_read (w.ppu.v &&& 0x2FFF) w
        = (w.ciram (ciram_ptr (w.ppu.v &&& 0x2FFF) w), w) := bus_read_nametable _ _ r1 r2 r3
    unfold ppu_read_data
    simp only [hp, if_true, b1, b2, vram_inc, vram_wrap]
    exact ⟨fun h => absurd hge (by omega), fun _ => ⟨trivial, trivial⟩, trivial⟩
  · have hlt : (w.ppu.v &&& 0x3FFF) < 0x3F00 := by
      have := (palette_test_iff w.ppu.v).not.1 hp
      omega
    have bp := bus_read_ppu w.ppu.v w
    unfold ppu_read_data
    simp only [hp, if_false, vram_inc, vram_wrap, bp]
    exact ⟨fun _ => ⟨trivial, trivial⟩, fun h => absurd h (by omega), trivial⟩


theorem C12_ppudata_read_witness :
    (ppu_read 0x2007 { ppu := { v := 0x2400, buffered_data := 7 } }).1 = 7 ∧
    (ppu_read 0x2007 { ppu := { v := 0x3F01, ctrl := 4 } }).2.ppu.v = 0x3F21 :=
  ⟨((C12_ppudata_read { ppu := { v := 0x2400, buffered_data := 7 } }).1 (by decide)).1,
   (C12_ppudata_read { ppu := { v := 0x3F01, ctrl := 4 } }).2.2⟩

/-! ### Pattern memory: writes and the page table -/

theorem mmc3_track_a12_chr (addr : Nat) (w : World) :
    (mmc3_track_a12 addr w).chrmem = w.chrmem ∧
    (mmc3_track_a12 addr w).chr_page_ptrs = w.chr_page_ptrs ∧
    (mmc3_track_a12 addr w).chrram_ptr = w.chrram_ptr ∧
    (mmc3_track_a12 addr w).chrram_size = w.chrram_size := by
  unfold mmc3_track_a12
  by_cases hr : (!w.a12_prev && ((addr &&& 0x1000) != 0)) = true
  · by_cases hc : 3 ≤ w.mmc3_a12_low_m2_count
    · cases hh : w.mapper_ppu_hook with
      | none => simp [hr, hc, hh]
      | some h =>
        cases h
        simp only [hr, hc, hh, call_mapper_hook, map4_ppu_tick, map4_clock_irq, nes_irq]
        by_cases h1 : w.map4.irq.reload_flag = true <;> by_cases h2 : w.map4.irq.counter = 0 <;>
          by_cases h3 : w.map4.irq.enabled = true <;> by_cases h4 : w.map4.irq.latch = 0 <;>
          by_cases h5 : (w.map4.irq.counter - 1) % 256 = 0 <;> simp [h1, h2, h3, h4, h5]
    · simp [hr, hc]
  · simp [hr]

/-- A pattern write with CHR-RAM present stores at `chrram_ptr[a % chrram_size]`
and leaves the page table alone. -/
theorem bus_write_chr (w : World) (a x r : Nat) (ha : a < 0x2000)
    (hr : w.chrram_ptr = some r) (hs : w.chrram_size ≠ 0) :
    (ppu_bus_write a x w).chrmem = Function.update w.chrmem (r + a % w.chrram_size) x ∧
    (ppu_bus_write a x w).chr_page_ptrs = w.chr_page_ptrs := by
  have e : a &&& 0x3FFF = a := by
    rw [show (0x3FFF : Nat) = 2 ^ 14 - 1 from rfl, Nat.and_pow_two_sub_one_eq_mod]
    exact Nat.mod_eq_of_lt (by omega)
  have ew : ppu_bus_write a x w = mmc3_track_a12 a
      { w with chrmem := Function.update w.chrmem (r + a % w.chrram_size) x } := by
    unfold ppu_bus_write
    simp only [e, if_pos ha, hr, hs, ne_eq, not_false_eq_true, if_true]
  rw [ew]
  exact ⟨(mmc3_track_a12_chr a _).1, (mmc3_track_a12_chr a _).2.1⟩

/-- A pattern read of a mapped page returns `chr_page_ptrs[a >> 10][a & $3FF]`. -/
theorem chr_read_mapped (w : World) (a p : Nat) (ha : a < 0x2000)
    (hp : w.chr_page_ptrs ((a >>> 10) &&& 0x0F) = some p) :
    (chr_read a w).1 = w.chrmem (p + (a &&& 0x3FF)) := by
  obtain ⟨d1, d2, -, -⟩ := mmc3_track_a12_chr a w
  unfold chr_read
  simp only [if_neg (show ¬ 0x2000 ≤ a by omega), d1, d2, hp]

/-- What a pattern read returns right after a pattern write at the same
address, when CHR-RAM is present and the page of the address is mapped: the
written byte only if the page pointer leads to the byte
`chrram_ptr[a % chrram_size]` that the write has stored to. -/
theorem chr_read_after_write (w : World) (a x r p : Nat) (ha : a < 0x2000)
    (hr : w.chrram_ptr = some r) (hs : w.chrram_size ≠ 0)
    (hp : w.chr_page_ptrs ((a >>> 10) &&& 0x0F) = some p) :
    (chr_read a (ppu_bus_write a x w)).1 =
      if p + (a &&& 0x3FF) = r + a % w.chrram_size then x else w.chrmem (p + (a &&& 0x3FF)) := by
  obtain ⟨b1, b2⟩ := bus_write_chr w a x r ha hr hs
  rw [chr_read_mapped _ a p ha (by rw [b2]; exact hp), b1, Function.update_apply]

/-- C13. Pattern writes do not go through the CHR page table: with an 8 KiB
CHR-RAM at offset 0 whose second KiB is mapped into page 0 by `ppu_setpage`,
a PPU bus write of `$AB` at `$0000` stores the byte at `chrram_ptr[0]`, not at
`chr_page_ptrs[0][0]`, and the following `chr_read` at `$0000` returns the old
byte `0`. -/
theorem C13_chr_write_bypasses_page_table :
    (ppu_setpage 1 0 (some 0x400) (ppu_set_chrram (some 0) 0x2000 { })).chr_page_ptrs 0
      = some 0x400 ∧
    (ppu_bus_write 0 0xAB
      (ppu_setpage 1 0 (some 0x400) (ppu_set_chrram (some 0) 0x2000 { }))).chrmem 0 = 0xAB ∧
    (ppu_bus_write 0 0xAB
      (ppu_setpage 1 0 (some 0x400) (ppu_set_chrram (some 0) 0x2000 { }))).chrmem 0x400 = 0 ∧
    (chr_read 0 (ppu_bus_write 0 0xAB
      (ppu_setpage 1 0 (some 0x400) (ppu_set_chrram (some 0) 0x2000 { })))).1 = 0 := by
  refine ⟨by decide, by decide, by decide, by decide⟩

/-! ### OAM DMA: what the PPU clock leaves alone -/

theorem kept_intro (w2 w1 : World) (h1 : w2.ppu.oam = w1.ppu.oam)
    (h2 : w2.ppu.oam_addr = w1.ppu.oam_addr) (h3 : w2.cpu.burned = w1.cpu.burned)
    (h4 : w2.cpu.release_calls = w1.cpu.release_calls)
    (h5 : w2.ppu.is_pal_system = w1.ppu.is_pal_system) : oam_kept w2 w1 :=
  ⟨h1, Or.inl h2, h3, h4, h5⟩

theorem kept_refl (w : World) : oam_kept w w := kept_intro _ _ rfl rfl rfl rfl rfl

theorem kept_trans {w3 w2 w1 : World} (h : oam_kept w3 w2) (g : oam_kept w2 w1) :
    oam_kept w3 w1 := by
  obtain ⟨h1, h2, h3, h4, h5⟩ := h
  obtain ⟨g1, g2, g3, g4, g5⟩ := g
  refine ⟨h1.trans g1, ?_, h3.trans g3, h4.trans g4, h5.trans g5⟩
  rcases h2 with h2 | h2
  · rcases g2 with g2 | g2
    · exact Or.inl (h2.trans g2)
    · exact Or.inr (h2.trans g2)
  · exact Or.inr h2

theorem kept_ite (c : Prop) [Decidable c] (a b w : World) (ha : oam_kept a w)
    (hb : oam_kept b w) : oam_kept (if c then a else b) w := by
  split <;> assumption

/-- Replacing the `ppu` record by one with the same OAM and OAMADDR. -/
theorem kept_set_ppu (w : World) (p : ppu_s) (h1 : p.oam = w.ppu.oam)
    (h2 : p.oam_addr = w.ppu.oam_addr) (h3 : p.is_pal_system = w.ppu.is_pal_system) :
    oam_kept { w with ppu := p } w :=
  kept_intro _ _ h1 h2 rfl rfl h3

theorem map4_clock_irq_cpu (w : World) :
    (map4_clock_irq w).cpu.burned = w.cpu.burned ∧
    (map4_clock_irq w).cpu.release_calls = w.cpu.release_calls := by
  unfold map4_clock_irq nes_irq
  by_cases h1 : w.map4.irq.reload_flag = true <;> by_cases h2 : w.map4.irq.counter = 0 <;>
    by_cases h3 : w.map4.irq.enabled = true <;> by_cases h4 : w.map4.irq.latch = 0 <;>
    by_cases h5 : (w.map4.irq.counter - 1) % 256 = 0 <;> simp [h1, h2, h3, h4, h5]

theorem call_mapper_hook_cpu (h : MapperHook) (addr : Nat) (w : World) :
    (call_mapper_hook h addr w).cpu.burned = w.cpu.burned ∧
    (call_mapper_hook h addr w).cpu.release_calls = w.cpu.release_calls := by
  cases h
  simp only [call_mapper_hook, map4_ppu_tick]
  obtain ⟨a, b⟩ := map4_clock_irq_cpu { w with hook_log := w.hook_log ++ [addr] }
  exact ⟨a, b⟩

theorem mmc3_track_a12_cpu (addr : Nat) (w : World) :
    (mmc3_track_a12 addr w).cpu.burned = w.cpu.burned ∧
    (mmc3_track_a12 addr w).cpu.release_calls = w.cpu.release_calls := by
  unfold mmc3_track_a12
  by_cases hr : (!w.a12_prev && ((addr &&& 0x1000) != 0)) = true
  · by_cases hc : 3 ≤ w.mmc3_a12_low_m2_count
    · cases hh : w.mapper_ppu_hook with
      | none => simp [hr, hc, hh]
      | some h =>
        obtain ⟨a, b⟩ := call_mapper_hook_cpu h (addr &&& 0x1FFF) w
        simp [hr, hc, hh, a, b]
    · simp [hr, hc]
  · simp [hr]

theorem kept_track (addr : Nat) (w : World) : oam_kept (mmc3_track_a12 addr w) w :=
  kept_intro _ _ (congrArg ppu_s.oam (mmc3_track_a12_ppu addr w).1)
    (congrArg ppu_s.oam_addr (mmc3_track_a12_ppu addr w).1)
    (mmc3_track_a12_cpu addr w).1 (mmc3_track_a12_cpu addr w).2
    (congrArg ppu_s.is_pal_system (mmc3_track_a12_ppu addr w).1)

theorem kept_chr_read (addr : Nat) (w : World) : oam_kept (chr_read addr w).2 w := by
  rw [chr_read_world]; exact kept_track addr w

theorem kept_bus_read (addr : Nat) (w : World) : oam_kept (ppu_bus_read addr w).2 w := by
  unfold ppu_bus_read
  simp only
  split_ifs
  all_goals first | exact kept_refl _ | exact kept_chr_read _ w

theorem kept_nmi_step (w : World) : oam_kept (nmi_step w) w := by
  unfold nmi_step nes_nmi
  simp only
  split_ifs <;> exact kept_intro _ _ rfl rfl rfl rfl rfl

theorem kept_latch_sprite0 (w : World) : oam_kept (clock_latch_sprite0 w) w := by
  unfold clock_latch_sprite0; split <;> exact kept_intro _ _ rfl rfl rfl rfl rfl

theorem kept_sprite0_hit (i : Nat) (w : World) : oam_kept (sprite0_hit i w) w := by
  unfold sprite0_hit
  simp only
  split_ifs
  all_goals exact kept_intro _ _ rfl rfl rfl rfl rfl

theorem kept_sprite_pixel_loop (n i : Nat) (w : World) :
    oam_kept (sprite_pixel_loop n i w).2 w := by
  induction n generalizing i with
  | zero => exact kept_refl _
  | succ n ih =>
    unfold sprite_pixel_loop
    simp only
    split_ifs
    all_goals first | exact ih _ | exact kept_sprite0_hit i w

theorem kept_sprite_pixel (w : World) : oam_kept (sprite_pixel w).2 w := by
  unfold sprite_pixel
  split_ifs
  all_goals first | exact kept_refl _ | exact kept_sprite_pixel_loop 8 0 w

theorem kept_apply_emphasis (idx mask : Nat) (w : World) :
    oam_kept (apply_emphasis_idx idx mask w).2 w := by
  unfold apply_emphasis_idx init_emphasis_lut
  simp only
  split <;> exact kept_intro _ _ rfl rfl rfl rfl rfl

theorem kept_clock_pixel (w : World) : oam_kept (clock_pixel w) w := by
  unfold clock_pixel
  simp only
  split_ifs
  all_goals first
    | exact kept_refl _
    | exact kept_sprite_pixel w
    | exact kept_trans (kept_intro _ _ rfl rfl rfl rfl rfl) (kept_sprite_pixel w)
    | exact kept_trans (kept_apply_emphasis _ _ _) (kept_sprite_pixel w)

theorem kept_bg_shift (w : World) : oam_kept (bg_shift w) w := kept_intro _ _ rfl rfl rfl rfl rfl

theorem kept_sprite_shift (w : World) : oam_kept (sprite_shift w) w :=
  kept_intro _ _ rfl rfl rfl rfl rfl

theorem kept_clock_shift (w : World) : oam_kept (clock_shift w) w := by
  unfold clock_shift
  simp only
  split_ifs
  all_goals exact kept_intro _ _ rfl rfl rfl rfl rfl

theorem kept_inc_x (w : World) : oam_kept (inc_x w) w := by
  unfold inc_x; split <;> exact kept_intro _ _ rfl rfl rfl rfl rfl

theorem kept_inc_y (w : World) : oam_kept (inc_y w) w := by
  unfold inc_y
  dsimp only
  split_ifs <;> exact kept_intro _ _ rfl rfl rfl rfl rfl

theorem kept_copy_x (w : World) : oam_kept (copy_x_from_t w) w :=
  kept_intro _ _ rfl rfl rfl rfl rfl

theorem kept_copy_y (w : World) : oam_kept (copy_y_from_t w) w :=
  kept_intro _ _ rfl rfl rfl rfl rfl

theorem kept_reload (w : World) : oam_kept (bg_reload_shifters w) w :=
  kept_intro _ _ rfl rfl rfl rfl rfl

theorem kept_latchfunc (b t : Nat) (w : World) : oam_kept (call_latchfunc b t w) w := by
  unfold call_latchfunc; split <;> exact kept_intro _ _ rfl rfl rfl rfl rfl

theorem kept_set_bg (w : World) (b : bg_t) :
    oam_kept { w with ppu := { w.ppu with bg := b } } w := kept_intro _ _ rfl rfl rfl rfl rfl

theorem kept_bg_fetch_nt (w : World) : oam_kept (bg_fetch_nt w) w := by
  unfold bg_fetch_nt
  exact kept_trans (kept_set_bg _ _) (kept_bus_read _ w)

theorem kept_bg_fetch_at (w : World) : oam_kept (bg_fetch_at w) w := by
  unfold bg_fetch_at
  exact kept_trans (kept_set_bg _ _) (kept_bus_read _ w)

theorem kept_bg_fetch_pt_lo (w : World) : oam_kept (bg_fetch_pt_lo w) w := by
  unfold bg_fetch_pt_lo
  exact kept_trans (kept_set_bg _ _) (kept_trans (kept_chr_read _ _) (kept_latchfunc _ _ w))

theorem kept_bg_fetch_pt_hi (w : World) : oam_kept (bg_fetch_pt_hi w) w := by
  unfold bg_fetch_pt_hi
  exact kept_trans (kept_reload _) (kept_trans (kept_set_bg _ _) (kept_chr_read _ w))

theorem kept_bg_fetch_switch (w : World) : oam_kept (bg_fetch_switch w) w := by
  unfold bg_fetch_switch
  exact kept_ite _ _ _ _ (kept_bg_fetch_nt w) (kept_ite _ _ _ _ (kept_bg_fetch_at w)
    (kept_ite _ _ _ _ (kept_bg_fetch_pt_lo w) (kept_ite _ _ _ _ (kept_bg_fetch_pt_hi w)
      (kept_refl _))))

theorem kept_bg_fetch (w : World) : oam_kept (bg_fetch w) w := by
  unfold bg_fetch
  exact kept_ite _ _ _ _ (kept_trans (kept_inc_x _) (kept_bg_fetch_switch w))
    (kept_bg_fetch_switch w)

theorem kept_clock_bg_tail (w1 w : World) (h : oam_kept w1 w) :
    oam_kept (if w1.ppu.dot = 256 then inc_y w1
      else if w1.ppu.dot = 257 then copy_x_from_t w1
      else if IS_PRERENDER_LINE w1 = true ∧ 280 ≤ w1.ppu.dot ∧ w1.ppu.dot ≤ 304 then
        copy_y_from_t w1
      else w1) w :=
  kept_ite _ _ _ _ (kept_trans (kept_inc_y _) h) (kept_ite _ _ _ _ (kept_trans (kept_copy_x _) h)
    (kept_ite _ _ _ _ (kept_trans (kept_copy_y _) h) h))

theorem kept_clock_bg (w : World) : oam_kept (clock_bg w) w := by
  unfold clock_bg
  exact kept_ite _ _ _ _
    (kept_clock_bg_tail _ w (kept_ite _ _ _ _ (kept_bg_fetch w) (kept_refl _))) (kept_refl _)

theorem kept_eval_init (w : World) : oam_kept (clock_eval_init w) w := by
  unfold clock_eval_init; split <;> exact kept_intro _ _ rfl rfl rfl rfl rfl

theorem kept_eval_read (w : World) : oam_kept (eval_sprite_read_primary w) w := by
  unfold eval_sprite_read_primary
  dsimp only
  split_ifs <;> exact kept_intro _ _ rfl rfl rfl rfl rfl

theorem kept_eval_write (w : World) : oam_kept (eval_sprite_write_secondary w) w := by
  unfold eval_sprite_write_secondary
  dsimp only
  split_ifs <;> exact kept_intro _ _ rfl rfl rfl rfl rfl

theorem kept_clock_eval (w : World) : oam_kept (clock_eval w) w := by
  unfold clock_eval
  exact kept_ite _ _ _ _ (kept_ite _ _ _ _ (kept_eval_read w) (kept_eval_write w)) (kept_refl _)

/-- The latches of dot 257 clear OAMADDR and leave OAM alone. -/
theorem kept_dot257 (w : World) : oam_kept (clock_dot257 w) w := by
  unfold clock_dot257
  exact kept_ite _ _ _ _ ⟨rfl, Or.inr rfl, rfl, rfl, rfl⟩ (kept_refl _)

theorem kept_sprite_fetch_lo (h c : Nat) (w : World) : oam_kept (sprite_fetch_lo h c w) w := by
  unfold sprite_fetch_lo
  exact kept_trans (kept_set_ppu _ _ rfl rfl rfl)
    (kept_trans (kept_chr_read _ _)
      (kept_trans (kept_set_ppu _ _ rfl rfl rfl) (kept_latchfunc _ _ w)))

theorem kept_sprite_fetch_hi (w : World) : oam_kept (sprite_fetch_hi w) w := by
  unfold sprite_fetch_hi
  exact kept_trans (kept_set_ppu _ _ rfl rfl rfl) (kept_chr_read _ w)

theorem kept_sprite_fetch_dummy (w : World) : oam_kept (sprite_fetch_dummy w) w := by
  unfold sprite_fetch_dummy
  exact kept_chr_read _ w

theorem kept_sprite_fetch_load (slot : Nat) (w : World) :
    oam_kept (sprite_fetch_load slot w) w := by
  unfold sprite_fetch_load
  exact kept_ite _ _ _ _
    (kept_trans (kept_set_ppu _ _ rfl rfl rfl) (kept_chr_read _ w)) (kept_chr_read _ w)

theorem kept_clock_sprite_fetch (w : World) : oam_kept (clock_sprite_fetch w) w := by
  unfold clock_sprite_fetch
  refine kept_ite _ _ _ _ ?_ (kept_refl _)
  have h0 : oam_kept { w with ppu := { w.ppu with
      spr_fetch_slot := ((w.ppu.dot - 257) % 256).toNat >>> 3,
      spr_fetch_phase := ((w.ppu.dot - 257) % 256).toNat &&& 7 } } w :=
    kept_set_ppu _ _ rfl rfl rfl
  exact kept_ite _ _ _ _ (kept_trans (kept_set_ppu _ _ rfl rfl rfl) h0)
    (kept_ite _ _ _ _ (kept_trans (kept_set_ppu _ _ rfl rfl rfl) h0)
    (kept_ite _ _ _ _ (kept_trans (kept_set_ppu _ _ rfl rfl rfl) h0)
    (kept_ite _ _ _ _ (kept_trans (kept_set_ppu _ _ rfl rfl rfl) h0)
    (kept_ite _ _ _ _ (kept_trans (kept_sprite_fetch_lo _ _ _) h0)
    (kept_ite _ _ _ _ (kept_trans (kept_sprite_fetch_hi _) h0)
    (kept_ite _ _ _ _ (kept_trans (kept_sprite_fetch_dummy _) h0)
      (kept_trans (kept_sprite_fetch_load _ _) h0)))))))

theorem kept_dot321 (w : World) : oam_kept (clock_dot321 w) w := by
  unfold clock_dot321; split <;> exact kept_intro _ _ rfl rfl rfl rfl rfl

theorem kept_nmi_check (w : World) : oam_kept (nmi_check w) w := by
  unfold nmi_check
  dsimp only
  split_ifs <;> exact kept_intro _ _ rfl rfl rfl rfl rfl

theorem kept_clock_vblank_set (w : World) : oam_kept (clock_vblank_set w) w := by
  unfold clock_vblank_set
  exact kept_ite _ _ _ _ (kept_trans (kept_nmi_check _) (kept_set_ppu _ _ rfl rfl rfl)) (kept_refl _)

theorem kept_clock_vblank_clear (w : World) : oam_kept (clock_vblank_clear w) w := by
  unfold clock_vblank_clear
  exact kept_ite _ _ _ _ (kept_trans (kept_nmi_check _) (kept_set_ppu _ _ rfl rfl rfl)) (kept_refl _)

theorem kept_clock_vblank (w : World) : oam_kept (clock_vblank w) w := by
  unfold clock_vblank
  exact kept_trans (kept_clock_vblank_clear _) (kept_clock_vblank_set w)

theorem kept_INC_DOT (w : World) : oam_kept (INC_DOT w) w := by
  unfold INC_DOT
  dsimp only
  split_ifs <;> exact kept_intro _ _ rfl rfl rfl rfl rfl

theorem kept_clock_odd_skip (w : World) : oam_kept (clock_odd_skip w) w := by
  unfold clock_odd_skip
  exact kept_ite _ _ _ _ (kept_INC_DOT w) (kept_refl _)

theorem kept_clock_frame_end (w : World) : oam_kept (clock_frame_end w) w := by
  unfold clock_frame_end
  exact kept_ite _ _ _ _ (kept_intro _ _ rfl rfl rfl rfl rfl) (kept_refl _)

/-- One call of `ppu_clock` leaves primary OAM and the burn and release counters
alone, and OAMADDR is unchanged or cleared. -/
theorem kept_ppu_clock (w : World) : oam_kept (ppu_clock w) w := by
  unfold ppu_clock
  exact kept_trans (kept_clock_frame_end _) (kept_trans (kept_INC_DOT _)
    (kept_trans (kept_clock_odd_skip _) (kept_trans (kept_clock_vblank _)
    (kept_trans (kept_dot321 _) (kept_trans (kept_clock_sprite_fetch _)
    (kept_trans (kept_dot257 _) (kept_trans (kept_clock_eval _)
    (kept_trans (kept_eval_init _) (kept_trans (kept_clock_bg _)
    (kept_trans (kept_clock_shift _) (kept_trans (kept_clock_pixel _)
    (kept_trans (kept_latch_sprite0 _) (kept_nmi_step w)))))))))))))

/-! ### OAM DMA -/

theorem kept_clock_and_count (w : World) : oam_kept (clock_and_count w) w := by
  unfold clock_and_count
  exact kept_trans (kept_intro _ _ rfl rfl rfl rfl rfl) (kept_ppu_clock w)

theorem kept_pal_accum_loop (n : Nat) (w : World) : oam_kept (pal_accum_loop n w) w := by
  induction n generalizing w with
  | zero => exact kept_refl _
  | succ n ih =>
    unfold pal_accum_loop
    exact kept_ite _ _ _ _
      (kept_trans (ih _) (kept_trans (kept_set_ppu _ _ rfl rfl rfl) (kept_clock_and_count w)))
      (kept_refl _)

theorem kept_step_one (w : World) : oam_kept (ppu_step_one_cpu_cycle w) w := by
  unfold ppu_step_one_cpu_cycle
  exact kept_ite _ _ _ _
    (kept_trans (kept_set_ppu _ _ rfl rfl rfl) (kept_trans (kept_clock_and_count _)
      (kept_trans (kept_clock_and_count _) (kept_clock_and_count w))))
    (kept_trans (kept_pal_accum_loop _ _) (kept_set_ppu _ _ rfl rfl rfl))

theorem nes_pal_accum_loop (n : Nat) (w : World) :
    (pal_accum_loop n w).nes.cpu_cycles_total = w.nes.cpu_cycles_total := by
  induction n generalizing w with
  | zero => rfl
  | succ n ih =>
    unfold pal_accum_loop
    split
    · rw [ih]
      show (clock_and_count w).nes.cpu_cycles_total = _
      rw [nes_clock_and_count]
    · rfl

theorem cpu_total_step_one (w : World) :
    (ppu_step_one_cpu_cycle w).nes.cpu_cycles_total = w.nes.cpu_cycles_total := by
  unfold ppu_step_one_cpu_cycle
  split
  · show (clock_and_count (clock_and_count (clock_and_count w))).nes.cpu_cycles_total = _
    rw [nes_clock_and_count, nes_clock_and_count, nes_clock_and_count]
  · rw [nes_pal_accum_loop]

/-- One round of the burn loop: OAM is kept, OAMADDR is kept or cleared, one
cycle is burned and one CPU cycle is counted. -/
theorem dma_burn_step_spec (w : World) :
    (dma_burn_step w).ppu.oam = w.ppu.oam ∧
    ((dma_burn_step w).ppu.oam_addr = w.ppu.oam_addr ∨ (dma_burn_step w).ppu.oam_addr = 0) ∧
    (dma_burn_step w).cpu.burned = w.cpu.burned + 1 ∧
    (dma_burn_step w).cpu.release_calls = w.cpu.release_calls ∧
    (dma_burn_step w).ppu.is_pal_system = w.ppu.is_pal_system ∧
    (dma_burn_step w).nes.cpu_cycles_total = (w.nes.cpu_cycles_total + 1) % 2 ^ 64 := by
  obtain ⟨k1, k2, k3, k4, k5⟩ := kept_step_one (ppu_mmc3_m2_tick 1 w)
  obtain ⟨t1, t2⟩ := nes_tick 1 w
  have tc : (ppu_mmc3_m2_tick 1 w).cpu = w.cpu := by
    unfold ppu_mmc3_m2_tick; split <;> rfl
  rw [t2] at k1 k2 k5
  rw [tc] at k3 k4
  have c := cpu_total_step_one (ppu_mmc3_m2_tick 1 w)
  rw [t1] at c
  unfold dma_burn_step
  refine ⟨k1, k2, ?_, k4, k5, ?_⟩
  · show (ppu_step_one_cpu_cycle (ppu_mmc3_m2_tick 1 w)).cpu.burned + 1 = _
    rw [k3]
  · show ((ppu_step_one_cpu_cycle (ppu_mmc3_m2_tick 1 w)).nes.cpu_cycles_total + 1) % 2 ^ 64 = _
    rw [c]

theorem dma_burn_loop_iterate (n : Nat) (w : World) :
    dma_burn_loop n w = dma_burn_step^[n] w := by
  induction n generalizing w with
  | zero => rfl
  | succ n ih => rw [dma_burn_loop, ih, Function.iterate_succ_apply]

theorem dma_burn_loop_spec (n : Nat) (w : World) (h0 : w.ppu.oam_addr = 0)
    (hc : w.nes.cpu_cycles_total + n < 2 ^ 64) :
    (dma_burn_loop n w).ppu.oam = w.ppu.oam ∧
    (dma_burn_loop n w).ppu.oam_addr = 0 ∧
    (dma_burn_loop n w).cpu.burned = w.cpu.burned + n ∧
    (dma_burn_loop n w).cpu.release_calls = w.cpu.release_calls ∧
    (dma_burn_loop n w).nes.cpu_cycles_total = w.nes.cpu_cycles_total + n := by
  induction n generalizing w with
  | zero => exact ⟨rfl, h0, rfl, rfl, rfl⟩
  | succ n ih =>
    obtain ⟨s1, s2, s3, s4, -, s6⟩ := dma_burn_step_spec w
    rw [Nat.mod_eq_of_lt (by omega)] at s6
    have s2' : (dma_burn_step w).ppu.oam_addr = 0 := by
      rcases s2 with s2 | s2
      · rw [s2, h0]
      · exact s2
    obtain ⟨i1, i2, i3, i4, i5⟩ := ih (dma_burn_step w) s2' (by rw [s6]; omega)
    rw [dma_burn_loop]
    refine ⟨i1.trans s1, i2, ?_, i4.trans s4, ?_⟩
    · rw [i3, s3]; omega
    · rw [i5, s6]; omega

/-- The copy loop: `n` bytes from CPU address `base + i` go to OAM from OAMADDR
on, wrapping around at 256; bytes not reached keep their value. -/
theorem oam_dma_copy_spec (base n i : Nat) (w : World) (hn : n ≤ 256)
    (ha : w.ppu.oam_addr < 256) :
    (∀ j, j < n → (oam_dma_copy base n i w).ppu.oam ((w.ppu.oam_addr + j) % 256)
        = w.cpu.getbyte (base + i + j)) ∧
    (∀ k, (∀ j, j < n → k ≠ (w.ppu.oam_addr + j) % 256) →
        (oam_dma_copy base n i w).ppu.oam k = w.ppu.oam k) ∧
    (oam_dma_copy base n i w).cpu = w.cpu ∧ (oam_dma_copy base n i w).nes = w.nes ∧
    (oam_dma_copy base n i w).ppu.is_pal_system = w.ppu.is_pal_system := by
  induction n generalizing i w with
  | zero =>
    exact ⟨fun j hj => absurd hj (Nat.not_lt_zero j), fun _ _ => rfl, rfl, rfl, rfl⟩
  | succ n ih =>
    obtain ⟨W1, hW1⟩ : ∃ W1 : World, W1 = { w with ppu := { w.ppu with
      oam := Function.update w.ppu.oam w.ppu.oam_addr (w.cpu.getbyte (base + i)),
      oam_addr := (w.ppu.oam_addr + 1) % 256 } } := ⟨_, rfl⟩
    have e : oam_dma_copy base (n + 1) i w = oam_dma_copy base n (i + 1) W1 := by
      rw [hW1, oam_dma_copy]
    have f1 : W1.ppu.oam = Function.update w.ppu.oam w.ppu.oam_addr (w.cpu.getbyte (base + i)) := by
      rw [hW1]
    have f2 : W1.ppu.oam_addr = (w.ppu.oam_addr + 1) % 256 := by rw [hW1]
    have f3 : W1.cpu = w.cpu := by rw [hW1]
    have f4 : W1.nes = w.nes := by rw [hW1]
    have f5 : W1.ppu.is_pal_system = w.ppu.is_pal_system := by rw [hW1]
    clear hW1
    obtain ⟨i1, i2, i3, i4, i5⟩ := ih (i + 1) W1 (by omega) (by rw [f2]; omega)
    rw [e]
    rw [f2, f3] at i1
    rw [f2, f1] at i2
    refine ⟨?_, ?_, i3.trans f3, i4.trans f4, i5.trans f5⟩
    · intro j hj
      rcases Nat.eq_zero_or_pos j with h0 | hpos
      · subst h0
        rw [i2 _ (by intro j hj2; omega), Nat.add_zero, Nat.mod_eq_of_lt ha,
          Function.update_same, Nat.add_zero]
      · obtain ⟨j', rfl⟩ : ∃ j', j = j' + 1 := ⟨j - 1, by omega⟩
        have h := i1 j' (by omega)
        have e1 : ((w.ppu.oam_addr + 1) % 256 + j') % 256 = (w.ppu.oam_addr + (j' + 1)) % 256 := by
          omega
        have e2 : base + (i + 1) + j' = base + i + (j' + 1) := by omega
        rw [e1, e2] at h
        exact h
    · intro k hk
      rw [i2 k (by
        intro j hj
        have := hk (j + 1) (by omega)
        omega)]
      have := hk 0 (by omega)
      simp only [Nat.add_zero, Nat.mod_eq_of_lt ha] at this
      simp [Function.update, this]

theorem ppu_total_dma_burn_step (w : World) (hp : w.ppu.is_pal_system = false)
    (hb : w.nes.ppu_cycles_total + 3 < 2 ^ 64) :
    (dma_burn_step w).nes.ppu_cycles_total = w.nes.ppu_cycles_total + 3 := by
  obtain ⟨t1, t2⟩ := nes_tick 1 w
  have h := nes_step_one_ntsc (ppu_mmc3_m2_tick 1 w) (by rw [t2]; exact hp) (by rw [t1]; exact hb)
  rw [t1] at h
  unfold dma_burn_step
  show (ppu_step_one_cpu_cycle (ppu_mmc3_m2_tick 1 w)).nes.ppu_cycles_total = _
  rw [h]

theorem ppu_total_dma_burn_loop (n : Nat) (w : World) (hp : w.ppu.is_pal_system = false)
    (hb : w.nes.ppu_cycles_total + 3 * n < 2 ^ 64) :
    (dma_burn_loop n w).nes.ppu_cycles_total = w.nes.ppu_cycles_total + 3 * n := by
  induction n generalizing w with
  | zero => rfl
  | succ n ih =>
    have s := ppu_total_dma_burn_step w hp (by omega)
    obtain ⟨-, -, -, -, s5, -⟩ := dma_burn_step_spec w
    rw [dma_burn_loop, ih (dma_burn_step w) (s5.trans hp) (by rw [s]; omega), s]
    omega

/-! ### The work-RAM pager -/

/-- C15. WRAM write gate: for every address, byte and pager state, `wram_write`
(with 4 KiB CPU pages: shift 12, mask `$FFF`) leaves the whole machine, and so
every later read, unchanged when the enable bit is 0, when no cartridge RAM is
attached or when the write-protect bit is 1; when enabled, attached and not
protected it stores the byte at `p`, the offset `addr & $FFF` of CPU page
`addr >> 12`, and changes no other byte and nothing else. -/
theorem C15_wram_write_gate (w : World) (addr val : Nat) (p : Int)
    (hp : p = w.cpu.mem_page (addr >>> 12) + ((addr &&& 0xFFF : Nat) : Int)) :
    ((w.wram.wram_en = false ∨ w.wram.base = 0 ∨ w.wram.wram_wp = true) →
      wram_write 12 0xFFF addr val w = w ∧
      ∀ a, bank_readbyte 12 0xFFF a (wram_write 12 0xFFF addr val w)
        = bank_readbyte 12 0xFFF a w) ∧
    ((w.wram.wram_en = true ∧ w.wram.base ≠ 0 ∧ w.wram.wram_wp = false) →
      wram_write 12 0xFFF addr val w = { w with hostmem := Function.update w.hostmem p val } ∧
      (wram_write 12 0xFFF addr val w).hostmem p = val ∧
      (∀ q, q ≠ p → (wram_write 12 0xFFF addr val w).hostmem q = w.hostmem q) ∧
      bank_readbyte 12 0xFFF addr (wram_write 12 0xFFF addr val w) = val) := by
  constructor
  · intro h
    have e : wram_write 12 0xFFF addr val w = w := by
      unfold wram_write
      rw [if_pos h]
    rw [e]
    exact ⟨rfl, fun _ => rfl⟩
  · intro h
    have hn : ¬ (w.wram.wram_en = false ∨ w.wram.base = 0 ∨ w.wram.wram_wp = true) := by
      obtain ⟨h1, h2, h3⟩ := h
      simp [h1, h2, h3]
    have e : wram_write 12 0xFFF addr val w =
        { w with hostmem := Function.update w.hostmem p val } := by
      unfold wram_write
      rw [if_neg hn, hp]
    rw [e]
    refine ⟨rfl, ?_, ?_, ?_⟩
    · exact Function.update_same _ _ _
    · intro q hq
      exact Function.update_noteq hq _ _
    · unfold bank_readbyte
      rw [← hp]
      exact Function.update_same _ _ _

theorem C15_wram_write_gate_witness :
    wram_write 12 0xFFF 0x6123 0x55 { wram := { base := 0x4000, wram_en := true, wram_wp := true } }
      = { wram := { base := 0x4000, wram_en := true, wram_wp := true } } ∧
    bank_readbyte 12 0xFFF 0x6123
      (wram_write 12 0xFFF 0x6123 0x55 { wram := { base := 0x4000, wram_en := true } }) = 0x55 :=
  ⟨((C15_wram_write_gate { wram := { base := 0x4000, wram_en := true, wram_wp := true } }
      0x6123 0x55 _ rfl).1 (Or.inr (Or.inr rfl))).1,
   ((C15_wram_write_gate { wram := { base := 0x4000, wram_en := true } }
      0x6123 0x55 _ rfl).2 ⟨rfl, by decide, rfl⟩).2.2.2⟩

/-- The remap policy of `remap_page`: pages 6 and 7 are the two halves of the
8 KiB window at `base + cur_bank * 8 KiB` when the pager is enabled and RAM is
attached, and the two halves of the dead page otherwise; the other pages and
the pager state stay. -/
theorem remap_page_spec (w : World) :
    (remap_page w).cpu.mem_page 6 =
      (if w.wram.wram_en = true ∧ w.wram.base ≠ 0 then w.wram.base + w.wram.cur_bank * 0x2000
       else w.wram.dead_page) ∧
    (remap_page w).cpu.mem_page 7 = (remap_page w).cpu.mem_page 6 + 0x1000 ∧
    (∀ k, k ≠ 6 → k ≠ 7 → (remap_page w).cpu.mem_page k = w.cpu.mem_page k) ∧
    (remap_page w).wram = w.wram ∧ (remap_page w).hostmem = w.hostmem := by
  unfold remap_page PAGE_SIZE
  refine ⟨?_, ?_, ?_, rfl, rfl⟩
  · simp [Function.update]
  · simp [Function.update]
  · intro k h6 h7
    simp [Function.update, h6, h7]

/-- A read in `$6000-$7FFF` through the page table after `remap_page`: the
byte of host memory at the start of the mapped window plus `addr - $6000`. -/
theorem window_read (w : World) (addr : Nat) (h1 : 0x6000 ≤ addr) (h2 : addr ≤ 0x7FFF)
    (h : w.cpu.mem_page 7 = w.cpu.mem_page 6 + 0x1000) :
    bank_readbyte 12 0xFFF addr w = w.hostmem (w.cpu.mem_page 6 + ((addr - 0x6000 : Nat) : Int)) := by
  unfold bank_readbyte
  have hs : addr >>> 12 = addr / 4096 := by rw [Nat.shiftRight_eq_div_pow]
  have hm : addr &&& 0xFFF = addr % 4096 := by
    rw [show (0xFFF : Nat) = 2 ^ 12 - 1 from rfl, Nat.and_pow_two_sub_one_eq_mod]
  rw [hs, hm]
  by_cases hp : addr < 0x7000
  · have e6 : addr / 4096 = 6 := by omega
    have e : w.cpu.mem_page 6 + ((addr % 4096 : Nat) : Int)
        = w.cpu.mem_page 6 + ((addr - 0x6000 : Nat) : Int) := by omega
    rw [e6, e]
  · have e7 : addr / 4096 = 7 := by omega
    have e : w.cpu.mem_page 6 + 0x1000 + ((addr % 4096 : Nat) : Int)
        = w.cpu.mem_page 6 + ((addr - 0x6000 : Nat) : Int) := by omega
    rw [e7, h, e]

/-- With cartridge RAM attached, `wram_init` fills the dead page with `$FF`,
clears the enable and write-protect bits and selects bank 0. -/
theorem wram_init_with_sram (m : Nat) (w : World) (hs : w.rominfo.sram ≠ 0) :
    (wram_init m w).wram.wram_en = false ∧ (wram_init m w).wram.wram_wp = false ∧
    (wram_init m w).wram.cur_bank = 0 ∧ (wram_init m w).wram.base = w.rominfo.sram ∧
    (wram_init m w).wram.dead_page = w.wram.dead_page ∧
    (∀ a : Int, w.wram.dead_page ≤ a → a < w.wram.dead_page + 0x2000 →
      (wram_init m w).hostmem a = 0xFF) := by
  unfold wram_init add_write_handler PAGE_SIZE
  rw [if_neg hs]
  dsimp only
  split
  · refine ⟨rfl, rfl, rfl, rfl, rfl, ?_⟩
    intro a h1 h2
    simp [h1, h2]
  · refine ⟨rfl, rfl, rfl, rfl, rfl, ?_⟩
    intro a h1 h2
    simp [h1, h2]

/-- Without cartridge RAM `wram_init` returns at once: the dead page is not
filled and the enable and write-protect bits are not reset. -/
theorem wram_init_without_sram (m : Nat) (w : World) (hs : w.rominfo.sram = 0) :
    wram_init m w = w := by
  unfold wram_init
  rw [if_pos hs]

theorem nes_set_wram_enable_spec (e : Bool) (w : World) :
    (nes_set_wram_enable e w).wram = { w.wram with wram_en := e } ∧
    (nes_set_wram_enable e w).cpu.mem_page 6 =
      (if e = true ∧ w.wram.base ≠ 0 then w.wram.base + w.wram.cur_bank * 0x2000
       else w.wram.dead_page) ∧
    (nes_set_wram_enable e w).cpu.mem_page 7 = (nes_set_wram_enable e w).cpu.mem_page 6 + 0x1000 ∧
    (nes_set_wram_enable e w).hostmem = w.hostmem := by
  obtain ⟨r1, r2, -, r4, r5⟩ := remap_page_spec { w with wram := { w.wram with wram_en := e } }
  unfold nes_set_wram_enable
  exact ⟨r4, r1, r2, r5⟩

/-- The effect of `mmc_bankwram` for a byte `bank`, when the pager has at least
one bank: it acts only for `addr = $6000` and a size of 4 or 8; then `cur_bank`
becomes `bank mod banks`, which lies in `0 .. banks - 1`, and pages 6 and 7 are
remapped; any other request changes nothing. -/
theorem mmc_bankwram_spec (size : Int) (addr bank : Nat) (w : World) (hb : bank < 256)
    (hbanks : 0 < w.wram.banks) :
    ((addr = 0x6000 ∧ (size = 4 ∨ size = 8)) →
      (mmc_bankwram size addr bank w).wram.cur_bank = (bank : Int) % w.wram.banks ∧
      0 ≤ (mmc_bankwram size addr bank w).wram.cur_bank ∧
      (mmc_bankwram size addr bank w).wram.cur_bank < w.wram.banks ∧
      (mmc_bankwram size addr bank w).wram.banks = w.wram.banks ∧
      (mmc_bankwram size addr bank w).cpu.mem_page 6 =
        (if w.wram.wram_en = true ∧ w.wram.base ≠ 0 then
          w.wram.base + ((bank : Int) % w.wram.banks) * 0x2000
         else w.wram.dead_page) ∧
      (mmc_bankwram size addr bank w).cpu.mem_page 7 =
        (mmc_bankwram size addr bank w).cpu.mem_page 6 + 0x1000) ∧
    (¬ (addr = 0x6000 ∧ (size = 4 ∨ size = 8)) → mmc_bankwram size addr bank w = w) := by
  have hm : Int.tmod ((bank % 256 : Nat) : Int) w.wram.banks = (bank : Int) % w.wram.banks := by
    rw [Nat.mod_eq_of_lt hb]
    exact Int.tmod_eq_emod (Int.ofNat_nonneg _) (le_of_lt hbanks)
  constructor
  · rintro ⟨ha, hsz⟩
    have hc : ¬ (addr ≠ WINDOW_START ∨ (size ≠ 8 ∧ size ≠ 4) ∨ w.wram.banks = 0) := by
      unfold WINDOW_START
      rcases hsz with h | h <;> subst h <;> simp [ha] <;> omega
    obtain ⟨r1, r2, -, r4, -⟩ := remap_page_spec { w with wram := { w.wram with
      cur_bank := (bank : Int) % w.wram.banks } }
    have e : mmc_bankwram size addr bank w = remap_page { w with wram := { w.wram with
        cur_bank := (bank : Int) % w.wram.banks } } := by
      unfold mmc_bankwram
      rw [if_neg hc]
      simp only [hm]
    rw [e, r4]
    exact ⟨rfl, Int.emod_nonneg _ (ne_of_gt hbanks), Int.emod_lt_of_pos _ hbanks, rfl, r1, r2⟩
  · intro h
    have hc : addr ≠ WINDOW_START ∨ (size ≠ 8 ∧ size ≠ 4) ∨ w.wram.banks = 0 := by
      unfold WINDOW_START
      by_cases ha : addr = 0x6000
      · right; left
        constructor
        · intro h8; exact h ⟨ha, Or.inr h8⟩
        · intro h4; exact h ⟨ha, Or.inl h4⟩
      · left; exact ha
    unfold mmc_bankwram
    rw [if_pos hc]

/-- When the dead page holds `$FF` (as `wram_init` leaves it on a cart with
RAM), every read in `$6000-$7FFF` after disabling the pager returns `$FF`. -/
theorem disabled_window_reads_FF (w : World) (addr : Nat) (h1 : 0x6000 ≤ addr)
    (h2 : addr ≤ 0x7FFF)
    (hf : ∀ a : Int, w.wram.dead_page ≤ a → a < w.wram.dead_page + 0x2000 → w.hostmem a = 0xFF) :
    bank_readbyte 12 0xFFF addr (nes_set_wram_enable false w) = 0xFF := by
  obtain ⟨-, s2, s3, s4⟩ := nes_set_wram_enable_spec false w
  rw [window_read _ addr h1 h2 s3, s2, s4]
  simp only [Bool.false_eq_true, false_and, if_false]
  exact hf _ (by omega) (by omega)

/-- C16. The remap policy on a cart without cartridge RAM: from the state the
program starts in, `wram_init` for a cart with `rominfo->sram == NULL`,
`map4_init` and a write of `$80` to `$A001` leave no RAM attached and pages 6
and 7 pointing to the two halves of the dead page, but the dead page has never
been filled: reads of `$6000` and `$7FFF` return `$00`, not `$FF`. -/
theorem C16_dead_page_reads_zero (m : Nat) :
    (map4_write 0xA001 0x80 (map4_init (wram_init m { }))).wram.base = 0 ∧
    (map4_write 0xA001 0x80 (map4_init (wram_init m { }))).wram.wram_en = true ∧
    (map4_write 0xA001 0x80 (map4_init (wram_init m { }))).cpu.mem_page 6
      = ({ } : World).wram.dead_page ∧
    (map4_write 0xA001 0x80 (map4_init (wram_init m { }))).cpu.mem_page 7
      = ({ } : World).wram.dead_page + 0x1000 ∧
    bank_readbyte 12 0xFFF 0x6000 (map4_write 0xA001 0x80 (map4_init (wram_init m { }))) = 0 ∧
    bank_readbyte 12 0xFFF 0x7FFF (map4_write 0xA001 0x80 (map4_init (wram_init m { }))) = 0 := by
  rw [wram_init_without_sram m { } rfl]
  refine ⟨by decide, by decide, by decide, by decide, by decide, by decide⟩

/-- C17. After `wram_init` the enable and write-protect bits need not be 0: on a
cart without cartridge RAM, after the game has written `$C0` to `$A001`, a
further `wram_init` (the next cart, again without RAM) returns at once and
leaves both bits set. -/
theorem C17_wram_init_keeps_bits (m : Nat) :
    (map4_write 0xA001 0xC0 (map4_init (wram_init m { }))).rominfo.sram = 0 ∧
    (wram_init m (map4_write 0xA001 0xC0 (map4_init (wram_init m { })))).wram.wram_en = true ∧
    (wram_init m (map4_write 0xA001 0xC0 (map4_init (wram_init m { })))).wram.wram_wp = true := by
  rw [wram_init_without_sram m { } rfl,
    wram_init_without_sram m (map4_write 0xA001 0xC0 (map4_init { })) (by decide)]
  refine ⟨by decide, by decide, by decide⟩

/-! ### MMC3: PRG layout, CHR pages, mirroring -/

theorem mmc_bankvrom_frame (size : Int) (address : Nat) (bank : Int) (w : World) :
    (mmc_bankvrom size address bank w).prg_bank = w.prg_bank ∧
    (mmc_bankvrom size address bank w).map4 = w.map4 ∧
    (mmc_bankvrom size address bank w).rominfo = w.rominfo ∧
    (mmc_bankvrom size address bank w).nametable_mapping = w.nametable_mapping := by
  unfold mmc_bankvrom
  split <;> exact ⟨rfl, rfl, rfl, rfl⟩

/-- `mmc_bankvrom` with size 1 selects the bank for the page of the address and
leaves the other pages alone. -/
theorem mmc_bankvrom_one (address : Nat) (bank : Int) (w : World) :
    (mmc_bankvrom 1 address bank w).chr_bank =
      Function.update w.chr_bank (address >>> 10) bank := by
  unfold mmc_bankvrom
  rw [if_pos (Or.inl rfl)]
  funext p
  by_cases hp : p = address >>> 10
  · subst hp; simp
  · have hn : ¬ (address >>> 10 ≤ p ∧ ((p - address >>> 10 : Nat) : Int) < 1) := by
      intro ⟨h1, h2⟩; omega
    rw [Function.update_noteq hp]
    exact if_neg hn

theorem mmc_bankrom_frame (size : Int) (address : Nat) (bank : Int) (w : World) :
    (mmc_bankrom size address bank w).chr_bank = w.chr_bank ∧
    (mmc_bankrom size address bank w).map4 = w.map4 ∧
    (mmc_bankrom size address bank w).rominfo = w.rominfo ∧
    (mmc_bankrom size address bank w).nametable_mapping = w.nametable_mapping := by
  unfold mmc_bankrom
  split <;> exact ⟨rfl, rfl, rfl, rfl⟩

theorem mmc_bankrom_eight (address : Nat) (bank : Int) (w : World) :
    (mmc_bankrom 8 address bank w).prg_bank = Function.update w.prg_bank (address >>> 13) bank := by
  unfold mmc_bankrom
  rw [if_pos rfl]

theorem map4_refresh_chr_frame (w : World) :
    (map4_refresh_chr w).prg_bank = w.prg_bank ∧ (map4_refresh_chr w).map4 = w.map4 ∧
    (map4_refresh_chr w).rominfo = w.rominfo ∧
    (map4_refresh_chr w).nametable_mapping = w.nametable_mapping := by
  unfold map4_refresh_chr
  simp only [mmc_bankvrom_frame]
  exact ⟨trivial, trivial, trivial, trivial⟩

theorem and40_cases (x : Nat) : x &&& 0x40 = 0 ∨ x &&& 0x40 = 0x40 := by
  rw [show (0x40 : Nat) = 2 ^ 6 from rfl, Nat.and_two_pow]
  cases x.testBit 6 <;> simp

theorem and80_cases (x : Nat) : x &&& 0x80 = 0 ∨ x &&& 0x80 = 0x80 := by
  rw [show (0x80 : Nat) = 2 ^ 7 from rfl, Nat.and_two_pow]
  cases x.testBit 7 <;> simp

theorem prg_layout_init (w : World) : map4_prg_layout (map4_init w) := by
  unfold map4_prg_layout map4_init ppu_set_mapper_hook
  simp only [mmc_bankvrom_frame, mmc_bankrom_frame, mmc_bankrom_eight]
  simp [Function.update]

/-- A bank-select write keeps the PRG layout. -/
theorem prg_layout_write_8000 (v : Nat) (w : World) (h : map4_prg_layout w) :
    map4_prg_layout (map4_write_8000 v w) := by
  obtain ⟨h1, h2, h3, h4⟩ := h
  have k1 : w.prg_bank 7 = FIXED_LAST w.rominfo := h1
  have k2 : w.prg_bank 5 = w.map4.r7_prg_bank := h2
  have k3 : (w.map4.reg8000 &&& 0x40) = 0 →
      w.prg_bank 4 = w.map4.prg_bank6 ∧ w.prg_bank 6 = FIXED_PENULT w.rominfo := h3
  have k4 : (w.map4.reg8000 &&& 0x40) ≠ 0 →
      w.prg_bank 6 = w.map4.prg_bank6 ∧ w.prg_bank 4 = FIXED_PENULT w.rominfo := h4
  clear h1 h2 h3 h4
  obtain ⟨W2, hW2⟩ : ∃ W2 : World, W2 =
      (if (w.map4.reg8000 &&& 0x80) ≠ (v &&& 0x80) then
        map4_refresh_chr { w with map4 := { w.map4 with
          reg8000 := v, vrombase := if (v &&& 0x80) ≠ 0 then 0x1000 else 0x0000 } }
       else { w with map4 := { w.map4 with
          reg8000 := v, vrombase := if (v &&& 0x80) ≠ 0 then 0x1000 else 0x0000 } }) := ⟨_, rfl⟩
  have f1 : W2.prg_bank = w.prg_bank := by
    rw [hW2]; split
    · exact (map4_refresh_chr_frame _).1
    · rfl
  have f2 : W2.map4.reg8000 = v ∧ W2.map4.prg_bank6 = w.map4.prg_bank6 ∧
      W2.map4.r7_prg_bank = w.map4.r7_prg_bank := by
    rw [hW2]; split
    · rw [(map4_refresh_chr_frame _).2.1]; exact ⟨rfl, rfl, rfl⟩
    · exact ⟨rfl, rfl, rfl⟩
  have f3 : W2.rominfo = w.rominfo := by
    rw [hW2]; split
    · exact (map4_refresh_chr_frame _).2.2.1
    · rfl
  have e : map4_write_8000 v w =
      (if (w.map4.reg8000 &&& 0x40) ≠ (v &&& 0x40) then
        mmc_bankrom 8 (if (v &&& 0x40) ≠ 0 then 0xC000 else 0x8000)
          (mmc_bankrom 8 (if (v &&& 0x40) ≠ 0 then 0x8000 else 0xC000)
            (FIXED_PENULT W2.rominfo) W2).map4.prg_bank6
          (mmc_bankrom 8 (if (v &&& 0x40) ≠ 0 then 0x8000 else 0xC000)
            (FIXED_PENULT W2.rominfo) W2)
       else mmc_bankrom 8 (if (v &&& 0x40) ≠ 0 then 0x8000 else 0xC000)
            (FIXED_PENULT W2.rominfo) W2) := by
    rw [hW2]; rfl
  clear hW2
  obtain ⟨g1, g2, g3⟩ := f2
  rw [e]
  unfold map4_prg_layout
  rcases and40_cases v with hv | hv <;> rcases and40_cases w.map4.reg8000 with ho | ho
  all_goals
    simp only [hv, ho, ne_eq, not_true_eq_false, not_false_eq_true, if_true, if_false,
      mmc_bankrom_frame, mmc_bankrom_eight, g1, g2, g3, f1, f3, reduceCtorEq,
      OfNat.ofNat_ne_zero, OfNat.zero_ne_ofNat, Nat.reduceEqDiff]
    simp [Function.update, k1, k2, k3, k4, ho]

/-- The PRG layout only looks at the PRG slots, the cart and three registers. -/
theorem prg_layout_congr (w w2 : World) (h1 : w2.prg_bank = w.prg_bank)
    (h2 : w2.rominfo = w.rominfo) (h3 : w2.map4.reg8000 = w.map4.reg8000)
    (h4 : w2.map4.prg_bank6 = w.map4.prg_bank6) (h5 : w2.map4.r7_prg_bank = w.map4.r7_prg_bank)
    (h : map4_prg_layout w) : map4_prg_layout w2 := by
  unfold map4_prg_layout at *
  rw [h1, h2, h3, h4, h5]
  exact h

theorem set_chr_reg_frame (k v : Nat) (w : World) :
    (set_chr_reg k v w).prg_bank = w.prg_bank ∧ (set_chr_reg k v w).rominfo = w.rominfo ∧
    (set_chr_reg k v w).map4.reg8000 = w.map4.reg8000 ∧
    (set_chr_reg k v w).map4.prg_bank6 = w.map4.prg_bank6 ∧
    (set_chr_reg k v w).map4.r7_prg_bank = w.map4.r7_prg_bank ∧
    (set_chr_reg k v w).map4.vrombase = w.map4.vrombase ∧
    (set_chr_reg k v w).chr_bank = w.chr_bank ∧
    (set_chr_reg k v w).nametable_mapping = w.nametable_mapping :=
  ⟨rfl, rfl, rfl, rfl, rfl, rfl, rfl, rfl⟩

/-- A CHR bank store (`chr_reg[k] = v` followed by `mmc_bankvrom` calls) keeps
the PRG layout. -/
theorem prg_layout_chr1 (k v a : Nat) (b : Int) (w : World) (h : map4_prg_layout w) :
    map4_prg_layout (mmc_bankvrom 1 a b (set_chr_reg k v w)) :=
  prg_layout_congr w _ (mmc_bankvrom_frame _ _ _ _).1 (mmc_bankvrom_frame _ _ _ _).2.2.1
    (by rw [(mmc_bankvrom_frame _ _ _ _).2.1]; rfl) (by rw [(mmc_bankvrom_frame _ _ _ _).2.1]; rfl)
    (by rw [(mmc_bankvrom_frame _ _ _ _).2.1]; rfl) h

theorem prg_layout_chr2 (k v a1 a2 : Nat) (b1 b2 : Int) (w : World) (h : map4_prg_layout w) :
    map4_prg_layout (mmc_bankvrom 1 a2 b2 (mmc_bankvrom 1 a1 b1 (set_chr_reg k v w))) :=
  prg_layout_congr _ _ (mmc_bankvrom_frame _ _ _ _).1 (mmc_bankvrom_frame _ _ _ _).2.2.1
    (by rw [(mmc_bankvrom_frame _ _ _ _).2.1]) (by rw [(mmc_bankvrom_frame _ _ _ _).2.1])
    (by rw [(mmc_bankvrom_frame _ _ _ _).2.1]) (prg_layout_chr1 k v a1 b1 w h)

/-- A bank-data write keeps the PRG layout. -/
theorem prg_layout_write_8001 (v : Nat) (w : World) (h : map4_prg_layout w) :
    map4_prg_layout (map4_write_8001 v w) := by
  unfold map4_write_8001
  dsimp only
  by_cases r0 : w.map4.reg8000 &&& 7 = 0
  · rw [if_pos r0]; exact prg_layout_chr2 _ _ _ _ _ _ w h
  rw [if_neg r0]
  by_cases r1 : w.map4.reg8000 &&& 7 = 1
  · rw [if_pos r1]; exact prg_layout_chr2 _ _ _ _ _ _ w h
  rw [if_neg r1]
  by_cases r2 : w.map4.reg8000 &&& 7 = 2
  · rw [if_pos r2]; exact prg_layout_chr1 _ _ _ _ w h
  rw [if_neg r2]
  by_cases r3 : w.map4.reg8000 &&& 7 = 3
  · rw [if_pos r3]; exact prg_layout_chr1 _ _ _ _ w h
  rw [if_neg r3]
  by_cases r4 : w.map4.reg8000 &&& 7 = 4
  · rw [if_pos r4]; exact prg_layout_chr1 _ _ _ _ w h
  rw [if_neg r4]
  by_cases r5 : w.map4.reg8000 &&& 7 = 5
  · rw [if_pos r5]; exact prg_layout_chr1 _ _ _ _ w h
  rw [if_neg r5]
  obtain ⟨h1, h2, h3, h4⟩ := h
  have k1 : w.prg_bank 7 = FIXED_LAST w.rominfo := h1
  have k2 : w.prg_bank 5 = w.map4.r7_prg_bank := h2
  have k3 : (w.map4.reg8000 &&& 0x40) = 0 →
      w.prg_bank 4 = w.map4.prg_bank6 ∧ w.prg_bank 6 = FIXED_PENULT w.rominfo := h3
  have k4 : (w.map4.reg8000 &&& 0x40) ≠ 0 →
      w.prg_bank 6 = w.map4.prg_bank6 ∧ w.prg_bank 4 = FIXED_PENULT w.rominfo := h4
  by_cases r6 : w.map4.reg8000 &&& 7 = 6
  · rw [if_pos r6]
    unfold map4_prg_layout
    rcases and40_cases w.map4.reg8000 with ho | ho
    · simp only [ho, ne_eq, not_true_eq_false, not_false_eq_true, if_true, if_false,
        mmc_bankrom_frame, mmc_bankrom_eight, OfNat.ofNat_ne_zero]
      simp [Function.update, k1, k2, (k3 ho).2]
    · simp only [ho, ne_eq, not_true_eq_false, not_false_eq_true, if_true, if_false,
        mmc_bankrom_frame, mmc_bankrom_eight, OfNat.ofNat_ne_zero]
      simp [Function.update, k1, k2, (k4 (by rw [ho]; decide)).2]
  rw [if_neg r6]
  by_cases r7 : w.map4.reg8000 &&& 7 = 7
  · rw [if_pos r7]
    unfold map4_prg_layout
    simp only [mmc_bankrom_frame, mmc_bankrom_eight]
    simp [Function.update, k1]
    exact ⟨k3, k4⟩
  · rw [if_neg r7]
    exact ⟨h1, h2, h3, h4⟩

theorem ppu_mirror_frame (p0 p1 p2 p3 : Int) (w : World) :
    (ppu_mirror p0 p1 p2 p3 w).prg_bank = w.prg_bank ∧
    (ppu_mirror p0 p1 p2 p3 w).rominfo = w.rominfo ∧
    (ppu_mirror p0 p1 p2 p3 w).map4 = w.map4 ∧
    (ppu_mirror p0 p1 p2 p3 w).chr_bank = w.chr_bank :=
  ⟨rfl, rfl, rfl, rfl⟩

theorem map4_write_A000_frame (v : Nat) (w : World) :
    (map4_write_A000 v w).prg_bank = w.prg_bank ∧ (map4_write_A000 v w).rominfo = w.rominfo ∧
    (map4_write_A000 v w).map4 = w.map4 ∧ (map4_write_A000 v w).chr_bank = w.chr_bank := by
  unfold map4_write_A000
  split_ifs <;> exact ⟨rfl, rfl, rfl, rfl⟩

theorem map4_write_A001_frame (v : Nat) (w : World) :
    (map4_write_A001 v w).prg_bank = w.prg_bank ∧ (map4_write_A001 v w).rominfo = w.rominfo ∧
    (map4_write_A001 v w).map4.reg8000 = w.map4.reg8000 ∧
    (map4_write_A001 v w).map4.prg_bank6 = w.map4.prg_bank6 ∧
    (map4_write_A001 v w).map4.r7_prg_bank = w.map4.r7_prg_bank ∧
    (map4_write_A001 v w).map4.vrombase = w.map4.vrombase ∧
    (map4_write_A001 v w).map4.chr_reg = w.map4.chr_reg ∧
    (map4_write_A001 v w).map4.fourscreen = w.map4.fourscreen ∧
    (map4_write_A001 v w).chr_bank = w.chr_bank ∧
    (map4_write_A001 v w).nametable_mapping = w.nametable_mapping := by
  unfold map4_write_A001 mmc_bankwram
  dsimp only
  split_ifs <;> exact ⟨rfl, rfl, rfl, rfl, rfl, rfl, rfl, rfl, rfl, rfl⟩

/-- Every write to the mapper keeps the PRG layout. -/
theorem prg_layout_write (a v : Nat) (w : World) (h : map4_prg_layout w) :
    map4_prg_layout (map4_write a v w) := by
  unfold map4_write
  dsimp only
  by_cases c0 : a &&& 0xE001 = 0x8000
  · rw [if_pos c0]; exact prg_layout_write_8000 v w h
  rw [if_neg c0]
  by_cases c1 : a &&& 0xE001 = 0x8001
  · rw [if_pos c1]; exact prg_layout_write_8001 v w h
  rw [if_neg c1]
  by_cases c2 : a &&& 0xE001 = 0xA000
  · rw [if_pos c2]
    obtain ⟨f1, f2, f3, -⟩ := map4_write_A000_frame v w
    exact prg_layout_congr w _ f1 f2 (by rw [f3]) (by rw [f3]) (by rw [f3]) h
  rw [if_neg c2]
  by_cases c3 : a &&& 0xE001 = 0xA001
  · rw [if_pos c3]
    obtain ⟨f1, f2, f3, f4, f5, -⟩ := map4_write_A001_frame v w
    exact prg_layout_congr w _ f1 f2 f3 f4 f5 h
  rw [if_neg c3]
  by_cases c4 : a &&& 0xE001 = 0xC000
  · rw [if_pos c4]; exact prg_layout_congr w _ rfl rfl rfl rfl rfl h
  rw [if_neg c4]
  by_cases c5 : a &&& 0xE001 = 0xC001
  · rw [if_pos c5]; exact prg_layout_congr w _ rfl rfl rfl rfl rfl h
  rw [if_neg c5]
  by_cases c6 : a &&& 0xE001 = 0xE000
  · rw [if_pos c6]; exact prg_layout_congr w _ rfl rfl rfl rfl rfl h
  rw [if_neg c6]
  by_cases c7 : a &&& 0xE001 = 0xE001
  · rw [if_pos c7]; exact prg_layout_congr w _ rfl rfl rfl rfl rfl h
  rw [if_neg c7]
  exact h

theorem prg_layout_writes (ws : List (Nat × Nat)) (w : World) (h : map4_prg_layout w) :
    map4_prg_layout (map4_writes ws w) := by
  induction ws generalizing w with
  | nil => exact h
  | cons p rest ih =>
    obtain ⟨a, v⟩ := p
    exact ih _ (prg_layout_write a v w h)

theorem map4_write_8000_regs (v : Nat) (w : World) :
    (map4_write_8000 v w).map4 = { w.map4 with
      reg8000 := v, vrombase := if (v &&& 0x80) ≠ 0 then 0x1000 else 0x0000 } ∧
    (map4_write_8000 v w).rominfo = w.rominfo ∧
    (map4_write_8000 v w).nametable_mapping = w.nametable_mapping := by
  unfold map4_write_8000
  dsimp only
  split_ifs <;>
    simp only [mmc_bankrom_frame, map4_refresh_chr_frame] <;> exact ⟨trivial, trivial, trivial⟩

theorem map4_write_8001_regs (v : Nat) (w : World) :
    (map4_write_8001 v w).map4.reg8000 = w.map4.reg8000 ∧
    (map4_write_8001 v w).map4.prg_bank6 =
      (if w.map4.reg8000 &&& 7 = 6 then v else w.map4.prg_bank6) ∧
    (map4_write_8001 v w).map4.r7_prg_bank =
      (if w.map4.reg8000 &&& 7 = 7 then v else w.map4.r7_prg_bank) ∧
    (map4_write_8001 v w).map4.vrombase = w.map4.vrombase ∧
    (map4_write_8001 v w).map4.fourscreen = w.map4.fourscreen ∧
    (map4_write_8001 v w).rominfo = w.rominfo ∧
    (map4_write_8001 v w).nametable_mapping = w.nametable_mapping := by
  unfold map4_write_8001
  dsimp only
  split_ifs <;>
    first
      | exact ⟨rfl, rfl, rfl, rfl, rfl, rfl, rfl⟩
      | (exfalso; omega)

/-- How `map4_write` moves the bank-select register, R6, R7 and the cart:
a write to `$8000` stores the bank-select value, a write to `$8001` stores into
R6 or R7 when the low three bits of the bank-select value say so, and nothing
else touches them. -/
theorem map4_write_regs (a v : Nat) (w : World) :
    (map4_write a v w).map4.reg8000 =
      (if a &&& 0xE001 = 0x8000 then v else w.map4.reg8000) ∧
    (map4_write a v w).map4.prg_bank6 =
      (if a &&& 0xE001 = 0x8001 ∧ w.map4.reg8000 &&& 7 = 6 then v else w.map4.prg_bank6) ∧
    (map4_write a v w).map4.r7_prg_bank =
      (if a &&& 0xE001 = 0x8001 ∧ w.map4.reg8000 &&& 7 = 7 then v else w.map4.r7_prg_bank) ∧
    (map4_write a v w).rominfo = w.rominfo := by
  unfold map4_write
  dsimp only
  by_cases c0 : a &&& 0xE001 = 0x8000
  · obtain ⟨f1, f2, -⟩ := map4_write_8000_regs v w
    have n1 : ¬ a &&& 0xE001 = 0x8001 := by omega
    simp only [if_pos c0, n1, false_and, if_false, f1, f2, and_self]
  rw [if_neg c0]
  by_cases c1 : a &&& 0xE001 = 0x8001
  · obtain ⟨f1, f2, f3, -, -, f6, -⟩ := map4_write_8001_regs v w
    rw [if_pos c1, if_neg c0]
    simp only [c1, true_and, f1, f2, f3, f6, and_self]
  rw [if_neg c1]
  by_cases c2 : a &&& 0xE001 = 0xA000
  · obtain ⟨-, f2, f3, -⟩ := map4_write_A000_frame v w
    simp only [if_pos c2, if_neg c0, c1, false_and, if_false, f2, f3, and_self]
  rw [if_neg c2]
  by_cases c3 : a &&& 0xE001 = 0xA001
  · obtain ⟨-, f2, f3, f4, f5, -⟩ := map4_write_A001_frame v w
    simp only [if_pos c3, if_neg c0, c1, false_and, if_false, f2, f3, f4, f5, and_self]
  rw [if_neg c3]
  simp only [if_neg c0, c1, false_and, if_false]
  split_ifs <;> exact ⟨rfl, rfl, rfl, rfl⟩

theorem map4_writes_rominfo (ws : List (Nat × Nat)) (w : World) :
    (map4_writes ws w).rominfo = w.rominfo := by
  induction ws generalizing w with
  | nil => rfl
  | cons p rest ih =>
    obtain ⟨a, v⟩ := p
    exact (ih _).trans (map4_write_regs a v w).2.2.2

theorem map4_init_regs (w : World) :
    (map4_init w).map4.reg8000 = 0 ∧ (map4_init w).map4.prg_bank6 = 0 ∧
    (map4_init w).map4.r7_prg_bank = 0 ∧ (map4_init w).map4.vrombase = 0 ∧
    (∀ k, (map4_init w).map4.chr_reg k = 0) ∧
    (map4_init w).map4.fourscreen = w.rominfo.flag_fourscreen ∧
    (map4_init w).rominfo = w.rominfo := by
  unfold map4_init ppu_set_mapper_hook
  simp only [mmc_bankvrom_frame, mmc_bankrom_frame]
  exact ⟨trivial, trivial, trivial, trivial, fun _ => trivial, trivial, trivial⟩

/-- C18. MMC3 PRG layout invariant: after `map4_init` and any sequence of CPU
writes handed to `map4_write`, the slot at `$E000` holds the last PRG bank
`2 * rom_banks - 1` of the cart, the slot at `$A000` holds R7, and with `m` =
bit 6 of the bank-select register: for `m = 0` the slot at `$8000` holds R6 and
the slot at `$C000` the penultimate bank `2 * rom_banks - 2`; for `m = 1` the
slot at `$C000` holds R6 and the slot at `$8000` the penultimate bank.  The
registers are the last values written: all three are 0 after `map4_init`, a
write to `$8000` sets the bank-select register, a write to `$8001` sets R6
(R7) when the low three bits of the bank-select register are 6 (7), and no
other write changes them. -/
theorem C18_map4_prg_layout (w : World) (ws : List (Nat × Nat)) :
    (map4_writes ws (map4_init w)).prg_bank (0xE000 >>> 13) = w.rominfo.rom_banks * 2 - 1 ∧
    (map4_writes ws (map4_init w)).prg_bank (0xA000 >>> 13)
      = (map4_writes ws (map4_init w)).map4.r7_prg_bank ∧
    (((map4_writes ws (map4_init w)).map4.reg8000 &&& 0x40) = 0 →
      (map4_writes ws (map4_init w)).prg_bank (0x8000 >>> 13)
        = (map4_writes ws (map4_init w)).map4.prg_bank6 ∧
      (map4_writes ws (map4_init w)).prg_bank (0xC000 >>> 13) = w.rominfo.rom_banks * 2 - 2) ∧
    (((map4_writes ws (map4_init w)).map4.reg8000 &&& 0x40) ≠ 0 →
      (map4_writes ws (map4_init w)).prg_bank (0xC000 >>> 13)
        = (map4_writes ws (map4_init w)).map4.prg_bank6 ∧
      (map4_writes ws (map4_init w)).prg_bank (0x8000 >>> 13) = w.rominfo.rom_banks * 2 - 2) ∧
    ((map4_init w).map4.reg8000 = 0 ∧ (map4_init w).map4.prg_bank6 = 0 ∧
      (map4_init w).map4.r7_prg_bank = 0) ∧
    (∀ (a v : Nat) (s : World),
      (map4_write a v s).map4.reg8000 =
        (if a &&& 0xE001 = 0x8000 then v else s.map4.reg8000) ∧
      (map4_write a v s).map4.prg_bank6 =
        (if a &&& 0xE001 = 0x8001 ∧ s.map4.reg8000 &&& 7 = 6 then v else s.map4.prg_bank6) ∧
      (map4_write a v s).map4.r7_prg_bank =
        (if a &&& 0xE001 = 0x8001 ∧ s.map4.reg8000 &&& 7 = 7 then v
         else s.map4.r7_prg_bank)) := by
  have hl := prg_layout_writes ws (map4_init w) (prg_layout_init w)
  have hr : (map4_writes ws (map4_init w)).rominfo = w.rominfo :=
    (map4_writes_rominfo ws _).trans (map4_init_regs w).2.2.2.2.2.2
  unfold map4_prg_layout FIXED_LAST FIXED_PENULT at hl
  rw [hr] at hl
  obtain ⟨l1, l2, l3, l4⟩ := hl
  obtain ⟨i1, i2, i3, -⟩ := map4_init_regs w
  exact ⟨l1, l2, l3, l4, ⟨i1, i2, i3⟩,
    fun a v s => ⟨(map4_write_regs a v s).1, (map4_write_regs a v s).2.1,
      (map4_write_regs a v s).2.2.1⟩⟩

theorem C18_map4_prg_layout_witness :
    (map4_writes [(0x8000, 0x46), (0x8001, 9)] (map4_init { rominfo := { rom_banks := 8 } })).prg_bank
      (0xC000 >>> 13) = 9 :=
  ((C18_map4_prg_layout { rominfo := { rom_banks := 8 } } [(0x8000, 0x46), (0x8001, 9)]).2.2.2.1
    (by decide)).1.trans (by decide)

theorem map4_write_8000_chr (v : Nat) (w : World) :
    (map4_write_8000 v w).chr_bank =
      (if (w.map4.reg8000 &&& 0x80) ≠ (v &&& 0x80) then
        (map4_refresh_chr { w with map4 := { w.map4 with
          reg8000 := v, vrombase := if (v &&& 0x80) ≠ 0 then 0x1000 else 0x0000 } }).chr_bank
       else w.chr_bank) := by
  unfold map4_write_8000
  dsimp only
  split_ifs <;> simp only [mmc_bankrom_frame]

/-- The eight pages after `map4_refresh_chr`, for an inversion base of 0 or
`$1000`. -/
theorem map4_refresh_chr_pages (w : World) (b : Nat) (hb : b = 0 ∨ b = 0x1000)
    (hv : w.map4.vrombase = b) :
    (map4_refresh_chr w).chr_bank ((b ^^^ 0x0000) >>> 10) = ((w.map4.chr_reg 0 &&& 0xFE : Nat) : Int) ∧
    (map4_refresh_chr w).chr_bank ((b ^^^ 0x0400) >>> 10)
      = ((w.map4.chr_reg 0 &&& 0xFE : Nat) : Int) + 1 ∧
    (map4_refresh_chr w).chr_bank ((b ^^^ 0x0800) >>> 10) = ((w.map4.chr_reg 1 &&& 0xFE : Nat) : Int) ∧
    (map4_refresh_chr w).chr_bank ((b ^^^ 0x0C00) >>> 10)
      = ((w.map4.chr_reg 1 &&& 0xFE : Nat) : Int) + 1 ∧
    (map4_refresh_chr w).chr_bank ((b ^^^ 0x1000) >>> 10) = (w.map4.chr_reg 2 : Int) ∧
    (map4_refresh_chr w).chr_bank ((b ^^^ 0x1400) >>> 10) = (w.map4.chr_reg 3 : Int) ∧
    (map4_refresh_chr w).chr_bank ((b ^^^ 0x1800) >>> 10) = (w.map4.chr_reg 4 : Int) ∧
    (map4_refresh_chr w).chr_bank ((b ^^^ 0x1C00) >>> 10) = (w.map4.chr_reg 5 : Int) := by
  unfold map4_refresh_chr
  simp only [mmc_bankvrom_one, mmc_bankvrom_frame, hv]
  rcases hb with h | h <;> subst h <;> simp [Function.update]

theorem map4_write_at_8000 (a v : Nat) (w : World) (ha : a &&& 0xE001 = 0x8000) :
    map4_write a v w = map4_write_8000 v w := by
  unfold map4_write
  simp only [ha, if_true]

theorem map4_write_at_A000 (a v : Nat) (w : World) (ha : a &&& 0xE001 = 0xA000) :
    map4_write a v w = map4_write_A000 v w := by
  unfold map4_write
  simp only [ha]
  rfl

/-- C19. MMC3 CHR re-application on inversion toggle: a write of `v` to `$8000`
whose bit 7 differs from that of the previous bank-select value leaves the
eight 1 KiB CHR pages at the PPU offsets `b XOR o` holding `R0 & $FE`,
`(R0 & $FE) + 1`, `R1 & $FE`, `(R1 & $FE) + 1`, R2, R3, R4, R5 for
`o = $0000, $0400, ..., $1C00`, where `b = $1000` if bit 7 of `v` is set and 0
otherwise; a `$8000` write that does not change bit 7 leaves the CHR page
mapping unchanged.  The write leaves R0..R5 alone and makes `b` the inversion
base. -/
theorem C19_map4_chr_reapply (w : World) (a v b : Nat) (ha : a &&& 0xE001 = 0x8000)
    (hb : b = if (v &&& 0x80) ≠ 0 then 0x1000 else 0) :
    ((w.map4.reg8000 &&& 0x80) ≠ (v &&& 0x80) →
      (map4_write a v w).chr_bank ((b ^^^ 0x0000) >>> 10)
        = ((w.map4.chr_reg 0 &&& 0xFE : Nat) : Int) ∧
      (map4_write a v w).chr_bank ((b ^^^ 0x0400) >>> 10)
        = ((w.map4.chr_reg 0 &&& 0xFE : Nat) : Int) + 1 ∧
      (map4_write a v w).chr_bank ((b ^^^ 0x0800) >>> 10)
        = ((w.map4.chr_reg 1 &&& 0xFE : Nat) : Int) ∧
      (map4_write a v w).chr_bank ((b ^^^ 0x0C00) >>> 10)
        = ((w.map4.chr_reg 1 &&& 0xFE : Nat) : Int) + 1 ∧
      (map4_write a v w).chr_bank ((b ^^^ 0x1000) >>> 10) = (w.map4.chr_reg 2 : Int) ∧
      (map4_write a v w).chr_bank ((b ^^^ 0x1400) >>> 10) = (w.map4.chr_reg 3 : Int) ∧
      (map4_write a v w).chr_bank ((b ^^^ 0x1800) >>> 10) = (w.map4.chr_reg 4 : Int) ∧
      (map4_write a v w).chr_bank ((b ^^^ 0x1C00) >>> 10) = (w.map4.chr_reg 5 : Int)) ∧
    ((w.map4.reg8000 &&& 0x80) = (v &&& 0x80) → (map4_write a v w).chr_bank = w.chr_bank) ∧
    (map4_write a v w).map4.chr_reg = w.map4.chr_reg ∧
    (map4_write a v w).map4.vrombase = b := by
  rw [map4_write_at_8000 a v w ha]
  have hc := map4_write_8000_chr v w
  obtain ⟨r1, -, -⟩ := map4_write_8000_regs v w
  have hb2 : b = 0 ∨ b = 0x1000 := by
    rw [hb]; split <;> simp
  refine ⟨fun ht => ?_, fun hs => ?_, by rw [r1], by rw [r1, hb]⟩
  · rw [hc, if_pos ht]
    exact map4_refresh_chr_pages _ b hb2 hb.symm
  · rw [hc, if_neg (not_not.mpr hs)]

theorem C19_map4_chr_reapply_witness :
    (map4_write 0x8000 0x80 { map4 := { chr_reg := fun k => 16 + k } }).chr_bank 4 = 16 ∧
    (map4_write 0x8000 0x80 { map4 := { chr_reg := fun k => 16 + k } }).chr_bank 0 = 18 :=
  ⟨((C19_map4_chr_reapply { map4 := { chr_reg := fun k => 16 + k } } 0x8000 0x80 0x1000
      (by decide) (by decide)).1 (by decide)).1,
   ((C19_map4_chr_reapply { map4 := { chr_reg := fun k => 16 + k } } 0x8000 0x80 0x1000
      (by decide) (by decide)).1 (by decide)).2.2.2.2.1⟩

theorem ciram_ptr_low (w : World) (base off : Nat) (hoff : off < 0x400)
    (hbase : base = 0x2000 ∨ base = 0x2400 ∨ base = 0x2800 ∨ base = 0x2C00)
    (hm : w.nametable_mapping ((base - 0x2000) / 0x400) < 2) :
    ciram_ptr (base + off) w = w.nametable_mapping ((base - 0x2000) / 0x400) * 0x400 + off := by
  have h1 : ((base + off) >>> 10) &&& 3 = (base - 0x2000) / 0x400 := by
    rw [Nat.shiftRight_eq_div_pow, show (3 : Nat) = 2 ^ 2 - 1 from rfl,
      Nat.and_pow_two_sub_one_eq_mod]
    rcases hbase with h | h | h | h <;> subst h <;> omega
  have h2 : (base + off) &&& 0x3FF = off := by
    rw [show (0x3FF : Nat) = 2 ^ 10 - 1 from rfl, Nat.and_pow_two_sub_one_eq_mod]
    rcases hbase with h | h | h | h <;> subst h <;> omega
  unfold ciram_ptr
  simp only [h1, h2]
  have h3 : ¬ 2 ≤ w.nametable_mapping ((base - 0x2000) / 0x400) := by omega
  simp only [h3, if_false, ite_self]
  rw [Nat.shiftLeft_eq, Nat.mul_comm, ← Nat.mul_add_lt_is_or (by simpa using hoff)]

/-- C20. MMC3 mirroring: a write of `v` to an address `a` with
`(a & $E001) = $A000`, on a cart without the four-screen flag, sets the
nametable mapping to (0,0,1,1) when bit 0 of `v` is 0 (horizontal: `$2000` and
`$2400` address the same CIRAM page, `$2800` and `$2C00` the other) and to
(0,1,0,1) when bit 0 is 1 (vertical: `$2000` and `$2800` address one page,
`$2400` and `$2C00` the other); with the four-screen flag set the mapping is
unchanged. -/
theorem C20_map4_mirroring (w : World) (a v : Nat) (ha : a &&& 0xE001 = 0xA000) :
    (w.map4.fourscreen = false → (v &&& 1) = 0 →
      (map4_write a v w).nametable_mapping 0 = 0 ∧ (map4_write a v w).nametable_mapping 1 = 0 ∧
      (map4_write a v w).nametable_mapping 2 = 1 ∧ (map4_write a v w).nametable_mapping 3 = 1 ∧
      (∀ off, off < 0x400 →
        ciram_ptr (0x2000 + off) (map4_write a v w) = off ∧
        ciram_ptr (0x2400 + off) (map4_write a v w) = off ∧
        ciram_ptr (0x2800 + off) (map4_write a v w) = 0x400 + off ∧
        ciram_ptr (0x2C00 + off) (map4_write a v w) = 0x400 + off)) ∧
    (w.map4.fourscreen = false → (v &&& 1) ≠ 0 →
      (map4_write a v w).nametable_mapping 0 = 0 ∧ (map4_write a v w).nametable_mapping 1 = 1 ∧
      (map4_write a v w).nametable_mapping 2 = 0 ∧ (map4_write a v w).nametable_mapping 3 = 1 ∧
      (∀ off, off < 0x400 →
        ciram_ptr (0x2000 + off) (map4_write a v w) = off ∧
        ciram_ptr (0x2400 + off) (map4_write a v w) = 0x400 + off ∧
        ciram_ptr (0x2800 + off) (map4_write a v w) = off ∧
        ciram_ptr (0x2C00 + off) (map4_write a v w) = 0x400 + off)) ∧
    (w.map4.fourscreen = true →
      (map4_write a v w).nametable_mapping = w.nametable_mapping) := by
  rw [map4_write_at_A000 a v w ha]
  refine ⟨fun hf hv => ?_, fun hf hv => ?_, fun hf => ?_⟩
  · have e : map4_write_A000 v w = ppu_mirror 0 0 1 1 w := by
      unfold map4_write_A000
      rw [if_pos hf, if_pos hv]
    have m0 : (ppu_mirror 0 0 1 1 w).nametable_mapping 0 = 0 := rfl
    have m1 : (ppu_mirror 0 0 1 1 w).nametable_mapping 1 = 0 := rfl
    have m2 : (ppu_mirror 0 0 1 1 w).nametable_mapping 2 = 1 := rfl
    have m3 : (ppu_mirror 0 0 1 1 w).nametable_mapping 3 = 1 := rfl
    rw [e]
    refine ⟨m0, m1, m2, m3, fun off hoff => ⟨?_, ?_, ?_, ?_⟩⟩
    · rw [ciram_ptr_low _ 0x2000 off hoff (Or.inl rfl) (by rw [m0]; decide), m0]; omega
    · rw [ciram_ptr_low _ 0x2400 off hoff (Or.inr (Or.inl rfl)) (by rw [m1]; decide), m1]; omega
    · rw [ciram_ptr_low _ 0x2800 off hoff (Or.inr (Or.inr (Or.inl rfl))) (by rw [m2]; decide), m2]
    · rw [ciram_ptr_low _ 0x2C00 off hoff (Or.inr (Or.inr (Or.inr rfl))) (by rw [m3]; decide), m3]
  · have e : map4_write_A000 v w = ppu_mirror 0 1 0 1 w := by
      unfold map4_write_A000
      rw [if_pos hf, if_neg hv]
    have m0 : (ppu_mirror 0 1 0 1 w).nametable_mapping 0 = 0 := rfl
    have m1 : (ppu_mirror 0 1 0 1 w).nametable_mapping 1 = 1 := rfl
    have m2 : (ppu_mirror 0 1 0 1 w).nametable_mapping 2 = 0 := rfl
    have m3 : (ppu_mirror 0 1 0 1 w).nametable_mapping 3 = 1 := rfl
    rw [e]
    refine ⟨m0, m1, m2, m3, fun off hoff => ⟨?_, ?_, ?_, ?_⟩⟩
    · rw [ciram_ptr_low _ 0x2000 off hoff (Or.inl rfl) (by rw [m0]; decide), m0]; omega
    · rw [ciram_ptr_low _ 0x2400 off hoff (Or.inr (Or.inl rfl)) (by rw [m1]; decide), m1]
    · rw [ciram_ptr_low _ 0x2800 off hoff (Or.inr (Or.inr (Or.inl rfl))) (by rw [m2]; decide), m2]
      omega
    · rw [ciram_ptr_low _ 0x2C00 off hoff (Or.inr (Or.inr (Or.inr rfl))) (by rw [m3]; decide), m3]
  · unfold map4_write_A000
    rw [if_neg (by rw [hf]; decide)]

theorem C20_map4_mirroring_witness :
    (map4_write 0xA000 0 { }).nametable_mapping 1 = 0 ∧
    (map4_write 0xBFFE 1 { }).nametable_mapping 2 = 0 ∧
    (map4_write 0xA000 0 { map4 := { fourscreen := true } }).nametable_mapping
      = ({ map4 := { fourscreen := true } } : World).nametable_mapping :=
  ⟨((C20_map4_mirroring { } 0xA000 0 (by decide)).1 rfl (by decide)).2.1,
   ((C20_map4_mirroring { } 0xBFFE 1 (by decide)).2.1 rfl (by decide)).2.2.1,
   (C20_map4_mirroring { map4 := { fourscreen := true } } 0xA000 0 (by decide)).2.2 rfl⟩

theorem bool_byte_ne_zero (b : Bool) : (bool_byte b != 0) = b := by
  cases b <;> rfl

theorem nes_set_wram_enable_map4 (e : Bool) (w : World) :
    (nes_set_wram_enable e w).map4 = w.map4 := rfl

theorem nes_set_wram_write_protect_map4 (e : Bool) (w : World) :
    (nes_set_wram_write_protect e w).map4 = w.map4 := rfl

/-- The mapper record that `map4_setstate` leaves. -/
theorem map4_setstate_map4 (s : SnssMapper4) (w : World) :
    (map4_setstate s w).map4 =
      { w.map4 with
        irq := { counter := s.irqCounter, latch := s.irqLatchCounter,
                 enabled := s.irqCounterEnabled != 0, reload_flag := s.fill1 0 != 0 },
        reg8000 := s.last8000Write, wram_en := s.fill1 1 != 0, wram_wp := s.fill1 2 != 0,
        prg_bank6 := s.fill1 3, r7_prg_bank := s.fill1 4,
        chr_reg := fun i => if i < 6 then s.fill1 (5 + i) else w.map4.chr_reg i,
        vrombase := if (s.last8000Write &&& 0x80) ≠ 0 then 0x1000 else 0x0000 } := by
  unfold map4_setstate
  simp only [(map4_refresh_chr_frame _).2.1, (mmc_bankrom_frame _ _ _ _).2.1,
    nes_set_wram_enable_map4, nes_set_wram_write_protect_map4]

/-- C21. MMC3 save-state round trip: `map4_setstate` applied (in any machine
state `w2`) to the block that `map4_getstate` wrote in state `w` restores the
IRQ counter, latch, enable and reload flag, the last `$8000` value, R6, R7, the
WRAM enable and write-protect bits and the six CHR registers of `w`, and sets
the CHR inversion base from bit 7 of the restored `$8000` value. -/
theorem C21_map4_state_round_trip (s : SnssMapper4) (w w2 : World) :
    (map4_setstate (map4_getstate s w) w2).map4.irq = w.map4.irq ∧
    (map4_setstate (map4_getstate s w) w2).map4.reg8000 = w.map4.reg8000 ∧
    (map4_setstate (map4_getstate s w) w2).map4.prg_bank6 = w.map4.prg_bank6 ∧
    (map4_setstate (map4_getstate s w) w2).map4.r7_prg_bank = w.map4.r7_prg_bank ∧
    (map4_setstate (map4_getstate s w) w2).map4.wram_en = w.map4.wram_en ∧
    (map4_setstate (map4_getstate s w) w2).map4.wram_wp = w.map4.wram_wp ∧
    (∀ k, k < 6 → (map4_setstate (map4_getstate s w) w2).map4.chr_reg k = w.map4.chr_reg k) ∧
    (map4_setstate (map4_getstate s w) w2).map4.vrombase =
      (if (w.map4.reg8000 &&& 0x80) ≠ 0 then 0x1000 else 0x0000) := by
  rw [map4_setstate_map4]
  refine ⟨?_, rfl, rfl, rfl, ?_, ?_, ?_, rfl⟩
  · simp only [map4_getstate, bool_byte_ne_zero, if_pos]
  · simp [map4_getstate, bool_byte_ne_zero]
  · simp [map4_getstate, bool_byte_ne_zero]
  · intro k hk
    have h5 : 5 ≤ 5 + k ∧ 5 + k < 11 := by omega
    have e : 5 + k - 5 = k := by omega
    simp only [map4_getstate, if_pos hk]
    rw [if_neg (by omega), if_neg (by omega), if_neg (by omega), if_neg (by omega),
      if_neg (by omega), if_pos h5, e]

theorem joy_shift_step_eq (x : Nat) (hx : x < 256) : joy_shift_step x = x / 2 + 128 := by
  unfold joy_shift_step
  have h1 : x >>> 1 = x / 2 := by rw [Nat.shiftRight_eq_div_pow, pow_one]
  have h2 : x / 2 < 2 ^ 7 := by norm_num; omega
  have h3 : 2 ^ 7 * 1 + x / 2 = 2 ^ 7 * 1 ||| x / 2 := Nat.mul_add_lt_is_or h2 1
  rw [h1, Nat.lor_comm, show (0x80 : Nat) = 2 ^ 7 * 1 from rfl, ← h3]
  norm_num; omega

theorem joy_shift_iterate (x : Nat) (hx : x < 256) (n : Nat) :
    joy_shift_step^[n] x = if n ≤ 8 then x / 2 ^ n + 256 - 2 ^ (8 - n) else 255 := by
  induction n with
  | zero => simp
  | succ n ih =>
    rw [Function.iterate_succ_apply', ih]
    by_cases h : n ≤ 8
    · rw [if_pos h]
      have hb : x / 2 ^ n + 256 - 2 ^ (8 - n) < 256 := by
        interval_cases n <;> norm_num <;> omega
      rw [joy_shift_step_eq _ hb]
      by_cases h8 : n + 1 ≤ 8
      · rw [if_pos h8]
        interval_cases n <;> norm_num <;> omega
      · rw [if_neg h8]
        have : n = 8 := by omega
        subst this
        norm_num; omega
    · rw [if_neg h, if_neg (by omega)]
      rfl

theorem joy_shift_iterate_bit (x : Nat) (hx : x < 256) (n : Nat) :
    joy_shift_step^[n] x &&& 1 = if n < 8 then (x >>> n) &&& 1 else 1 := by
  rw [joy_shift_iterate x hx, Nat.and_one_is_mod, Nat.and_one_is_mod, Nat.shiftRight_eq_div_pow]
  by_cases h : n < 8
  · rw [if_pos (by omega), if_pos h]
    interval_cases n <;> norm_num <;> omega
  · rw [if_neg h]
    by_cases h8 : n ≤ 8
    · have : n = 8 := by omega
      subst this
      norm_num; omega
    · rw [if_neg h8]

theorem io_read_low (address : Nat) (w : World) (h : w.joy_strobe = 0) :
    (io_read address w).1 = 0x40 ||| (w.joy_shift (joy_port address) &&& 1) ∧
    (io_read address w).2.joy_strobe = 0 ∧
    (io_read address w).2.joy_shift (joy_port address) =
      joy_shift_step (w.joy_shift (joy_port address)) := by
  unfold io_read joy_port joy_shift_step
  simp only [h, ne_eq, not_true_eq_false, if_false, Function.update_same]
  exact ⟨trivial, trivial, trivial⟩

theorem io_read_nth_low (address : Nat) (n : Nat) :
    ∀ w : World, w.joy_strobe = 0 →
      (io_read_nth address n w).1 =
        0x40 ||| (joy_shift_step^[n] (w.joy_shift (joy_port address)) &&& 1) := by
  induction n with
  | zero => intro w h; exact (io_read_low address w h).1
  | succ n ih =>
    intro w h
    obtain ⟨-, r2, r3⟩ := io_read_low address w h
    rw [io_read_nth, ih _ r2, r3, Function.iterate_succ_apply]

theorem io_write_strobe_pulse (w : World) :
    (io_write 0x4016 0 (io_write 0x4016 1 w)).joy_strobe = 0 ∧
    ∀ p, p < 2 → (io_write 0x4016 0 (io_write 0x4016 1 w)).joy_shift p = w.joy_state p := by
  refine ⟨rfl, ?_⟩
  intro p hp
  simp [io_write, hp]

theorem joy_port_of (p : Nat) (hp : p < 2) : joy_port (0x4016 + p) = p := by
  interval_cases p <;> rfl

/-- C22. Controller strobe.  After `$01` and then `$00` are written to `$4016`,
the `k`-th read (`k = 1..8`) of port `p` returns `$40 | bit (k-1)` of the button
byte `s` of that port and every later read returns `$41`; while the strobe is
high a read returns `$40 | bit 0` of the current button byte and changes
nothing; for `s = 1` the low bits read are 1, then seven times 0, then 1 for
ever. -/
theorem C22_controller_strobe (p s : Nat) (w : World) (hp : p < 2) (hs : s < 256)
    (h : w.joy_state p = s) :
    (∀ k, 1 ≤ k → k ≤ 8 →
      (io_read_nth (0x4016 + p) (k - 1) (io_write 0x4016 0 (io_write 0x4016 1 w))).1 =
        0x40 ||| ((s >>> (k - 1)) &&& 1)) ∧
    (∀ k, 9 ≤ k →
      (io_read_nth (0x4016 + p) (k - 1) (io_write 0x4016 0 (io_write 0x4016 1 w))).1 = 0x41) ∧
    (∀ u : World, u.joy_strobe ≠ 0 →
      (io_read (0x4016 + p) u).1 = 0x40 ||| (u.joy_state p &&& 1) ∧
      (io_read (0x4016 + p) u).2 = u) ∧
    (s = 1 → ∀ k, 1 ≤ k →
      (io_read_nth (0x4016 + p) (k - 1) (io_write 0x4016 0 (io_write 0x4016 1 w))).1 &&& 1 =
        if k = 1 ∨ 9 ≤ k then 1 else 0) := by
  obtain ⟨g1, g2⟩ := io_write_strobe_pulse w
  have key : ∀ n, (io_read_nth (0x4016 + p) n (io_write 0x4016 0 (io_write 0x4016 1 w))).1 =
      0x40 ||| (if n < 8 then (s >>> n) &&& 1 else 1) := by
    intro n
    rw [io_read_nth_low _ _ _ g1, joy_port_of p hp, g2 p hp, h, joy_shift_iterate_bit s hs]
  refine ⟨?_, ?_, ?_, ?_⟩
  · intro k h1 h8
    rw [key, if_pos (by omega)]
  · intro k h9
    rw [key, if_neg (by omega)]
    rfl
  · intro u hu
    have e := joy_port_of p hp
    unfold joy_port at e
    unfold io_read
    rw [if_pos hu, e]
    exact ⟨rfl, rfl⟩
  · intro h1 k hk
    rw [key]
    subst h1
    by_cases c : k - 1 < 8
    · rw [if_pos c]
      have : k - 1 < 8 := c
      interval_cases hk1 : k - 1
      · rw [if_pos (by omega)]; rfl
      all_goals (rw [if_neg (by omega)]; rfl)
    · rw [if_neg c, if_pos (by omega)]; rfl

theorem C22_controller_strobe_witness :
    (io_read_nth 0x4016 0 (io_write 0x4016 0 (io_write 0x4016 1
      { joy_state := fun _ => 1 }))).1 = 0x41 ∧
    (io_read_nth 0x4016 1 (io_write 0x4016 0 (io_write 0x4016 1
      { joy_state := fun _ => 1 }))).1 = 0x40 :=
  ⟨((C22_controller_strobe 0 1 { joy_state := fun _ => 1 } (by decide) (by decide) rfl).1 1
      (by decide) (by decide)).trans (by decide),
   ((C22_controller_strobe 0 1 { joy_state := fun _ => 1 } (by decide) (by decide) rfl).1 2
      (by decide) (by decide)).trans (by decide)⟩

/-- C23. MMC5 multiplier: after the bytes `a` and `b` are written to `$5205`
and `$5206`, a read of `$5205` returns `lo` and a read of `$5206` returns `hi`,
both bytes, with `lo + 256 * hi = a * b`; neither read changes the machine, so
the operands stay. -/
theorem C23_mmc5_multiplier (a b : Nat) (w : World) (ha : a < 256) (hb : b < 256) :
    (map5_read 0x5205 (map5_write 0x5206 b (map5_write 0x5205 a w))).1 +
      256 * (map5_read 0x5206 (map5_write 0x5206 b (map5_write 0x5205 a w))).1 = a * b ∧
    (map5_read 0x5205 (map5_write 0x5206 b (map5_write 0x5205 a w))).1 < 256 ∧
    (map5_read 0x5206 (map5_write 0x5206 b (map5_write 0x5205 a w))).1 < 256 ∧
    (map5_read 0x5205 (map5_write 0x5206 b (map5_write 0x5205 a w))).2 =
      map5_write 0x5206 b (map5_write 0x5205 a w) ∧
    (map5_read 0x5206 (map5_write 0x5206 b (map5_write 0x5205 a w))).2 =
      map5_write 0x5206 b (map5_write 0x5205 a w) ∧
    (map5_write 0x5206 b (map5_write 0x5205 a w)).map5.mul 0 = a ∧
    (map5_write 0x5206 b (map5_write 0x5205 a w)).map5.mul 1 = b := by
  have m0 : (map5_write 0x5206 b (map5_write 0x5205 a w)).map5.mul 0 = a := by
    simp [map5_write, map5_write_plain, Function.update]
  have m1 : (map5_write 0x5206 b (map5_write 0x5205 a w)).map5.mul 1 = b := by
    simp [map5_write, map5_write_plain, Function.update]
  obtain ⟨X, hX⟩ : ∃ X : World, X = map5_write 0x5206 b (map5_write 0x5205 a w) := ⟨_, rfl⟩
  rw [← hX] at m0 m1 ⊢
  clear hX
  have hab : a * b < 65536 := by nlinarith
  have r5 : (map5_read 0x5205 X) = (((a * b) &&& 0xFF) % 256, X) := by
    simp [map5_read, m0, m1]
  have r6 : (map5_read 0x5206 X) = (((a * b) >>> 8) % 256, X) := by
    simp [map5_read, m0, m1]
  rw [r5, r6]
  have e1 : (a * b) &&& 0xFF = (a * b) % 256 := Nat.and_pow_two_sub_one_eq_mod (a * b) 8
  have e2 : (a * b) >>> 8 = (a * b) / 256 := by rw [Nat.shiftRight_eq_div_pow]
  simp only [e1, e2]
  refine ⟨by omega, by omega, by omega, trivial, trivial, m0, m1⟩

theorem C23_mmc5_multiplier_witness :
    (map5_read 0x5205 (map5_write 0x5206 200 (map5_write 0x5205 100 {}))).1 +
      256 * (map5_read 0x5206 (map5_write 0x5206 200 (map5_write 0x5205 100 {}))).1
      = 100 * 200 :=
  (C23_mmc5_multiplier 100 200 {} (by decide) (by decide)).1

theorem fill_attr_packed (a : Nat) (h : a < 4) :
    (a ||| (a <<< 2) ||| (a <<< 4) ||| (a <<< 6)) % 256 = a * 0x55 ∧
    (a ||| (a <<< 2) ||| (a <<< 4) ||| (a <<< 6)) = a * 0x55 := by
  interval_cases a <;> exact ⟨rfl, rfl⟩

/-- The fill page after `rebuild_fill`. -/
theorem rebuild_fill_spec (w : World) :
    (rebuild_fill w).map5 = w.map5 ∧
    (∀ i, i < 960 → (rebuild_fill w).chrmem (w.map5.fill_ram + i) = w.map5.nt_fill) ∧
    (∀ i, 960 ≤ i → i < 1024 →
      (rebuild_fill w).chrmem (w.map5.fill_ram + i) = (w.map5.at_fill &&& 3) * 0x55) := by
  have h3 : w.map5.at_fill &&& 3 < 4 := by
    have := @Nat.and_le_right w.map5.at_fill 3
    omega
  refine ⟨rfl, ?_, ?_⟩
  · intro i hi
    simp only [rebuild_fill]
    rw [if_pos (by omega)]
  · intro i h1 h2
    simp only [rebuild_fill]
    rw [if_neg (by omega), if_pos (by omega)]
    exact (fill_attr_packed _ h3).1

/-- C24. MMC5 fill nametable: after a write of `v` to `$5106` or to `$5107`,
with `T` the last value written to `$5106` (the register `nt_fill`, which the
write sets or keeps) and `A` the low two bits of the last value written to
`$5107` (the register `at_fill`), the fill page holds `T` at the offsets 0..959
and `A | A<<2 | A<<4 | A<<6 = A * $55` at the offsets 960..1023. -/
theorem C24_mmc5_fill_page (address v : Nat) (w : World)
    (ha : address = 0x5106 ∨ address = 0x5107) :
    (map5_write address v w).map5.nt_fill
      = (if address = 0x5106 then v else w.map5.nt_fill) ∧
    (map5_write address v w).map5.at_fill
      = (if address = 0x5107 then v else w.map5.at_fill) ∧
    (map5_write address v w).map5.fill_ram = w.map5.fill_ram ∧
    (∀ i, i < 960 → (map5_write address v w).chrmem ((map5_write address v w).map5.fill_ram + i)
      = (map5_write address v w).map5.nt_fill) ∧
    (∀ i, 960 ≤ i → i < 1024 →
      (map5_write address v w).chrmem ((map5_write address v w).map5.fill_ram + i)
        = ((map5_write address v w).map5.at_fill &&& 3) * 0x55 ∧
      ((map5_write address v w).map5.at_fill &&& 3) * 0x55 =
        (((map5_write address v w).map5.at_fill &&& 3) |||
         (((map5_write address v w).map5.at_fill &&& 3) <<< 2) |||
         (((map5_write address v w).map5.at_fill &&& 3) <<< 4) |||
         (((map5_write address v w).map5.at_fill &&& 3) <<< 6))) := by
  have key : ∃ u : World, map5_write address v w = rebuild_fill u ∧
      u.map5.nt_fill = (if address = 0x5106 then v else w.map5.nt_fill) ∧
      u.map5.at_fill = (if address = 0x5107 then v else w.map5.at_fill) ∧
      u.map5.fill_ram = w.map5.fill_ram := by
    rcases ha with h | h
    · exact ⟨{ w with map5 := { w.map5 with nt_fill := v } }, by subst h; simp [map5_write],
        by subst h; simp, by subst h; simp, rfl⟩
    · exact ⟨{ w with map5 := { w.map5 with at_fill := v } }, by subst h; simp [map5_write],
        by subst h; simp, by subst h; simp, rfl⟩
  obtain ⟨u, e, k1, k2, k3⟩ := key
  obtain ⟨s1, s2, s3⟩ := rebuild_fill_spec u
  rw [e, s1]
  have h3 : u.map5.at_fill &&& 3 < 4 := by
    have := @Nat.and_le_right u.map5.at_fill 3
    omega
  exact ⟨k1, k2, k3, s2, fun i h1 h2 => ⟨s3 i h1 h2, (fill_attr_packed _ h3).2.symm⟩⟩

theorem C24_mmc5_fill_page_witness :
    (map5_write 0x5106 0x24 {}).chrmem ((map5_write 0x5106 0x24 {}).map5.fill_ram + 5)
      = (map5_write 0x5106 0x24 {}).map5.nt_fill :=
  (C24_mmc5_fill_page 0x5106 0x24 {} (Or.inl rfl)).2.2.2.1 5 (by decide)

theorem mmc_bankrom_map5 (size : Int) (address : Nat) (bank : Int) (w : World) :
    (mmc_bankrom size address bank w).map5 = w.map5 := by
  unfold mmc_bankrom
  split <;> rfl

theorem and_not32_three (x : Nat) (h : x < 128) : and_not32 x 3 = x - x % 4 := by
  interval_cases x <;> rfl

theorem and_not32_one (x : Nat) (h : x < 128) : and_not32 x 1 = x - x % 2 := by
  interval_cases x <;> rfl

theorem and_7F_lt (x : Nat) : x &&& 0x7F < 128 := by
  have := @Nat.and_le_right x 0x7F
  omega

theorem and_3_cases (x : Nat) : x &&& 3 = 0 ∨ x &&& 3 = 1 ∨ x &&& 3 = 2 ∨ x &&& 3 = 3 := by
  have := @Nat.and_le_right x 3
  omega

/-- The four PRG slots after `sync_prg`, by mode. -/
theorem sync_prg_spec (w : World) :
    (sync_prg w).map5 = w.map5 ∧
    (w.map5.prg_mode &&& 3 = 0 →
      (sync_prg w).prg_bank 4 = ((w.map5.prg_reg 3 &&& 0x7F) - (w.map5.prg_reg 3 &&& 0x7F) % 4 : Nat) ∧
      (sync_prg w).prg_bank 5 = ((w.map5.prg_reg 3 &&& 0x7F) - (w.map5.prg_reg 3 &&& 0x7F) % 4 + 1 : Nat) ∧
      (sync_prg w).prg_bank 6 = ((w.map5.prg_reg 3 &&& 0x7F) - (w.map5.prg_reg 3 &&& 0x7F) % 4 + 2 : Nat) ∧
      (sync_prg w).prg_bank 7 = ((w.map5.prg_reg 3 &&& 0x7F) - (w.map5.prg_reg 3 &&& 0x7F) % 4 + 3 : Nat)) ∧
    (w.map5.prg_mode &&& 3 = 1 →
      (sync_prg w).prg_bank 4 = ((w.map5.prg_reg 1 &&& 0x7F) - (w.map5.prg_reg 1 &&& 0x7F) % 2 : Nat) ∧
      (sync_prg w).prg_bank 5 = ((w.map5.prg_reg 1 &&& 0x7F) - (w.map5.prg_reg 1 &&& 0x7F) % 2 + 1 : Nat) ∧
      (sync_prg w).prg_bank 6 = ((w.map5.prg_reg 3 &&& 0x7F) - (w.map5.prg_reg 3 &&& 0x7F) % 2 : Nat) ∧
      (sync_prg w).prg_bank 7 = ((w.map5.prg_reg 3 &&& 0x7F) - (w.map5.prg_reg 3 &&& 0x7F) % 2 + 1 : Nat)) ∧
    (w.map5.prg_mode &&& 3 = 2 →
      (sync_prg w).prg_bank 4 = (w.map5.prg_reg 1 &&& 0x7F : Nat) ∧
      (sync_prg w).prg_bank 5 = (w.map5.prg_reg 2 &&& 0x7F : Nat) ∧
      (sync_prg w).prg_bank 6 = ((w.map5.prg_reg 3 &&& 0x7F) - (w.map5.prg_reg 3 &&& 0x7F) % 2 : Nat) ∧
      (sync_prg w).prg_bank 7 = ((w.map5.prg_reg 3 &&& 0x7F) - (w.map5.prg_reg 3 &&& 0x7F) % 2 + 1 : Nat)) ∧
    (w.map5.prg_mode &&& 3 = 3 →
      (sync_prg w).prg_bank 4 = (w.map5.prg_reg 0 &&& 0x7F : Nat) ∧
      (sync_prg w).prg_bank 5 = (w.map5.prg_reg 1 &&& 0x7F : Nat) ∧
      (sync_prg w).prg_bank 6 = (w.map5.prg_reg 2 &&& 0x7F : Nat) ∧
      (sync_prg w).prg_bank 7 = (w.map5.prg_reg 3 &&& 0x7F : Nat)) := by
  have a3 := and_not32_three _ (and_7F_lt (w.map5.prg_reg 3))
  have b3 := and_not32_one _ (and_7F_lt (w.map5.prg_reg 3))
  have b1 := and_not32_one _ (and_7F_lt (w.map5.prg_reg 1))
  refine ⟨?_, ?_, ?_, ?_, ?_⟩
  · unfold sync_prg
    dsimp only
    split_ifs <;> simp only [mmc_bankrom_map5]
  · intro h
    unfold sync_prg
    simp only [h, if_true, mmc_bankrom_eight, mmc_bankrom_map5, a3]
    simp [Function.update]
  · intro h
    unfold sync_prg
    simp only [h, if_neg (by decide : ¬ (1 : Nat) = 0), if_true, mmc_bankrom_eight,
      mmc_bankrom_map5, b1, b3]
    simp [Function.update]
  · intro h
    unfold sync_prg
    simp only [h, if_neg (by decide : ¬ (2 : Nat) = 0), if_neg (by decide : ¬ (2 : Nat) = 1),
      if_true, mmc_bankrom_eight, mmc_bankrom_map5, b1, b3]
    simp [Function.update]
  · intro h
    unfold sync_prg
    simp only [h, if_neg (by decide : ¬ (3 : Nat) = 0), if_neg (by decide : ¬ (3 : Nat) = 1),
      if_neg (by decide : ¬ (3 : Nat) = 2), mmc_bankrom_eight, mmc_bankrom_map5, b1, b3]
    simp [Function.update]


theorem map5_write_prg (address v : Nat) (w : World)
    (ha : address = 0x5100 ∨ (0x5114 ≤ address ∧ address ≤ 0x5117)) :
    ∃ u : World, map5_write address v w = sync_prg u ∧
      u.map5.prg_mode = (if address = 0x5100 then v &&& 3 else w.map5.prg_mode) ∧
      u.map5.prg_reg = (if address = 0x5100 then w.map5.prg_reg
                        else Function.update w.map5.prg_reg (address &&& 3) v) := by
  rcases ha with h | ⟨h1, h2⟩
  · subst h
    exact ⟨{ w with map5 := { w.map5 with prg_mode := v &&& 3 } }, by simp [map5_write],
      by simp, by simp⟩
  · refine ⟨{ w with map5 := { w.map5 with
      prg_reg := Function.update w.map5.prg_reg (address &&& 3) v } }, ?_, ?_, ?_⟩
    · unfold map5_write
      rw [if_neg (by omega), if_neg (by omega), if_neg (by omega), if_neg (by omega),
        if_neg (by omega), if_neg (by omega), if_neg (by omega), if_pos ⟨h1, h2⟩]
    · rw [if_neg (by omega)]
    · rw [if_neg (by omega)]

/-- C25. MMC5 PRG modes: after a write to `$5100` or `$5114-$5117`, with `r i`
the low 7 bits of PRG register `i` and the mode the low 2 bits of `$5100` (both
as the write leaves them), the 8 KiB slots at `$8000`, `$A000`, `$C000`, `$E000`
hold: mode 0: `b, b+1, b+2, b+3` with `b = r 3` less its low two bits; mode 1:
`c, c+1, d, d+1` with `c = r 1` and `d = r 3`, each less its low bit; mode 2:
`r 1, r 2, d, d+1`; mode 3: `r 0, r 1, r 2, r 3`.  A write to `$5100` sets the
mode to the low two bits of the value, a write to `$5114 + i` sets register
`i`. -/
theorem C25_mmc5_prg_modes (address v : Nat) (w : World)
    (ha : address = 0x5100 ∨ (0x5114 ≤ address ∧ address ≤ 0x5117))
    (r : Nat → Nat) (hr : ∀ i, r i = (map5_write address v w).map5.prg_reg i &&& 0x7F) :
    ((map5_write address v w).map5.prg_mode &&& 3 = 0 →
      (map5_write address v w).prg_bank (0x8000 >>> 13) = (r 3 - r 3 % 4 : Nat) ∧
      (map5_write address v w).prg_bank (0xA000 >>> 13) = (r 3 - r 3 % 4 + 1 : Nat) ∧
      (map5_write address v w).prg_bank (0xC000 >>> 13) = (r 3 - r 3 % 4 + 2 : Nat) ∧
      (map5_write address v w).prg_bank (0xE000 >>> 13) = (r 3 - r 3 % 4 + 3 : Nat)) ∧
    ((map5_write address v w).map5.prg_mode &&& 3 = 1 →
      (map5_write address v w).prg_bank (0x8000 >>> 13) = (r 1 - r 1 % 2 : Nat) ∧
      (map5_write address v w).prg_bank (0xA000 >>> 13) = (r 1 - r 1 % 2 + 1 : Nat) ∧
      (map5_write address v w).prg_bank (0xC000 >>> 13) = (r 3 - r 3 % 2 : Nat) ∧
      (map5_write address v w).prg_bank (0xE000 >>> 13) = (r 3 - r 3 % 2 + 1 : Nat)) ∧
    ((map5_write address v w).map5.prg_mode &&& 3 = 2 →
      (map5_write address v w).prg_bank (0x8000 >>> 13) = (r 1 : Nat) ∧
      (map5_write address v w).prg_bank (0xA000 >>> 13) = (r 2 : Nat) ∧
      (map5_write address v w).prg_bank (0xC000 >>> 13) = (r 3 - r 3 % 2 : Nat) ∧
      (map5_write address v w).prg_bank (0xE000 >>> 13) = (r 3 - r 3 % 2 + 1 : Nat)) ∧
    ((map5_write address v w).map5.prg_mode &&& 3 = 3 →
      (map5_write address v w).prg_bank (0x8000 >>> 13) = (r 0 : Nat) ∧
      (map5_write address v w).prg_bank (0xA000 >>> 13) = (r 1 : Nat) ∧
      (map5_write address v w).prg_bank (0xC000 >>> 13) = (r 2 : Nat) ∧
      (map5_write address v w).prg_bank (0xE000 >>> 13) = (r 3 : Nat)) ∧
    (map5_write address v w).map5.prg_mode
      = (if address = 0x5100 then v &&& 3 else w.map5.prg_mode) ∧
    (map5_write address v w).map5.prg_reg
      = (if address = 0x5100 then w.map5.prg_reg
         else Function.update w.map5.prg_reg (address - 0x5114) v) := by
  obtain ⟨u, e, k1, k2⟩ := map5_write_prg address v w ha
  obtain ⟨s0, s1, s2, s3, s4⟩ := sync_prg_spec u
  rw [e] at hr ⊢
  rw [s0] at hr ⊢
  simp only [hr]
  refine ⟨s1, s2, s3, s4, k1, ?_⟩
  rw [k2]
  rcases ha with h | ⟨h1, h2⟩
  · rw [if_pos h, if_pos h]
  · rw [if_neg (by omega), if_neg (by omega)]
    have : address &&& 3 = address - 0x5114 := by
      have c : address = 0x5114 ∨ address = 0x5115 ∨ address = 0x5116 ∨ address = 0x5117 := by
        omega
      rcases c with c | c | c | c <;> subst c <;> rfl
    rw [this]

theorem C25_mmc5_prg_modes_witness :
    (map5_write 0x5117 0x0F { map5 := { prg_mode := 0 } }).prg_bank (0xE000 >>> 13)
      = ((0x0F - 0x0F % 4 + 3 : Nat) : Int) :=
  ((C25_mmc5_prg_modes 0x5117 0x0F { map5 := { prg_mode := 0 } } (Or.inr (by decide))
    (fun i => (map5_write 0x5117 0x0F { map5 := { prg_mode := 0 } }).map5.prg_reg i &&& 0x7F)
    (fun _ => rfl)).1 (by decide)).2.2.2.trans (by decide)

/-- C27, the claim as stated fails: with IRQs disabled a tick with a counter of
5 leaves the counter at 5. -/
theorem C27_counterexample :
    0 < ({ map5 := { irq := { counter := 5, enabled := false } } } : World).map5.irq.counter ∧
    (map5_hblank 0 { map5 := { irq := { counter := 5, enabled := false } } }).map5.irq.counter
      ≠ 5 - 1 := by
  decide

/-- C27 (amended). MMC5 scanline tick: with IRQs enabled, a tick with
counter > 0 decrements the counter by exactly one and raises nothing (the CPU
record, the pending flag and the latch stay); a tick with counter = 0 raises the
CPU IRQ, sets the pending flag and reloads the counter from the latch; with
IRQs disabled a tick changes nothing. -/
theorem C27_map5_hblank (vblank : Int) (w : World) :
    (w.map5.irq.enabled = true → 0 < w.map5.irq.counter →
      (map5_hblank vblank w).map5.irq.counter = w.map5.irq.counter - 1 ∧
      (map5_hblank vblank w).cpu = w.cpu ∧
      (map5_hblank vblank w).map5.irq.pending = w.map5.irq.pending ∧
      (map5_hblank vblank w).map5.irq.latch = w.map5.irq.latch ∧
      (map5_hblank vblank w).map5.irq.enabled = true) ∧
    (w.map5.irq.enabled = true → w.map5.irq.counter = 0 →
      (map5_hblank vblank w).cpu.ext_irq_line = 1 ∧
      (map5_hblank vblank w).cpu.irq_calls = w.cpu.irq_calls + 1 ∧
      (map5_hblank vblank w).map5.irq.pending = true ∧
      (map5_hblank vblank w).map5.irq.counter = w.map5.irq.latch ∧
      (map5_hblank vblank w).map5.irq.latch = w.map5.irq.latch ∧
      (map5_hblank vblank w).map5.irq.enabled = true) ∧
    (w.map5.irq.enabled = false → map5_hblank vblank w = w) := by
  refine ⟨?_, ?_, ?_⟩
  · intro he hc
    unfold map5_hblank
    rw [if_neg (by simp [he]), if_neg (by omega)]
    exact ⟨rfl, rfl, rfl, rfl, he⟩
  · intro he hc
    unfold map5_hblank
    rw [if_neg (by simp [he]), if_pos hc]
    exact ⟨rfl, rfl, rfl, rfl, rfl, he⟩
  · intro he
    unfold map5_hblank
    rw [if_pos he]

theorem C27_map5_hblank_witness :
    (map5_hblank 0 { map5 := { irq := { counter := 5, enabled := true } } }).map5.irq.counter
      = 5 - 1 :=
  ((C27_map5_hblank 0 { map5 := { irq := { counter := 5, enabled := true } } }).1
    rfl (by decide)).1

theorem ppu_setpage_loop_frame (size page : Int) (ptr : Option Nat) (n : Nat) :
    ∀ (i : Int) (w : World),
      (ppu_setpage_loop size page ptr n i w).ciram = w.ciram ∧
      (ppu_setpage_loop size page ptr n i w).nametable_mapping = w.nametable_mapping ∧
      (ppu_setpage_loop size page ptr n i w).ppu_four_screen_enabled
        = w.ppu_four_screen_enabled ∧
      (ppu_setpage_loop size page ptr n i w).chrmem = w.chrmem ∧
      (ppu_setpage_loop size page ptr n i w).map5 = w.map5 ∧
      (ppu_setpage_loop size page ptr n i w).ppu = w.ppu := by
  induction n with
  | zero => intro i w; exact ⟨rfl, rfl, rfl, rfl, rfl, rfl⟩
  | succ n ih =>
    intro i w
    unfold ppu_setpage_loop
    split_ifs
    · exact ih _ _
    · exact ⟨rfl, rfl, rfl, rfl, rfl, rfl⟩

theorem ppu_setpage_frame (size page : Int) (ptr : Option Nat) (w : World) :
    (ppu_setpage size page ptr w).ciram = w.ciram ∧
    (ppu_setpage size page ptr w).nametable_mapping = w.nametable_mapping ∧
    (ppu_setpage size page ptr w).ppu_four_screen_enabled = w.ppu_four_screen_enabled ∧
    (ppu_setpage size page ptr w).chrmem = w.chrmem ∧
    (ppu_setpage size page ptr w).map5 = w.map5 ∧
    (ppu_setpage size page ptr w).ppu = w.ppu := by
  unfold ppu_setpage
  split_ifs
  · exact ⟨rfl, rfl, rfl, rfl, rfl, rfl⟩
  · exact ppu_setpage_loop_frame _ _ _ _ _ _

theorem map_nametable_slot_frame (val i : Nat) (w : World) :
    (map_nametable_slot val i w).ciram = w.ciram ∧
    (map_nametable_slot val i w).nametable_mapping = w.nametable_mapping ∧
    (map_nametable_slot val i w).ppu_four_screen_enabled = w.ppu_four_screen_enabled ∧
    (map_nametable_slot val i w).chrmem = w.chrmem ∧
    (map_nametable_slot val i w).map5 = w.map5 ∧
    (map_nametable_slot val i w).ppu = w.ppu := by
  unfold map_nametable_slot
  dsimp only
  split_ifs <;> exact ppu_setpage_frame _ _ _ _

theorem map_nametables_frame (val : Nat) (w : World) :
    (map_nametables val w).ciram = w.ciram ∧
    (map_nametables val w).nametable_mapping = w.nametable_mapping ∧
    (map_nametables val w).ppu_four_screen_enabled = w.ppu_four_screen_enabled ∧
    (map_nametables val w).chrmem = w.chrmem ∧
    (map_nametables val w).map5 = w.map5 ∧
    (map_nametables val w).ppu = w.ppu := by
  unfold map_nametables
  simp only [map_nametable_slot_frame]
  exact ⟨trivial, trivial, trivial, trivial, trivial, trivial⟩

theorem ciram_ptr_congr (a : Nat) (w1 w2 : World)
    (h1 : w1.nametable_mapping = w2.nametable_mapping)
    (h2 : w1.ppu_four_screen_enabled = w2.ppu_four_screen_enabled) :
    ciram_ptr a w1 = ciram_ptr a w2 := by
  unfold ciram_ptr
  rw [h1, h2]

/-- C26, the code does not do what the claim says.  A write to `$5105` changes
no byte that a PPU bus read in `$2000-$3EFF` returns: such a read returns the
same byte as before the write, whatever source the write selected.  In
particular after `map5_init`, `$5106 := $24` and `$5105 := $FF` (every slot
selects the fill page, whose byte at offset 0 is `$24`) a PPU bus read at
`$2000` returns the CIRAM byte 0, not `$24`. -/
theorem C26_nametable_mapping_not_seen (L : Int) :
    (∀ (m a : Nat) (w : World), a &&& 0x3FFF = a → 0x2000 ≤ a → a < 0x3F00 →
      (ppu_bus_read a (map5_write 0x5105 m w)).1 = (ppu_bus_read a w).1) ∧
    ((0xFF >>> (0 * 2)) &&& 3 = 3 ∧
     (fill_mode_machine L).chrmem ((fill_mode_machine L).map5.fill_ram + 0) = 0x24 ∧
     (ppu_bus_read 0x2000 (fill_mode_machine L)).1 = 0 ∧
     (ppu_bus_read 0x2000 (fill_mode_machine L)).1
       ≠ (fill_mode_machine L).chrmem ((fill_mode_machine L).map5.fill_ram + 0)) := by
  have g : ∀ (m a : Nat) (w : World), a &&& 0x3FFF = a → 0x2000 ≤ a → a < 0x3F00 →
      (ppu_bus_read a (map5_write 0x5105 m w)).1 = (ppu_bus_read a w).1 := by
    intro m a w e h1 h2
    have hw : map5_write 0x5105 m w = map_nametables m w := by
      simp [map5_write]
    obtain ⟨f1, f2, f3, -⟩ := map_nametables_frame m w
    rw [hw, bus_read_nametable a _ e h1 h2, bus_read_nametable a _ e h1 h2]
    simp only [f1, ciram_ptr_congr a _ _ f2 f3]
  have hw : fill_mode_machine L
      = map_nametables 0xFF (rebuild_fill
          { (map5_init L {}) with map5 := { (map5_init L {}).map5 with nt_fill := 0x24 } }) := by
    simp [fill_mode_machine, map5_write]
  obtain ⟨u, hu⟩ : ∃ u : World, u =
      { (map5_init L {}) with map5 := { (map5_init L {}).map5 with nt_fill := 0x24 } } :=
    ⟨_, rfl⟩
  have un : u.map5.nt_fill = 0x24 := by rw [hu]
  have uc : u.ciram = fun _ => 0 := by rw [hu]; rfl
  rw [← hu] at hw
  clear hu
  obtain ⟨f1, f2, f3, f4, f5, -⟩ := map_nametables_frame 0xFF (rebuild_fill u)
  obtain ⟨s1, s2, -⟩ := rebuild_fill_spec u
  have c1 : (fill_mode_machine L).chrmem ((fill_mode_machine L).map5.fill_ram + 0) = 0x24 := by
    rw [hw, f4, f5, s1, s2 0 (by decide), un]
  have c2 : (ppu_bus_read 0x2000 (fill_mode_machine L)).1 = 0 := by
    rw [bus_read_nametable 0x2000 _ (by decide) (by decide) (by decide), hw, f1]
    have : (rebuild_fill u).ciram = u.ciram := rfl
    rw [this, uc]
  refine ⟨g, by decide, c1, c2, ?_⟩
  rw [c1, c2]
  decide

/-- The PPU side of the machine after `load_baseblock`. -/
theorem load_baseblock_ppu (junk : ppu_state_t) (blk : SnssBaseBlock) (w : World) :
    (load_baseblock junk blk w).ppu.ctrl = blk.reg2000 ∧
    (load_baseblock junk blk w).ppu.mask = blk.reg2001 ∧
    (load_baseblock junk blk w).ppu.v = blk.vramAddress ∧
    (load_baseblock junk blk w).ppu.oam_addr = blk.spriteRamAddress ∧
    (load_baseblock junk blk w).ppu.x = blk.tileXOffset ∧
    (load_baseblock junk blk w).ppu.oam = memcpy_arr w.ppu.oam blk.spriteRam 256 ∧
    (load_baseblock junk blk w).ciram = memcpy_arr w.ciram blk.ppuRam 0x1000 ∧
    (load_baseblock junk blk w).ppu.palette = memcpy_arr w.ppu.palette blk.palette 32 ∧
    (load_baseblock junk blk w).nametable_mapping
      = memcpy_arr w.nametable_mapping blk.mirrorState 4 ∧
    (load_baseblock junk blk w).ppu.dot = 0 ∧
    (load_baseblock junk blk w).ppu.scanline = 0 ∧
    (load_baseblock junk blk w).ppu.odd_frame = false ∧
    (load_baseblock junk blk w).ppu.w = 0 ∧
    (load_baseblock junk blk w).ppu.t = 0 ∧
    (load_baseblock junk blk w).ppu.buffered_data = 0 :=
  ⟨rfl, rfl, rfl, rfl, rfl, rfl, rfl, rfl, rfl, rfl, rfl, rfl, rfl, rfl, rfl⟩

/-- The PPU side of the block that `save_baseblock` writes. -/
theorem save_baseblock_ppu (blk : SnssBaseBlock) (w : World) :
    (save_baseblock blk w).reg2000 = w.ppu.ctrl ∧
    (save_baseblock blk w).reg2001 = w.ppu.mask ∧
    (save_baseblock blk w).vramAddress = w.ppu.v ∧
    (save_baseblock blk w).spriteRamAddress = w.ppu.oam_addr ∧
    (save_baseblock blk w).tileXOffset = w.ppu.x ∧
    (∀ i, i < 256 → (save_baseblock blk w).spriteRam i = w.ppu.oam i) ∧
    (∀ i, i < 0x1000 → (save_baseblock blk w).ppuRam i = w.ciram i) ∧
    (∀ i, i < 32 → (save_baseblock blk w).palette i = w.ppu.palette i) ∧
    (∀ i, i < 4 → (save_baseblock blk w).mirrorState i = w.nametable_mapping i) := by
  refine ⟨rfl, rfl, rfl, rfl, rfl, ?_, ?_, ?_, ?_⟩
  · intro i hi
    simp only [save_baseblock, ppu_get_oam, memcpy_arr, if_pos hi]
  · intro i hi
    simp only [save_baseblock, ppu_get_ciram, memcpy_arr, if_pos hi]
  · intro i hi
    simp only [save_baseblock, ppu_get_palette, memcpy_arr, if_pos hi]
  · intro i hi
    simp only [save_baseblock, ppu_get_mirroring, memcpy_arr, if_pos hi]

/-- C28. Base-block snapshot round trip: `load_baseblock` applied (in any
machine state `w2`, and whatever the uninitialised local `ppu_state` held) to
the block that `save_baseblock` wrote in state `w` restores PPU CTRL, MASK, `v`,
OAMADDR, fine X, the 256 OAM bytes, the `$1000` CIRAM bytes, the 32 palette
bytes and the 4 entries of the mirror table of `w`, and leaves dot = 0,
scanline = 0, odd_frame = false, `w` = 0, `t` = 0 and the `$2007` read
buffer = 0. -/
theorem C28_baseblock_round_trip (junk : ppu_state_t) (blk : SnssBaseBlock) (w w2 : World) :
    (load_baseblock junk (save_baseblock blk w) w2).ppu.ctrl = w.ppu.ctrl ∧
    (load_baseblock junk (save_baseblock blk w) w2).ppu.mask = w.ppu.mask ∧
    (load_baseblock junk (save_baseblock blk w) w2).ppu.v = w.ppu.v ∧
    (load_baseblock junk (save_baseblock blk w) w2).ppu.oam_addr = w.ppu.oam_addr ∧
    (load_baseblock junk (save_baseblock blk w) w2).ppu.x = w.ppu.x ∧
    (∀ i, i < 256 → (load_baseblock junk (save_baseblock blk w) w2).ppu.oam i = w.ppu.oam i) ∧
    (∀ i, i < 0x1000 → (load_baseblock junk (save_baseblock blk w) w2).ciram i = w.ciram i) ∧
    (∀ i, i < 32 →
      (load_baseblock junk (save_baseblock blk w) w2).ppu.palette i = w.ppu.palette i) ∧
    (∀ i, i < 4 →
      (load_baseblock junk (save_baseblock blk w) w2).nametable_mapping i
        = w.nametable_mapping i) ∧
    (load_baseblock junk (save_baseblock blk w) w2).ppu.dot = 0 ∧
    (load_baseblock junk (save_baseblock blk w) w2).ppu.scanline = 0 ∧
    (load_baseblock junk (save_baseblock blk w) w2).ppu.odd_frame = false ∧
    (load_baseblock junk (save_baseblock blk w) w2).ppu.w = 0 ∧
    (load_baseblock junk (save_baseblock blk w) w2).ppu.t = 0 ∧
    (load_baseblock junk (save_baseblock blk w) w2).ppu.buffered_data = 0 := by
  obtain ⟨l1, l2, l3, l4, l5, l6, l7, l8, l9, l10, l11, l12, l13, l14, l15⟩ :=
    load_baseblock_ppu junk (save_baseblock blk w) w2
  obtain ⟨s1, s2, s3, s4, s5, s6, s7, s8, s9⟩ := save_baseblock_ppu blk w
  refine ⟨l1.trans s1, l2.trans s2, l3.trans s3, l4.trans s4, l5.trans s5, ?_, ?_, ?_, ?_,
    l10, l11, l12, l13, l14, l15⟩
  · intro i hi
    rw [l6]
    simp only [memcpy_arr, if_pos hi]
    exact s6 i hi
  · intro i hi
    rw [l7]
    simp only [memcpy_arr, if_pos hi]
    exact s7 i hi
  · intro i hi
    rw [l8]
    simp only [memcpy_arr, if_pos hi]
    exact s8 i hi
  · intro i hi
    rw [l9]
    simp only [memcpy_arr, if_pos hi]
    exact s9 i hi

/-! ### Frame lemmas: what the blocks of `ppu_clock` do to the framebuffer, the
palette, the emphasis table and the sprite evaluation -/

theorem map4_clock_irq_lut (w : World) :
    (map4_clock_irq w).emphasis_lut = w.emphasis_lut ∧
    (map4_clock_irq w).emphasis_lut_init = w.emphasis_lut_init := by
  unfold map4_clock_irq nes_irq
  by_cases h1 : w.map4.irq.reload_flag = true <;> by_cases h2 : w.map4.irq.counter = 0 <;>
    by_cases h3 : w.map4.irq.enabled = true <;> by_cases h4 : w.map4.irq.latch = 0 <;>
    by_cases h5 : (w.map4.irq.counter - 1) % 256 = 0 <;> simp [h1, h2, h3, h4, h5]

theorem call_mapper_hook_lut (h : MapperHook) (addr : Nat) (w : World) :
    (call_mapper_hook h addr w).emphasis_lut = w.emphasis_lut ∧
    (call_mapper_hook h addr w).emphasis_lut_init = w.emphasis_lut_init := by
  cases h
  simp only [call_mapper_hook, map4_ppu_tick]
  obtain ⟨a, b⟩ := map4_clock_irq_lut { w with hook_log := w.hook_log ++ [addr] }
  exact ⟨a, b⟩

theorem mmc3_track_a12_lut (addr : Nat) (w : World) :
    (mmc3_track_a12 addr w).emphasis_lut = w.emphasis_lut ∧
    (mmc3_track_a12 addr w).emphasis_lut_init = w.emphasis_lut_init := by
  unfold mmc3_track_a12
  by_cases hr : (!w.a12_prev && ((addr &&& 0x1000) != 0)) = true
  · by_cases hc : 3 ≤ w.mmc3_a12_low_m2_count
    · cases hh : w.mapper_ppu_hook with
      | none => simp [hr, hc, hh]
      | some h =>
        obtain ⟨a, b⟩ := call_mapper_hook_lut h (addr &&& 0x1FFF) w
        simp [hr, hc, hh, a, b]
    · simp [hr, hc]
  · simp [hr]

/-- Machines with the same `ppu` record and emphasis table have the same views. -/
theorem rview_congr (w w' : World) (h1 : w'.ppu = w.ppu)
    (h2 : w'.emphasis_lut = w.emphasis_lut)
    (h3 : w'.emphasis_lut_init = w.emphasis_lut_init) : rview w' = rview w := by
  simp [rview, pix4, h1, h2, h3]

theorem rview_track (addr : Nat) (w : World) : rview (mmc3_track_a12 addr w) = rview w :=
  rview_congr _ _ (mmc3_track_a12_ppu addr w).1 (mmc3_track_a12_lut addr w).1
    (mmc3_track_a12_lut addr w).2

theorem rview_chr_read (addr : Nat) (w : World) : rview (chr_read addr w).2 = rview w := by
  rw [chr_read_world]; exact rview_track addr w

theorem rview_bus_read (addr : Nat) (w : World) : rview (ppu_bus_read addr w).2 = rview w := by
  unfold ppu_bus_read
  simp only
  split_ifs
  all_goals first | rfl | exact rview_chr_read _ w

theorem rview_nmi_step (w : World) : rview (nmi_step w) = rview w := by
  unfold nmi_step nes_nmi
  simp only
  split_ifs <;> rfl

theorem rview_latch_sprite0 (w : World) : rview (clock_latch_sprite0 w) = rview w := by
  unfold clock_latch_sprite0; split <;> rfl

theorem rview_sprite0_hit (i : Nat) (w : World) : rview (sprite0_hit i w) = rview w := by
  unfold sprite0_hit
  simp only
  split_ifs
  all_goals rfl

theorem rview_sprite_pixel_loop (n i : Nat) (w : World) :
    rview (sprite_pixel_loop n i w).2 = rview w := by
  induction n generalizing i with
  | zero => rfl
  | succ n ih =>
    unfold sprite_pixel_loop
    simp only
    split_ifs
    all_goals first | exact ih _ | exact rview_sprite0_hit i w

theorem rview_sprite_pixel (w : World) : rview (sprite_pixel w).2 = rview w := by
  unfold sprite_pixel
  split_ifs
  all_goals first | rfl | exact rview_sprite_pixel_loop 8 0 w

theorem rview_bg_shift (w : World) : rview (bg_shift w) = rview w := rfl

theorem rview_sprite_shift (w : World) : rview (sprite_shift w) = rview w := rfl

theorem rview_clock_shift (w : World) : rview (clock_shift w) = rview w := by
  unfold clock_shift
  simp only
  split_ifs
  all_goals rfl

theorem rview_inc_x (w : World) : rview (inc_x w) = rview w := by
  unfold inc_x; split <;> rfl

theorem rview_inc_y (w : World) : rview (inc_y w) = rview w := by
  unfold inc_y; split <;> simp [rview, pix4, evalv]

theorem rview_copy_x (w : World) : rview (copy_x_from_t w) = rview w := rfl

theorem rview_copy_y (w : World) : rview (copy_y_from_t w) = rview w := rfl

theorem rview_reload (w : World) : rview (bg_reload_shifters w) = rview w := rfl

theorem rview_latchfunc (b t : Nat) (w : World) : rview (call_latchfunc b t w) = rview w := by
  unfold call_latchfunc; split <;> rfl

/-- Replacing the `ppu` record by one with the same framebuffer, palette and
evaluation fields keeps the views. -/
theorem rview_set_ppu (w : World) (p : ppu_s) (h1 : p.fb = w.ppu.fb)
    (h2 : p.palette = w.ppu.palette) (h3 : evalv p = evalv w.ppu) :
    rview { w with ppu := p } = rview w := by
  simp [rview, pix4, h1, h2, h3]

theorem rview_set_bg (w : World) (b : bg_t) :
    rview { w with ppu := { w.ppu with bg := b } } = rview w := rfl

theorem rview_bg_fetch_nt (w : World) : rview (bg_fetch_nt w) = rview w := by
  unfold bg_fetch_nt
  exact (rview_set_bg _ _).trans (rview_bus_read _ w)

theorem rview_bg_fetch_at (w : World) : rview (bg_fetch_at w) = rview w := by
  unfold bg_fetch_at
  exact (rview_set_bg _ _).trans (rview_bus_read _ w)

theorem rview_bg_fetch_pt_lo (w : World) : rview (bg_fetch_pt_lo w) = rview w := by
  unfold bg_fetch_pt_lo
  exact (rview_set_bg _ _).trans ((rview_chr_read _ _).trans (rview_latchfunc _ _ w))

theorem rview_bg_fetch_pt_hi (w : World) : rview (bg_fetch_pt_hi w) = rview w := by
  unfold bg_fetch_pt_hi
  exact (rview_reload _).trans ((rview_set_bg _ _).trans (rview_chr_read _ w))

theorem rview_ite (c : Prop) [Decidable c] (a b w : World) (ha : rview a = rview w)
    (hb : rview b = rview w) : rview (if c then a else b) = rview w := by
  split <;> assumption

theorem rview_bg_fetch_switch (w : World) : rview (bg_fetch_switch w) = rview w := by
  unfold bg_fetch_switch
  exact rview_ite _ _ _ _ (rview_bg_fetch_nt w) (rview_ite _ _ _ _ (rview_bg_fetch_at w)
    (rview_ite _ _ _ _ (rview_bg_fetch_pt_lo w) (rview_ite _ _ _ _ (rview_bg_fetch_pt_hi w) rfl)))

theorem rview_bg_fetch (w : World) : rview (bg_fetch w) = rview w := by
  unfold bg_fetch
  exact rview_ite _ _ _ _ ((rview_inc_x _).trans (rview_bg_fetch_switch w))
    (rview_bg_fetch_switch w)

theorem rview_clock_bg_tail (w1 w : World) (h : rview w1 = rview w) :
    rview (if w1.ppu.dot = 256 then inc_y w1
      else if w1.ppu.dot = 257 then copy_x_from_t w1
      else if IS_PRERENDER_LINE w1 = true ∧ 280 ≤ w1.ppu.dot ∧ w1.ppu.dot ≤ 304 then
        copy_y_from_t w1
      else w1) = rview w :=
  rview_ite _ _ _ _ ((rview_inc_y _).trans h) (rview_ite _ _ _ _ ((rview_copy_x _).trans h)
    (rview_ite _ _ _ _ ((rview_copy_y _).trans h) h))

theorem rview_clock_bg (w : World) : rview (clock_bg w) = rview w := by
  unfold clock_bg
  exact rview_ite _ _ _ _
    (rview_clock_bg_tail _ w (rview_ite _ _ _ _ (rview_bg_fetch w) rfl)) rfl

theorem rview_sprite_fetch_lo (h c : Nat) (w : World) :
    rview (sprite_fetch_lo h c w) = rview w := by
  unfold sprite_fetch_lo
  exact (rview_set_ppu _ _ rfl rfl rfl).trans
    ((rview_chr_read _ _).trans
      ((rview_set_ppu _ _ rfl rfl rfl).trans (rview_latchfunc _ _ w)))

theorem rview_sprite_fetch_hi (w : World) : rview (sprite_fetch_hi w) = rview w := by
  unfold sprite_fetch_hi
  exact (rview_set_ppu _ _ rfl rfl rfl).trans (rview_chr_read _ w)

theorem rview_sprite_fetch_dummy (w : World) : rview (sprite_fetch_dummy w) = rview w := by
  unfold sprite_fetch_dummy
  exact rview_chr_read _ w

theorem rview_sprite_fetch_load (slot : Nat) (w : World) :
    rview (sprite_fetch_load slot w) = rview w := by
  unfold sprite_fetch_load
  exact rview_ite _ _ _ _
    ((rview_set_ppu _ _ rfl rfl rfl).trans (rview_chr_read _ w)) (rview_chr_read _ w)

theorem rview_clock_sprite_fetch (w : World) : rview (clock_sprite_fetch w) = rview w := by
  unfold clock_sprite_fetch
  refine rview_ite _ _ _ _ ?_ rfl
  have h0 : rview { w with ppu := { w.ppu with
      spr_fetch_slot := ((w.ppu.dot - 257) % 256).toNat >>> 3,
      spr_fetch_phase := ((w.ppu.dot - 257) % 256).toNat &&& 7 } } = rview w :=
    rview_set_ppu _ _ rfl rfl rfl
  exact rview_ite _ _ _ _ ((rview_set_ppu _ _ rfl rfl rfl).trans h0)
    (rview_ite _ _ _ _ ((rview_set_ppu _ _ rfl rfl rfl).trans h0)
    (rview_ite _ _ _ _ ((rview_set_ppu _ _ rfl rfl rfl).trans h0)
    (rview_ite _ _ _ _ ((rview_set_ppu _ _ rfl rfl rfl).trans h0)
    (rview_ite _ _ _ _ ((rview_sprite_fetch_lo _ _ _).trans h0)
    (rview_ite _ _ _ _ ((rview_sprite_fetch_hi _).trans h0)
    (rview_ite _ _ _ _ ((rview_sprite_fetch_dummy _).trans h0)
      ((rview_sprite_fetch_load _ _).trans h0)))))))

theorem rview_dot321 (w : World) : rview (clock_dot321 w) = rview w := by
  unfold clock_dot321; split <;> rfl

theorem rview_nmi_check (w : World) : rview (nmi_check w) = rview w := by
  unfold nmi_check
  dsimp only
  split_ifs <;> rfl

theorem rview_clock_vblank (w : World) : rview (clock_vblank w) = rview w := by
  unfold clock_vblank clock_vblank_clear clock_vblank_set
  exact rview_ite _ _ _ _ ((rview_nmi_check _).trans
      (rview_ite _ _ _ _ (rview_nmi_check _) rfl))
    (rview_ite _ _ _ _ (rview_nmi_check _) rfl)

theorem rview_INC_DOT (w : World) : rview (INC_DOT w) = rview w := by
  unfold INC_DOT
  split_ifs <;> rfl

theorem rview_clock_odd_skip (w : World) : rview (clock_odd_skip w) = rview w := by
  unfold clock_odd_skip
  exact rview_ite _ _ _ _ (rview_INC_DOT w) rfl

theorem rview_clock_frame_end (w : World) : rview (clock_frame_end w) = rview w := by
  unfold clock_frame_end
  split <;> rfl

theorem pix4_of_rview {a b : World} (h : rview a = rview b) : pix4 a = pix4 b :=
  congrArg Prod.fst h

theorem evalv_of_rview {a b : World} (h : rview a = rview b) : evalv a.ppu = evalv b.ppu :=
  congrArg Prod.snd h

theorem pix4_eval_init (w : World) : pix4 (clock_eval_init w) = pix4 w := by
  unfold clock_eval_init; split <;> rfl

theorem pix4_eval_read (w : World) : pix4 (eval_sprite_read_primary w) = pix4 w := by
  unfold eval_sprite_read_primary
  dsimp only
  split_ifs <;> rfl

theorem pix4_eval_write (w : World) : pix4 (eval_sprite_write_secondary w) = pix4 w := by
  unfold eval_sprite_write_secondary
  dsimp only
  split_ifs <;> rfl

theorem pix4_clock_eval (w : World) : pix4 (clock_eval w) = pix4 w := by
  unfold clock_eval
  split_ifs
  · exact pix4_eval_read w
  · exact pix4_eval_write w
  · rfl

theorem pix4_dot257 (w : World) : pix4 (clock_dot257 w) = pix4 w := by
  unfold clock_dot257
  dsimp only
  split_ifs <;> rfl

theorem emphasis_best_loop_lt (pal : Nat → rgb_t) (r g b : Int) (n : Nat) :
    ∀ (j best : Nat) (err : Int), best < 64 → j + n ≤ 64 →
      emphasis_best_loop pal r g b n j best err < 64 := by
  induction n with
  | zero => intro j best err hb _; exact hb
  | succ n ih =>
    intro j best err hb hj
    unfold emphasis_best_loop
    dsimp only
    split_ifs
    · exact ih _ _ _ (by omega) (by omega)
    · exact ih _ _ _ hb (by omega)

theorem emphasis_entry_lt (pal : Nat → rgb_t) (e i : Nat) : emphasis_entry pal e i < 64 := by
  unfold emphasis_entry
  have h := emphasis_best_loop_lt pal (emph_scale e 0 (pal i).r) (emph_scale e 1 (pal i).g)
    (emph_scale e 2 (pal i).b) 64 0 0 (2 ^ 30) (by decide) (by decide)
  dsimp only
  omega

theorem init_emphasis_lut_ok (w : World) (h : lut_ok w) :
    lut_ok (init_emphasis_lut w) ∧ (init_emphasis_lut w).emphasis_lut_init = true ∧
    (init_emphasis_lut w).ppu = w.ppu := by
  unfold init_emphasis_lut
  by_cases c : w.emphasis_lut_init = true
  · rw [if_pos c]
    exact ⟨h, c, rfl⟩
  · rw [if_neg c]
    refine ⟨?_, rfl, rfl⟩
    intro _ e i he hi
    show (if e < 8 ∧ i < 64 then emphasis_entry w.nes_palette e i else w.emphasis_lut e i) < 64
    rw [if_pos ⟨he, hi⟩]
    exact emphasis_entry_lt _ _ _

theorem and7_lt (x : Nat) : x &&& 0x07 < 8 := by
  have := @Nat.and_le_right x 0x07
  omega

theorem and3F_lt64 (x : Nat) : x &&& 0x3F < 64 := by
  have := @Nat.and_le_right x 0x3F
  omega

theorem apply_emphasis_idx_spec (idx mask : Nat) (w : World) (h : lut_ok w) :
    (apply_emphasis_idx idx mask w).1 < 64 ∧ lut_ok (apply_emphasis_idx idx mask w).2 ∧
    (apply_emphasis_idx idx mask w).2.ppu = w.ppu := by
  obtain ⟨h1, h2, h3⟩ := init_emphasis_lut_ok w h
  unfold apply_emphasis_idx
  exact ⟨h1 h2 _ _ (and7_lt _) (and3F_lt64 _), h1, h3⟩

theorem apply_grayscale_lt (idx : Nat) : apply_grayscale idx < 64 := by
  unfold apply_grayscale
  have h1 : idx &&& 0x30 < 2 ^ 6 := by
    have := @Nat.and_le_right idx 0x30
    norm_num; omega
  have h2 : idx &&& 0x03 < 2 ^ 6 := by
    have := @Nat.and_le_right idx 0x03
    norm_num; omega
  exact Nat.or_lt_two_pow h1 h2

theorem compose_pixel_le (bg : Nat × Nat) (sp : SprPix) (w : World) (h : pal_ok w) :
    compose_pixel bg sp w ≤ 63 := by
  unfold compose_pixel pal_read_raw
  split_ifs <;> exact h _

theorem pal_ok_congr {a b : World} (h : a.ppu.palette = b.ppu.palette) (hb : pal_ok b) :
    pal_ok a := by
  intro i; rw [h]; exact hb i

theorem lut_ok_congr {a b : World} (h1 : a.emphasis_lut = b.emphasis_lut)
    (h2 : a.emphasis_lut_init = b.emphasis_lut_init) (hb : lut_ok b) : lut_ok a := by
  intro hi; rw [h1]; exact hb (h2 ▸ hi)

theorem pix4_fields {a b : World} (h : pix4 a = pix4 b) :
    a.ppu.fb = b.ppu.fb ∧ a.ppu.palette = b.ppu.palette ∧
    a.emphasis_lut = b.emphasis_lut ∧ a.emphasis_lut_init = b.emphasis_lut_init := by
  simp only [pix4, Prod.mk.injEq] at h
  exact h

/-- Block 1 of `ppu_clock`: the palette and the evaluation fields stay, the
emphasis table stays well formed, and the framebuffer either stays or gets one
6-bit value at column `dot - 1` of row `scanline` of a visible line. -/
theorem clock_pixel_spec (w : World) (hp : pal_ok w) (hl : lut_ok w) :
    (clock_pixel w).ppu.palette = w.ppu.palette ∧ lut_ok (clock_pixel w) ∧
    evalv (clock_pixel w).ppu = evalv w.ppu ∧
    ((clock_pixel w).ppu.fb = w.ppu.fb ∨
      ∃ val, val ≤ 63 ∧ w.ppu.scanline < 240 ∧ 1 ≤ w.ppu.dot ∧ w.ppu.dot ≤ 256 ∧
        (clock_pixel w).ppu.fb
          = Function.update w.ppu.fb (w.ppu.scanline * 256 + (w.ppu.dot - 1)) val) := by
  unfold clock_pixel
  by_cases c : IS_VISIBLE_LINE w = true ∧ 1 ≤ w.ppu.dot ∧ w.ppu.dot ≤ 256
  swap
  · rw [if_neg c]
    exact ⟨rfl, hl, rfl, Or.inl rfl⟩
  rw [if_pos c]
  have hv : w.ppu.scanline < 240 := by
    have := c.1
    simpa [IS_VISIBLE_LINE] using this
  have r1 := rview_sprite_pixel w
  obtain ⟨b1, -⟩ := beam_of_core (core_sprite_pixel w)
  have bd : (sprite_pixel w).2.ppu.dot = w.ppu.dot := congrArg Beam.dot b1
  have bs : (sprite_pixel w).2.ppu.scanline = w.ppu.scanline := congrArg Beam.scanline b1
  obtain ⟨f1, f2, f3, f4⟩ := pix4_fields (pix4_of_rview r1)
  have e1 := evalv_of_rview r1
  have hp1 : pal_ok (sprite_pixel w).2 := pal_ok_congr f2 hp
  have hl1 : lut_ok (sprite_pixel w).2 := lut_ok_congr f3 f4 hl
  obtain ⟨X, hX⟩ : ∃ X : World, X = (sprite_pixel w).2 := ⟨_, rfl⟩
  obtain ⟨sp, hsp⟩ : ∃ sp : SprPix, sp = (sprite_pixel w).1 := ⟨_, rfl⟩
  rw [← hX] at bd bs f1 f2 f3 f4 e1 hp1 hl1
  dsimp only
  rw [← hX, ← hsp]
  clear hX hsp r1 b1
  by_cases d : X.draw_enabled = true
  swap
  · rw [if_neg d]
    exact ⟨f2, hl1, e1, Or.inl f1⟩
  rw [if_pos d]
  have hidx1 : (if (X.ppu.mask &&& 0x01) ≠ 0 then apply_grayscale (compose_pixel (bg_pixel w) sp X)
      else compose_pixel (bg_pixel w) sp X) ≤ 63 := by
    split_ifs
    · have := apply_grayscale_lt (compose_pixel (bg_pixel w) sp X); omega
    · exact compose_pixel_le _ _ _ hp1
  obtain ⟨i1, hi1⟩ : ∃ i1 : Nat, i1 = (if (X.ppu.mask &&& 0x01) ≠ 0 then
      apply_grayscale (compose_pixel (bg_pixel w) sp X)
      else compose_pixel (bg_pixel w) sp X) := ⟨_, rfl⟩
  rw [← hi1] at hidx1 ⊢
  clear hi1
  by_cases m : (X.ppu.mask &&& 0xE0) ≠ 0
  · rw [if_pos m]
    obtain ⟨a1, a2, a3⟩ := apply_emphasis_idx_spec i1 X.ppu.mask X hl1
    refine ⟨?_, ?_, ?_, Or.inr ⟨(apply_emphasis_idx i1 X.ppu.mask X).1, by omega, hv, c.2.1,
      c.2.2, ?_⟩⟩
    · show (apply_emphasis_idx i1 X.ppu.mask X).2.ppu.palette = w.ppu.palette
      rw [a3]; exact f2
    · exact a2
    · show evalv { (apply_emphasis_idx i1 X.ppu.mask X).2.ppu with fb := _ } = evalv w.ppu
      rw [← e1, ← a3]
      rfl
    · show Function.update (apply_emphasis_idx i1 X.ppu.mask X).2.ppu.fb _ _ = _
      rw [a3, f1, bd, bs]
  · rw [if_neg m]
    refine ⟨f2, hl1, ?_, Or.inr ⟨i1, hidx1, hv, c.2.1, c.2.2, ?_⟩⟩
    · rw [← e1]; rfl
    · show Function.update X.ppu.fb _ _ = _
      rw [f1, bd, bs]

/-- One call of `ppu_clock`: the palette stays, the emphasis table stays well
formed, and the framebuffer stays or gets one 6-bit value at column `dot - 1`
of row `scanline` of a visible line. -/
theorem ppu_clock_pix (w : World) (hp : pal_ok w) (hl : lut_ok w) :
    (ppu_clock w).ppu.palette = w.ppu.palette ∧ lut_ok (ppu_clock w) ∧
    ((ppu_clock w).ppu.fb = w.ppu.fb ∨
      ∃ val, val ≤ 63 ∧ w.ppu.scanline < 240 ∧ 1 ≤ w.ppu.dot ∧ w.ppu.dot ≤ 256 ∧
        (ppu_clock w).ppu.fb
          = Function.update w.ppu.fb (w.ppu.scanline * 256 + (w.ppu.dot - 1)) val) := by
  -- the blocks before the pixel output
  have ra : rview (clock_latch_sprite0 (nmi_step w)) = rview w :=
    (rview_latch_sprite0 _).trans (rview_nmi_step w)
  have ca : core (clock_latch_sprite0 (nmi_step w)) = core w :=
    (core_latch_sprite0 _).trans (core_nmi_step w)
  obtain ⟨A, hA⟩ : ∃ A : World, A = clock_latch_sprite0 (nmi_step w) := ⟨_, rfl⟩
  rw [← hA] at ra ca
  obtain ⟨f1, f2, f3, f4⟩ := pix4_fields (pix4_of_rview ra)
  obtain ⟨b1, -⟩ := beam_of_core ca
  have bd : A.ppu.dot = w.ppu.dot := congrArg Beam.dot b1
  have bs : A.ppu.scanline = w.ppu.scanline := congrArg Beam.scanline b1
  obtain ⟨p1, p2, -, p4⟩ := clock_pixel_spec A (pal_ok_congr f2 hp) (lut_ok_congr f3 f4 hl)
  -- the blocks after it
  have rest : pix4 (ppu_clock w) = pix4 (clock_pixel A) := by
    unfold ppu_clock
    dsimp only
    rw [← hA]
    exact (pix4_of_rview (rview_clock_frame_end _)).trans
      ((pix4_of_rview (rview_INC_DOT _)).trans
      ((pix4_of_rview (rview_clock_odd_skip _)).trans
      ((pix4_of_rview (rview_clock_vblank _)).trans
      ((pix4_of_rview (rview_dot321 _)).trans
      ((pix4_of_rview (rview_clock_sprite_fetch _)).trans
      ((pix4_dot257 _).trans
      ((pix4_clock_eval _).trans
      ((pix4_eval_init _).trans
      ((pix4_of_rview (rview_clock_bg _)).trans
      (pix4_of_rview (rview_clock_shift _)))))))))))
  obtain ⟨g1, g2, g3, g4⟩ := pix4_fields rest
  refine ⟨g2.trans (p1.trans f2), lut_ok_congr g3 g4 p2, ?_⟩
  rcases p4 with p4 | ⟨val, v1, v2, v3, v4, v5⟩
  · exact Or.inl (g1.trans (p4.trans f1))
  · refine Or.inr ⟨val, v1, by omega, by omega, by omega, ?_⟩
    rw [g1, v5, f1, bd, bs]

theorem bus_read_keep (addr : Nat) (w : World) :
    (ppu_bus_read addr w).2.ppu.dot = w.ppu.dot ∧
    (ppu_bus_read addr w).2.ppu.scanline = w.ppu.scanline ∧
    (ppu_bus_read addr w).2.ppu_is_pal = w.ppu_is_pal ∧
    (ppu_bus_read addr w).2.ppu.palette = w.ppu.palette ∧
    (ppu_bus_read addr w).2.emphasis_lut = w.emphasis_lut ∧
    (ppu_bus_read addr w).2.emphasis_lut_init = w.emphasis_lut_init := by
  obtain ⟨b1, -⟩ := beam_of_core (core_bus_read addr w)
  obtain ⟨-, f2, f3, f4⟩ := pix4_fields (pix4_of_rview (rview_bus_read addr w))
  exact ⟨congrArg Beam.dot b1, congrArg Beam.scanline b1, congrArg Beam.is_pal b1, f2, f3, f4⟩

/-- A register read moves neither the beam nor the palette nor the emphasis
table. -/
theorem ppu_read_keep (addr : Nat) (w : World) :
    (ppu_read addr w).2.ppu.dot = w.ppu.dot ∧
    (ppu_read addr w).2.ppu.scanline = w.ppu.scanline ∧
    (ppu_read addr w).2.ppu_is_pal = w.ppu_is_pal ∧
    (ppu_read addr w).2.ppu.palette = w.ppu.palette ∧
    (ppu_read addr w).2.emphasis_lut = w.emphasis_lut ∧
    (ppu_read addr w).2.emphasis_lut_init = w.emphasis_lut_init := by
  unfold ppu_read
  dsimp only
  split_ifs
  · unfold ppu_read_status nmi_check
    dsimp only
    split_ifs <;> exact ⟨rfl, rfl, rfl, rfl, rfl, rfl⟩
  · exact ⟨rfl, rfl, rfl, rfl, rfl, rfl⟩
  · unfold ppu_read_data
    dsimp only
    split_ifs
    · obtain ⟨a1, a2, a3, a4, a5, a6⟩ := bus_read_keep w.ppu.v w
      obtain ⟨c1, c2, c3, c4, c5, c6⟩ :=
        bus_read_keep ((ppu_bus_read w.ppu.v w).2.ppu.v &&& 0x2FFF) (ppu_bus_read w.ppu.v w).2
      exact ⟨c1.trans a1, c2.trans a2, c3.trans a3, c4.trans a4, c5.trans a5, c6.trans a6⟩
    · exact bus_read_keep w.ppu.v w
  · exact ⟨rfl, rfl, rfl, rfl, rfl, rfl⟩

theorem pal_write_raw_ok (a x : Nat) (w : World) (hp : pal_ok w) :
    pal_ok (pal_write_raw a x w) := by
  have hx : x &&& 0x3F ≤ 0x3F := Nat.and_le_right
  unfold pal_write_raw
  dsimp only
  by_cases c : pal_index a &&& 0x03 = 0
  · rw [if_pos c]
    intro i
    show Function.update (Function.update w.ppu.palette _ _) _ _ i ≤ 0x3F
    simp only [Function.update_apply]
    split_ifs
    · exact hx
    · exact hx
    · exact hp i
  · rw [if_neg c]
    intro i
    show Function.update w.ppu.palette _ _ i ≤ 0x3F
    simp only [Function.update_apply]
    split_ifs
    · exact hx
    · exact hp i

theorem pal_write_raw_keep (a x : Nat) (w : World) :
    (pal_write_raw a x w).ppu.dot = w.ppu.dot ∧
    (pal_write_raw a x w).ppu.scanline = w.ppu.scanline ∧
    (pal_write_raw a x w).ppu_is_pal = w.ppu_is_pal ∧
    (pal_write_raw a x w).emphasis_lut = w.emphasis_lut ∧
    (pal_write_raw a x w).emphasis_lut_init = w.emphasis_lut_init := by
  unfold pal_write_raw
  dsimp only
  split_ifs <;> exact ⟨rfl, rfl, rfl, rfl, rfl⟩

theorem bus_write_keep (addr v : Nat) (w : World) (hp : pal_ok w) :
    (ppu_bus_write addr v w).ppu.dot = w.ppu.dot ∧
    (ppu_bus_write addr v w).ppu.scanline = w.ppu.scanline ∧
    (ppu_bus_write addr v w).ppu_is_pal = w.ppu_is_pal ∧
    pal_ok (ppu_bus_write addr v w) ∧
    (ppu_bus_write addr v w).emphasis_lut = w.emphasis_lut ∧
    (ppu_bus_write addr v w).emphasis_lut_init = w.emphasis_lut_init := by
  unfold ppu_bus_write
  dsimp only
  by_cases c1 : addr &&& 0x3FFF < 0x2000
  · rw [if_pos c1]
    have key : ∀ X : World, X.ppu = w.ppu → X.ppu_is_pal = w.ppu_is_pal →
        X.emphasis_lut = w.emphasis_lut → X.emphasis_lut_init = w.emphasis_lut_init →
        ((mmc3_track_a12 (addr &&& 0x3FFF) X).ppu.dot = w.ppu.dot ∧
         (mmc3_track_a12 (addr &&& 0x3FFF) X).ppu.scanline = w.ppu.scanline ∧
         (mmc3_track_a12 (addr &&& 0x3FFF) X).ppu_is_pal = w.ppu_is_pal ∧
         pal_ok (mmc3_track_a12 (addr &&& 0x3FFF) X) ∧
         (mmc3_track_a12 (addr &&& 0x3FFF) X).emphasis_lut = w.emphasis_lut ∧
         (mmc3_track_a12 (addr &&& 0x3FFF) X).emphasis_lut_init = w.emphasis_lut_init) := by
      intro X y1 y2 y3 y4
      obtain ⟨t1, -, t3⟩ := mmc3_track_a12_ppu (addr &&& 0x3FFF) X
      obtain ⟨l1, l2⟩ := mmc3_track_a12_lut (addr &&& 0x3FFF) X
      refine ⟨by rw [t1, y1], by rw [t1, y1], t3.trans y2, ?_, l1.trans y3, l2.trans y4⟩
      exact pal_ok_congr (by rw [t1, y1]) hp
    cases w.chrram_ptr with
    | none => exact key w rfl rfl rfl rfl
    | some r =>
      dsimp only
      split
      · exact key _ rfl rfl rfl rfl
      · exact key w rfl rfl rfl rfl
  · rw [if_neg c1]
    by_cases c2 : addr &&& 0x3FFF < 0x3F00
    · rw [if_pos c2]
      exact ⟨rfl, rfl, rfl, hp, rfl, rfl⟩
    · rw [if_neg c2]
      obtain ⟨k1, k2, k3, k4, k5⟩ := pal_write_raw_keep (addr &&& 0x3FFF) v w
      exact ⟨k1, k2, k3, pal_write_raw_ok _ _ _ hp, k4, k5⟩

theorem nmi_check_keep (w : World) :
    (nmi_check w).ppu.dot = w.ppu.dot ∧ (nmi_check w).ppu.scanline = w.ppu.scanline ∧
    (nmi_check w).ppu_is_pal = w.ppu_is_pal ∧ (nmi_check w).ppu.palette = w.ppu.palette ∧
    (nmi_check w).emphasis_lut = w.emphasis_lut ∧
    (nmi_check w).emphasis_lut_init = w.emphasis_lut_init := by
  unfold nmi_check
  dsimp only
  split_ifs <;> exact ⟨rfl, rfl, rfl, rfl, rfl, rfl⟩

/-- A register write moves neither the beam nor the emphasis table, and keeps
the palette entries 6-bit values. -/
theorem ppu_write_keep (addr v : Nat) (w : World) (hp : pal_ok w) :
    (ppu_write addr v w).ppu.dot = w.ppu.dot ∧
    (ppu_write addr v w).ppu.scanline = w.ppu.scanline ∧
    (ppu_write addr v w).ppu_is_pal = w.ppu_is_pal ∧
    pal_ok (ppu_write addr v w) ∧
    (ppu_write addr v w).emphasis_lut = w.emphasis_lut ∧
    (ppu_write addr v w).emphasis_lut_init = w.emphasis_lut_init := by
  unfold ppu_write
  dsimp only
  by_cases a0 : addr &&& 7 = 0
  · rw [if_pos a0]
    obtain ⟨n1, n2, n3, n4, n5, n6⟩ := nmi_check_keep { w with ppu := { w.ppu with
      open_bus := v, ctrl := v, t := (w.ppu.t &&& 0xF3FF) ||| ((v &&& 0x03) <<< 10) } }
    exact ⟨n1, n2, n3, pal_ok_congr n4 hp, n5, n6⟩
  rw [if_neg a0]
  by_cases a1 : addr &&& 7 = 1
  · rw [if_pos a1]; exact ⟨rfl, rfl, rfl, hp, rfl, rfl⟩
  rw [if_neg a1]
  by_cases a3 : addr &&& 7 = 3
  · rw [if_pos a3]; exact ⟨rfl, rfl, rfl, hp, rfl, rfl⟩
  rw [if_neg a3]
  by_cases a4 : addr &&& 7 = 4
  · rw [if_pos a4]
    unfold ppu_write_oamdata
    dsimp only
    split_ifs <;> exact ⟨rfl, rfl, rfl, hp, rfl, rfl⟩
  rw [if_neg a4]
  by_cases a5 : addr &&& 7 = 5
  · rw [if_pos a5]
    unfold ppu_write_scroll
    dsimp only
    split_ifs <;> exact ⟨rfl, rfl, rfl, hp, rfl, rfl⟩
  rw [if_neg a5]
  by_cases a6 : addr &&& 7 = 6
  · rw [if_pos a6]
    unfold ppu_write_addr
    dsimp only
    split_ifs <;> exact ⟨rfl, rfl, rfl, hp, rfl, rfl⟩
  rw [if_neg a6]
  by_cases a7 : addr &&& 7 = 7
  · rw [if_pos a7]
    unfold ppu_write_data
    obtain ⟨k1, k2, k3, k4, k5, k6⟩ :=
      bus_write_keep w.ppu.v v { w with ppu := { w.ppu with open_bus := v } } hp
    exact ⟨k1, k2, k3, k4, k5, k6⟩
  rw [if_neg a7]
  exact ⟨rfl, rfl, rfl, hp, rfl, rfl⟩

theorem ppu_reset_keep (hard : Int) (rnd : Nat) (vidbuf : Int → Nat) (w : World) :
    (ppu_reset hard rnd vidbuf w).ppu.dot = 0 ∧ (ppu_reset hard rnd vidbuf w).ppu.scanline = 0 ∧
    pal_ok (ppu_reset hard rnd vidbuf w) ∧
    (ppu_reset hard rnd vidbuf w).emphasis_lut = w.emphasis_lut ∧
    (ppu_reset hard rnd vidbuf w).emphasis_lut_init = w.emphasis_lut_init :=
  ⟨rfl, rfl, fun _ => Nat.zero_le _, rfl, rfl⟩

theorem inrange_of_pos {a b : World} (hd : a.ppu.dot = b.ppu.dot)
    (hs : a.ppu.scanline = b.ppu.scanline) (hp : a.ppu_is_pal = b.ppu_is_pal)
    (h : (beam b).inrange) : (beam a).inrange := by
  rw [beam_inrange_iff] at h ⊢
  rw [hd, hs, hp]; exact h

/-- In every reachable state the palette entries are 6-bit values, the
emphasis table is well formed and the beam is inside the frame. -/
theorem reachable_inv (w : World) (h : PpuReachable w) :
    pal_ok w ∧ lut_ok w ∧ (beam w).inrange := by
  induction h with
  | boot hard rnd vidbuf w0 h0 =>
    obtain ⟨r1, r2, r3, r4, r5⟩ := ppu_reset_keep hard rnd vidbuf w0
    refine ⟨r3, ?_, ?_⟩
    · intro hi
      rw [r5, h0] at hi
      exact absurd hi (by decide)
    · rw [beam_inrange_iff, r1, r2]
      refine ⟨le_refl _, by decide, le_refl _, ?_⟩
      split <;> decide
  | reset hard rnd vidbuf w _ ih =>
    obtain ⟨r1, r2, r3, r4, r5⟩ := ppu_reset_keep hard rnd vidbuf w
    refine ⟨r3, lut_ok_congr r4 r5 ih.2.1, ?_⟩
    rw [beam_inrange_iff, r1, r2]
    refine ⟨le_refl _, by decide, le_refl _, ?_⟩
    split <;> decide
  | clock w _ ih =>
    obtain ⟨p1, p2, -⟩ := ppu_clock_pix w ih.1 ih.2.1
    refine ⟨pal_ok_congr p1 ih.1, p2, ?_⟩
    rw [beam_ppu_clock]
    exact Beam.step_inrange _ ih.2.2
  | read addr w _ ih =>
    obtain ⟨k1, k2, k3, k4, k5, k6⟩ := ppu_read_keep addr w
    exact ⟨pal_ok_congr k4 ih.1, lut_ok_congr k5 k6 ih.2.1, inrange_of_pos k1 k2 k3 ih.2.2⟩
  | write addr v w _ ih =>
    obtain ⟨k1, k2, k3, k4, k5, k6⟩ := ppu_write_keep addr v w ih.1
    exact ⟨k4, lut_ok_congr k5 k6 ih.2.1, inrange_of_pos k1 k2 k3 ih.2.2⟩

/-- C29. Framebuffer range: in every state reachable from `ppu_reset` by
`ppu_clock`, `ppu_read` and `ppu_write`, every palette entry is at most `$3F`,
and a call of `ppu_clock` either leaves the framebuffer as it is or stores one
byte in 0..63 at column `dot - 1` of row `scanline`, with
`0 ≤ scanline < 240` and `1 ≤ dot ≤ 256` (`dot`, `scanline` and the mask being
those of the state the call starts in, whatever the mask is). -/
theorem C29_framebuffer_range (w : World) (h : PpuReachable w) :
    (∀ i, w.ppu.palette i ≤ 0x3F) ∧
    ((ppu_clock w).ppu.fb = w.ppu.fb ∨
      ∃ val, val ≤ 63 ∧ 0 ≤ w.ppu.scanline ∧ w.ppu.scanline < 240 ∧
        1 ≤ w.ppu.dot ∧ w.ppu.dot ≤ 256 ∧
        (ppu_clock w).ppu.fb
          = Function.update w.ppu.fb (w.ppu.scanline * 256 + (w.ppu.dot - 1)) val) := by
  obtain ⟨i1, i2, i3⟩ := reachable_inv w h
  obtain ⟨-, -, p3⟩ := ppu_clock_pix w i1 i2
  rw [beam_inrange_iff] at i3
  refine ⟨i1, ?_⟩
  rcases p3 with p3 | ⟨val, v1, v2, v3, v4, v5⟩
  · exact Or.inl p3
  · exact Or.inr ⟨val, v1, i3.2.2.1, v2, v3, v4, v5⟩

theorem C29_framebuffer_range_witness :
    (ppu_write 0x2007 0xFF (ppu_write 0x2006 0x00 (ppu_write 0x2006 0x3F
      (ppu_reset 1 0 (fun _ => 0) {})))).ppu.palette 0 ≤ 0x3F :=
  (C29_framebuffer_range _ (PpuReachable.write _ _ _ (PpuReachable.write _ _ _
    (PpuReachable.write _ _ _ (PpuReachable.boot 1 0 (fun _ => 0) {} rfl))))).1 0

/-! ### Sprite evaluation: how far it gets in dots 65..256 -/

theorem apply_emphasis_ppu (idx mask : Nat) (w : World) :
    (apply_emphasis_idx idx mask w).2.ppu = w.ppu := by
  unfold apply_emphasis_idx init_emphasis_lut
  dsimp only
  split <;> rfl

theorem evalv_set_fb (p : ppu_s) (f : Int → Nat) : evalv { p with fb := f } = evalv p := rfl

theorem evalv_clock_pixel (w : World) : evalv (clock_pixel w).ppu = evalv w.ppu := by
  unfold clock_pixel
  have e1 := evalv_of_rview (rview_sprite_pixel w)
  by_cases c : IS_VISIBLE_LINE w = true ∧ 1 ≤ w.ppu.dot ∧ w.ppu.dot ≤ 256
  swap
  · rw [if_neg c]
  rw [if_pos c]
  dsimp only
  by_cases d : (sprite_pixel w).2.draw_enabled = true
  swap
  · rw [if_neg d]; exact e1
  rw [if_pos d]
  by_cases m : ((sprite_pixel w).2.ppu.mask &&& 0xE0) ≠ 0
  · rw [if_pos m]
    exact (evalv_set_fb _ _).trans ((congrArg evalv (apply_emphasis_ppu _ _ _)).trans e1)
  · rw [if_neg m]
    exact (evalv_set_fb _ _).trans e1

/-- Inside the visible part of a visible line the beam moves one dot to the
right. -/
theorem step_in_line (b : Beam) (hs0 : 0 ≤ b.scanline) (hs : b.scanline < 240)
    (hd1 : 1 ≤ b.dot) (hd : b.dot ≤ 256) :
    (Beam.step b).dot = b.dot + 1 ∧ (Beam.step b).scanline = b.scanline ∧
    (Beam.step b).mask = b.mask ∧ (Beam.step b).is_pal = b.is_pal := by
  have np : ¬ (b.prerender = true) := by
    unfold Beam.prerender
    split <;> simp <;> omega
  have e1 : Beam.vset b = b := if_neg (by omega)
  have e2 : Beam.vclr b = b := if_neg (fun h => np h.1)
  have e3 : Beam.skip b = b := if_neg (fun h => np h.2.1)
  have e4 : Beam.inc b = { b with dot := b.dot + 1 } := if_neg (by omega)
  unfold Beam.step Beam.vbl
  rw [e1, e2, e3, e4]
  unfold Beam.fin
  dsimp only
  rw [if_neg (by omega)]
  exact ⟨rfl, rfl, rfl, rfl⟩

theorem to_int16_small (n : Int) (h1 : -32768 ≤ n) (h2 : n < 32768) : to_int16 n = n := by
  unfold to_int16
  dsimp only
  split_ifs <;> omega

/-- The test that `eval_sprite_read_primary` makes on a Y byte, for a visible
line and a byte. -/
theorem in_range_test (line : Int) (y : Nat) (hl0 : 0 ≤ line) (hl : line < 240)
    (hy : y < 256) :
    to_int16 (to_int16 ((line + 1) % 65536) - to_int16 (y : Int)) = line + 1 - (y : Int) := by
  have a : (line + 1) % 65536 = line + 1 := by omega
  rw [a, to_int16_small (line + 1) (by omega) (by omega),
    to_int16_small (y : Int) (by omega) (by omega),
    to_int16_small _ (by omega) (by omega)]

theorem eval_idle_congr {o : Nat → Nat} {c : Nat} {d : Int} {p q : ppu_s}
    (h : evalv p = evalv q) (hq : eval_idle o c d q) : eval_idle o c d p := by
  have f1 : p.oam = q.oam := congrArg EvalView.oam h
  have f2 : p.sec_oam = q.sec_oam := congrArg EvalView.sec_oam h
  have f3 : p.eval_oam_addr = q.eval_oam_addr := congrArg EvalView.eval_oam_addr h
  have f4 : p.eval_sec_idx = q.eval_sec_idx := congrArg EvalView.eval_sec_idx h
  have f5 : p.sprite_in_range = q.sprite_in_range := congrArg EvalView.sprite_in_range h
  have f6 : p.eval_byte_index = q.eval_byte_index := congrArg EvalView.eval_byte_index h
  have f7 : p.oam_write_during_eval = q.oam_write_during_eval :=
    congrArg EvalView.oam_write_during_eval h
  have f8 : p.ctrl = q.ctrl := congrArg EvalView.ctrl h
  unfold eval_idle at hq ⊢
  rw [f1, f2, f3, f4, f5, f6, f7, f8]
  exact hq


/-- The evaluation blocks of `ppu_clock` on a dot of the visible part of a
visible line on which no sprite 0..23 is in range: nothing is copied. -/
theorem eval_idle_step (o : Nat → Nat) (c : Nat) (A : World) (d : Int)
    (hs0 : 0 ≤ A.ppu.scanline) (hs : A.ppu.scanline < 240) (hd : A.ppu.dot = d)
    (hd1 : 1 ≤ d) (hd2 : d ≤ 256) (hr : RENDERING_ENABLED A = true)
    (hn : ∀ n, n < 24 → o (4 * n) < 256 ∧ ¬ sprite_on_next_line o c A.ppu.scanline n)
    (hi : eval_idle o c d A.ppu) :
    eval_idle o c (d + 1) (clock_eval (clock_eval_init A)).ppu := by
  obtain ⟨h1, h2, h3, h4⟩ := hi
  by_cases c1 : d = 1
  · -- dot 1: the evaluation state is initialised
    have e1 : clock_eval_init A = { A with ppu := { A.ppu with
        sec_oam := fun i => if i < 32 then 0xFF else A.ppu.sec_oam i,
        eval_sprite_idx := 0, eval_oam_addr := 0, eval_sec_idx := 0, eval_overflow := false,
        sprite_zero_next := false, sprite0_slot_next := 0xFF, eval_byte_index := 0,
        eval_read_latch := 0 } } := by
      unfold clock_eval_init
      rw [if_pos (by omega)]
    rw [e1]
    unfold clock_eval
    rw [if_neg (by dsimp only; omega)]
    refine ⟨h1, h2, h3, fun _ => ⟨?_, rfl, fun _ => ⟨rfl, rfl⟩, fun h => ?_⟩⟩
    · intro i hi
      show (if i < 32 then 0xFF else A.ppu.sec_oam i) = 0xFF
      rw [if_pos hi]
    · omega
  have e1 : clock_eval_init A = A := by
    unfold clock_eval_init
    rw [if_neg (by omega)]
  rw [e1]
  obtain ⟨k1, k2, k3, k4⟩ := h4 (by omega)
  by_cases c2 : d < 65
  · -- dots 2..64: nothing happens
    have e2 : clock_eval A = A := by
      unfold clock_eval
      rw [if_neg (by omega)]
    rw [e2]
    obtain ⟨z1, z2⟩ := k3 (by omega)
    refine ⟨h1, h2, h3, fun _ => ⟨k1, k2, fun _ => ⟨z1, z2⟩, fun h => ?_⟩⟩
    have hd64 : d = 64 := by omega
    subst hd64
    rw [z1, z2]
    refine ⟨by norm_num, rfl, fun h => ?_⟩
    rcases h with h | h
    · omega
    · exact absurd rfl h
  -- dots 65..256
  obtain ⟨a1, a2, a3⟩ := k4 (by omega)
  have hv : IS_VISIBLE_LINE A = true := by
    unfold IS_VISIBLE_LINE
    exact decide_eq_true hs
  have haddr : A.ppu.eval_oam_addr ≤ 95 := by omega
  by_cases c3 : d % 2 = 1
  · -- an odd dot: read from primary OAM
    have e2 : clock_eval A = eval_sprite_read_primary A := by
      unfold clock_eval
      rw [if_pos ⟨by omega, by omega, Or.inl hv, hr⟩, if_pos (by omega)]
    rw [e2]
    unfold eval_sprite_read_primary
    rw [if_neg (by omega), if_neg (by rw [h3]; decide)]
    dsimp only
    by_cases hb : A.ppu.eval_byte_index = 0
    · rw [if_pos hb]
      refine ⟨h1, h2, h3, fun _ => ⟨k1, k2, fun _ => by omega, fun _ => ⟨?_, a2, fun _ => ?_⟩⟩⟩
      · show (A.ppu.eval_oam_addr : Int) = (d + 1 - 65) / 2
        omega
      · show (decide (0 ≤ _) && decide (_ < _)) = false
        have hn4 : A.ppu.eval_oam_addr = 4 * (A.ppu.eval_oam_addr / 4) := by omega
        obtain ⟨n1, n2⟩ := hn (A.ppu.eval_oam_addr / 4) (by omega)
        unfold sprite_on_next_line at n2
        rw [← hn4] at n1 n2
        rw [h1, h2, in_range_test A.ppu.scanline (o A.ppu.eval_oam_addr) hs0 hs n1]
        by_contra hc
        simp only [Bool.not_eq_false, Bool.and_eq_true, decide_eq_true_eq] at hc
        exact n2 hc
    · rw [if_neg hb]
      refine ⟨h1, h2, h3, fun _ => ⟨k1, k2, fun _ => by omega, fun _ => ⟨?_, a2, fun _ => ?_⟩⟩⟩
      · show (A.ppu.eval_oam_addr : Int) = (d + 1 - 65) / 2
        omega
      · exact a3 (Or.inr hb)
  · -- an even dot: the write step only advances the OAM address
    have e2 : clock_eval A = eval_sprite_write_secondary A := by
      unfold clock_eval
      rw [if_pos ⟨by omega, by omega, Or.inl hv, hr⟩, if_neg (by omega)]
    have hin : A.ppu.sprite_in_range = false := a3 (Or.inl (by omega))
    rw [e2]
    unfold eval_sprite_write_secondary
    rw [if_neg (by omega), if_neg (by rw [h3]; decide), if_neg (by rw [hin]; simp),
      if_neg (by omega)]
    unfold eval_advance
    have m1 : (A.ppu.eval_oam_addr + 1) &&& 0xFF = A.ppu.eval_oam_addr + 1 := by
      rw [Nat.and_pow_two_sub_one_eq_mod _ 8]
      omega
    have m2 : (A.ppu.eval_byte_index + 1) &&& 3 = (A.ppu.eval_oam_addr + 1) % 4 := by
      rw [Nat.and_pow_two_sub_one_eq_mod _ 2]
      omega
    refine ⟨h1, h2, h3, fun _ => ⟨k1, k2, fun _ => by omega, fun _ => ⟨?_, ?_, fun _ => hin⟩⟩⟩
    · show (((A.ppu.eval_oam_addr + 1) &&& 0xFF : Nat) : Int) = (d + 1 - 65) / 2
      rw [m1]
      push_cast
      omega
    · show (A.ppu.eval_byte_index + 1) &&& 3 = ((A.ppu.eval_oam_addr + 1) &&& 0xFF) % 4
      rw [m1, m2]


/-- One call of `ppu_clock` on a dot of the visible part of a visible line with
rendering enabled, on which no sprite 0..23 is in range. -/
theorem eval_idle_clock (o : Nat → Nat) (c : Nat) (L : Int) (w : World) (d : Int)
    (hL : w.ppu.scanline = L) (hs0 : 0 ≤ L) (hs : L < 240) (hd : w.ppu.dot = d)
    (hd1 : 1 ≤ d) (hd2 : d ≤ 256) (hr : RENDERING_ENABLED w = true)
    (hn : ∀ n, n < 24 → o (4 * n) < 256 ∧ ¬ sprite_on_next_line o c L n)
    (hi : eval_idle o c d w.ppu) :
    eval_idle o c (d + 1) (ppu_clock w).ppu ∧ (ppu_clock w).ppu.dot = d + 1 ∧
    (ppu_clock w).ppu.scanline = L ∧ RENDERING_ENABLED (ppu_clock w) = true := by
  -- the beam
  obtain ⟨s1, s2, s3, -⟩ := step_in_line (beam w) (by show 0 ≤ w.ppu.scanline; omega)
    (by show w.ppu.scanline < 240; omega) (by show 1 ≤ w.ppu.dot; omega)
    (by show w.ppu.dot ≤ 256; omega)
  have bc := beam_ppu_clock w
  have q1 : (ppu_clock w).ppu.dot = d + 1 := by
    have := congrArg Beam.dot bc
    rw [s1] at this
    exact this.trans (by show w.ppu.dot + 1 = d + 1; rw [hd])
  have q2 : (ppu_clock w).ppu.scanline = L := by
    have := congrArg Beam.scanline bc
    rw [s2] at this
    exact this.trans hL
  have q3 : RENDERING_ENABLED (ppu_clock w) = true := by
    have := congrArg Beam.mask bc
    rw [s3] at this
    have m : (ppu_clock w).ppu.mask = w.ppu.mask := this
    unfold RENDERING_ENABLED at hr ⊢
    rw [m]; exact hr
  refine ⟨?_, q1, q2, q3⟩
  -- the blocks before the evaluation
  have ra : evalv (clock_bg (clock_shift (clock_pixel (clock_latch_sprite0
      (nmi_step w))))).ppu = evalv w.ppu :=
    (evalv_of_rview (rview_clock_bg _)).trans ((evalv_of_rview (rview_clock_shift _)).trans
      ((evalv_clock_pixel _).trans ((evalv_of_rview (rview_latch_sprite0 _)).trans
        (evalv_of_rview (rview_nmi_step w)))))
  have ca : core (clock_bg (clock_shift (clock_pixel (clock_latch_sprite0 (nmi_step w)))))
      = core w := by
    rw [core_clock_bg, core_clock_shift, core_clock_pixel, core_latch_sprite0, core_nmi_step]
  obtain ⟨A, hA⟩ : ∃ A : World, A = clock_bg (clock_shift (clock_pixel (clock_latch_sprite0
      (nmi_step w)))) := ⟨_, rfl⟩
  rw [← hA] at ra ca
  obtain ⟨b1, -⟩ := beam_of_core ca
  have ad : A.ppu.dot = d := (congrArg Beam.dot b1).trans hd
  have as : A.ppu.scanline = L := (congrArg Beam.scanline b1).trans hL
  have am : A.ppu.mask = w.ppu.mask := congrArg Beam.mask b1
  have ar : RENDERING_ENABLED A = true := by
    unfold RENDERING_ENABLED at hr ⊢
    rw [am]; exact hr
  have st := eval_idle_step o c A d (by omega) (by omega) ad hd1 hd2 ar
    (by rw [as]; exact hn) (eval_idle_congr ra hi)
  -- the blocks after it
  have cb : core (clock_eval (clock_eval_init A)) = core A := by
    rw [core_clock_eval, core_eval_init]
  obtain ⟨b2, -⟩ := beam_of_core cb
  have bd : (clock_eval (clock_eval_init A)).ppu.dot = d := (congrArg Beam.dot b2).trans ad
  obtain ⟨B, hB⟩ : ∃ B : World, B = clock_eval (clock_eval_init A) := ⟨_, rfl⟩
  rw [← hB] at st bd
  have e257 : clock_dot257 B = B := by
    unfold clock_dot257
    rw [if_neg (by omega)]
  have rest : evalv (ppu_clock w).ppu = evalv B.ppu := by
    unfold ppu_clock
    dsimp only
    rw [← hA, ← hB, e257]
    exact (evalv_of_rview (rview_clock_frame_end _)).trans
      ((evalv_of_rview (rview_INC_DOT _)).trans
      ((evalv_of_rview (rview_clock_odd_skip _)).trans
      ((evalv_of_rview (rview_clock_vblank _)).trans
      ((evalv_of_rview (rview_dot321 _)).trans
      (evalv_of_rview (rview_clock_sprite_fetch _))))))
  exact eval_idle_congr rest st

/-- The same for a run of `n` dots that ends no later than dot 257. -/
theorem eval_idle_clocks (o : Nat → Nat) (c : Nat) (L : Int) (hs0 : 0 ≤ L) (hs : L < 240)
    (hn : ∀ n, n < 24 → o (4 * n) < 256 ∧ ¬ sprite_on_next_line o c L n) (n : Nat) :
    ∀ (w : World) (d : Int), w.ppu.scanline = L → w.ppu.dot = d → 1 ≤ d → d + n ≤ 257 →
      RENDERING_ENABLED w = true → eval_idle o c d w.ppu →
      eval_idle o c (d + n) (ppu_clocks n w).ppu ∧ (ppu_clocks n w).ppu.dot = d + n := by
  induction n with
  | zero =>
    intro w d _ hd _ _ _ hi
    simp only [ppu_clocks, Nat.cast_zero, add_zero]
    exact ⟨hi, hd⟩
  | succ n ih =>
    intro w d hL hd hd1 hd2 hr hi
    obtain ⟨k1, k2, k3, k4⟩ := eval_idle_clock o c L w d hL hs0 hs hd hd1
      (by push_cast at hd2; omega) hr hn hi
    obtain ⟨j1, j2⟩ := ih (ppu_clock w) (d + 1) k3 k2 (by omega)
      (by push_cast at hd2; omega) k4 k1
    have e : d + ((n + 1 : Nat) : Int) = d + 1 + (n : Int) := by push_cast; omega
    rw [e]
    exact ⟨j1, j2⟩

/-- Sprite evaluation on a visible line from dot 1 to dot 256 when none of the
sprites 0..23 is in range: the OAM address stops at 96, so the Y bytes of the
sprites 24..63 are never read, and secondary OAM is left all `$FF`. -/
theorem eval_stops_at_24 (w : World) (hs0 : 0 ≤ w.ppu.scanline) (hs : w.ppu.scanline < 240)
    (hd : w.ppu.dot = 1) (hr : RENDERING_ENABLED w = true)
    (ho : w.ppu.oam_write_during_eval = false)
    (hn : ∀ n, n < 24 → w.ppu.oam (4 * n) < 256 ∧
      ¬ sprite_on_next_line w.ppu.oam w.ppu.ctrl w.ppu.scanline n) :
    (ppu_clocks 256 w).ppu.dot = 257 ∧ (ppu_clocks 256 w).ppu.eval_oam_addr = 96 ∧
    (ppu_clocks 256 w).ppu.eval_sec_idx = 0 ∧
    (ppu_clocks 256 w).ppu.oam = w.ppu.oam ∧
    (∀ i, i < 32 → (ppu_clocks 256 w).ppu.sec_oam i = 0xFF) := by
  have h0 : eval_idle w.ppu.oam w.ppu.ctrl 1 w.ppu :=
    ⟨rfl, rfl, ho, fun h => absurd h (by decide)⟩
  obtain ⟨⟨i1, -, -, i4⟩, j2⟩ := eval_idle_clocks w.ppu.oam w.ppu.ctrl w.ppu.scanline hs0 hs hn
    256 w 1 rfl hd (le_refl _) (by decide) hr h0
  obtain ⟨k1, k2, -, k4⟩ := i4 (by decide)
  obtain ⟨a1, -, -⟩ := k4 (by decide)
  refine ⟨j2, ?_, k2, i1, k1⟩
  have : ((ppu_clocks 256 w).ppu.eval_oam_addr : Int) = 96 := a1.trans (by decide)
  omega

theorem eval_gap_machine_facts :
    0 ≤ eval_gap_machine.ppu.scanline ∧ eval_gap_machine.ppu.scanline < 240 ∧
    eval_gap_machine.ppu.dot = 1 ∧ RENDERING_ENABLED eval_gap_machine = true ∧
    eval_gap_machine.ppu.oam_write_during_eval = false ∧
    (∀ n, n < 24 → eval_gap_machine.ppu.oam (4 * n) < 256 ∧
      ¬ sprite_on_next_line eval_gap_machine.ppu.oam eval_gap_machine.ppu.ctrl
          eval_gap_machine.ppu.scanline n) ∧
    sprite_on_next_line eval_gap_machine.ppu.oam eval_gap_machine.ppu.ctrl
      eval_gap_machine.ppu.scanline 24 ∧
    eval_gap_machine.ppu.oam (4 * 24) = 10 := by
  refine ⟨by decide, by decide, rfl, by decide, rfl, by decide, by decide, by decide⟩

/-- C30, the code does not do what the claim says.  On a visible line with
rendering enabled and no `$2004` write, started at dot 1, when none of the
sprites 0..23 is in range for the next line, the evaluation of dots 65..256
reads one OAM byte per two dots whether or not the sprite is in range: after
dot 256 the OAM address is 96, so the Y bytes of the sprites 24..63 have not
been tested, and secondary OAM is all `$FF` whatever those sprites are.  In
particular in the machine `eval_gap_machine` (line 10, sprite 24 at Y = 10,
all other OAM bytes `$FF`) sprite 24 is in range for line 11 and no sprite of
lower index is, yet after dot 256 no byte of secondary OAM is its Y byte. -/
theorem C30_sprite_eval_stops_early :
    (∀ w : World, 0 ≤ w.ppu.scanline → w.ppu.scanline < 240 → w.ppu.dot = 1 →
      RENDERING_ENABLED w = true → w.ppu.oam_write_during_eval = false →
      (∀ n, n < 24 → w.ppu.oam (4 * n) < 256 ∧
        ¬ sprite_on_next_line w.ppu.oam w.ppu.ctrl w.ppu.scanline n) →
      (ppu_clocks 256 w).ppu.dot = 257 ∧ (ppu_clocks 256 w).ppu.eval_oam_addr = 96 ∧
      (∀ i, i < 32 → (ppu_clocks 256 w).ppu.sec_oam i = 0xFF)) ∧
    (sprite_on_next_line eval_gap_machine.ppu.oam eval_gap_machine.ppu.ctrl
        eval_gap_machine.ppu.scanline 24 ∧
     (∀ n, n < 24 → ¬ sprite_on_next_line eval_gap_machine.ppu.oam eval_gap_machine.ppu.ctrl
        eval_gap_machine.ppu.scanline n) ∧
     (ppu_clocks 256 eval_gap_machine).ppu.dot = 257 ∧
     (∀ i, i < 32 → (ppu_clocks 256 eval_gap_machine).ppu.sec_oam i = 0xFF ∧
        (ppu_clocks 256 eval_gap_machine).ppu.sec_oam i
          ≠ (ppu_clocks 256 eval_gap_machine).ppu.oam (4 * 24))) := by
  refine ⟨fun w h1 h2 h3 h4 h5 h6 => ?_, ?_⟩
  · obtain ⟨a, b, -, -, e⟩ := eval_stops_at_24 w h1 h2 h3 h4 h5 h6
    exact ⟨a, b, e⟩
  · obtain ⟨f1, f2, f3, f4, f5, f6, f7, f8⟩ := eval_gap_machine_facts
    obtain ⟨a, -, -, d, e⟩ := eval_stops_at_24 eval_gap_machine f1 f2 f3 f4 f5 f6
    refine ⟨f7, fun n hn => (f6 n hn).2, a, fun i hi => ⟨e i hi, ?_⟩⟩
    rw [e i hi, d, f8]
    decide

/-- The fields of the PPU that `load_baseblock` hands to `ppu_set_state`
without having assigned them: they are whatever the storage of the local
`ppu_state` held. -/
theorem load_baseblock_junk (junk : ppu_state_t) (blk : SnssBaseBlock) (w : World) :
    (load_baseblock junk blk w).ppu.frame_complete = junk.frame_complete ∧
    (load_baseblock junk blk w).ppu.eval_sprite_idx = junk.eval_sprite_idx ∧
    (load_baseblock junk blk w).ppu.eval_oam_addr = junk.eval_oam_addr ∧
    (load_baseblock junk blk w).ppu.eval_sec_idx = junk.eval_sec_idx ∧
    (load_baseblock junk blk w).ppu.eval_overflow = junk.eval_overflow ∧
    (load_baseblock junk blk w).ppu.eval_temp_y = junk.eval_temp_y ∧
    (load_baseblock junk blk w).ppu.sprite_in_range = junk.sprite_in_range ∧
    (load_baseblock junk blk w).ppu.bg.pt_lo = junk.bg_pt_lo ∧
    (load_baseblock junk blk w).ppu.bg.pt_hi = junk.bg_pt_hi ∧
    (load_baseblock junk blk w).ppu.bg.at_lo = junk.bg_at_lo ∧
    (load_baseblock junk blk w).ppu.bg.at_hi = junk.bg_at_hi ∧
    (load_baseblock junk blk w).ppu.bg.next_nt = junk.bg_next_nt ∧
    (load_baseblock junk blk w).ppu.bg.next_at = junk.bg_next_at ∧
    (load_baseblock junk blk w).ppu.bg.next_pt_lo = junk.bg_next_pt_lo ∧
    (load_baseblock junk blk w).ppu.bg.next_pt_hi = junk.bg_next_pt_hi ∧
    (load_baseblock junk blk w).ppu.sprite_count = junk.sprite_count ∧
    (load_baseblock junk blk w).ppu.sprite_zero_this = junk.sprite_zero_this ∧
    (load_baseblock junk blk w).ppu.sprite_zero_next = junk.sprite_zero_next ∧
    (load_baseblock junk blk w).ppu.next_sprite_xmin = junk.next_sprite_xmin ∧
    (load_baseblock junk blk w).a12_prev = junk.a12_prev ∧
    (load_baseblock junk blk w).mmc3_a12_level = junk.mmc3_a12_level ∧
    (load_baseblock junk blk w).mmc3_a12_low_m2_count = junk.mmc3_a12_low_m2_count :=
  ⟨rfl, rfl, rfl, rfl, rfl, rfl, rfl, rfl, rfl, rfl, rfl, rfl, rfl, rfl, rfl, rfl, rfl, rfl,
    rfl, rfl, rfl, rfl⟩

/-- The fields of the PPU that `load_baseblock` does assign before
`ppu_set_state`: they are the same for every content of the local. -/
theorem load_baseblock_assigned (j1 j2 : ppu_state_t) (blk : SnssBaseBlock) (w1 w2 : World) :
    (load_baseblock j1 blk w1).ppu.ctrl = (load_baseblock j2 blk w2).ppu.ctrl ∧
    (load_baseblock j1 blk w1).ppu.mask = (load_baseblock j2 blk w2).ppu.mask ∧
    (load_baseblock j1 blk w1).ppu.status = (load_baseblock j2 blk w2).ppu.status ∧
    (load_baseblock j1 blk w1).ppu.oam_addr = (load_baseblock j2 blk w2).ppu.oam_addr ∧
    (load_baseblock j1 blk w1).ppu.v = (load_baseblock j2 blk w2).ppu.v ∧
    (load_baseblock j1 blk w1).ppu.t = (load_baseblock j2 blk w2).ppu.t ∧
    (load_baseblock j1 blk w1).ppu.x = (load_baseblock j2 blk w2).ppu.x ∧
    (load_baseblock j1 blk w1).ppu.w = (load_baseblock j2 blk w2).ppu.w ∧
    (load_baseblock j1 blk w1).ppu.buffered_data
      = (load_baseblock j2 blk w2).ppu.buffered_data ∧
    (load_baseblock j1 blk w1).ppu.dot = (load_baseblock j2 blk w2).ppu.dot ∧
    (load_baseblock j1 blk w1).ppu.scanline = (load_baseblock j2 blk w2).ppu.scanline ∧
    (load_baseblock j1 blk w1).ppu.odd_frame = (load_baseblock j2 blk w2).ppu.odd_frame ∧
    (load_baseblock j1 blk w1).ppu.open_bus = (load_baseblock j2 blk w2).ppu.open_bus :=
  ⟨rfl, rfl, rfl, rfl, rfl, rfl, rfl, rfl, rfl, rfl, rfl, rfl, rfl⟩

/-- C40, the code does not do what the claim says.  `load_baseblock` assigns
thirteen fields of its local `ppu_state` and hands the whole record to
`ppu_set_state`; the other fields that `ppu_set_state` writes (the
frame-complete flag, the sprite-evaluation fields, the background shift
registers and latches, the sprite pipeline fields and the MMC3 A12 filter
state) are whatever the storage of the local held.  Two loads of the same block
into the same machine, with different contents of that storage, give different
PPU states; only the thirteen assigned fields are a function of the block. -/
theorem C40_load_not_deterministic :
    (∀ (junk : ppu_state_t) (blk : SnssBaseBlock) (w : World),
      (load_baseblock junk blk w).ppu.frame_complete = junk.frame_complete ∧
      (load_baseblock junk blk w).ppu.eval_oam_addr = junk.eval_oam_addr ∧
      (load_baseblock junk blk w).ppu.eval_sec_idx = junk.eval_sec_idx ∧
      (load_baseblock junk blk w).ppu.eval_overflow = junk.eval_overflow ∧
      (load_baseblock junk blk w).ppu.bg.pt_lo = junk.bg_pt_lo ∧
      (load_baseblock junk blk w).ppu.bg.next_nt = junk.bg_next_nt ∧
      (load_baseblock junk blk w).ppu.sprite_zero_this = junk.sprite_zero_this ∧
      (load_baseblock junk blk w).ppu.sprite_zero_next = junk.sprite_zero_next ∧
      (load_baseblock junk blk w).a12_prev = junk.a12_prev ∧
      (load_baseblock junk blk w).mmc3_a12_level = junk.mmc3_a12_level ∧
      (load_baseblock junk blk w).mmc3_a12_low_m2_count = junk.mmc3_a12_low_m2_count) ∧
    ((load_baseblock { frame_complete := true } (save_baseblock {} {}) {}).ppu.frame_complete
      ≠ (load_baseblock { frame_complete := false } (save_baseblock {} {}) {}).ppu.frame_complete ∧
     (load_baseblock { eval_sec_idx := 200 } (save_baseblock {} {}) {}).ppu.eval_sec_idx
      ≠ (load_baseblock { eval_sec_idx := 0 } (save_baseblock {} {}) {}).ppu.eval_sec_idx) ∧
    (∀ (j1 j2 : ppu_state_t) (blk : SnssBaseBlock) (w1 w2 : World),
      (load_baseblock j1 blk w1).ppu.ctrl = (load_baseblock j2 blk w2).ppu.ctrl ∧
      (load_baseblock j1 blk w1).ppu.mask = (load_baseblock j2 blk w2).ppu.mask ∧
      (load_baseblock j1 blk w1).ppu.v = (load_baseblock j2 blk w2).ppu.v ∧
      (load_baseblock j1 blk w1).ppu.dot = (load_baseblock j2 blk w2).ppu.dot ∧
      (load_baseblock j1 blk w1).ppu.scanline = (load_baseblock j2 blk w2).ppu.scanline) := by
  refine ⟨fun junk blk w => ?_, ⟨by decide, by decide⟩, fun j1 j2 blk w1 w2 => ?_⟩
  · obtain ⟨a1, -, a3, a4, a5, -, -, a8, -, -, -, a12, -, -, -, -, a17, a18, -, a20, a21, a22⟩ :=
      load_baseblock_junk junk blk w
    exact ⟨a1, a3, a4, a5, a8, a12, a17, a18, a20, a21, a22⟩
  · obtain ⟨b1, b2, -, -, b5, -, -, -, -, b10, b11, -, -⟩ :=
      load_baseblock_assigned j1 j2 blk w1 w2
    exact ⟨b1, b2, b5, b10, b11⟩

/-! ### MMC5 and the work-RAM pager -/

theorem mmc_bankrom_wram (size : Int) (address : Nat) (bank : Int) (w : World) :
    (mmc_bankrom size address bank w).wram = w.wram ∧
    (mmc_bankrom size address bank w).cpu = w.cpu ∧
    (mmc_bankrom size address bank w).hostmem = w.hostmem := by
  unfold mmc_bankrom
  split <;> exact ⟨rfl, rfl, rfl⟩

theorem mmc_bankvrom_wram (size : Int) (address : Nat) (bank : Int) (w : World) :
    (mmc_bankvrom size address bank w).wram = w.wram ∧
    (mmc_bankvrom size address bank w).cpu = w.cpu ∧
    (mmc_bankvrom size address bank w).hostmem = w.hostmem := by
  unfold mmc_bankvrom
  split <;> exact ⟨rfl, rfl, rfl⟩

theorem sync_prg_wram (w : World) :
    (sync_prg w).wram = w.wram ∧ (sync_prg w).cpu = w.cpu ∧
    (sync_prg w).hostmem = w.hostmem := by
  unfold sync_prg
  dsimp only
  split_ifs <;> simp only [mmc_bankrom_wram] <;> exact ⟨trivial, trivial, trivial⟩

theorem sync_chr_wram (w : World) :
    (sync_chr w).wram = w.wram ∧ (sync_chr w).cpu = w.cpu ∧
    (sync_chr w).hostmem = w.hostmem := by
  unfold sync_chr
  dsimp only
  split_ifs <;> simp only [mmc_bankvrom_wram] <;> exact ⟨trivial, trivial, trivial⟩

theorem ppu_setpage_loop_wram (size page : Int) (ptr : Option Nat) (n : Nat) :
    ∀ (i : Int) (w : World),
      (ppu_setpage_loop size page ptr n i w).wram = w.wram ∧
      (ppu_setpage_loop size page ptr n i w).cpu = w.cpu ∧
      (ppu_setpage_loop size page ptr n i w).hostmem = w.hostmem := by
  induction n with
  | zero => intro i w; exact ⟨rfl, rfl, rfl⟩
  | succ n ih =>
    intro i w
    unfold ppu_setpage_loop
    split_ifs
    · exact ih _ _
    · exact ⟨rfl, rfl, rfl⟩

theorem ppu_setpage_wram (size page : Int) (ptr : Option Nat) (w : World) :
    (ppu_setpage size page ptr w).wram = w.wram ∧ (ppu_setpage size page ptr w).cpu = w.cpu ∧
    (ppu_setpage size page ptr w).hostmem = w.hostmem := by
  unfold ppu_setpage
  split_ifs
  · exact ⟨rfl, rfl, rfl⟩
  · exact ppu_setpage_loop_wram _ _ _ _ _ _

theorem map_nametable_slot_wram (val i : Nat) (w : World) :
    (map_nametable_slot val i w).wram = w.wram ∧ (map_nametable_slot val i w).cpu = w.cpu ∧
    (map_nametable_slot val i w).hostmem = w.hostmem := by
  unfold map_nametable_slot
  dsimp only
  split_ifs <;> exact ppu_setpage_wram _ _ _ _

theorem map_nametables_wram (val : Nat) (w : World) :
    (map_nametables val w).wram = w.wram ∧ (map_nametables val w).cpu = w.cpu ∧
    (map_nametables val w).hostmem = w.hostmem := by
  unfold map_nametables
  simp only [map_nametable_slot_wram]
  exact ⟨trivial, trivial, trivial⟩

theorem map5_write_plain_wram (address value : Nat) (w : World) :
    (map5_write_plain address value w).wram = w.wram ∧
    (map5_write_plain address value w).cpu = w.cpu ∧
    (map5_write_plain address value w).hostmem = w.hostmem := by
  unfold map5_write_plain
  dsimp only
  split_ifs <;> exact ⟨rfl, rfl, rfl⟩

theorem remap_page_frame (w : World) :
    (remap_page w).wram = w.wram ∧ (remap_page w).hostmem = w.hostmem :=
  ⟨rfl, rfl⟩

theorem mmc_bankwram_bits (size : Int) (addr bank : Nat) (w : World) :
    (mmc_bankwram size addr bank w).wram.wram_en = w.wram.wram_en ∧
    (mmc_bankwram size addr bank w).wram.wram_wp = w.wram.wram_wp ∧
    (mmc_bankwram size addr bank w).wram.base = w.wram.base ∧
    (mmc_bankwram size addr bank w).wram.dead_page = w.wram.dead_page ∧
    (mmc_bankwram size addr bank w).hostmem = w.hostmem := by
  unfold mmc_bankwram
  dsimp only
  split_ifs <;> exact ⟨rfl, rfl, rfl, rfl, rfl⟩

/-- With the pager disabled `mmc_bankwram` leaves pages 6 and 7 on the dead
buffer when they were there. -/
theorem mmc_bankwram_dead (size : Int) (addr bank : Nat) (w : World)
    (he : w.wram.wram_en = false) (h6 : w.cpu.mem_page 6 = w.wram.dead_page)
    (h7 : w.cpu.mem_page 7 = w.wram.dead_page + 0x1000) :
    (mmc_bankwram size addr bank w).cpu.mem_page 6 = w.wram.dead_page ∧
    (mmc_bankwram size addr bank w).cpu.mem_page 7 = w.wram.dead_page + 0x1000 := by
  unfold mmc_bankwram
  dsimp only
  split_ifs
  · exact ⟨h6, h7⟩
  · obtain ⟨r1, r2, -, -, -⟩ := remap_page_spec { w with wram := { w.wram with
      cur_bank := Int.tmod ((bank % 256 : Nat) : Int) w.wram.banks } }
    have e : ¬ (w.wram.wram_en = true ∧ w.wram.base ≠ 0) := by rw [he]; simp
    rw [r2, r1]
    dsimp only
    rw [if_neg e]
    exact ⟨rfl, rfl⟩

/-- What `map5_write` leaves alone: the enable and write-protect bits of the
pager, its base and its dead buffer, and the host memory. -/
theorem map5_write_wram (address value : Nat) (w : World) :
    (map5_write address value w).wram.wram_en = w.wram.wram_en ∧
    (map5_write address value w).wram.wram_wp = w.wram.wram_wp ∧
    (map5_write address value w).wram.base = w.wram.base ∧
    (map5_write address value w).wram.dead_page = w.wram.dead_page ∧
    (map5_write address value w).hostmem = w.hostmem := by
  have k : ∀ u : World, u.wram = w.wram → u.hostmem = w.hostmem →
      u.wram.wram_en = w.wram.wram_en ∧ u.wram.wram_wp = w.wram.wram_wp ∧
      u.wram.base = w.wram.base ∧ u.wram.dead_page = w.wram.dead_page ∧
      u.hostmem = w.hostmem := by
    intro u h1 h2
    rw [h1]
    exact ⟨rfl, rfl, rfl, rfl, h2⟩
  unfold map5_write
  by_cases c0 : 0x5C00 ≤ address ∧ address ≤ 0x5FFF
  · rw [if_pos c0]
    split <;> exact ⟨rfl, rfl, rfl, rfl, rfl⟩
  rw [if_neg c0]
  by_cases c1 : address = 0x5100
  · rw [if_pos c1]; exact k _ (sync_prg_wram _).1 (sync_prg_wram _).2.2
  rw [if_neg c1]
  by_cases c2 : address = 0x5101
  · rw [if_pos c2]; exact k _ (sync_chr_wram _).1 (sync_chr_wram _).2.2
  rw [if_neg c2]
  by_cases c3 : address = 0x5105
  · rw [if_pos c3]; exact k _ (map_nametables_wram _ _).1 (map_nametables_wram _ _).2.2
  rw [if_neg c3]
  by_cases c4 : address = 0x5106
  · rw [if_pos c4]; exact ⟨rfl, rfl, rfl, rfl, rfl⟩
  rw [if_neg c4]
  by_cases c5 : address = 0x5107
  · rw [if_pos c5]; exact ⟨rfl, rfl, rfl, rfl, rfl⟩
  rw [if_neg c5]
  by_cases c6 : address = 0x5113
  · rw [if_pos c6]; exact mmc_bankwram_bits _ _ _ _
  rw [if_neg c6]
  by_cases c7 : 0x5114 ≤ address ∧ address ≤ 0x5117
  · rw [if_pos c7]; exact k _ (sync_prg_wram _).1 (sync_prg_wram _).2.2
  rw [if_neg c7]
  by_cases c8 : 0x5120 ≤ address ∧ address ≤ 0x5127
  · rw [if_pos c8]; exact k _ (sync_chr_wram _).1 (sync_chr_wram _).2.2
  rw [if_neg c8]
  by_cases c9 : 0x5128 ≤ address ∧ address ≤ 0x512B
  · rw [if_pos c9]; exact k _ (sync_chr_wram _).1 (sync_chr_wram _).2.2
  rw [if_neg c9]
  by_cases c10 : address = 0x5130
  · rw [if_pos c10]; exact k _ (sync_chr_wram _).1 (sync_chr_wram _).2.2
  rw [if_neg c10]
  exact k _ (map5_write_plain_wram _ _ _).1 (map5_write_plain_wram _ _ _).2.2

/-- With the pager disabled `map5_write` leaves pages 6 and 7 on the dead
buffer when they were there. -/
theorem map5_write_dead (address value : Nat) (w : World)
    (he : w.wram.wram_en = false) (h6 : w.cpu.mem_page 6 = w.wram.dead_page)
    (h7 : w.cpu.mem_page 7 = w.wram.dead_page + 0x1000) :
    (map5_write address value w).cpu.mem_page 6 = w.wram.dead_page ∧
    (map5_write address value w).cpu.mem_page 7 = w.wram.dead_page + 0x1000 := by
  have k : ∀ u : World, u.cpu = w.cpu →
      u.cpu.mem_page 6 = w.wram.dead_page ∧ u.cpu.mem_page 7 = w.wram.dead_page + 0x1000 := by
    intro u h1
    rw [h1]
    exact ⟨h6, h7⟩
  unfold map5_write
  by_cases c0 : 0x5C00 ≤ address ∧ address ≤ 0x5FFF
  · rw [if_pos c0]
    split <;> exact ⟨h6, h7⟩
  rw [if_neg c0]
  by_cases c1 : address = 0x5100
  · rw [if_pos c1]; exact k _ (sync_prg_wram _).2.1
  rw [if_neg c1]
  by_cases c2 : address = 0x5101
  · rw [if_pos c2]; exact k _ (sync_chr_wram _).2.1
  rw [if_neg c2]
  by_cases c3 : address = 0x5105
  · rw [if_pos c3]; exact k _ (map_nametables_wram _ _).2.1
  rw [if_neg c3]
  by_cases c4 : address = 0x5106
  · rw [if_pos c4]; exact ⟨h6, h7⟩
  rw [if_neg c4]
  by_cases c5 : address = 0x5107
  · rw [if_pos c5]; exact ⟨h6, h7⟩
  rw [if_neg c5]
  by_cases c6 : address = 0x5113
  · rw [if_pos c6]; exact mmc_bankwram_dead _ _ _ _ he h6 h7
  rw [if_neg c6]
  by_cases c7 : 0x5114 ≤ address ∧ address ≤ 0x5117
  · rw [if_pos c7]; exact k _ (sync_prg_wram _).2.1
  rw [if_neg c7]
  by_cases c8 : 0x5120 ≤ address ∧ address ≤ 0x5127
  · rw [if_pos c8]; exact k _ (sync_chr_wram _).2.1
  rw [if_neg c8]
  by_cases c9 : 0x5128 ≤ address ∧ address ≤ 0x512B
  · rw [if_pos c9]; exact k _ (sync_chr_wram _).2.1
  rw [if_neg c9]
  by_cases c10 : address = 0x5130
  · rw [if_pos c10]; exact k _ (sync_chr_wram _).2.1
  rw [if_neg c10]
  exact k _ (map5_write_plain_wram _ _ _).2.1

theorem map5_init_wram (L : Int) (w : World) :
    (map5_init L w).wram = w.wram ∧ (map5_init L w).cpu = w.cpu ∧
    (map5_init L w).hostmem = w.hostmem := by
  unfold map5_init
  simp only [mmc_bankrom_wram]
  exact ⟨rfl, rfl, rfl⟩

/-- A run of `map5_write`s with the pager disabled: it stays disabled, pages 6
and 7 stay on the dead buffer, and the host memory is not written. -/
theorem map5_writes_dead (ws : List (Nat × Nat)) :
    ∀ w : World, w.wram.wram_en = false → w.cpu.mem_page 6 = w.wram.dead_page →
      w.cpu.mem_page 7 = w.wram.dead_page + 0x1000 →
      (map5_writes ws w).wram.wram_en = false ∧
      (map5_writes ws w).wram.wram_wp = w.wram.wram_wp ∧
      (map5_writes ws w).wram.dead_page = w.wram.dead_page ∧
      (map5_writes ws w).cpu.mem_page 6 = w.wram.dead_page ∧
      (map5_writes ws w).cpu.mem_page 7 = w.wram.dead_page + 0x1000 ∧
      (map5_writes ws w).hostmem = w.hostmem := by
  induction ws with
  | nil => intro w he h6 h7; exact ⟨he, rfl, rfl, h6, h7, rfl⟩
  | cons x rest ih =>
    intro w he h6 h7
    obtain ⟨a, v⟩ := x
    obtain ⟨f1, f2, -, f4, f5⟩ := map5_write_wram a v w
    obtain ⟨g6, g7⟩ := map5_write_dead a v w he h6 h7
    obtain ⟨i1, i2, i3, i4, i5, i6⟩ := ih (map5_write a v w) (f1.trans he) (by rw [g6, f4])
      (by rw [g7, f4])
    show (map5_writes rest (map5_write a v w)).wram.wram_en = false ∧ _
    exact ⟨i1, i2.trans f2, i3.trans f4, i4.trans (by rw [f4]), i5.trans (by rw [f4]),
      i6.trans f5⟩

/-- A write to `$5113` with the pager disabled puts pages 6 and 7 on the dead
buffer, whatever the value. -/
theorem map5_write_5113_dead (v : Nat) (s : World) (he : s.wram.wram_en = false)
    (hb : s.wram.banks ≠ 0) :
    (map5_write 0x5113 v s).cpu.mem_page 6 = s.wram.dead_page ∧
    (map5_write 0x5113 v s).cpu.mem_page 7 = s.wram.dead_page + 0x1000 := by
  have e : map5_write 0x5113 v s = remap_page { s with wram := { s.wram with
      cur_bank := Int.tmod ((v % 256 : Nat) : Int) s.wram.banks } } := by
    simp [map5_write, mmc_bankwram, WINDOW_START, hb]
  obtain ⟨r1, r2, -, -, -⟩ := remap_page_spec { s with wram := { s.wram with
    cur_bank := Int.tmod ((v % 256 : Nat) : Int) s.wram.banks } }
  have n : ¬ (s.wram.wram_en = true ∧ s.wram.base ≠ 0) := by rw [he]; simp
  rw [e, r2, r1]
  dsimp only
  rw [if_neg n]
  exact ⟨rfl, rfl⟩

/-- C39. MMC5 never enables work-RAM: neither `map5_write` (any address, any
value) nor `map5_init` changes the enable or the write-protect bit of the WRAM
pager, and `wram_init` leaves the pager disabled.  Therefore, from a disabled
pager with the window on the dead buffer, after any sequence of `map5_write`s,
whatever they write to `$5113`, the pager is still disabled, pages 6 and 7
(`$6000-$7FFF`) still point to the dead buffer, and a CPU write through the
write gate `wram_write` changes nothing; a write to `$5113` with the pager
disabled puts the window on the dead buffer wherever it was. -/
theorem C39_mmc5_never_enables_wram (w : World) (ws : List (Nat × Nat))
    (he : w.wram.wram_en = false) (h6 : w.cpu.mem_page 6 = w.wram.dead_page)
    (h7 : w.cpu.mem_page 7 = w.wram.dead_page + 0x1000) :
    (∀ (a v : Nat) (s : World),
      (map5_write a v s).wram.wram_en = s.wram.wram_en ∧
      (map5_write a v s).wram.wram_wp = s.wram.wram_wp) ∧
    (∀ (L : Int) (s : World),
      (map5_init L s).wram.wram_en = s.wram.wram_en ∧
      (map5_init L s).wram.wram_wp = s.wram.wram_wp) ∧
    (∀ (m : Nat) (s : World), s.rominfo.sram ≠ 0 → (wram_init m s).wram.wram_en = false) ∧
    (∀ (v : Nat) (s : World), s.wram.wram_en = false → s.wram.banks ≠ 0 →
      (map5_write 0x5113 v s).cpu.mem_page 6 = s.wram.dead_page ∧
      (map5_write 0x5113 v s).cpu.mem_page 7 = s.wram.dead_page + 0x1000) ∧
    (map5_writes ws w).wram.wram_en = false ∧
    (map5_writes ws w).cpu.mem_page 6 = w.wram.dead_page ∧
    (map5_writes ws w).cpu.mem_page 7 = w.wram.dead_page + 0x1000 ∧
    (map5_writes ws w).wram.dead_page = w.wram.dead_page ∧
    (∀ (sh mk addr val : Nat),
      wram_write sh mk addr val (map5_writes ws w) = map5_writes ws w) ∧
    (∀ (sh mk addr val : Nat) (ws2 : List (Nat × Nat)),
      (map5_writes ws2 (wram_write sh mk addr val (map5_writes ws w))).hostmem = w.hostmem) := by
  obtain ⟨i1, -, i3, i4, i5, i6⟩ := map5_writes_dead ws w he h6 h7
  have gate : ∀ (sh mk addr val : Nat),
      wram_write sh mk addr val (map5_writes ws w) = map5_writes ws w := by
    intro sh mk addr val
    unfold wram_write
    rw [if_pos (Or.inl i1)]
  refine ⟨fun a v s => ⟨(map5_write_wram a v s).1, (map5_write_wram a v s).2.1⟩,
    fun L s => ?_, fun m s hs => (wram_init_with_sram m s hs).1,
    fun v s h1 h2 => map5_write_5113_dead v s h1 h2, i1, i4, i5, i3, gate, ?_⟩
  · rw [(map5_init_wram L s).1]
    exact ⟨rfl, rfl⟩
  · intro sh mk addr val ws2
    rw [gate]
    obtain ⟨-, -, -, -, -, j6⟩ := map5_writes_dead ws2 (map5_writes ws w) i1 (by rw [i4, i3])
      (by rw [i5, i3])
    exact j6.trans i6

theorem C39_mmc5_never_enables_wram_witness :
    (map5_writes [(0x5113, 3), (0x5102, 2)] { cpu := { mem_page := fun i =>
      if i = 6 then 0x100000 else if i = 7 then 0x101000 else 0 } }).cpu.mem_page 6
      = 0x100000 :=
  (C39_mmc5_never_enables_wram { cpu := { mem_page := fun i =>
      if i = 6 then 0x100000 else if i = 7 then 0x101000 else 0 } }
    [(0x5113, 3), (0x5102, 2)] rfl rfl rfl).2.2.2.2.2.1

/-! ### The MMC3 CHR layout and the registers -/

theorem map4_init_chr (w : World) :
    ∀ p, p < 8 → (map4_init w).chr_bank p = (p : Int) := by
  intro p hp
  have e : (map4_init w).chr_bank = (mmc_bankvrom 8 0x0000 0
      (mmc_bankrom 8 0xA000 0 (mmc_bankrom 8 0x8000 0 (mmc_bankrom 8 0xE000 (FIXED_LAST w.rominfo)
        (mmc_bankrom 8 0xC000 (FIXED_PENULT w.rominfo)
          { w with map4 := { fourscreen := w.rominfo.flag_fourscreen } }))))).chr_bank := rfl
  rw [e]
  unfold mmc_bankvrom
  rw [if_pos (by decide)]
  dsimp only
  have h0 : (0 : Nat) >>> 10 = 0 := rfl
  rw [h0, if_pos ⟨Nat.zero_le _, by simp; omega⟩]
  simp

theorem map4_layout_fails_at_init (w : World) : ¬ map4_chr_layout (map4_init w) := by
  obtain ⟨r1, -, -, -, r5, -, -⟩ := map4_init_regs w
  intro h
  unfold map4_chr_layout at h
  rw [r1] at h
  have h3 := h.2.2.1
  rw [r5 1] at h3
  have e : (map4_init w).chr_bank 2 = 2 := map4_init_chr w 2 (by decide)
  have h3' : (map4_init w).chr_bank 2 = 0 := h3
  rw [e] at h3'
  exact absurd h3' (by decide)

/-- A write outside `$8000/$8001` (mod `$E001`) leaves the bank registers and
the CHR pages alone. -/
theorem map4_write_other (a v : Nat) (s : World) (c0 : a &&& 0xE001 ≠ 0x8000)
    (c1 : a &&& 0xE001 ≠ 0x8001) :
    (map4_write a v s).map4.reg8000 = s.map4.reg8000 ∧
    (map4_write a v s).map4.vrombase = s.map4.vrombase ∧
    (map4_write a v s).map4.chr_reg = s.map4.chr_reg ∧
    (map4_write a v s).chr_bank = s.chr_bank := by
  unfold map4_write
  dsimp only
  rw [if_neg c0, if_neg c1]
  by_cases c2 : a &&& 0xE001 = 0xA000
  · obtain ⟨-, -, r3, r4⟩ := map4_write_A000_frame v s
    rw [if_pos c2, r3, r4]
    exact ⟨rfl, rfl, rfl, rfl⟩
  rw [if_neg c2]
  by_cases c3 : a &&& 0xE001 = 0xA001
  · obtain ⟨-, -, r3, -, -, r6, r7, -, r9, -⟩ := map4_write_A001_frame v s
    rw [if_pos c3]
    exact ⟨r3, r6, r7, r9⟩
  rw [if_neg c3]
  by_cases c4 : a &&& 0xE001 = 0xC000
  · rw [if_pos c4]; exact ⟨rfl, rfl, rfl, rfl⟩
  rw [if_neg c4]
  by_cases c5 : a &&& 0xE001 = 0xC001
  · rw [if_pos c5]; exact ⟨rfl, rfl, rfl, rfl⟩
  rw [if_neg c5]
  by_cases c6 : a &&& 0xE001 = 0xE000
  · rw [if_pos c6]; exact ⟨rfl, rfl, rfl, rfl⟩
  rw [if_neg c6]
  by_cases c7 : a &&& 0xE001 = 0xE001
  · rw [if_pos c7]; exact ⟨rfl, rfl, rfl, rfl⟩
  rw [if_neg c7]
  exact ⟨rfl, rfl, rfl, rfl⟩

theorem map4_write_at_8001 (a v : Nat) (w : World) (ha : a &&& 0xE001 = 0x8001) :
    map4_write a v w = map4_write_8001 v w := by
  unfold map4_write
  dsimp only
  rw [if_neg (by rw [ha]; decide), if_pos ha]

theorem map4_write_vrombase_ok (a v : Nat) (s : World) (h : map4_vrombase_ok s) :
    map4_vrombase_ok (map4_write a v s) := by
  unfold map4_vrombase_ok at h ⊢
  by_cases c0 : a &&& 0xE001 = 0x8000
  · rw [map4_write_at_8000 a v s c0, (map4_write_8000_regs v s).1]
  by_cases c1 : a &&& 0xE001 = 0x8001
  · obtain ⟨r1, -, -, r4, -, -, -⟩ := map4_write_8001_regs v s
    rw [map4_write_at_8001 a v s c1, r1, r4]; exact h
  obtain ⟨r1, r2, -, -⟩ := map4_write_other a v s c0 c1
  rw [r1, r2]; exact h

theorem and_FE_idem (v : Nat) : (v &&& 0xFE) &&& 0xFE = v &&& 0xFE := by
  rw [Nat.and_assoc]; rfl

/-- The CHR registers and pages after a write to `$8001`. -/
theorem map4_write_8001_chr (v : Nat) (s : World) :
    (s.map4.reg8000 &&& 7 = 0 →
      (map4_write_8001 v s).map4.chr_reg = Function.update s.map4.chr_reg 0 (v &&& 0xFE) ∧
      (map4_write_8001 v s).chr_bank =
        Function.update (Function.update s.chr_bank ((s.map4.vrombase ^^^ 0x0000) >>> 10)
          ((v &&& 0xFE : Nat) : Int)) ((s.map4.vrombase ^^^ 0x0400) >>> 10)
          (((v &&& 0xFE : Nat) : Int) + 1)) ∧
    (s.map4.reg8000 &&& 7 = 1 →
      (map4_write_8001 v s).map4.chr_reg = Function.update s.map4.chr_reg 1 (v &&& 0xFE) ∧
      (map4_write_8001 v s).chr_bank =
        Function.update (Function.update s.chr_bank ((s.map4.vrombase ^^^ 0x0800) >>> 10)
          ((v &&& 0xFE : Nat) : Int)) ((s.map4.vrombase ^^^ 0x0C00) >>> 10)
          (((v &&& 0xFE : Nat) : Int) + 1)) ∧
    (∀ k, 2 ≤ k → k ≤ 5 → s.map4.reg8000 &&& 7 = k →
      (map4_write_8001 v s).map4.chr_reg = Function.update s.map4.chr_reg k v ∧
      (map4_write_8001 v s).chr_bank =
        Function.update s.chr_bank ((s.map4.vrombase ^^^ (0x0800 + 0x400 * k)) >>> 10) (v : Int)) ∧
    (6 ≤ s.map4.reg8000 &&& 7 →
      (map4_write_8001 v s).map4.chr_reg = s.map4.chr_reg ∧
      (map4_write_8001 v s).chr_bank = s.chr_bank) := by
  refine ⟨fun h => ?_, fun h => ?_, fun k h2 h5 h => ?_, fun h => ?_⟩
  · unfold map4_write_8001
    simp only [h, if_true, mmc_bankvrom_one, (mmc_bankvrom_frame _ _ _ _).2.1]
    exact ⟨rfl, rfl⟩
  · unfold map4_write_8001
    simp only [h, if_neg (by decide : ¬ (1 : Nat) = 0), if_true, mmc_bankvrom_one,
      (mmc_bankvrom_frame _ _ _ _).2.1]
    exact ⟨rfl, rfl⟩
  · unfold map4_write_8001
    have hk : k = 2 ∨ k = 3 ∨ k = 4 ∨ k = 5 := by omega
    rcases hk with hk | hk | hk | hk <;> subst hk <;>
      simp only [h, if_neg (by decide : ¬ (2 : Nat) = 0), if_neg (by decide : ¬ (2 : Nat) = 1),
        if_neg (by decide : ¬ (3 : Nat) = 0), if_neg (by decide : ¬ (3 : Nat) = 1),
        if_neg (by decide : ¬ (3 : Nat) = 2), if_neg (by decide : ¬ (4 : Nat) = 0),
        if_neg (by decide : ¬ (4 : Nat) = 1), if_neg (by decide : ¬ (4 : Nat) = 2),
        if_neg (by decide : ¬ (4 : Nat) = 3), if_neg (by decide : ¬ (5 : Nat) = 0),
        if_neg (by decide : ¬ (5 : Nat) = 1), if_neg (by decide : ¬ (5 : Nat) = 2),
        if_neg (by decide : ¬ (5 : Nat) = 3), if_neg (by decide : ¬ (5 : Nat) = 4),
        if_true, mmc_bankvrom_one, (mmc_bankvrom_frame _ _ _ _).2.1] <;>
      exact ⟨rfl, rfl⟩
  · unfold map4_write_8001
    have h7 : s.map4.reg8000 &&& 7 ≤ 7 := Nat.and_le_right
    have hk : s.map4.reg8000 &&& 7 = 6 ∨ s.map4.reg8000 &&& 7 = 7 := by omega
    rcases hk with hk | hk
    · simp only [hk, if_neg (by decide : ¬ (6 : Nat) = 0), if_neg (by decide : ¬ (6 : Nat) = 1),
        if_neg (by decide : ¬ (6 : Nat) = 2), if_neg (by decide : ¬ (6 : Nat) = 3),
        if_neg (by decide : ¬ (6 : Nat) = 4), if_neg (by decide : ¬ (6 : Nat) = 5), if_true,
        (mmc_bankrom_frame _ _ _ _).1, (mmc_bankrom_frame _ _ _ _).2.1]
      exact ⟨trivial, trivial⟩
    · simp only [hk, if_neg (by decide : ¬ (7 : Nat) = 0), if_neg (by decide : ¬ (7 : Nat) = 1),
        if_neg (by decide : ¬ (7 : Nat) = 2), if_neg (by decide : ¬ (7 : Nat) = 3),
        if_neg (by decide : ¬ (7 : Nat) = 4), if_neg (by decide : ¬ (7 : Nat) = 5),
        if_neg (by decide : ¬ (7 : Nat) = 6), if_true,
        (mmc_bankrom_frame _ _ _ _).1, (mmc_bankrom_frame _ _ _ _).2.1]
      exact ⟨trivial, trivial⟩

theorem map4_chr_layout_iff (w : World) :
    map4_chr_layout w ↔
      chr_layout_at (if (w.map4.reg8000 &&& 0x80) ≠ 0 then 0x1000 else 0x0000)
        w.chr_bank w.map4.chr_reg := Iff.rfl

theorem chr_layout_at_r0 (b : Nat) (hb : b = 0 ∨ b = 0x1000) (cb : Nat → Int) (cr : Nat → Nat)
    (v : Nat) (h : chr_layout_at b cb cr) :
    chr_layout_at b
      (Function.update (Function.update cb ((b ^^^ 0x0000) >>> 10) ((v &&& 0xFE : Nat) : Int))
        ((b ^^^ 0x0400) >>> 10) (((v &&& 0xFE : Nat) : Int) + 1))
      (Function.update cr 0 (v &&& 0xFE)) := by
  unfold chr_layout_at at h ⊢
  obtain ⟨h1, h2, h3, h4, h5, h6, h7, h8⟩ := h
  rcases hb with hb | hb <;> subst hb <;>
    simp only [Function.update_apply, and_FE_idem] <;>
    refine ⟨by simp [and_FE_idem], by simp [and_FE_idem], ?_, ?_, ?_, ?_, ?_, ?_⟩ <;> simp <;> assumption

theorem chr_layout_at_r1 (b : Nat) (hb : b = 0 ∨ b = 0x1000) (cb : Nat → Int) (cr : Nat → Nat)
    (v : Nat) (h : chr_layout_at b cb cr) :
    chr_layout_at b
      (Function.update (Function.update cb ((b ^^^ 0x0800) >>> 10) ((v &&& 0xFE : Nat) : Int))
        ((b ^^^ 0x0C00) >>> 10) (((v &&& 0xFE : Nat) : Int) + 1))
      (Function.update cr 1 (v &&& 0xFE)) := by
  unfold chr_layout_at at h ⊢
  obtain ⟨h1, h2, h3, h4, h5, h6, h7, h8⟩ := h
  rcases hb with hb | hb <;> subst hb <;>
    simp only [Function.update_apply, and_FE_idem] <;>
    refine ⟨?_, ?_, by simp [and_FE_idem], by simp [and_FE_idem], ?_, ?_, ?_, ?_⟩ <;> simp <;> assumption

theorem chr_layout_at_rk (b : Nat) (hb : b = 0 ∨ b = 0x1000) (cb : Nat → Int) (cr : Nat → Nat)
    (v k : Nat) (h2 : 2 ≤ k) (h5 : k ≤ 5) (h : chr_layout_at b cb cr) :
    chr_layout_at b
      (Function.update cb ((b ^^^ (0x0800 + 0x400 * k)) >>> 10) (v : Int))
      (Function.update cr k v) := by
  unfold chr_layout_at at h ⊢
  obtain ⟨g1, g2, g3, g4, g5, g6, g7, g8⟩ := h
  have hk : k = 2 ∨ k = 3 ∨ k = 4 ∨ k = 5 := by omega
  rcases hb with hb | hb <;> subst hb <;>
    rcases hk with hk | hk | hk | hk <;> subst hk <;>
    simp only [Function.update_apply] <;>
    refine ⟨?_, ?_, ?_, ?_, ?_, ?_, ?_, ?_⟩ <;> simp <;> assumption

theorem d7_cases (v : Nat) : v &&& 0x80 = 0 ∨ v &&& 0x80 = 0x80 := by
  have h : v &&& 0x80 = v &&& 2 ^ 7 := rfl
  rw [h, Nat.and_two_pow]
  cases v.testBit 7 <;> simp

theorem vrombase_cases (v : Nat) :
    (if (v &&& 0x80) ≠ 0 then 0x1000 else 0x0000 : Nat) = 0 ∨
    (if (v &&& 0x80) ≠ 0 then 0x1000 else 0x0000 : Nat) = 0x1000 := by
  by_cases h : (v &&& 0x80) ≠ 0
  · right; rw [if_pos h]
  · left; rw [if_neg h]

/-- A mapper write keeps the CHR layout, once the pages follow the registers. -/
theorem map4_write_layout (a v : Nat) (s : World) (hv : map4_vrombase_ok s)
    (h : map4_chr_layout s) : map4_chr_layout (map4_write a v s) := by
  rw [map4_chr_layout_iff] at h ⊢
  unfold map4_vrombase_ok at hv
  by_cases c0 : a &&& 0xE001 = 0x8000
  · rw [map4_write_at_8000 a v s c0, (map4_write_8000_regs v s).1, map4_write_8000_chr]
    by_cases ct : (s.map4.reg8000 &&& 0x80) ≠ (v &&& 0x80)
    · rw [if_pos ct]
      exact map4_refresh_chr_pages _ _ (vrombase_cases v) rfl
    · rw [if_neg ct]
      have e : s.map4.reg8000 &&& 0x80 = v &&& 0x80 := not_not.mp ct
      show chr_layout_at (if (v &&& 0x80) ≠ 0 then 0x1000 else 0x0000) s.chr_bank s.map4.chr_reg
      rw [← e]; exact h
  by_cases c1 : a &&& 0xE001 = 0x8001
  · rw [map4_write_at_8001 a v s c1, (map4_write_8001_regs v s).1]
    rw [← hv] at h ⊢
    have hb : s.map4.vrombase = 0 ∨ s.map4.vrombase = 0x1000 := by
      rw [hv]; exact vrombase_cases _
    obtain ⟨k0, k1, kk, k6⟩ := map4_write_8001_chr v s
    have h7 : s.map4.reg8000 &&& 7 ≤ 7 := Nat.and_le_right
    by_cases r0 : s.map4.reg8000 &&& 7 = 0
    · rw [(k0 r0).1, (k0 r0).2]; exact chr_layout_at_r0 _ hb _ _ v h
    by_cases r1 : s.map4.reg8000 &&& 7 = 1
    · rw [(k1 r1).1, (k1 r1).2]; exact chr_layout_at_r1 _ hb _ _ v h
    by_cases r6 : 6 ≤ s.map4.reg8000 &&& 7
    · rw [(k6 r6).1, (k6 r6).2]; exact h
    have g2 : 2 ≤ s.map4.reg8000 &&& 7 := by omega
    have g5 : s.map4.reg8000 &&& 7 ≤ 5 := by omega
    rw [(kk _ g2 g5 rfl).1, (kk _ g2 g5 rfl).2]
    exact chr_layout_at_rk _ hb _ _ v _ g2 g5 h
  obtain ⟨r1, -, r3, r4⟩ := map4_write_other a v s c0 c1
  rw [r1, r3, r4]; exact h

theorem map4_writes_layout (ws : List (Nat × Nat)) :
    ∀ s : World, map4_vrombase_ok s → map4_chr_layout s →
      map4_chr_layout (map4_writes ws s) ∧ map4_vrombase_ok (map4_writes ws s) := by
  induction ws with
  | nil => intro s hv h; exact ⟨h, hv⟩
  | cons x rest ih =>
    intro s hv h
    obtain ⟨a, v⟩ := x
    exact ih _ (map4_write_vrombase_ok a v s hv) (map4_write_layout a v s hv h)

theorem map4_init_vrombase_ok (w : World) : map4_vrombase_ok (map4_init w) := by
  obtain ⟨r1, -, -, r4, -, -, -⟩ := map4_init_regs w
  unfold map4_vrombase_ok
  rw [r1, r4]; rfl

/-- A `$8000` write that toggles D7 re-applies all six CHR registers. -/
theorem map4_write_toggle_layout (a v : Nat) (s : World) (ha : a &&& 0xE001 = 0x8000)
    (ht : (s.map4.reg8000 &&& 0x80) ≠ (v &&& 0x80)) : map4_chr_layout (map4_write a v s) := by
  rw [map4_chr_layout_iff, map4_write_at_8000 a v s ha, (map4_write_8000_regs v s).1,
    map4_write_8000_chr, if_pos ht]
  exact map4_refresh_chr_pages _ _ (vrombase_cases v) rfl

/-- The sibling path: `map4_setstate` applies the six CHR registers to the
pages. -/
theorem map4_setstate_layout (s : SnssMapper4) (w : World) :
    map4_chr_layout (map4_setstate s w) := by
  have hm := map4_setstate_map4 s w
  rw [map4_chr_layout_iff, hm]
  have key : ∀ X : World, map4_setstate s w = map4_refresh_chr X →
      chr_layout_at (if (s.last8000Write &&& 0x80) ≠ 0 then 0x1000 else 0x0000)
        (map4_setstate s w).chr_bank
        (fun i => if i < 6 then s.fill1 (5 + i) else w.map4.chr_reg i) := by
    intro X hX
    have e : X.map4 = (map4_setstate s w).map4 := by
      rw [hX, (map4_refresh_chr_frame X).2.1]
    rw [hm] at e
    have p := map4_refresh_chr_pages X _ (vrombase_cases s.last8000Write) (by rw [e])
    rw [e, ← hX] at p
    exact p
  exact key _ rfl

/-- C32, the code does not do what the claim says when no write was made.
`map4_init` clears the CHR registers R0..R5 and then maps the 8 KiB CHR bank 0
linearly, so the 1 KiB page at offset `$0800` holds bank 2 while `R1 & $FE` is
0, and the layout fails after `map4_init` and the empty sequence of writes.
The rest of the claim holds: every write of `map4_write` keeps the layout once
it holds, a `$8000` write that sets bit 7 right after `map4_init` establishes
it for all later writes, and the sibling path `map4_setstate` establishes it
from the same registers. -/
theorem C32_chr_layout_fails_at_init :
    (∀ w : World, ¬ map4_chr_layout (map4_writes [] (map4_init w))) ∧
    (∀ w : World, (map4_init w).map4.reg8000 = 0 ∧ (map4_init w).map4.chr_reg 1 = 0 ∧
      (map4_init w).chr_bank ((0 ^^^ 0x0800) >>> 10) = 2) ∧
    (∀ (a v : Nat) (s : World), map4_vrombase_ok s → map4_chr_layout s →
      map4_chr_layout (map4_write a v s)) ∧
    (∀ (w : World) (a v : Nat) (ws : List (Nat × Nat)), a &&& 0xE001 = 0x8000 →
      v &&& 0x80 ≠ 0 → map4_chr_layout (map4_writes ((a, v) :: ws) (map4_init w))) ∧
    (∀ (b : SnssMapper4) (w : World), map4_chr_layout (map4_setstate b w)) := by
  refine ⟨fun w => map4_layout_fails_at_init w, fun w => ?_,
    fun a v s hv h => map4_write_layout a v s hv h, fun w a v ws ha hv => ?_,
    fun b w => map4_setstate_layout b w⟩
  · obtain ⟨r1, -, -, -, r5, -, -⟩ := map4_init_regs w
    exact ⟨r1, r5 1, map4_init_chr w 2 (by decide)⟩
  · have ht : ((map4_init w).map4.reg8000 &&& 0x80) ≠ (v &&& 0x80) := by
      rw [(map4_init_regs w).1]
      intro h
      exact hv h.symm
    exact (map4_writes_layout ws _
      (map4_write_vrombase_ok a v _ (map4_init_vrombase_ok w))
      (map4_write_toggle_layout a v _ ha ht)).1

/-! ### The sprite fetch addresses -/

theorem mmc3_track_a12_prev (addr : Nat) (w : World) :
    (mmc3_track_a12 addr w).a12_prev = ((addr &&& 0x1000) != 0) := rfl

/-- Phase 4 hands the computed address to `chr_read`, whose A12 filter records
bit 12 of it. -/
theorem sprite_fetch_lo_addr (h c : Nat) (w : World) :
    (sprite_fetch_lo h c w).ppu.spr_fetch_addr = sprite_fetch_addr h c w ∧
    (sprite_fetch_lo h c w).a12_prev = ((sprite_fetch_addr h c w &&& 0x1000) != 0) := by
  unfold sprite_fetch_lo
  dsimp only
  rw [chr_read_world, (mmc3_track_a12_ppu _ _).1, mmc3_track_a12_prev]
  exact ⟨rfl, rfl⟩

/-- Phase 5 reads eight bytes further on. -/
theorem sprite_fetch_hi_addr (w : World) :
    (sprite_fetch_hi w).a12_prev = ((((w.ppu.spr_fetch_addr + 8) % 65536) &&& 0x1000) != 0) := by
  unfold sprite_fetch_hi
  dsimp only
  rw [chr_read_world, mmc3_track_a12_prev]

theorem bit12_of_lt (t : Nat) (ht : t < 0x1000) :
    t &&& 0x1000 = 0 ∧ (0x1000 + t) &&& 0x1000 = 0x1000 := by
  have e : ∀ n : Nat, n &&& 0x1000 = n &&& 2 ^ 12 := fun _ => rfl
  rw [e, e, Nat.and_two_pow, Nat.and_two_pow, Nat.testBit_to_div_mod, Nat.testBit_to_div_mod]
  have h1 : t / 2 ^ 12 % 2 = 0 := by omega
  have h2 : (0x1000 + t) / 2 ^ 12 % 2 = 1 := by omega
  rw [h1, h2]
  exact ⟨rfl, rfl⟩

/-- The 8x16 path masks the row: its addresses stay below `$2000`. -/
theorem sprite_fetch_addr_16 (c : Nat) (w : World) :
    sprite_fetch_addr 16 c w < 0x2000 := by
  unfold sprite_fetch_addr
  dsimp only
  rw [if_pos rfl]
  have h1 : w.ppu.spr_tmp_tile &&& 0xFE ≤ 0xFE := Nat.and_le_right
  have h2 : ∀ r : Nat, r &&& 7 ≤ 7 := fun _ => Nat.and_le_right
  have h2a := h2 ((((16 : Nat) : Int) - 1 -
    (((((c : Int) - (w.ppu.spr_tmp_y : Int)) % 256).toNat : Nat) : Int)) % 256).toNat
  have h2b := h2 (((c : Int) - (w.ppu.spr_tmp_y : Int)) % 256).toNat
  split_ifs <;> omega

/-- The 8x8 path with a row in `0..7` (a sprite that is in range) stays in the
pattern table selected by CTRL bit 3. -/
theorem sprite_fetch_addr_8_in_range (c : Nat) (w : World) (ht : w.ppu.spr_tmp_tile < 256)
    (hr : ((c : Int) - (w.ppu.spr_tmp_y : Int)) % 256 < 8) :
    sprite_fetch_addr 8 c w < 0x2000 ∧
    ((sprite_fetch_addr 8 c w &&& 0x1000 ≠ 0) ↔ (w.ppu.ctrl &&& 0x08 ≠ 0)) := by
  unfold sprite_fetch_addr
  dsimp only
  rw [if_neg (by decide : ¬ (8 : Nat) = 16)]
  have h0 : 0 ≤ ((c : Int) - (w.ppu.spr_tmp_y : Int)) % 256 := Int.emod_nonneg _ (by decide)
  obtain ⟨r0, hr0⟩ : ∃ r0 : Nat, ((c : Int) - (w.ppu.spr_tmp_y : Int)) % 256 = (r0 : Int) :=
    ⟨_, (Int.toNat_of_nonneg h0).symm⟩
  rw [hr0] at hr ⊢
  have hr8 : r0 < 8 := by omega
  rw [Int.toNat_natCast]
  have hrow : ∀ row : Nat, row < 8 →
      ((if (w.ppu.ctrl &&& 0x08) ≠ 0 then 0x1000 else 0x0000) + w.ppu.spr_tmp_tile * 16 + row)
        % 65536 < 0x2000 ∧
      ((((if (w.ppu.ctrl &&& 0x08) ≠ 0 then 0x1000 else 0x0000) + w.ppu.spr_tmp_tile * 16 + row)
        % 65536) &&& 0x1000 ≠ 0 ↔ (w.ppu.ctrl &&& 0x08 ≠ 0)) := by
    intro row hrow
    have hlt : w.ppu.spr_tmp_tile * 16 + row < 0x1000 := by omega
    obtain ⟨b0, b1⟩ := bit12_of_lt _ hlt
    by_cases hc : (w.ppu.ctrl &&& 0x08) ≠ 0
    · rw [if_pos hc]
      have e : (0x1000 + w.ppu.spr_tmp_tile * 16 + row) % 65536
          = 0x1000 + (w.ppu.spr_tmp_tile * 16 + row) := by omega
      rw [e, b1]
      exact ⟨by omega, ⟨fun _ => hc, fun _ => by decide⟩⟩
    · rw [if_neg hc]
      have e : (0 + w.ppu.spr_tmp_tile * 16 + row) % 65536
          = w.ppu.spr_tmp_tile * 16 + row := by omega
      rw [e, b0]
      exact ⟨by omega, ⟨fun h => absurd rfl h, fun h => absurd h hc⟩⟩
  by_cases hv : (w.ppu.spr_tmp_attr &&& 0x80) ≠ 0
  · rw [if_pos hv]
    have e7 : ((((8 : Nat) : Int) - 1 - (r0 : Int)) % 256).toNat = 7 - r0 := by omega
    rw [e7]
    exact hrow _ (by omega)
  · rw [if_neg hv]
    exact hrow _ hr8

set_option maxRecDepth 100000 in
theorem empty_slot_fetch_0 :
    (ppu_clocks 4 (empty_slot_machine 0)).ppu.dot = 261 ∧
    (ppu_clocks 4 (empty_slot_machine 0)).ppu.spr_tmp_y = 0xFF ∧
    (ppu_clocks 4 (empty_slot_machine 0)).ppu.spr_tmp_tile = 0xFF ∧
    (ppu_clocks 4 (empty_slot_machine 0)).ppu.spr_tmp_attr = 0xFF ∧
    (ppu_clocks 4 (empty_slot_machine 0)).a12_prev = false ∧
    (ppu_clocks 5 (empty_slot_machine 0)).ppu.spr_fetch_addr = 0x10EB ∧
    (ppu_clocks 5 (empty_slot_machine 0)).a12_prev = true ∧
    (ppu_clocks 6 (empty_slot_machine 0)).a12_prev = true :=
  ⟨rfl, rfl, rfl, rfl, rfl, rfl, rfl, rfl⟩

set_option maxRecDepth 100000 in
theorem empty_slot_fetch_8 :
    (ppu_clocks 5 (empty_slot_machine 8)).ppu.spr_fetch_addr = 0x20EB ∧
    (ppu_clocks 5 (empty_slot_machine 8)).ppu.spr_lo = 0 :=
  ⟨rfl, rfl⟩

/-- C37, the code does not do what the claim says for an empty slot.  In 8x8
mode the phase-4 address is `base + tile * 16 + row` with the unmasked 8-bit
row `cur_line - Y` (flipped to `7 - row` modulo 256).  With secondary OAM full
of `$FF` on line 10 the row is 251: with CTRL bit 3 clear `chr_read` receives
`$10EB` at phase 4, whose bit 12 is set, and with CTRL bit 3 set it receives
`$20EB`, which is not below `$2000`.  The 8x16 path masks the row with 7 and
stays below `$2000`, and so does the 8x8 path when the row is in `0..7`. -/
theorem C37_sprite_fetch_address_escapes :
    (∀ (h c : Nat) (w : World),
      (sprite_fetch_lo h c w).ppu.spr_fetch_addr = sprite_fetch_addr h c w ∧
      (sprite_fetch_lo h c w).a12_prev = ((sprite_fetch_addr h c w &&& 0x1000) != 0)) ∧
    ((ppu_clocks 4 (empty_slot_machine 0)).ppu.dot = 261 ∧
     (ppu_clocks 4 (empty_slot_machine 0)).a12_prev = false ∧
     (ppu_clocks 5 (empty_slot_machine 0)).ppu.spr_fetch_addr = 0x10EB ∧
     (ppu_clocks 5 (empty_slot_machine 0)).a12_prev = true ∧
     (empty_slot_machine 0).ppu.ctrl &&& 0x08 = 0) ∧
    ((ppu_clocks 5 (empty_slot_machine 8)).ppu.spr_fetch_addr = 0x20EB ∧
     ¬ (ppu_clocks 5 (empty_slot_machine 8)).ppu.spr_fetch_addr < 0x2000) ∧
    (∀ (c : Nat) (w : World), sprite_fetch_addr 16 c w < 0x2000) ∧
    (∀ (c : Nat) (w : World), w.ppu.spr_tmp_tile < 256 →
      ((c : Int) - (w.ppu.spr_tmp_y : Int)) % 256 < 8 →
      sprite_fetch_addr 8 c w < 0x2000 ∧
      ((sprite_fetch_addr 8 c w &&& 0x1000 ≠ 0) ↔ (w.ppu.ctrl &&& 0x08 ≠ 0))) := by
  obtain ⟨a1, -, -, -, a5, a6, a7, -⟩ := empty_slot_fetch_0
  obtain ⟨b1, -⟩ := empty_slot_fetch_8
  refine ⟨fun h c w => sprite_fetch_lo_addr h c w, ⟨a1, a5, a6, a7, rfl⟩, ⟨b1, ?_⟩,
    fun c w => sprite_fetch_addr_16 c w,
    fun c w ht hr => sprite_fetch_addr_8_in_range c w ht hr⟩
  rw [b1]; decide

/-! ### The blocks of `ppu_clock` that leave the `StatView` alone -/

theorem map4_clock_irq_nmi (w : World) :
    (map4_clock_irq w).cpu.nmi_calls = w.cpu.nmi_calls := by
  unfold map4_clock_irq nes_irq
  by_cases h1 : w.map4.irq.reload_flag = true <;> by_cases h2 : w.map4.irq.counter = 0 <;>
    by_cases h3 : w.map4.irq.enabled = true <;> by_cases h4 : w.map4.irq.latch = 0 <;>
    by_cases h5 : (w.map4.irq.counter - 1) % 256 = 0 <;> simp [h1, h2, h3, h4, h5]

theorem call_mapper_hook_nmi (h : MapperHook) (addr : Nat) (w : World) :
    (call_mapper_hook h addr w).cpu.nmi_calls = w.cpu.nmi_calls := by
  cases h
  simp only [call_mapper_hook, map4_ppu_tick]
  exact map4_clock_irq_nmi { w with hook_log := w.hook_log ++ [addr] }

theorem mmc3_track_a12_nmi (addr : Nat) (w : World) :
    (mmc3_track_a12 addr w).cpu.nmi_calls = w.cpu.nmi_calls := by
  unfold mmc3_track_a12
  by_cases hr : (!w.a12_prev && ((addr &&& 0x1000) != 0)) = true
  · by_cases hc : 3 ≤ w.mmc3_a12_low_m2_count
    · cases hh : w.mapper_ppu_hook with
      | none => simp [hr, hc, hh]
      | some h =>
        have a := call_mapper_hook_nmi h (addr &&& 0x1FFF) w
        simp [hr, hc, hh, a]
    · simp [hr, hc]
  · simp [hr]

/-- Machines with the same `ppu` record and NMI count have the same view. -/
theorem sview_congr (w w' : World) (h1 : w'.ppu = w.ppu)
    (h2 : w'.cpu.nmi_calls = w.cpu.nmi_calls) : sview w' = sview w := by
  simp [sview, h1, h2]

theorem sview_track (addr : Nat) (w : World) : sview (mmc3_track_a12 addr w) = sview w :=
  sview_congr _ _ (mmc3_track_a12_ppu addr w).1 (mmc3_track_a12_nmi addr w)

theorem sview_chr_read (addr : Nat) (w : World) : sview (chr_read addr w).2 = sview w := by
  rw [chr_read_world]; exact sview_track addr w

theorem sview_bus_read (addr : Nat) (w : World) : sview (ppu_bus_read addr w).2 = sview w := by
  unfold ppu_bus_read
  simp only
  split_ifs
  all_goals first | rfl | exact sview_chr_read _ w

theorem sview_latch_sprite0 (w : World) : sview (clock_latch_sprite0 w) = sview w := by
  unfold clock_latch_sprite0; split <;> rfl

theorem sview_sprite_shift (w : World) : sview (sprite_shift w) = sview w := rfl

theorem sview_inc_x (w : World) : sview (inc_x w) = sview w := by
  unfold inc_x; split <;> rfl

theorem sview_inc_y (w : World) : sview (inc_y w) = sview w := by
  unfold inc_y; split <;> simp [sview]

theorem sview_copy_x (w : World) : sview (copy_x_from_t w) = sview w := rfl

theorem sview_copy_y (w : World) : sview (copy_y_from_t w) = sview w := rfl

theorem sview_latchfunc (b t : Nat) (w : World) : sview (call_latchfunc b t w) = sview w := by
  unfold call_latchfunc; split <;> rfl

/-- Replacing the `ppu` record by one with the same followed fields keeps the
view. -/
theorem sview_set_ppu (w : World) (p : ppu_s) (h1 : p.bg = w.ppu.bg)
    (h2 : p.status = w.ppu.status) (h3 : p.nmi_prev = w.ppu.nmi_prev)
    (h4 : p.nmi_delay = w.ppu.nmi_delay) (h5 : p.sprite_count = w.ppu.sprite_count)
    (h6 : p.oam_addr = w.ppu.oam_addr) :
    sview { w with ppu := p } = sview w := by
  simp [sview, h1, h2, h3, h4, h5, h6]

theorem sview_ite (c : Prop) [Decidable c] (a b w : World) (ha : sview a = sview w)
    (hb : sview b = sview w) : sview (if c then a else b) = sview w := by
  split <;> assumption

theorem sview_bg_fetch_nt (w : World) : sview (bg_fetch_nt w) = sview w := by
  unfold bg_fetch_nt
  exact (rfl : sview _ = sview (ppu_bus_read _ w).2).trans (sview_bus_read _ w)

theorem sview_bg_fetch_at (w : World) : sview (bg_fetch_at w) = sview w := by
  unfold bg_fetch_at
  exact (rfl : sview _ = sview (ppu_bus_read _ w).2).trans (sview_bus_read _ w)

theorem sview_bg_fetch_pt_lo (w : World) : sview (bg_fetch_pt_lo w) = sview w := by
  unfold bg_fetch_pt_lo
  exact (rfl : sview _ = sview (chr_read _ (call_latchfunc _ _ w)).2).trans
    ((sview_chr_read _ _).trans (sview_latchfunc _ _ w))

theorem sview_eval_init (w : World) : sview (clock_eval_init w) = sview w := by
  unfold clock_eval_init; split <;> rfl

theorem sview_eval_read (w : World) : sview (eval_sprite_read_primary w) = sview w := by
  unfold eval_sprite_read_primary
  simp only
  split_ifs <;> rfl

theorem sview_eval_advance (w : World) : sview (eval_advance w) = sview w := rfl

theorem sview_eval_write (w : World) : sview (eval_sprite_write_secondary w) = sview w := by
  unfold eval_sprite_write_secondary
  simp only
  split_ifs <;> rfl

theorem sview_clock_eval (w : World) : sview (clock_eval w) = sview w := by
  unfold clock_eval
  exact sview_ite _ _ _ _ (sview_ite _ _ _ _ (sview_eval_read w) (sview_eval_write w)) rfl

theorem sview_sprite_fetch_lo (h c : Nat) (w : World) :
    sview (sprite_fetch_lo h c w) = sview w := by
  unfold sprite_fetch_lo
  exact (sview_set_ppu _ _ rfl rfl rfl rfl rfl rfl).trans
    ((sview_chr_read _ _).trans
      ((sview_set_ppu _ _ rfl rfl rfl rfl rfl rfl).trans (sview_latchfunc _ _ w)))

theorem sview_sprite_fetch_hi (w : World) : sview (sprite_fetch_hi w) = sview w := by
  unfold sprite_fetch_hi
  exact (sview_set_ppu _ _ rfl rfl rfl rfl rfl rfl).trans (sview_chr_read _ w)

theorem sview_sprite_fetch_dummy (w : World) : sview (sprite_fetch_dummy w) = sview w := by
  unfold sprite_fetch_dummy
  exact sview_chr_read _ w

theorem sview_sprite_fetch_load (slot : Nat) (w : World) :
    sview (sprite_fetch_load slot w) = sview w := by
  unfold sprite_fetch_load
  exact sview_ite _ _ _ _
    ((sview_set_ppu _ _ rfl rfl rfl rfl rfl rfl).trans (sview_chr_read _ w)) (sview_chr_read _ w)

theorem sview_clock_sprite_fetch (w : World) : sview (clock_sprite_fetch w) = sview w := by
  unfold clock_sprite_fetch
  refine sview_ite _ _ _ _ ?_ rfl
  have h0 : sview { w with ppu := { w.ppu with
      spr_fetch_slot := ((w.ppu.dot - 257) % 256).toNat >>> 3,
      spr_fetch_phase := ((w.ppu.dot - 257) % 256).toNat &&& 7 } } = sview w :=
    sview_set_ppu _ _ rfl rfl rfl rfl rfl rfl
  exact sview_ite _ _ _ _ ((sview_set_ppu _ _ rfl rfl rfl rfl rfl rfl).trans h0)
    (sview_ite _ _ _ _ ((sview_set_ppu _ _ rfl rfl rfl rfl rfl rfl).trans h0)
    (sview_ite _ _ _ _ ((sview_set_ppu _ _ rfl rfl rfl rfl rfl rfl).trans h0)
    (sview_ite _ _ _ _ ((sview_set_ppu _ _ rfl rfl rfl rfl rfl rfl).trans h0)
    (sview_ite _ _ _ _ ((sview_sprite_fetch_lo _ _ _).trans h0)
    (sview_ite _ _ _ _ ((sview_sprite_fetch_hi _).trans h0)
    (sview_ite _ _ _ _ ((sview_sprite_fetch_dummy _).trans h0)
      ((sview_sprite_fetch_load _ _).trans h0)))))))

theorem sview_dot321 (w : World) : sview (clock_dot321 w) = sview w := by
  unfold clock_dot321; split <;> rfl

theorem sview_INC_DOT (w : World) : sview (INC_DOT w) = sview w := by
  unfold INC_DOT
  split_ifs <;> rfl

theorem sview_clock_odd_skip (w : World) : sview (clock_odd_skip w) = sview w := by
  unfold clock_odd_skip
  exact sview_ite _ _ _ _ (sview_INC_DOT w) rfl

theorem sview_clock_frame_end (w : World) : sview (clock_frame_end w) = sview w := by
  unfold clock_frame_end
  split <;> rfl

theorem sview_apply_emphasis (idx mask : Nat) (w : World) :
    sview (apply_emphasis_idx idx mask w).2 = sview w := by
  unfold apply_emphasis_idx init_emphasis_lut
  dsimp only
  split <;> rfl

/-! ### The blocks that change the `StatView` -/

/-- `nmi_step` counts the delay down and calls `nes_nmi` when it reaches 0 with
the NMI condition still asserted. -/
theorem sview_nmi_step (w : World) :
    sview (nmi_step w) =
      { sview w with
        nmi_delay := w.ppu.nmi_delay - 1,
        nmi_calls := if w.ppu.nmi_delay = 1 ∧ (w.ppu.ctrl &&& 0x80) ≠ 0 ∧
            (w.ppu.status &&& 0x80) ≠ 0 then w.cpu.nmi_calls + 1 else w.cpu.nmi_calls } := by
  unfold nmi_step nes_nmi
  by_cases h0 : 0 < w.ppu.nmi_delay
  · rw [if_pos h0]
    dsimp only
    by_cases h1 : w.ppu.nmi_delay - 1 = 0 ∧ (w.ppu.ctrl &&& 0x80) ≠ 0 ∧
        (w.ppu.status &&& 0x80) ≠ 0
    · rw [if_pos h1, if_pos ⟨by omega, h1.2⟩]
      rfl
    · rw [if_neg h1, if_neg (fun h => h1 ⟨by omega, h.2⟩)]
      rfl
  · rw [if_neg h0, if_neg (fun h => h0 (by omega))]
    have e : w.ppu.nmi_delay - 1 = w.ppu.nmi_delay := by omega
    simp only [sview, e]

/-- `sprite0_hit` can only set bit 6 of PPUSTATUS, and only with the background
shown and away from dot 255. -/
theorem sview_sprite0_hit (i : Nat) (w : World) :
    sview (sprite0_hit i w) = sview w ∨
    (sview (sprite0_hit i w) = { sview w with status := w.ppu.status ||| 0x40 } ∧
      (w.ppu.mask &&& 0x08) ≠ 0 ∧ w.ppu.dot ≠ 255) := by
  unfold sprite0_hit
  dsimp only
  by_cases c1 : i = w.ppu.sprite0_slot_this ∧ w.ppu.sprite_zero_this = true ∧
      (w.ppu.mask &&& 0x08) ≠ 0 ∧ ((w.ppu.mask &&& 0x02) ≠ 0 ∨ 8 < w.ppu.dot)
  · rw [if_pos c1]
    by_cases c2 : (((w.ppu.bg.pt_lo &&& (0x8000 >>> w.ppu.x)) != 0) ||
        ((w.ppu.bg.pt_hi &&& (0x8000 >>> w.ppu.x)) != 0)) = true ∧ w.ppu.dot = 255
    · rw [if_pos c2]; exact Or.inl rfl
    · rw [if_neg c2]
      by_cases c3 : (((w.ppu.bg.pt_lo &&& (0x8000 >>> w.ppu.x)) != 0) ||
          ((w.ppu.bg.pt_hi &&& (0x8000 >>> w.ppu.x)) != 0)) = true ∧ w.ppu.dot ≠ 255
      · rw [if_pos c3]; exact Or.inr ⟨rfl, c1.2.2.1, c3.2⟩
      · rw [if_neg c3]; exact Or.inl rfl
  · rw [if_neg c1]; exact Or.inl rfl

theorem sview_sprite_pixel_loop (n i : Nat) (w : World) :
    sview (sprite_pixel_loop n i w).2 = sview w ∨
    (sview (sprite_pixel_loop n i w).2 = { sview w with status := w.ppu.status ||| 0x40 } ∧
      (w.ppu.mask &&& 0x08) ≠ 0 ∧ w.ppu.dot ≠ 255) := by
  induction n generalizing i with
  | zero => exact Or.inl rfl
  | succ n ih =>
    unfold sprite_pixel_loop
    simp only
    split_ifs
    all_goals first | exact ih _ | exact sview_sprite0_hit i w

theorem sview_sprite_pixel (w : World) :
    sview (sprite_pixel w).2 = sview w ∨
    (sview (sprite_pixel w).2 = { sview w with status := w.ppu.status ||| 0x40 } ∧
      (w.ppu.mask &&& 0x08) ≠ 0 ∧ w.ppu.dot ≠ 255) := by
  unfold sprite_pixel
  split_ifs
  all_goals first | exact Or.inl rfl | exact sview_sprite_pixel_loop 8 0 w

theorem sview_set_fb (w : World) (f : Int → Nat) :
    sview { w with ppu := { w.ppu with fb := f } } = sview w := rfl

/-- Block 1 can only set bit 6 of PPUSTATUS, on a visible dot with the
background shown and away from dot 255. -/
theorem sview_clock_pixel (w : World) :
    sview (clock_pixel w) = sview w ∨
    (sview (clock_pixel w) = { sview w with status := w.ppu.status ||| 0x40 } ∧
      (w.ppu.mask &&& 0x08) ≠ 0 ∧ w.ppu.dot ≠ 255 ∧ IS_VISIBLE_LINE w = true ∧
      1 ≤ w.ppu.dot ∧ w.ppu.dot ≤ 256) := by
  unfold clock_pixel
  by_cases c0 : IS_VISIBLE_LINE w = true ∧ 1 ≤ w.ppu.dot ∧ w.ppu.dot ≤ 256
  · rw [if_pos c0]
    dsimp only
    have key : ∀ X : World, sview X = sview (sprite_pixel w).2 →
        (sview X = sview w ∨
        (sview X = { sview w with status := w.ppu.status ||| 0x40 } ∧
          (w.ppu.mask &&& 0x08) ≠ 0 ∧ w.ppu.dot ≠ 255 ∧ IS_VISIBLE_LINE w = true ∧
          1 ≤ w.ppu.dot ∧ w.ppu.dot ≤ 256)) := by
      intro X hX
      rcases sview_sprite_pixel w with h | ⟨h, h1, h2⟩
      · exact Or.inl (hX.trans h)
      · exact Or.inr ⟨hX.trans h, h1, h2, c0⟩
    apply key
    split_ifs
    all_goals first
      | rfl
      | exact (sview_set_fb _ _).trans (sview_apply_emphasis _ _ _)
  · rw [if_neg c0]; exact Or.inl rfl

theorem sview_bg_shift (w : World) : sview (bg_shift w) = sv_bg_shift (sview w) := rfl

/-- Block 2: the shift window. -/
theorem sview_clock_shift (w : World) :
    sview (clock_shift w) = sv_shift (RENDERING_ENABLED w) w.ppu.dot (sview w) := by
  by_cases hr : RENDERING_ENABLED w = true
  · by_cases hw : (2 ≤ w.ppu.dot ∧ w.ppu.dot ≤ 257) ∨ (321 ≤ w.ppu.dot ∧ w.ppu.dot ≤ 336)
    · have eR : sv_shift (RENDERING_ENABLED w) w.ppu.dot (sview w) = sv_bg_shift (sview w) :=
        if_pos ⟨hr, hw⟩
      rw [eR]
      unfold clock_shift
      rw [if_pos hr]
      dsimp only
      rw [if_pos hw]
      exact (sview_ite _ _ _ _ (sview_sprite_shift _) rfl).trans (sview_bg_shift w)
    · have eR : sv_shift (RENDERING_ENABLED w) w.ppu.dot (sview w) = sview w :=
        if_neg (fun h => hw h.2)
      rw [eR]
      unfold clock_shift
      rw [if_pos hr]
      dsimp only
      rw [if_neg hw]
      exact sview_ite _ _ _ _ (sview_sprite_shift _) rfl
  · have eR : sv_shift (RENDERING_ENABLED w) w.ppu.dot (sview w) = sview w :=
      if_neg (fun h => hr h.1)
    rw [eR]
    unfold clock_shift
    rw [if_neg hr]

theorem reload_low_byte (x n : Nat) : (((x &&& 0x00FF) ||| (n <<< 8)) % 65536) % 256 = x % 256 := by
  have e1 : x &&& 0x00FF = x % 256 := Nat.and_pow_two_sub_one_eq_mod x 8
  have e2 : n <<< 8 = 2 ^ 8 * n := by rw [Nat.shiftLeft_eq, Nat.mul_comm]
  have hlt : x % 256 < 2 ^ 8 := Nat.mod_lt _ (by decide)
  rw [e1, e2, Nat.lor_comm, ← Nat.mul_add_lt_is_or hlt n]
  omega

theorem reload_low_byte_attr (x : Nat) (c : Prop) [Decidable c] :
    ((x &&& 0x00FF) ||| ((if c then 0xFFFF else 0x0000) &&& 0xFF00)) % 256 = x % 256 := by
  have e1 : x &&& 0x00FF = x % 256 := Nat.and_pow_two_sub_one_eq_mod x 8
  have hlt : x % 256 < 2 ^ 8 := Nat.mod_lt _ (by decide)
  by_cases h : c
  · rw [if_pos h, e1]
    have e2 : (0xFFFF &&& 0xFF00 : Nat) = 2 ^ 8 * 255 := by decide
    rw [e2, Nat.lor_comm, ← Nat.mul_add_lt_is_or hlt 255]
    omega
  · rw [if_neg h, e1]
    have e2 : (0x0000 &&& 0xFF00 : Nat) = 0 := by decide
    rw [e2, Nat.or_zero, Nat.mod_mod]

/-- What a reload of the shifters does to the view: the high bytes are
replaced, the low bytes and everything else stay. -/
theorem sview_reload (w : World) : sv_reloaded (sview w) (sview (bg_reload_shifters w)) := by
  unfold sv_reloaded bg_reload_shifters sview
  dsimp only
  exact ⟨reload_low_byte _ _, reload_low_byte _ _, reload_low_byte_attr _ _,
    reload_low_byte_attr _ _, rfl, rfl, rfl, rfl, rfl, rfl⟩

theorem sv_reloaded_of_eq {s s2 s3 : StatView} (h : s3 = s2) (g : sv_reloaded s s2) :
    sv_reloaded s s3 := h ▸ g

theorem sview_bg_fetch_pt_hi (w : World) : sv_reloaded (sview w) (sview (bg_fetch_pt_hi w)) := by
  unfold bg_fetch_pt_hi
  dsimp only
  have h := sview_reload { (chr_read ((((if (w.ppu.ctrl &&& 0x10) ≠ 0 then 0x1000 else 0x0000)
      + w.ppu.bg.next_nt * 16 + ((w.ppu.v >>> 12) &&& 7) + 8) % 65536)) w).2 with
      ppu := { (chr_read ((((if (w.ppu.ctrl &&& 0x10) ≠ 0 then 0x1000 else 0x0000)
      + w.ppu.bg.next_nt * 16 + ((w.ppu.v >>> 12) &&& 7) + 8) % 65536)) w).2.ppu with
        bg := { (chr_read ((((if (w.ppu.ctrl &&& 0x10) ≠ 0 then 0x1000 else 0x0000)
      + w.ppu.bg.next_nt * 16 + ((w.ppu.v >>> 12) &&& 7) + 8) % 65536)) w).2.ppu.bg with
          next_pt_hi := (chr_read ((((if (w.ppu.ctrl &&& 0x10) ≠ 0 then 0x1000 else 0x0000)
      + w.ppu.bg.next_nt * 16 + ((w.ppu.v >>> 12) &&& 7) + 8) % 65536)) w).1 % 256 } } }
  have e : sview { (chr_read ((((if (w.ppu.ctrl &&& 0x10) ≠ 0 then 0x1000 else 0x0000)
      + w.ppu.bg.next_nt * 16 + ((w.ppu.v >>> 12) &&& 7) + 8) % 65536)) w).2 with
      ppu := { (chr_read ((((if (w.ppu.ctrl &&& 0x10) ≠ 0 then 0x1000 else 0x0000)
      + w.ppu.bg.next_nt * 16 + ((w.ppu.v >>> 12) &&& 7) + 8) % 65536)) w).2.ppu with
        bg := { (chr_read ((((if (w.ppu.ctrl &&& 0x10) ≠ 0 then 0x1000 else 0x0000)
      + w.ppu.bg.next_nt * 16 + ((w.ppu.v >>> 12) &&& 7) + 8) % 65536)) w).2.ppu.bg with
          next_pt_hi := (chr_read ((((if (w.ppu.ctrl &&& 0x10) ≠ 0 then 0x1000 else 0x0000)
      + w.ppu.bg.next_nt * 16 + ((w.ppu.v >>> 12) &&& 7) + 8) % 65536)) w).1 % 256 } } }
      = sview w := (rfl : sview _ = sview (chr_read _ w).2).trans (sview_chr_read _ w)
  rw [e] at h
  exact h

theorem sv_reloaded_refl_of_eq {s s2 : StatView} (h : s2 = s) : sv_reloaded s s2 := by
  subst h
  exact ⟨rfl, rfl, rfl, rfl, rfl, rfl, rfl, rfl, rfl, rfl⟩

/-- The switch of `bg_fetch`: the view changes only at `cyc = 7`, by a reload. -/
theorem sview_bg_fetch_switch (w : World) :
    sview (bg_fetch_switch w) = sview w ∨
    (sv_reloaded (sview w) (sview (bg_fetch_switch w)) ∧ w.ppu.dot % 8 = 7) := by
  unfold bg_fetch_switch
  dsimp only
  by_cases c1 : w.ppu.dot % 8 = 1
  · rw [if_pos c1]; exact Or.inl (sview_bg_fetch_nt w)
  rw [if_neg c1]
  by_cases c3 : w.ppu.dot % 8 = 3
  · rw [if_pos c3]; exact Or.inl (sview_bg_fetch_at w)
  rw [if_neg c3]
  by_cases c5 : w.ppu.dot % 8 = 5
  · rw [if_pos c5]; exact Or.inl (sview_bg_fetch_pt_lo w)
  rw [if_neg c5]
  by_cases c7 : w.ppu.dot % 8 = 7
  · rw [if_pos c7]; exact Or.inr ⟨sview_bg_fetch_pt_hi w, c7⟩
  rw [if_neg c7]; exact Or.inl rfl

theorem sview_bg_fetch (w : World) :
    sview (bg_fetch w) = sview w ∨
    (sv_reloaded (sview w) (sview (bg_fetch w)) ∧ w.ppu.dot % 8 = 7) := by
  unfold bg_fetch
  dsimp only
  by_cases c0 : w.ppu.dot % 8 = 0
  · rw [if_pos c0]
    rcases sview_bg_fetch_switch w with h | ⟨-, h7⟩
    · exact Or.inl ((sview_inc_x _).trans h)
    · omega
  · rw [if_neg c0]; exact sview_bg_fetch_switch w

theorem sview_clock_bg_tail (w1 : World) :
    sview (if w1.ppu.dot = 256 then inc_y w1
      else if w1.ppu.dot = 257 then copy_x_from_t w1
      else if IS_PRERENDER_LINE w1 = true ∧ 280 ≤ w1.ppu.dot ∧ w1.ppu.dot ≤ 304 then
        copy_y_from_t w1
      else w1) = sview w1 :=
  sview_ite _ _ _ _ (sview_inc_y _) (sview_ite _ _ _ _ (sview_copy_x _)
    (sview_ite _ _ _ _ (sview_copy_y _) rfl))

/-- Block 3: the view changes only by a reload, on a rendering line, in a
fetch window, at a dot with `dot & 7 = 7`. -/
theorem sview_clock_bg (w : World) :
    sview (clock_bg w) = sview w ∨
    (sv_reloaded (sview w) (sview (clock_bg w)) ∧ RENDERING_ENABLED w = true ∧
      (IS_VISIBLE_LINE w = true ∨ IS_PRERENDER_LINE w = true) ∧
      ((1 ≤ w.ppu.dot ∧ w.ppu.dot ≤ 256) ∨ (321 ≤ w.ppu.dot ∧ w.ppu.dot ≤ 340)) ∧
      w.ppu.dot % 8 = 7) := by
  unfold clock_bg
  by_cases c0 : RENDERING_ENABLED w = true ∧
      (IS_VISIBLE_LINE w = true ∨ IS_PRERENDER_LINE w = true)
  · rw [if_pos c0]
    dsimp only
    rw [sview_clock_bg_tail]
    by_cases cw : (1 ≤ w.ppu.dot ∧ w.ppu.dot ≤ 256) ∨ (321 ≤ w.ppu.dot ∧ w.ppu.dot ≤ 340)
    · rw [if_pos cw]
      rcases sview_bg_fetch w with h | ⟨h, h7⟩
      · exact Or.inl h
      · exact Or.inr ⟨h, c0.1, c0.2, cw, h7⟩
    · rw [if_neg cw]; exact Or.inl rfl
  · rw [if_neg c0]; exact Or.inl rfl

/-- The latches of dot 257. -/
theorem sview_dot257 (w : World) :
    sview (clock_dot257 w) =
      sv_dot257 w.ppu.dot w.ppu.eval_overflow w.ppu.eval_sec_idx (sview w) := by
  unfold clock_dot257 sv_dot257
  by_cases h : w.ppu.dot = 257
  · rw [if_pos h, if_pos h]; rfl
  · rw [if_neg h, if_neg h]

theorem sview_nmi_check (w : World) :
    sview (nmi_check w) = sv_nmi_check w.ppu.ctrl w.ppu_is_pal (sview w) := by
  unfold nmi_check sv_nmi_check
  dsimp only
  by_cases h : ((((w.ppu.ctrl &&& 0x80) != 0) && ((w.ppu.status &&& 0x80) != 0)) &&
      !w.ppu.nmi_prev) = true
  · rw [if_pos h]
    simp only [sview]
    rw [if_pos h]
  · rw [if_neg h]
    simp only [sview]
    rw [if_neg h]

theorem sview_set_status (w : World) (x : Nat) :
    sview { w with ppu := { w.ppu with status := x } } = { sview w with status := x } := rfl

theorem nmi_check_fields (w : World) :
    (nmi_check w).ppu.dot = w.ppu.dot ∧ (nmi_check w).ppu.scanline = w.ppu.scanline ∧
    (nmi_check w).ppu.ctrl = w.ppu.ctrl ∧ (nmi_check w).ppu_is_pal = w.ppu_is_pal ∧
    (nmi_check w).ppu.status = w.ppu.status := by
  unfold nmi_check
  dsimp only
  split_ifs <;> exact ⟨rfl, rfl, rfl, rfl, rfl⟩

theorem sview_clock_vblank_set (w : World) :
    sview (clock_vblank_set w) =
      (if w.ppu.scanline = 241 ∧ w.ppu.dot = 1 then
        sv_nmi_check w.ppu.ctrl w.ppu_is_pal { sview w with status := (sview w).status ||| 0x80 }
       else sview w) ∧
    (clock_vblank_set w).ppu.dot = w.ppu.dot ∧
    (clock_vblank_set w).ppu.scanline = w.ppu.scanline ∧
    (clock_vblank_set w).ppu.ctrl = w.ppu.ctrl ∧
    (clock_vblank_set w).ppu_is_pal = w.ppu_is_pal := by
  unfold clock_vblank_set
  by_cases h : w.ppu.scanline = 241 ∧ w.ppu.dot = 1
  · rw [if_pos h, if_pos h, sview_nmi_check]
    obtain ⟨a, b, c, d, -⟩ := nmi_check_fields
      { w with ppu := { w.ppu with status := w.ppu.status ||| 0x80 } }
    exact ⟨rfl, a, b, c, d⟩
  · rw [if_neg h, if_neg h]
    exact ⟨rfl, rfl, rfl, rfl, rfl⟩

theorem sview_clock_vblank_clear (w : World) :
    sview (clock_vblank_clear w) =
      (if IS_PRERENDER_LINE w = true ∧ w.ppu.dot = 1 then
        sv_nmi_check w.ppu.ctrl w.ppu_is_pal { sview w with status := (sview w).status &&& 0x1F }
       else sview w) := by
  unfold clock_vblank_clear
  by_cases h : IS_PRERENDER_LINE w = true ∧ w.ppu.dot = 1
  · rw [if_pos h, if_pos h, sview_nmi_check]
    rfl
  · rw [if_neg h, if_neg h]

/-- Block 5: VBlank set and clear, each followed by `nmi_check`. -/
theorem sview_clock_vblank (w : World) :
    sview (clock_vblank w) =
      sv_vblank w.ppu.scanline w.ppu.dot (IS_PRERENDER_LINE w) w.ppu.ctrl w.ppu_is_pal
        (sview w) := by
  obtain ⟨h1, vd, vs, vc, vp⟩ := sview_clock_vblank_set w
  have vpre : IS_PRERENDER_LINE (clock_vblank_set w) = IS_PRERENDER_LINE w := by
    unfold IS_PRERENDER_LINE
    rw [vs, vp]
  unfold clock_vblank sv_vblank
  rw [sview_clock_vblank_clear, vpre, vd, vc, vp, h1]

/-! ### The view after one `ppu_clock` -/

theorem core_fields {a w : World} (h : core a = core w) :
    a.ppu.dot = w.ppu.dot ∧ a.ppu.scanline = w.ppu.scanline ∧ a.ppu.mask = w.ppu.mask ∧
    a.ppu_is_pal = w.ppu_is_pal ∧ RENDERING_ENABLED a = RENDERING_ENABLED w ∧
    IS_VISIBLE_LINE a = IS_VISIBLE_LINE w ∧ IS_PRERENDER_LINE a = IS_PRERENDER_LINE w := by
  have b := (beam_of_core h).1
  have d : a.ppu.dot = w.ppu.dot := congrArg Beam.dot b
  have s : a.ppu.scanline = w.ppu.scanline := congrArg Beam.scanline b
  have m : a.ppu.mask = w.ppu.mask := congrArg Beam.mask b
  have p : a.ppu_is_pal = w.ppu_is_pal := congrArg Beam.is_pal b
  refine ⟨d, s, m, p, ?_, ?_, ?_⟩
  · unfold RENDERING_ENABLED; rw [m]
  · unfold IS_VISIBLE_LINE; rw [s]
  · unfold IS_PRERENDER_LINE; rw [s, p]

theorem ctrl_of_evalv {p q : ppu_s} (h : evalv p = evalv q) : p.ctrl = q.ctrl :=
  congrArg EvalView.ctrl h

theorem ctrl_eval_init (w : World) : (clock_eval_init w).ppu.ctrl = w.ppu.ctrl := by
  unfold clock_eval_init; split <;> rfl

theorem ctrl_eval_read (w : World) : (eval_sprite_read_primary w).ppu.ctrl = w.ppu.ctrl := by
  unfold eval_sprite_read_primary
  simp only
  split_ifs <;> rfl

theorem ctrl_eval_write (w : World) :
    (eval_sprite_write_secondary w).ppu.ctrl = w.ppu.ctrl := by
  unfold eval_sprite_write_secondary
  simp only
  split_ifs <;> rfl

theorem ctrl_clock_eval (w : World) : (clock_eval w).ppu.ctrl = w.ppu.ctrl := by
  unfold clock_eval
  split
  · split
    · exact ctrl_eval_read w
    · exact ctrl_eval_write w
  · rfl

theorem ctrl_dot257 (w : World) : (clock_dot257 w).ppu.ctrl = w.ppu.ctrl := by
  unfold clock_dot257; split <;> rfl

theorem sview_nmi_step_eq (w : World) :
    sview (nmi_step w) = sv_nmi_step w.ppu.ctrl (sview w) := sview_nmi_step w

/-- At dot 257 the evaluation blocks of `ppu_clock` do nothing. -/
theorem eval_blocks_at_257 (w : World) (h : w.ppu.dot = 257) :
    clock_eval (clock_eval_init w) = w := by
  have e1 : clock_eval_init w = w := by
    unfold clock_eval_init
    rw [if_neg (by omega)]
  rw [e1]
  unfold clock_eval
  rw [if_neg (by omega)]

theorem sv_dot257_congr (d : Int) (o1 o2 : Bool) (i1 i2 : Nat) (s : StatView)
    (h : d = 257 → o1 = o2 ∧ i1 = i2) : sv_dot257 d o1 i1 s = sv_dot257 d o2 i2 s := by
  unfold sv_dot257
  by_cases hd : d = 257
  · obtain ⟨a, b⟩ := h hd
    rw [a, b]
  · rw [if_neg hd, if_neg hd]

/-- The view after one `ppu_clock`: the NMI countdown, then a possible
sprite-0 hit (`s2`), the shift of block 2, a possible reload in block 3
(`s4`), the latches of dot 257 and the VBlank block. -/
theorem sview_ppu_clock (w : World) :
    ∃ s2 s4 : StatView,
      (s2 = sv_nmi_step w.ppu.ctrl (sview w) ∨
        (s2 = { sv_nmi_step w.ppu.ctrl (sview w) with status := w.ppu.status ||| 0x40 } ∧
          (w.ppu.mask &&& 0x08) ≠ 0 ∧ w.ppu.dot ≠ 255 ∧ IS_VISIBLE_LINE w = true ∧
          1 ≤ w.ppu.dot ∧ w.ppu.dot ≤ 256)) ∧
      (s4 = sv_shift (RENDERING_ENABLED w) w.ppu.dot s2 ∨
        (sv_reloaded (sv_shift (RENDERING_ENABLED w) w.ppu.dot s2) s4 ∧
          RENDERING_ENABLED w = true ∧
          (IS_VISIBLE_LINE w = true ∨ IS_PRERENDER_LINE w = true) ∧
          ((1 ≤ w.ppu.dot ∧ w.ppu.dot ≤ 256) ∨ (321 ≤ w.ppu.dot ∧ w.ppu.dot ≤ 340)) ∧
          w.ppu.dot % 8 = 7)) ∧
      sview (ppu_clock w) =
        sv_vblank w.ppu.scanline w.ppu.dot (IS_PRERENDER_LINE w) w.ppu.ctrl w.ppu_is_pal
          (sv_dot257 w.ppu.dot w.ppu.eval_overflow w.ppu.eval_sec_idx s4) := by
  -- blocks 0 and 1
  obtain ⟨A1, hA1⟩ : ∃ A1 : World, A1 = clock_latch_sprite0 (nmi_step w) := ⟨_, rfl⟩
  have c1 : core A1 = core w := by rw [hA1, core_latch_sprite0, core_nmi_step]
  have v1 : sview A1 = sv_nmi_step w.ppu.ctrl (sview w) := by
    rw [hA1, sview_latch_sprite0, sview_nmi_step_eq]
  have e1 : evalv A1.ppu = evalv w.ppu := by
    rw [hA1]
    exact (evalv_of_rview (rview_latch_sprite0 _)).trans (evalv_of_rview (rview_nmi_step w))
  obtain ⟨d1, l1, m1, p1, r1, vis1, pre1⟩ := core_fields c1
  have st1 : A1.ppu.status = w.ppu.status := by
    have := congrArg StatView.status v1
    exact this
  obtain ⟨A2, hA2⟩ : ∃ A2 : World, A2 = clock_pixel A1 := ⟨_, rfl⟩
  have c2 : core A2 = core w := by rw [hA2, core_clock_pixel, c1]
  have e2 : evalv A2.ppu = evalv w.ppu := by rw [hA2]; exact (evalv_clock_pixel _).trans e1
  obtain ⟨d2, l2, m2, p2, r2, vis2, pre2⟩ := core_fields c2
  have v2 : sview A2 = sv_nmi_step w.ppu.ctrl (sview w) ∨
      (sview A2 = { sv_nmi_step w.ppu.ctrl (sview w) with status := w.ppu.status ||| 0x40 } ∧
        (w.ppu.mask &&& 0x08) ≠ 0 ∧ w.ppu.dot ≠ 255 ∧ IS_VISIBLE_LINE w = true ∧
        1 ≤ w.ppu.dot ∧ w.ppu.dot ≤ 256) := by
    rw [hA2]
    rcases sview_clock_pixel A1 with h | ⟨h, g1, g2, g3, g4, g5⟩
    · exact Or.inl (h.trans v1)
    · rw [v1, st1] at h
      rw [m1] at g1
      rw [d1] at g2 g4 g5
      rw [vis1] at g3
      exact Or.inr ⟨h, g1, g2, g3, g4, g5⟩
  -- blocks 2 and 3
  obtain ⟨A3, hA3⟩ : ∃ A3 : World, A3 = clock_shift A2 := ⟨_, rfl⟩
  have c3 : core A3 = core w := by rw [hA3, core_clock_shift, c2]
  have e3 : evalv A3.ppu = evalv w.ppu := by
    rw [hA3]; exact (evalv_of_rview (rview_clock_shift _)).trans e2
  have v3 : sview A3 = sv_shift (RENDERING_ENABLED w) w.ppu.dot (sview A2) := by
    rw [hA3, sview_clock_shift, r2, d2]
  obtain ⟨d3, l3, m3, p3, r3, vis3, pre3⟩ := core_fields c3
  obtain ⟨A4, hA4⟩ : ∃ A4 : World, A4 = clock_bg A3 := ⟨_, rfl⟩
  have c4 : core A4 = core w := by rw [hA4, core_clock_bg, c3]
  have e4 : evalv A4.ppu = evalv w.ppu := by
    rw [hA4]; exact (evalv_of_rview (rview_clock_bg _)).trans e3
  obtain ⟨d4, l4, m4, p4, r4, vis4, pre4⟩ := core_fields c4
  have v4 : sview A4 = sv_shift (RENDERING_ENABLED w) w.ppu.dot (sview A2) ∨
      (sv_reloaded (sv_shift (RENDERING_ENABLED w) w.ppu.dot (sview A2)) (sview A4) ∧
        RENDERING_ENABLED w = true ∧
        (IS_VISIBLE_LINE w = true ∨ IS_PRERENDER_LINE w = true) ∧
        ((1 ≤ w.ppu.dot ∧ w.ppu.dot ≤ 256) ∨ (321 ≤ w.ppu.dot ∧ w.ppu.dot ≤ 340)) ∧
        w.ppu.dot % 8 = 7) := by
    rw [hA4]
    rcases sview_clock_bg A3 with h | ⟨h, g1, g2, g3, g4⟩
    · exact Or.inl (h.trans v3)
    · rw [v3] at h
      rw [r3] at g1
      rw [vis3, pre3] at g2
      rw [d3] at g3 g4
      exact Or.inr ⟨h, g1, g2, g3, g4⟩
  -- the evaluation blocks and dot 257
  obtain ⟨A6, hA6⟩ : ∃ A6 : World, A6 = clock_eval (clock_eval_init A4) := ⟨_, rfl⟩
  have c6 : core A6 = core w := by rw [hA6, core_clock_eval, core_eval_init, c4]
  have v6 : sview A6 = sview A4 := by rw [hA6, sview_clock_eval, sview_eval_init]
  have k6 : A6.ppu.ctrl = w.ppu.ctrl := by
    rw [hA6, ctrl_clock_eval, ctrl_eval_init]; exact ctrl_of_evalv e4
  obtain ⟨d6, l6, m6, p6, r6, vis6, pre6⟩ := core_fields c6
  have o6 : A6.ppu.dot = 257 → A6.ppu.eval_overflow = w.ppu.eval_overflow ∧
      A6.ppu.eval_sec_idx = w.ppu.eval_sec_idx := by
    intro h
    have h4 : A4.ppu.dot = 257 := by rw [d4, ← d6]; exact h
    have e : A6 = A4 := by rw [hA6]; exact eval_blocks_at_257 A4 h4
    rw [e]
    exact ⟨congrArg EvalView.eval_overflow e4, congrArg EvalView.eval_sec_idx e4⟩
  obtain ⟨A7, hA7⟩ : ∃ A7 : World, A7 = clock_dot257 A6 := ⟨_, rfl⟩
  have c7 : core A7 = core w := by rw [hA7, core_dot257, c6]
  have k7 : A7.ppu.ctrl = w.ppu.ctrl := by rw [hA7, ctrl_dot257, k6]
  have v7 : sview A7 = sv_dot257 w.ppu.dot w.ppu.eval_overflow w.ppu.eval_sec_idx (sview A4) := by
    rw [hA7, sview_dot257, v6, ← d6]
    exact sv_dot257_congr _ _ _ _ _ _ o6
  -- the sprite fetch and dot 321
  obtain ⟨A9, hA9⟩ : ∃ A9 : World, A9 = clock_dot321 (clock_sprite_fetch A7) := ⟨_, rfl⟩
  have c9 : core A9 = core w := by rw [hA9, core_dot321, core_clock_sprite_fetch, c7]
  have v9 : sview A9 = sview A7 := by rw [hA9, sview_dot321, sview_clock_sprite_fetch]
  have k9 : A9.ppu.ctrl = w.ppu.ctrl := by
    rw [hA9]
    exact (ctrl_of_evalv ((evalv_of_rview (rview_dot321 _)).trans
      (evalv_of_rview (rview_clock_sprite_fetch _)))).trans k7
  obtain ⟨d9, l9, m9, p9, r9, vis9, pre9⟩ := core_fields c9
  -- the rest
  have fin : sview (ppu_clock w) = sview (clock_vblank A9) := by
    unfold ppu_clock
    dsimp only
    rw [← hA1, ← hA2, ← hA3, ← hA4, ← hA6, ← hA7, ← hA9, sview_clock_frame_end, sview_INC_DOT,
      sview_clock_odd_skip]
  refine ⟨sview A2, sview A4, v2, v4, ?_⟩
  rw [fin, sview_clock_vblank, l9, d9, pre9, k9, p9, v9, v7]

/-! ### The background shift window -/

theorem regs4_of_sview {a b : World} (h : sview a = sview b) : regs4 a = regs4 b := by
  have h1 : a.ppu.bg.pt_lo = b.ppu.bg.pt_lo := congrArg StatView.pt_lo h
  have h2 : a.ppu.bg.pt_hi = b.ppu.bg.pt_hi := congrArg StatView.pt_hi h
  have h3 : a.ppu.bg.at_lo = b.ppu.bg.at_lo := congrArg StatView.at_lo h
  have h4 : a.ppu.bg.at_hi = b.ppu.bg.at_hi := congrArg StatView.at_hi h
  unfold regs4
  rw [h1, h2, h3, h4]

/-- The four registers of a view. -/
theorem regs4_eq (w : World) :
    regs4 w = ((sview w).pt_lo, (sview w).pt_hi, (sview w).at_lo, (sview w).at_hi) := rfl

theorem sv_vblank_regs (l d : Int) (pre : Bool) (c : Nat) (p : Bool) (s : StatView) :
    (sv_vblank l d pre c p s).pt_lo = s.pt_lo ∧ (sv_vblank l d pre c p s).pt_hi = s.pt_hi ∧
    (sv_vblank l d pre c p s).at_lo = s.at_lo ∧ (sv_vblank l d pre c p s).at_hi = s.at_hi ∧
    (sv_vblank l d pre c p s).sprite_count = s.sprite_count ∧
    (sv_vblank l d pre c p s).oam_addr = s.oam_addr ∧
    (sv_vblank l d pre c p s).nmi_calls = s.nmi_calls := by
  unfold sv_vblank sv_nmi_check
  dsimp only
  split_ifs <;> exact ⟨rfl, rfl, rfl, rfl, rfl, rfl, rfl⟩

theorem sv_dot257_regs (d : Int) (o : Bool) (i : Nat) (s : StatView) :
    (sv_dot257 d o i s).pt_lo = s.pt_lo ∧ (sv_dot257 d o i s).pt_hi = s.pt_hi ∧
    (sv_dot257 d o i s).at_lo = s.at_lo ∧ (sv_dot257 d o i s).at_hi = s.at_hi ∧
    (sv_dot257 d o i s).nmi_prev = s.nmi_prev ∧ (sv_dot257 d o i s).nmi_delay = s.nmi_delay ∧
    (sv_dot257 d o i s).nmi_calls = s.nmi_calls := by
  unfold sv_dot257
  split_ifs <;> exact ⟨rfl, rfl, rfl, rfl, rfl, rfl, rfl⟩

theorem sv_shift_rest (r : Bool) (d : Int) (s : StatView) :
    (sv_shift r d s).status = s.status ∧ (sv_shift r d s).nmi_prev = s.nmi_prev ∧
    (sv_shift r d s).nmi_delay = s.nmi_delay ∧ (sv_shift r d s).nmi_calls = s.nmi_calls ∧
    (sv_shift r d s).sprite_count = s.sprite_count ∧ (sv_shift r d s).oam_addr = s.oam_addr := by
  unfold sv_shift sv_bg_shift
  split_ifs <;> exact ⟨rfl, rfl, rfl, rfl, rfl, rfl⟩

theorem sv_shift_regs (w : World) (s2 : StatView) (h1 : s2.pt_lo = w.ppu.bg.pt_lo)
    (h2 : s2.pt_hi = w.ppu.bg.pt_hi) (h3 : s2.at_lo = w.ppu.bg.at_lo)
    (h4 : s2.at_hi = w.ppu.bg.at_hi) :
    ((sv_shift (RENDERING_ENABLED w) w.ppu.dot s2).pt_lo,
      (sv_shift (RENDERING_ENABLED w) w.ppu.dot s2).pt_hi,
      (sv_shift (RENDERING_ENABLED w) w.ppu.dot s2).at_lo,
      (sv_shift (RENDERING_ENABLED w) w.ppu.dot s2).at_hi) = regs_after_shift w := by
  unfold sv_shift regs_after_shift shift_window
  by_cases c : RENDERING_ENABLED w = true ∧
      ((2 ≤ w.ppu.dot ∧ w.ppu.dot ≤ 257) ∨ (321 ≤ w.ppu.dot ∧ w.ppu.dot ≤ 336))
  · rw [if_pos c, if_pos c]
    unfold sv_bg_shift regs4 bg_shift
    dsimp only
    rw [h1, h2, h3, h4]
  · rw [if_neg c, if_neg c]
    unfold regs4
    rw [h1, h2, h3, h4]

/-- The four registers after one `ppu_clock`: those left by block 2, unless
block 3 reloads them, which keeps their low bytes. -/
theorem regs_ppu_clock (w : World) :
    regs4 (ppu_clock w) = regs_after_shift w ∨
    (RENDERING_ENABLED w = true ∧ reload_dot w ∧
      (regs4 (ppu_clock w)).1 % 256 = (regs_after_shift w).1 % 256 ∧
      (regs4 (ppu_clock w)).2.1 % 256 = (regs_after_shift w).2.1 % 256 ∧
      (regs4 (ppu_clock w)).2.2.1 % 256 = (regs_after_shift w).2.2.1 % 256 ∧
      (regs4 (ppu_clock w)).2.2.2 % 256 = (regs_after_shift w).2.2.2 % 256) := by
  obtain ⟨s2, s4, h2, h4, hf⟩ := sview_ppu_clock w
  have e2 : s2.pt_lo = w.ppu.bg.pt_lo ∧ s2.pt_hi = w.ppu.bg.pt_hi ∧
      s2.at_lo = w.ppu.bg.at_lo ∧ s2.at_hi = w.ppu.bg.at_hi := by
    rcases h2 with h | ⟨h, -⟩ <;> rw [h] <;> exact ⟨rfl, rfl, rfl, rfl⟩
  have e3 := sv_shift_regs w s2 e2.1 e2.2.1 e2.2.2.1 e2.2.2.2
  obtain ⟨v1, v2, v3, v4, -, -, -⟩ := sv_vblank_regs w.ppu.scanline w.ppu.dot
    (IS_PRERENDER_LINE w) w.ppu.ctrl w.ppu_is_pal
    (sv_dot257 w.ppu.dot w.ppu.eval_overflow w.ppu.eval_sec_idx s4)
  obtain ⟨u1, u2, u3, u4, -, -, -⟩ := sv_dot257_regs w.ppu.dot w.ppu.eval_overflow
    w.ppu.eval_sec_idx s4
  have hr : regs4 (ppu_clock w) = (s4.pt_lo, s4.pt_hi, s4.at_lo, s4.at_hi) := by
    rw [regs4_eq, hf, v1, v2, v3, v4, u1, u2, u3, u4]
  rcases h4 with h | ⟨h, g1, g2, g3, g4⟩
  · left
    rw [hr, h, e3]
  · right
    obtain ⟨a1, a2, a3, a4, -⟩ := h
    refine ⟨g1, ⟨g2, g3, g4⟩, ?_⟩
    rw [hr, ← e3]
    exact ⟨a1, a2, a3, a4⟩

/-- On the dots that differ between the two windows, `321` and `337`, block 3
does not reload. -/
theorem no_reload_of_mod (w : World) (h : w.ppu.dot % 8 ≠ 7) : ¬ reload_dot w :=
  fun r => h r.2.2

set_option maxRecDepth 100000 in
theorem shift_window_machine_321 :
    regs4 (ppu_clock (shift_window_machine 321)) = (0x0200, 0x0200, 0x0200, 0x0200) := rfl

set_option maxRecDepth 100000 in
theorem shift_window_machine_337 :
    regs4 (ppu_clock (shift_window_machine 337)) = (0x0100, 0x0100, 0x0100, 0x0100) := rfl

/-! ### Register accesses leave the pipeline fields alone -/

theorem regview_congr {a b : World} (h : a.ppu = b.ppu) : regview a = regview b := by
  unfold regview; rw [h]

theorem regview_nmi_check (w : World) : regview (nmi_check w) = regview w := by
  unfold nmi_check
  dsimp only
  split_ifs <;> rfl

theorem regview_bus_read (a : Nat) (w : World) : regview (ppu_bus_read a w).2 = regview w :=
  regview_congr (bus_read_ppu a w)

theorem regview_ppu_read (addr : Nat) (w : World) : regview (ppu_read addr w).2 = regview w := by
  unfold ppu_read
  dsimp only
  by_cases c2 : addr &&& 7 = 2
  · rw [if_pos c2]
    unfold ppu_read_status
    dsimp only
    exact (rfl : regview _ = regview (nmi_check _)).trans (regview_nmi_check _)
  rw [if_neg c2]
  by_cases c4 : addr &&& 7 = 4
  · rw [if_pos c4]; rfl
  rw [if_neg c4]
  by_cases c7 : addr &&& 7 = 7
  · rw [if_pos c7]
    unfold ppu_read_data
    dsimp only
    by_cases cp : (w.ppu.v &&& 0x3F00) = 0x3F00
    · rw [if_pos cp]
      exact (rfl : regview _ = regview (ppu_bus_read _ (ppu_bus_read w.ppu.v w).2).2).trans
        ((regview_bus_read _ _).trans (regview_bus_read _ w))
    · rw [if_neg cp]
      exact (rfl : regview _ = regview (ppu_bus_read w.ppu.v w).2).trans (regview_bus_read _ w)
  rw [if_neg c7]
  rfl

theorem regview_pal_write (a v : Nat) (w : World) : regview (pal_write_raw a v w) = regview w := by
  unfold pal_write_raw
  dsimp only
  split_ifs <;> rfl

theorem regview_bus_write (a v : Nat) (w : World) :
    regview (ppu_bus_write a v w) = regview w := by
  unfold ppu_bus_write
  dsimp only
  by_cases c1 : a &&& 0x3FFF < 0x2000
  · rw [if_pos c1]
    refine (regview_congr (mmc3_track_a12_ppu _ _).1).trans ?_
    cases w.chrram_ptr with
    | none => rfl
    | some r =>
      dsimp only
      split_ifs <;> rfl
  rw [if_neg c1]
  by_cases c2 : a &&& 0x3FFF < 0x3F00
  · rw [if_pos c2]; rfl
  rw [if_neg c2]
  exact regview_pal_write _ _ w

theorem regview_ppu_write (addr v : Nat) (w : World) :
    regview (ppu_write addr v w) = regview w := by
  unfold ppu_write
  dsimp only
  by_cases c0 : addr &&& 7 = 0
  · rw [if_pos c0]; exact (regview_nmi_check _).trans rfl
  rw [if_neg c0]
  by_cases c1 : addr &&& 7 = 1
  · rw [if_pos c1]; rfl
  rw [if_neg c1]
  by_cases c3 : addr &&& 7 = 3
  · rw [if_pos c3]; rfl
  rw [if_neg c3]
  by_cases c4 : addr &&& 7 = 4
  · rw [if_pos c4]
    unfold ppu_write_oamdata
    dsimp only
    split_ifs <;> rfl
  rw [if_neg c4]
  by_cases c5 : addr &&& 7 = 5
  · rw [if_pos c5]
    unfold ppu_write_scroll
    split_ifs <;> rfl
  rw [if_neg c5]
  by_cases c6 : addr &&& 7 = 6
  · rw [if_pos c6]
    unfold ppu_write_addr
    dsimp only
    split_ifs <;> rfl
  rw [if_neg c6]
  by_cases c7 : addr &&& 7 = 7
  · rw [if_pos c7]
    unfold ppu_write_data
    dsimp only
    exact (rfl : regview _ = regview (ppu_bus_write _ _ _)).trans
      ((regview_bus_write _ _ _).trans rfl)
  rw [if_neg c7]
  rfl

theorem regview_ppu_reset (hard : Int) (rnd : Nat) (vidbuf : Int → Nat) (w : World) :
    regview (ppu_reset hard rnd vidbuf w) = ({}, fun _ => 0, 0, false, 0) := rfl

/-! ### The low bytes of the background shifters -/

theorem low_zero_of_regs {a b : World} (h : regs4 a = regs4 b) (hb : low_bytes_zero b) :
    low_bytes_zero a := by
  unfold regs4 at h
  simp only [Prod.mk.injEq] at h
  obtain ⟨h1, h2, h3, h4⟩ := h
  unfold low_bytes_zero at hb ⊢
  rw [h1, h2, h3, h4]; exact hb

theorem shl1_low (r : Nat) (h : r % 256 = 0) : ((r <<< 1) % 65536) % 256 = 0 := by
  rw [Nat.shiftLeft_eq]
  omega

theorem low_zero_shift (w : World) (h : low_bytes_zero w) : low_bytes_zero (bg_shift w) := by
  obtain ⟨h1, h2, h3, h4⟩ := h
  exact ⟨shl1_low _ h1, shl1_low _ h2, shl1_low _ h3, shl1_low _ h4⟩

theorem low_zero_after_shift (w : World) (h : low_bytes_zero w) :
    (regs_after_shift w).1 % 256 = 0 ∧ (regs_after_shift w).2.1 % 256 = 0 ∧
    (regs_after_shift w).2.2.1 % 256 = 0 ∧ (regs_after_shift w).2.2.2 % 256 = 0 := by
  unfold regs_after_shift
  split
  · exact low_zero_shift w h
  · exact h

theorem low_zero_ppu_clock (w : World) (h : low_bytes_zero w) :
    low_bytes_zero (ppu_clock w) := by
  obtain ⟨a1, a2, a3, a4⟩ := low_zero_after_shift w h
  rcases regs_ppu_clock w with e | ⟨-, -, e1, e2, e3, e4⟩
  · show (regs4 (ppu_clock w)).1 % 256 = 0 ∧ (regs4 (ppu_clock w)).2.1 % 256 = 0 ∧
      (regs4 (ppu_clock w)).2.2.1 % 256 = 0 ∧ (regs4 (ppu_clock w)).2.2.2 % 256 = 0
    rw [e]; exact ⟨a1, a2, a3, a4⟩
  · exact ⟨e1.trans a1, e2.trans a2, e3.trans a3, e4.trans a4⟩

theorem low_zero_of_regview {a b : World} (h : regview a = regview b) (hb : low_bytes_zero b) :
    low_bytes_zero a := by
  have e : a.ppu.bg = b.ppu.bg := congrArg Prod.fst h
  unfold low_bytes_zero at hb ⊢
  rw [e]; exact hb

theorem reachable_low_zero (w : World) (h : PpuReachable w) : low_bytes_zero w := by
  induction h with
  | boot hard rnd vidbuf w0 _ => exact ⟨rfl, rfl, rfl, rfl⟩
  | reset hard rnd vidbuf w _ _ => exact ⟨rfl, rfl, rfl, rfl⟩
  | clock w _ ih => exact low_zero_ppu_clock w ih
  | read addr w _ ih => exact low_zero_of_regview (regview_ppu_read addr w) ih
  | write addr v w _ ih => exact low_zero_of_regview (regview_ppu_write addr v w) ih

/-- The register after `s` shifts, up to the 16-bit truncation. -/
theorem shift_iter_mod (s r : Nat) :
    (Nat.iterate (fun r => (r <<< 1) % 65536) s r) % 65536 = (r <<< s) % 65536 := by
  induction s generalizing r with
  | zero => rfl
  | succ n ih =>
    rw [Function.iterate_succ_apply, ih, Nat.shiftLeft_eq, Nat.shiftLeft_eq, Nat.shiftLeft_eq,
      pow_succ]
    rw [Nat.mul_mod, Nat.mod_mod, ← Nat.mul_mod]
    congr 1
    ring

theorem testBit_low_zero (r k : Nat) (h : r % 256 = 0) (hk : k < 8) : r.testBit k = false := by
  have e : r = (r / 256) <<< 8 := by
    rw [Nat.shiftLeft_eq]
    omega
  rw [e, Nat.testBit_shiftLeft]
  simp
  omega

/-- A register whose low byte is zero shows a 0 under the mask `0x8000 >> x`
once `x` plus the number of shifts exceeds 7. -/
theorem shifted_bit_zero (r x s : Nat) (h : r % 256 = 0) (hx : 7 < x + s) :
    (Nat.iterate (fun r => (r <<< 1) % 65536) s r) &&& (0x8000 >>> x) = 0 := by
  by_cases h15 : x ≤ 15
  · have eb : 0x8000 >>> x = 2 ^ (15 - x) := by
      rw [Nat.shiftRight_eq_div_pow]
      have : (0x8000 : Nat) = 2 ^ 15 := by norm_num
      rw [this, Nat.pow_div h15 (by decide)]
    rw [eb, Nat.and_two_pow]
    have t1 : (Nat.iterate (fun r => (r <<< 1) % 65536) s r).testBit (15 - x)
        = ((Nat.iterate (fun r => (r <<< 1) % 65536) s r) % 2 ^ 16).testBit (15 - x) := by
      rw [Nat.testBit_mod_two_pow]
      simp
      intro hh
      omega
    have e16 : (2 : Nat) ^ 16 = 65536 := by norm_num
    rw [t1, e16, shift_iter_mod, ← e16, Nat.testBit_mod_two_pow, Nat.testBit_shiftLeft]
    by_cases hs : s ≤ 15 - x
    · rw [testBit_low_zero r (15 - x - s) h (by omega)]
      simp
    · simp [hs]
  · have eb : 0x8000 >>> x = 0 := by
      rw [Nat.shiftRight_eq_div_pow]
      apply Nat.div_eq_of_lt
      have : (0x8000 : Nat) = 2 ^ 15 := by norm_num
      rw [this]
      exact Nat.pow_lt_pow_right (by decide) (by omega)
    rw [eb, Nat.and_zero]

theorem bg_shift_iter (s : Nat) (w : World) :
    (Nat.iterate bg_shift s w).ppu.bg.pt_lo
      = Nat.iterate (fun r => (r <<< 1) % 65536) s w.ppu.bg.pt_lo ∧
    (Nat.iterate bg_shift s w).ppu.bg.pt_hi
      = Nat.iterate (fun r => (r <<< 1) % 65536) s w.ppu.bg.pt_hi ∧
    (Nat.iterate bg_shift s w).ppu.x = w.ppu.x := by
  induction s generalizing w with
  | zero => exact ⟨rfl, rfl, rfl⟩
  | succ n ih =>
    rw [Function.iterate_succ_apply, Function.iterate_succ_apply, Function.iterate_succ_apply]
    obtain ⟨a, b, c⟩ := ih (bg_shift w)
    exact ⟨a, b, c⟩

theorem bg_pixel_zero (w : World) (s : Nat) (h : low_bytes_zero w) (hx : 7 < w.ppu.x + s) :
    (bg_pixel (Nat.iterate bg_shift s w)).1 = 0 := by
  obtain ⟨a, b, c⟩ := bg_shift_iter s w
  unfold bg_pixel
  split
  · rfl
  · dsimp only
    rw [a, b, c, shifted_bit_zero _ _ _ h.1 hx, shifted_bit_zero _ _ _ h.2.1 hx]
    rfl

/-- C36. Background shifter low bytes: in every state reachable from
`ppu_reset` by `ppu_clock`, `ppu_read` and `ppu_write` the low 8 bits of
`pt_lo`, `pt_hi`, `at_lo` and `at_hi` are zero; `bg_reload_shifters` keeps the
low byte of each register; and after `s` further shifts `bg_pixel` returns the
pattern value 0 whenever the fine X plus `s` exceeds 7. -/
theorem C36_bg_low_bytes_zero (w : World) (h : PpuReachable w) :
    (w.ppu.bg.pt_lo % 256 = 0 ∧ w.ppu.bg.pt_hi % 256 = 0 ∧
     w.ppu.bg.at_lo % 256 = 0 ∧ w.ppu.bg.at_hi % 256 = 0) ∧
    (∀ u : World,
      (bg_reload_shifters u).ppu.bg.pt_lo % 256 = u.ppu.bg.pt_lo % 256 ∧
      (bg_reload_shifters u).ppu.bg.pt_hi % 256 = u.ppu.bg.pt_hi % 256 ∧
      (bg_reload_shifters u).ppu.bg.at_lo % 256 = u.ppu.bg.at_lo % 256 ∧
      (bg_reload_shifters u).ppu.bg.at_hi % 256 = u.ppu.bg.at_hi % 256) ∧
    (∀ s : Nat, 7 < w.ppu.x + s → (bg_pixel (Nat.iterate bg_shift s w)).1 = 0) := by
  have hz := reachable_low_zero w h
  refine ⟨hz, fun u => ?_, fun s hs => bg_pixel_zero w s hz hs⟩
  obtain ⟨a1, a2, a3, a4, -⟩ := sview_reload u
  exact ⟨a1, a2, a3, a4⟩

theorem C36_bg_low_bytes_zero_witness :
    (ppu_clock (ppu_reset 1 0 (fun _ => 0) {})).ppu.bg.pt_lo % 256 = 0 :=
  (C36_bg_low_bytes_zero _ (PpuReachable.clock _ (PpuReachable.boot 1 0 (fun _ => 0) {} rfl))).1.1

/-! ### Bit 6 of PPUSTATUS -/

theorem and40_iff (x : Nat) : x &&& 0x40 = 0 ↔ x.testBit 6 = false := by
  have e : x &&& 0x40 = x &&& 2 ^ 6 := rfl
  rw [e, Nat.and_two_pow]
  cases x.testBit 6 <;> simp

theorem bit6_or (x k : Nat) (hk : k.testBit 6 = false) :
    (x ||| k) &&& 0x40 = 0 ↔ x &&& 0x40 = 0 := by
  rw [and40_iff, and40_iff, Nat.testBit_or, hk, Bool.or_false]

theorem bit6_and_keep (x k : Nat) (hk : k.testBit 6 = true) :
    (x &&& k) &&& 0x40 = 0 ↔ x &&& 0x40 = 0 := by
  rw [and40_iff, and40_iff, Nat.testBit_and, hk, Bool.and_true]

theorem bit6_and_clear (x k : Nat) (hk : k.testBit 6 = false) : (x &&& k) &&& 0x40 = 0 := by
  rw [and40_iff, Nat.testBit_and, hk, Bool.and_false]

theorem sv_dot257_bit6 (d : Int) (o : Bool) (i : Nat) (s : StatView) (h : s.status &&& 0x40 = 0) :
    (sv_dot257 d o i s).status &&& 0x40 = 0 := by
  unfold sv_dot257
  by_cases hd : d = 257
  · rw [if_pos hd]
    dsimp only
    cases o
    · exact (bit6_and_keep _ 0xDF (by decide)).2 h
    · exact (bit6_or _ 0x20 (by decide)).2 h
  · rw [if_neg hd]; exact h

theorem sv_nmi_check_status (c : Nat) (p : Bool) (s : StatView) :
    (sv_nmi_check c p s).status = s.status := rfl

theorem sv_vblank_bit6 (l d : Int) (pre : Bool) (c : Nat) (p : Bool) (s : StatView)
    (h : s.status &&& 0x40 = 0) : (sv_vblank l d pre c p s).status &&& 0x40 = 0 := by
  unfold sv_vblank
  dsimp only
  by_cases h2 : pre = true ∧ d = 1
  · rw [if_pos h2, sv_nmi_check_status]
    exact bit6_and_clear _ 0x1F (by decide)
  · rw [if_neg h2]
    by_cases h1 : l = 241 ∧ d = 1
    · rw [if_pos h1, sv_nmi_check_status]
      exact (bit6_or _ 0x80 (by decide)).2 h
    · rw [if_neg h1]; exact h

/-- Bit 6 of PPUSTATUS goes from 0 to 1 in a `ppu_clock` only by a sprite-0 hit
of block 1, which needs the background shown and a dot other than 255. -/
theorem bit6_ppu_clock (w : World) (h0 : w.ppu.status &&& 0x40 = 0) :
    (ppu_clock w).ppu.status &&& 0x40 = 0 ∨
    ((w.ppu.mask &&& 0x08) ≠ 0 ∧ w.ppu.dot ≠ 255 ∧ IS_VISIBLE_LINE w = true ∧
      1 ≤ w.ppu.dot ∧ w.ppu.dot ≤ 256) := by
  obtain ⟨s2, s4, h2, h4, hf⟩ := sview_ppu_clock w
  rcases h2 with e2 | ⟨-, g⟩
  · left
    have a2 : s2.status = w.ppu.status := by rw [e2]; rfl
    have a4 : s4.status = w.ppu.status := by
      rcases h4 with e4 | ⟨r, -⟩
      · rw [e4, (sv_shift_rest _ _ _).1, a2]
      · obtain ⟨-, -, -, -, r5, -⟩ := r
        rw [r5, (sv_shift_rest _ _ _).1, a2]
    have e : (ppu_clock w).ppu.status = (sview (ppu_clock w)).status := rfl
    rw [e, hf]
    exact sv_vblank_bit6 _ _ _ _ _ _ (sv_dot257_bit6 _ _ _ _ (by rw [a4]; exact h0))
  · exact Or.inr g

set_option maxRecDepth 100000 in
theorem sprite0_machine_hits :
    (sprite0_machine 254 0x1E).ppu.status &&& 0x40 = 0 ∧
    (ppu_clock (sprite0_machine 254 0x1E)).ppu.status &&& 0x40 = 0x40 :=
  ⟨rfl, rfl⟩

/-- C35. Sprite-zero hit suppression: a `ppu_clock` executed with `dot = 255`
never changes bit 6 of PPUSTATUS from 0 to 1, and neither does a `ppu_clock`
executed, at any dot, with bit 3 of PPUMASK (show background) clear. -/
theorem C35_sprite0_hit_suppressed (w : World) (h0 : w.ppu.status &&& 0x40 = 0)
    (hc : w.ppu.dot = 255 ∨ w.ppu.mask &&& 0x08 = 0) :
    (ppu_clock w).ppu.status &&& 0x40 = 0 := by
  rcases bit6_ppu_clock w h0 with h | ⟨g1, g2, -⟩
  · exact h
  · rcases hc with hc | hc
    · exact absurd hc g2
    · exact absurd hc g1

theorem C35_sprite0_hit_suppressed_witness :
    (ppu_clock (sprite0_machine 255 0x1E)).ppu.status &&& 0x40 = 0 ∧
    (ppu_clock (sprite0_machine 254 0x16)).ppu.status &&& 0x40 = 0 :=
  ⟨C35_sprite0_hit_suppressed (sprite0_machine 255 0x1E) rfl (Or.inl rfl),
   C35_sprite0_hit_suppressed (sprite0_machine 254 0x16) rfl (Or.inr rfl)⟩

/-! ### The evaluation fields after one `ppu_clock` -/

/-- The evaluation fields after one `ppu_clock` are those left by the
evaluation blocks and the dot-257 latches, run on a state `A` with the
evaluation fields and the beam of the state before. -/
theorem evalv_ppu_clock (w : World) :
    ∃ A : World, evalv A.ppu = evalv w.ppu ∧ core A = core w ∧
      evalv (ppu_clock w).ppu = evalv (clock_dot257 (clock_eval (clock_eval_init A))).ppu := by
  refine ⟨clock_bg (clock_shift (clock_pixel (clock_latch_sprite0 (nmi_step w)))), ?_, ?_, ?_⟩
  · exact (evalv_of_rview (rview_clock_bg _)).trans ((evalv_of_rview (rview_clock_shift _)).trans
      ((evalv_clock_pixel _).trans ((evalv_of_rview (rview_latch_sprite0 _)).trans
        (evalv_of_rview (rview_nmi_step w)))))
  · rw [core_clock_bg, core_clock_shift, core_clock_pixel, core_latch_sprite0, core_nmi_step]
  · unfold ppu_clock
    dsimp only
    exact (evalv_of_rview (rview_clock_frame_end _)).trans
      ((evalv_of_rview (rview_INC_DOT _)).trans
      ((evalv_of_rview (rview_clock_odd_skip _)).trans
      ((evalv_of_rview (rview_clock_vblank _)).trans
      ((evalv_of_rview (rview_dot321 _)).trans
      (evalv_of_rview (rview_clock_sprite_fetch _))))))

/-- What `eval_sprite_write_secondary` does to the index, the overflow flag
and the cells of secondary OAM beyond the array. -/
theorem eval_write_spec (w : World) :
    ((eval_sprite_write_secondary w).ppu.eval_sec_idx = w.ppu.eval_sec_idx ∨
      (w.ppu.eval_sec_idx < 32 ∧
        (eval_sprite_write_secondary w).ppu.eval_sec_idx = w.ppu.eval_sec_idx + 1)) ∧
    (∀ i, 32 ≤ i → (eval_sprite_write_secondary w).ppu.sec_oam i = w.ppu.sec_oam i) ∧
    (eval_sprite_write_secondary w).ppu.eval_overflow =
      (w.ppu.eval_overflow || (decide (w.ppu.eval_oam_addr ≤ 255) &&
        !w.ppu.oam_write_during_eval && w.ppu.sprite_in_range &&
        decide (32 ≤ w.ppu.eval_sec_idx))) := by
  unfold eval_sprite_write_secondary
  by_cases c1 : 255 < w.ppu.eval_oam_addr
  · rw [if_pos c1]
    refine ⟨Or.inl rfl, fun _ _ => rfl, ?_⟩
    have : decide (w.ppu.eval_oam_addr ≤ 255) = false := by simp; omega
    rw [this]; simp
  rw [if_neg c1]
  have d1 : decide (w.ppu.eval_oam_addr ≤ 255) = true := by simp; omega
  by_cases c2 : w.ppu.oam_write_during_eval = true
  · rw [if_pos c2]
    refine ⟨Or.inl rfl, fun _ _ => rfl, ?_⟩
    rw [c2]; simp
  rw [if_neg c2]
  have d2 : w.ppu.oam_write_during_eval = false := by
    cases h : w.ppu.oam_write_during_eval
    · rfl
    · exact absurd h c2
  by_cases c3 : (w.ppu.sprite_in_range && decide (w.ppu.eval_sec_idx < 32)) = true
  · rw [if_pos c3]
    have h3 : w.ppu.sprite_in_range = true ∧ w.ppu.eval_sec_idx < 32 := by
      simpa using c3
    dsimp only
    have hm : (w.ppu.eval_sec_idx + 1) % 256 = w.ppu.eval_sec_idx + 1 := by omega
    refine ⟨Or.inr ⟨h3.2, ?_⟩, fun i hi => ?_, ?_⟩
    · unfold eval_advance
      split_ifs <;> exact hm
    · unfold eval_advance
      have ne : i ≠ w.ppu.eval_sec_idx := by omega
      split_ifs <;> exact Function.update_noteq ne _ _
    · have d4 : decide (32 ≤ w.ppu.eval_sec_idx) = false := by simp; omega
      rw [d4]
      unfold eval_advance
      split_ifs <;> simp
  rw [if_neg c3]
  by_cases c4 : 32 ≤ w.ppu.eval_sec_idx
  · rw [if_pos c4]
    have d4 : decide (32 ≤ w.ppu.eval_sec_idx) = true := by simp; omega
    rw [d1, d2, d4]
    dsimp only
    unfold eval_advance
    refine ⟨Or.inl ?_, fun i hi => ?_, ?_⟩
    · split_ifs <;> rfl
    · split_ifs <;> rfl
    · cases hr : w.ppu.sprite_in_range <;> cases ho : w.ppu.eval_overflow <;>
        simp <;> split_ifs <;> simp [ho]
  · rw [if_neg c4]
    have d4 : decide (32 ≤ w.ppu.eval_sec_idx) = false := by simp; omega
    rw [d4]
    refine ⟨Or.inl rfl, fun _ _ => rfl, ?_⟩
    unfold eval_advance
    simp

theorem eval_read_spec (w : World) :
    (eval_sprite_read_primary w).ppu.eval_sec_idx = w.ppu.eval_sec_idx ∧
    (eval_sprite_read_primary w).ppu.sec_oam = w.ppu.sec_oam ∧
    (eval_sprite_read_primary w).ppu.eval_overflow = w.ppu.eval_overflow := by
  unfold eval_sprite_read_primary
  simp only
  split_ifs <;> exact ⟨rfl, rfl, rfl⟩

theorem overflow_event_congr {a w : World} (he : evalv a.ppu = evalv w.ppu)
    (hc : core a = core w) : overflow_event a = overflow_event w := by
  obtain ⟨d, -, -, -, r, vis, pre⟩ := core_fields hc
  have f1 : a.ppu.eval_oam_addr = w.ppu.eval_oam_addr := congrArg EvalView.eval_oam_addr he
  have f2 : a.ppu.oam_write_during_eval = w.ppu.oam_write_during_eval :=
    congrArg EvalView.oam_write_during_eval he
  have f3 : a.ppu.sprite_in_range = w.ppu.sprite_in_range :=
    congrArg EvalView.sprite_in_range he
  have f4 : a.ppu.eval_sec_idx = w.ppu.eval_sec_idx := congrArg EvalView.eval_sec_idx he
  unfold overflow_event
  rw [d, r, vis, pre, f1, f2, f3, f4]

/-- The evaluation blocks and the dot-257 latches of one `ppu_clock`. -/
theorem eval_blocks_spec (A : World) :
    (A.ppu.eval_sec_idx ≤ 32 →
      (clock_dot257 (clock_eval (clock_eval_init A))).ppu.eval_sec_idx ≤ 32) ∧
    (∀ i, 32 ≤ i →
      (clock_dot257 (clock_eval (clock_eval_init A))).ppu.sec_oam i = A.ppu.sec_oam i) ∧
    (clock_dot257 (clock_eval (clock_eval_init A))).ppu.eval_overflow =
      (if A.ppu.dot = 1 then false else (A.ppu.eval_overflow || overflow_event A)) ∧
    (A.ppu.dot = 257 →
      (clock_dot257 (clock_eval (clock_eval_init A))).ppu.oam_write_during_eval = false) := by
  have k257 : ∀ X : World,
      (clock_dot257 X).ppu.eval_sec_idx = X.ppu.eval_sec_idx ∧
      (clock_dot257 X).ppu.sec_oam = X.ppu.sec_oam ∧
      (clock_dot257 X).ppu.eval_overflow = X.ppu.eval_overflow ∧
      (X.ppu.dot = 257 → (clock_dot257 X).ppu.oam_write_during_eval = false) := by
    intro X
    unfold clock_dot257
    by_cases h : X.ppu.dot = 257
    · rw [if_pos h]; exact ⟨rfl, rfl, rfl, fun _ => rfl⟩
    · rw [if_neg h]; exact ⟨rfl, rfl, rfl, fun g => absurd g h⟩
  obtain ⟨q1, q2, q3, q4⟩ := k257 (clock_eval (clock_eval_init A))
  rw [q1, q2, q3]
  by_cases h1 : A.ppu.dot = 1
  · -- dot 1: the evaluation state is initialised, the evaluation does not run
    have e1 : clock_eval (clock_eval_init A) = clock_eval_init A := by
      unfold clock_eval
      have hd : (clock_eval_init A).ppu.dot = 1 := by
        unfold clock_eval_init; rw [if_pos h1]; exact h1
      rw [if_neg (by rw [hd]; omega)]
    rw [if_pos h1]
    refine ⟨fun _ => ?_, fun i hi => ?_, ?_, fun g => absurd (h1.symm.trans g) (by decide)⟩
    · rw [e1]; unfold clock_eval_init; rw [if_pos h1]; exact Nat.zero_le _
    · rw [e1]; unfold clock_eval_init; rw [if_pos h1]
      show (if i < 32 then 0xFF else A.ppu.sec_oam i) = A.ppu.sec_oam i
      rw [if_neg (by omega)]
    · rw [e1]; unfold clock_eval_init; rw [if_pos h1]
  · have e0 : clock_eval_init A = A := by
      unfold clock_eval_init; rw [if_neg h1]
    rw [e0, if_neg h1]
    have q4' : A.ppu.dot = 257 →
        (clock_dot257 (clock_eval A)).ppu.oam_write_during_eval = false := by
      intro g
      have e : clock_eval A = A := by unfold clock_eval; rw [if_neg (by omega)]
      have := (k257 (clock_eval A)).2.2.2
      rw [e] at this ⊢
      exact this g
    suffices h3 : (A.ppu.eval_sec_idx ≤ 32 → (clock_eval A).ppu.eval_sec_idx ≤ 32) ∧
        (∀ i, 32 ≤ i → (clock_eval A).ppu.sec_oam i = A.ppu.sec_oam i) ∧
        (clock_eval A).ppu.eval_overflow = (A.ppu.eval_overflow || overflow_event A) from
      ⟨h3.1, h3.2.1, h3.2.2, q4'⟩
    by_cases hw : 65 ≤ A.ppu.dot ∧ A.ppu.dot ≤ 256 ∧
        (IS_VISIBLE_LINE A = true ∨ IS_PRERENDER_LINE A = true) ∧ RENDERING_ENABLED A = true
    · have hvp : (IS_VISIBLE_LINE A || IS_PRERENDER_LINE A) = true := by
        rcases hw.2.2.1 with h | h <;> simp [h]
      by_cases hodd : A.ppu.dot % 2 = 1
      · have e : clock_eval A = eval_sprite_read_primary A := by
          unfold clock_eval; rw [if_pos hw, if_pos hodd]
        obtain ⟨r1, r2, r3⟩ := eval_read_spec A
        have ev : overflow_event A = false := by
          unfold overflow_event
          have : decide (65 ≤ A.ppu.dot ∧ A.ppu.dot ≤ 256 ∧ A.ppu.dot % 2 = 0) = false := by
            simp; omega
          rw [this]; simp
        rw [e, r1, r2, r3, ev, Bool.or_false]
        exact ⟨fun h => h, fun _ _ => rfl, rfl⟩
      · have e : clock_eval A = eval_sprite_write_secondary A := by
          unfold clock_eval; rw [if_pos hw, if_neg hodd]
        obtain ⟨r1, r2, r3⟩ := eval_write_spec A
        have ev : overflow_event A = (decide (A.ppu.eval_oam_addr ≤ 255) &&
            !A.ppu.oam_write_during_eval && A.ppu.sprite_in_range &&
            decide (32 ≤ A.ppu.eval_sec_idx)) := by
          unfold overflow_event
          have : decide (65 ≤ A.ppu.dot ∧ A.ppu.dot ≤ 256 ∧ A.ppu.dot % 2 = 0) = true := by
            simp; omega
          rw [this, hvp, hw.2.2.2]
          simp
        rw [e, r3, ev]
        refine ⟨fun h => ?_, r2, rfl⟩
        rcases r1 with r | ⟨r0, r⟩
        · rw [r]; exact h
        · rw [r]; omega
    · have e : clock_eval A = A := by unfold clock_eval; rw [if_neg hw]
      have ev : overflow_event A = false := by
        unfold overflow_event
        by_cases a1 : 65 ≤ A.ppu.dot ∧ A.ppu.dot ≤ 256
        · by_cases a2 : IS_VISIBLE_LINE A = true ∨ IS_PRERENDER_LINE A = true
          · have a3 : RENDERING_ENABLED A = false := by
              cases h : RENDERING_ENABLED A
              · rfl
              · exact absurd ⟨a1.1, a1.2, a2, h⟩ hw
            rw [a3]; simp
          · have b1 : IS_VISIBLE_LINE A = false := by
              cases h : IS_VISIBLE_LINE A
              · rfl
              · exact absurd (Or.inl h) a2
            have b2 : IS_PRERENDER_LINE A = false := by
              cases h : IS_PRERENDER_LINE A
              · rfl
              · exact absurd (Or.inr h) a2
            rw [b1, b2]; simp
        · have : decide (65 ≤ A.ppu.dot ∧ A.ppu.dot ≤ 256 ∧ A.ppu.dot % 2 = 0) = false := by
            simp; omega
          rw [this]; simp
      rw [e, ev, Bool.or_false]
      exact ⟨fun h => h, fun _ _ => rfl, rfl⟩

/-- The evaluation fields after one `ppu_clock`: the index stays at most 32,
the cells of `sec_oam` from 32 on are not written, the overflow flag is
cleared at dot 1 and set by an overflow event, and the clock of dot 257
clears the `$2004`-write flag. -/
theorem eval_ppu_clock (w : World) :
    (w.ppu.eval_sec_idx ≤ 32 → (ppu_clock w).ppu.eval_sec_idx ≤ 32) ∧
    (∀ i, 32 ≤ i → (ppu_clock w).ppu.sec_oam i = w.ppu.sec_oam i) ∧
    (ppu_clock w).ppu.eval_overflow =
      (if w.ppu.dot = 1 then false else (w.ppu.eval_overflow || overflow_event w)) ∧
    (w.ppu.dot = 257 → (ppu_clock w).ppu.oam_write_during_eval = false) := by
  obtain ⟨A, he, hc, hf⟩ := evalv_ppu_clock w
  obtain ⟨b1, b2, b3, b4⟩ := eval_blocks_spec A
  obtain ⟨d, -⟩ := core_fields hc
  have f1 := congrArg EvalView.eval_sec_idx hf
  have f2 := congrArg EvalView.sec_oam hf
  have f3 := congrArg EvalView.eval_overflow hf
  have f4 := congrArg EvalView.oam_write_during_eval hf
  have g1 : A.ppu.eval_sec_idx = w.ppu.eval_sec_idx := congrArg EvalView.eval_sec_idx he
  have g2 : A.ppu.sec_oam = w.ppu.sec_oam := congrArg EvalView.sec_oam he
  have g3 : A.ppu.eval_overflow = w.ppu.eval_overflow := congrArg EvalView.eval_overflow he
  have f1' : (ppu_clock w).ppu.eval_sec_idx
      = (clock_dot257 (clock_eval (clock_eval_init A))).ppu.eval_sec_idx := f1
  have f2' : (ppu_clock w).ppu.sec_oam
      = (clock_dot257 (clock_eval (clock_eval_init A))).ppu.sec_oam := f2
  have f3' : (ppu_clock w).ppu.eval_overflow
      = (clock_dot257 (clock_eval (clock_eval_init A))).ppu.eval_overflow := f3
  have f4' : (ppu_clock w).ppu.oam_write_during_eval
      = (clock_dot257 (clock_eval (clock_eval_init A))).ppu.oam_write_during_eval := f4
  rw [f1', f2', f3', f4']
  rw [g1] at b1
  rw [g2] at b2
  rw [g3, overflow_event_congr he hc, d] at b3
  rw [d] at b4
  exact ⟨b1, b2, b3, b4⟩

/-! ### The beam inside a line, runs of clocks -/

theorem ppu_clocks_succ (n : Nat) (w : World) :
    ppu_clocks (n + 1) w = ppu_clock (ppu_clocks n w) := by
  induction n generalizing w with
  | zero => rfl
  | succ n ih =>
    show ppu_clocks (n + 1) (ppu_clock w) = ppu_clock (ppu_clocks n (ppu_clock w))
    exact ih (ppu_clock w)

/-- Up to dot 338 the beam moves one dot to the right on every line. -/
theorem step_dot_lt (b : Beam) (h : b.dot ≤ 338) :
    (Beam.step b).dot = b.dot + 1 ∧ (Beam.step b).scanline = b.scanline ∧
    (Beam.step b).mask = b.mask ∧ (Beam.step b).is_pal = b.is_pal := by
  unfold Beam.step Beam.vbl
  have k1 : (Beam.vset b).dot = b.dot ∧ (Beam.vset b).scanline = b.scanline ∧
      (Beam.vset b).mask = b.mask ∧ (Beam.vset b).is_pal = b.is_pal := by
    unfold Beam.vset; split <;> exact ⟨rfl, rfl, rfl, rfl⟩
  have k2 : ∀ c : Beam, (Beam.vclr c).dot = c.dot ∧ (Beam.vclr c).scanline = c.scanline ∧
      (Beam.vclr c).mask = c.mask ∧ (Beam.vclr c).is_pal = c.is_pal := by
    intro c; unfold Beam.vclr; split <;> exact ⟨rfl, rfl, rfl, rfl⟩
  obtain ⟨C, hC⟩ : ∃ C : Beam, C = Beam.vclr (Beam.vset b) := ⟨_, rfl⟩
  have kc : C.dot = b.dot ∧ C.scanline = b.scanline ∧ C.mask = b.mask ∧ C.is_pal = b.is_pal := by
    obtain ⟨a1, a2, a3, a4⟩ := k2 (Beam.vset b)
    rw [hC]
    exact ⟨a1.trans k1.1, a2.trans k1.2.1, a3.trans k1.2.2.1, a4.trans k1.2.2.2⟩
  rw [← hC]
  have e3 : Beam.skip C = C := by
    unfold Beam.skip
    rw [if_neg (fun g => by have := g.2.2.1; omega)]
  have e4 : Beam.inc C = { C with dot := C.dot + 1 } := by
    unfold Beam.inc
    rw [if_neg (by omega)]
  rw [e3, e4]
  unfold Beam.fin
  split <;> exact ⟨by show C.dot + 1 = b.dot + 1; rw [kc.1], kc.2.1, kc.2.2.1, kc.2.2.2⟩

theorem clock_pos (w : World) (h : w.ppu.dot ≤ 338) :
    (ppu_clock w).ppu.dot = w.ppu.dot + 1 ∧ (ppu_clock w).ppu.scanline = w.ppu.scanline ∧
    (ppu_clock w).ppu.mask = w.ppu.mask ∧ (ppu_clock w).ppu_is_pal = w.ppu_is_pal := by
  obtain ⟨s1, s2, s3, s4⟩ := step_dot_lt (beam w) h
  have bc := beam_ppu_clock w
  exact ⟨(congrArg Beam.dot bc).trans s1, (congrArg Beam.scanline bc).trans s2,
    (congrArg Beam.mask bc).trans s3, (congrArg Beam.is_pal bc).trans s4⟩

theorem clocks_pos (n : Nat) : ∀ w : World, w.ppu.dot + n ≤ 339 →
    (ppu_clocks n w).ppu.dot = w.ppu.dot + n ∧
    (ppu_clocks n w).ppu.scanline = w.ppu.scanline ∧
    (ppu_clocks n w).ppu.mask = w.ppu.mask ∧ (ppu_clocks n w).ppu_is_pal = w.ppu_is_pal := by
  induction n with
  | zero => intro w _; exact ⟨by simp [ppu_clocks], rfl, rfl, rfl⟩
  | succ n ih =>
    intro w h
    obtain ⟨a1, a2, a3, a4⟩ := ih w (by push_cast at h; omega)
    obtain ⟨b1, b2, b3, b4⟩ := clock_pos (ppu_clocks n w) (by rw [a1]; push_cast at h; omega)
    rw [ppu_clocks_succ]
    exact ⟨by rw [b1, a1]; push_cast; ring, b2.trans a2, b3.trans a3, b4.trans a4⟩

/-! ### The secondary-OAM bound -/

theorem sprite_count_ppu_clock (w : World) :
    (ppu_clock w).ppu.sprite_count =
      (if w.ppu.dot = 257 then
        (if 8 < w.ppu.eval_sec_idx >>> 2 then 8 else w.ppu.eval_sec_idx >>> 2)
       else w.ppu.sprite_count) := by
  obtain ⟨s2, s4, h2, h4, hf⟩ := sview_ppu_clock w
  have a2 : s2.sprite_count = w.ppu.sprite_count := by
    rcases h2 with e | ⟨e, -⟩ <;> rw [e] <;> rfl
  have a4 : s4.sprite_count = w.ppu.sprite_count := by
    rcases h4 with e4 | ⟨r, -⟩
    · rw [e4, (sv_shift_rest _ _ _).2.2.2.2.1, a2]
    · obtain ⟨-, -, -, -, -, -, -, -, r9, -⟩ := r
      rw [r9, (sv_shift_rest _ _ _).2.2.2.2.1, a2]
  have e : (ppu_clock w).ppu.sprite_count = (sview (ppu_clock w)).sprite_count := rfl
  rw [e, hf, (sv_vblank_regs _ _ _ _ _ _).2.2.2.2.1]
  unfold sv_dot257
  by_cases hd : w.ppu.dot = 257
  · rw [if_pos hd, if_pos hd]
  · rw [if_neg hd, if_neg hd, a4]

theorem and20_iff (x : Nat) : x &&& 0x20 = 0 ↔ x.testBit 5 = false := by
  have e : x &&& 0x20 = x &&& 2 ^ 5 := rfl
  rw [e, Nat.and_two_pow]
  cases x.testBit 5 <;> simp

/-- The clock of dot 257 leaves the evaluation-overflow flag in bit 5 of
PPUSTATUS. -/
theorem status_bit5_257 (w : World) (hd : w.ppu.dot = 257) :
    ((ppu_clock w).ppu.status &&& 0x20 ≠ 0) ↔ w.ppu.eval_overflow = true := by
  obtain ⟨s2, s4, -, -, hf⟩ := sview_ppu_clock w
  have e : (ppu_clock w).ppu.status = (sview (ppu_clock w)).status := rfl
  rw [e, hf]
  have ev : ∀ s : StatView, (sv_vblank w.ppu.scanline w.ppu.dot (IS_PRERENDER_LINE w)
      w.ppu.ctrl w.ppu_is_pal s) = s := by
    intro s
    unfold sv_vblank
    dsimp only
    rw [if_neg (by omega), if_neg (by omega)]
  rw [ev]
  unfold sv_dot257
  rw [if_pos hd]
  dsimp only
  cases w.ppu.eval_overflow
  · rw [if_neg (by decide)]
    have : (s4.status &&& 0xDF) &&& 0x20 = 0 := by
      rw [and20_iff, Nat.testBit_and]
      have : (0xDF : Nat).testBit 5 = false := by decide
      rw [this, Bool.and_false]
    simp [this]
  · rw [if_pos rfl]
    have : (s4.status ||| 0x20) &&& 0x20 ≠ 0 := by
      intro h
      rw [and20_iff, Nat.testBit_or] at h
      have : (0x20 : Nat).testBit 5 = true := by decide
      rw [this, Bool.or_true] at h
      exact absurd h (by decide)
    simp [this]

theorem reachable_sec_bound (w : World) (h : PpuReachable w) :
    w.ppu.eval_sec_idx ≤ 32 ∧ (∀ i, 32 ≤ i → w.ppu.sec_oam i = 0) ∧ w.ppu.sprite_count ≤ 8 := by
  have tr : ∀ a b : World, regview a = regview b →
      (b.ppu.eval_sec_idx ≤ 32 ∧ (∀ i, 32 ≤ i → b.ppu.sec_oam i = 0) ∧ b.ppu.sprite_count ≤ 8) →
      (a.ppu.eval_sec_idx ≤ 32 ∧ (∀ i, 32 ≤ i → a.ppu.sec_oam i = 0) ∧ a.ppu.sprite_count ≤ 8) := by
    intro a b hv hb
    unfold regview at hv
    simp only [Prod.mk.injEq] at hv
    obtain ⟨-, v2, v3, -, v5⟩ := hv
    rw [v2, v3, v5]; exact hb
  induction h with
  | boot hard rnd vidbuf w0 _ => exact ⟨Nat.zero_le _, fun _ _ => rfl, Nat.zero_le _⟩
  | reset hard rnd vidbuf w _ _ => exact ⟨Nat.zero_le _, fun _ _ => rfl, Nat.zero_le _⟩
  | clock w _ ih =>
    obtain ⟨e1, e2, -, -⟩ := eval_ppu_clock w
    refine ⟨e1 ih.1, fun i hi => (e2 i hi).trans (ih.2.1 i hi), ?_⟩
    rw [sprite_count_ppu_clock]
    split_ifs <;> omega
  | read addr w _ ih => exact tr _ _ (regview_ppu_read addr w) ih
  | write addr v w _ ih => exact tr _ _ (regview_ppu_write addr v w) ih

/-- The overflow flag after a run of `n` clocks none of which is executed at
dot 1: set exactly when it was set before or one of the clocks saw an
overflow event. -/
theorem overflow_run (n : Nat) (w : World) (h : ∀ k, k < n → (ppu_clocks k w).ppu.dot ≠ 1) :
    (ppu_clocks n w).ppu.eval_overflow =
      (w.ppu.eval_overflow || (List.range n).any (fun k => overflow_event (ppu_clocks k w))) := by
  induction n with
  | zero => simp [ppu_clocks]
  | succ n ih =>
    rw [ppu_clocks_succ, (eval_ppu_clock _).2.2.1, if_neg (h n (Nat.lt_succ_self n)),
      ih (fun k hk => h k (Nat.lt_succ_of_lt hk)), List.range_succ, List.any_append]
    simp [Bool.or_assoc]

/-- Bit 5 of PPUSTATUS after the clocks of dots 1..257 of a line. -/
theorem overflow_line (w : World) (hd : w.ppu.dot = 1) :
    ((ppu_clocks 257 w).ppu.status &&& 0x20 ≠ 0) ↔
      ∃ k, 1 ≤ k ∧ k ≤ 255 ∧ overflow_event (ppu_clocks k w) = true := by
  have e257 : ppu_clocks 257 w = ppu_clock (ppu_clocks 256 w) := ppu_clocks_succ 256 w
  have p256 : (ppu_clocks 256 w).ppu.dot = 257 := by
    rw [(clocks_pos 256 w (by rw [hd]; decide)).1, hd]; rfl
  rw [e257, status_bit5_257 _ p256]
  have e256 : ppu_clocks 256 w = ppu_clocks 255 (ppu_clock w) := rfl
  obtain ⟨c1, -⟩ := clock_pos w (by rw [hd]; decide)
  have nd : ∀ k, k < 255 → (ppu_clocks k (ppu_clock w)).ppu.dot ≠ 1 := by
    intro k hk
    rw [(clocks_pos k (ppu_clock w) (by rw [c1, hd]; omega)).1, c1, hd]
    omega
  have o1 : (ppu_clock w).ppu.eval_overflow = false := by
    rw [(eval_ppu_clock w).2.2.1, if_pos hd]
  rw [e256, overflow_run 255 _ nd, o1, Bool.false_or, List.any_eq_true]
  constructor
  · rintro ⟨k, hk, he⟩
    rw [List.mem_range] at hk
    exact ⟨k + 1, by omega, by omega, he⟩
  · rintro ⟨k, h1, h2, he⟩
    refine ⟨k - 1, List.mem_range.2 (by omega), ?_⟩
    have e : k = (k - 1) + 1 := by omega
    rw [e] at he
    exact he

/-- C31. Secondary-OAM bound: in every state reachable from `ppu_reset` by
`ppu_clock`, `ppu_read` and `ppu_write` the secondary-OAM write index is at
most 32, no cell of `sec_oam` from index 32 on was ever written (and the next
`ppu_clock` writes none), and the sprite count is at most 8; the clock of dot
257 latches the count `eval_sec_idx / 4` and leaves in bit 5 of PPUSTATUS the
overflow flag, which a clock clears at dot 1 and sets exactly on an overflow
event (an in-range sprite met with secondary OAM full); over the clocks of
dots 1..257 of a line bit 5 ends up set exactly when one of them saw such an
event. -/
theorem C31_secondary_oam_bound (w : World) (h : PpuReachable w) :
    w.ppu.eval_sec_idx ≤ 32 ∧
    (∀ i, 32 ≤ i → w.ppu.sec_oam i = 0) ∧
    (∀ i, 32 ≤ i → (ppu_clock w).ppu.sec_oam i = w.ppu.sec_oam i) ∧
    w.ppu.sprite_count ≤ 8 ∧
    (w.ppu.dot = 257 → (ppu_clock w).ppu.sprite_count = w.ppu.eval_sec_idx >>> 2 ∧
      (ppu_clock w).ppu.sprite_count ≤ 8) ∧
    (w.ppu.dot = 257 →
      (((ppu_clock w).ppu.status &&& 0x20 ≠ 0) ↔ w.ppu.eval_overflow = true)) ∧
    (ppu_clock w).ppu.eval_overflow =
      (if w.ppu.dot = 1 then false else (w.ppu.eval_overflow || overflow_event w)) ∧
    (w.ppu.dot = 1 →
      (((ppu_clocks 257 w).ppu.status &&& 0x20 ≠ 0) ↔
        ∃ k, 1 ≤ k ∧ k ≤ 255 ∧ overflow_event (ppu_clocks k w) = true)) := by
  obtain ⟨b1, b2, b3⟩ := reachable_sec_bound w h
  obtain ⟨-, e2, e3, -⟩ := eval_ppu_clock w
  refine ⟨b1, b2, e2, b3, fun hd => ?_, fun hd => status_bit5_257 w hd, e3,
    fun hd => overflow_line w hd⟩
  have hs : w.ppu.eval_sec_idx >>> 2 ≤ 8 := by
    rw [Nat.shiftRight_eq_div_pow]
    omega
  rw [sprite_count_ppu_clock, if_pos hd, if_neg (by omega)]
  exact ⟨rfl, hs⟩

theorem C31_secondary_oam_bound_witness :
    (ppu_clock (ppu_reset 1 0 (fun _ => 0) {})).ppu.eval_sec_idx ≤ 32 :=
  (C31_secondary_oam_bound _
    (PpuReachable.clock _ (PpuReachable.boot 1 0 (fun _ => 0) {} rfl))).1

/-! ### The latches of dot 257 -/

theorem oam_addr_ppu_clock (w : World) :
    (ppu_clock w).ppu.oam_addr = (if w.ppu.dot = 257 then 0 else w.ppu.oam_addr) := by
  obtain ⟨s2, s4, h2, h4, hf⟩ := sview_ppu_clock w
  have a2 : s2.oam_addr = w.ppu.oam_addr := by
    rcases h2 with e | ⟨e, -⟩ <;> rw [e] <;> rfl
  have a4 : s4.oam_addr = w.ppu.oam_addr := by
    rcases h4 with e4 | ⟨r, -⟩
    · rw [e4, (sv_shift_rest _ _ _).2.2.2.2.2, a2]
    · obtain ⟨-, -, -, -, -, -, -, -, -, r10⟩ := r
      rw [r10, (sv_shift_rest _ _ _).2.2.2.2.2, a2]
  have e : (ppu_clock w).ppu.oam_addr = (sview (ppu_clock w)).oam_addr := rfl
  rw [e, hf, (sv_vblank_regs _ _ _ _ _ _).2.2.2.2.2.1]
  unfold sv_dot257
  by_cases hd : w.ppu.dot = 257
  · rw [if_pos hd, if_pos hd]
  · rw [if_neg hd, if_neg hd, a4]

theorem ppu_clocks_add (m n : Nat) (w : World) :
    ppu_clocks (m + n) w = ppu_clocks n (ppu_clocks m w) := by
  induction m generalizing w with
  | zero => rw [Nat.zero_add]; rfl
  | succ m ih =>
    have e : m + 1 + n = (m + n) + 1 := by omega
    rw [e]
    exact ih (ppu_clock w)

theorem oam_addr_stays_zero (n : Nat) (w : World) (h : w.ppu.oam_addr = 0) :
    (ppu_clocks n w).ppu.oam_addr = 0 := by
  induction n with
  | zero => exact h
  | succ n ih =>
    rw [ppu_clocks_succ, oam_addr_ppu_clock]
    split
    · rfl
    · exact ih

/-- With rendering disabled every line has 341 dots. -/
theorem step_no_render (b : Beam) (hr : b.rendering = false) (h0 : 0 ≤ b.dot)
    (h1 : b.dot ≤ 340) :
    (Beam.step b).dot = (b.dot + 1) % 341 ∧ (Beam.step b).mask = b.mask := by
  refine ⟨?_, (Beam.step_is_pal b).2⟩
  by_cases hs : b.dot ≤ 338
  · rw [(step_dot_lt b hs).1]
    omega
  · unfold Beam.step Beam.vbl
    have k1 : (Beam.vset b).dot = b.dot ∧ (Beam.vset b).mask = b.mask := by
      unfold Beam.vset; split <;> exact ⟨rfl, rfl⟩
    have k2 : ∀ c : Beam, (Beam.vclr c).dot = c.dot ∧ (Beam.vclr c).mask = c.mask := by
      intro c; unfold Beam.vclr; split <;> exact ⟨rfl, rfl⟩
    obtain ⟨C, hC⟩ : ∃ C : Beam, C = Beam.vclr (Beam.vset b) := ⟨_, rfl⟩
    have kc : C.dot = b.dot ∧ C.mask = b.mask := by
      obtain ⟨a1, a2⟩ := k2 (Beam.vset b)
      rw [hC]
      exact ⟨a1.trans k1.1, a2.trans k1.2⟩
    rw [← hC]
    have cr : C.rendering = false := by
      unfold Beam.rendering at hr ⊢
      rw [kc.2]; exact hr
    have e3 : Beam.skip C = C := by
      unfold Beam.skip
      rw [if_neg (fun g => by rw [cr] at g; exact absurd g.2.2.2.2 (by decide))]
    rw [e3]
    have e4 : (Beam.inc C).dot = (b.dot + 1) % 341 := by
      unfold Beam.inc
      by_cases h341 : C.dot + 1 = 341
      · rw [if_pos h341]
        have : (b.dot + 1) % 341 = 0 := by rw [← kc.1, h341]; rfl
        rw [this]
        split_ifs <;> rfl
      · rw [if_neg h341]
        show C.dot + 1 = (b.dot + 1) % 341
        rw [kc.1]
        omega
    unfold Beam.fin
    split <;> exact e4

theorem rendering_eq (w : World) : (beam w).rendering = RENDERING_ENABLED w := rfl

theorem clock_no_render (w : World) (hr : RENDERING_ENABLED w = false) (h0 : 0 ≤ w.ppu.dot)
    (h1 : w.ppu.dot ≤ 340) :
    (ppu_clock w).ppu.dot = (w.ppu.dot + 1) % 341 ∧ RENDERING_ENABLED (ppu_clock w) = false := by
  obtain ⟨s1, s2⟩ := step_no_render (beam w) hr h0 h1
  have bc := beam_ppu_clock w
  have m : (ppu_clock w).ppu.mask = w.ppu.mask := (congrArg Beam.mask bc).trans s2
  refine ⟨(congrArg Beam.dot bc).trans s1, ?_⟩
  unfold RENDERING_ENABLED at hr ⊢
  rw [m]; exact hr

theorem clocks_no_render (n : Nat) : ∀ w : World, RENDERING_ENABLED w = false →
    0 ≤ w.ppu.dot → w.ppu.dot ≤ 340 →
    (ppu_clocks n w).ppu.dot = (w.ppu.dot + n) % 341 ∧
    RENDERING_ENABLED (ppu_clocks n w) = false := by
  induction n with
  | zero =>
    intro w hr h0 h1
    refine ⟨?_, hr⟩
    show w.ppu.dot = (w.ppu.dot + ((0 : Nat) : Int)) % 341
    omega
  | succ n ih =>
    intro w hr h0 h1
    obtain ⟨a1, a2⟩ := ih w hr h0 h1
    obtain ⟨b1, b2⟩ := clock_no_render (ppu_clocks n w) a2 (by rw [a1]; omega) (by rw [a1]; omega)
    rw [ppu_clocks_succ]
    refine ⟨?_, b2⟩
    rw [b1, a1]
    push_cast
    omega

theorem overflow_event_no_render (w : World) (hr : RENDERING_ENABLED w = false) :
    overflow_event w = false := by
  unfold overflow_event
  rw [hr]; simp

/-- With rendering disabled the overflow flag only ever gets cleared. -/
theorem overflow_no_render (n : Nat) : ∀ w : World, RENDERING_ENABLED w = false →
    0 ≤ w.ppu.dot → w.ppu.dot ≤ 340 →
    (w.ppu.eval_overflow = false ∨ ∃ k, k < n ∧ (ppu_clocks k w).ppu.dot = 1) →
    (ppu_clocks n w).ppu.eval_overflow = false := by
  induction n with
  | zero =>
    intro w _ _ _ h
    rcases h with h | ⟨k, hk, -⟩
    · exact h
    · omega
  | succ n ih =>
    intro w hr h0 h1 h
    obtain ⟨a1, a2⟩ := clocks_no_render n w hr h0 h1
    rw [ppu_clocks_succ, (eval_ppu_clock _).2.2.1, overflow_event_no_render _ a2, Bool.or_false]
    by_cases hd : (ppu_clocks n w).ppu.dot = 1
    · rw [if_pos hd]
    · rw [if_neg hd]
      apply ih w hr h0 h1
      rcases h with h | ⟨k, hk, hk1⟩
      · exact Or.inl h
      · right
        refine ⟨k, ?_, hk1⟩
        rcases Nat.lt_succ_iff_lt_or_eq.1 hk with g | g
        · exact g
        · rw [g] at hk1; exact absurd hk1 hd

theorem ppu_write_2003 (v : Nat) (w : World) :
    ppu_write 0x2003 v w = { w with ppu := { w.ppu with open_bus := v, oam_addr := v } } := rfl

/-- The number of clocks before the one executed at dot 257. -/
theorem clocks_to_257 (w : World) (hr : RENDERING_ENABLED w = false) (h0 : 0 ≤ w.ppu.dot)
    (h1 : w.ppu.dot ≤ 340) :
    (ppu_clocks ((257 - w.ppu.dot) % 341).toNat w).ppu.dot = 257 ∧
    ((257 - w.ppu.dot) % 341).toNat + 1 ≤ 341 := by
  have hk : (((257 - w.ppu.dot) % 341).toNat : Int) = (257 - w.ppu.dot) % 341 :=
    Int.toNat_of_nonneg (Int.emod_nonneg _ (by decide))
  refine ⟨?_, by omega⟩
  rw [(clocks_no_render _ w hr h0 h1).1, hk]
  omega

/-! ### The NMI after the VBlank flag -/

theorem and80_iff (x : Nat) : x &&& 0x80 = 0 ↔ x.testBit 7 = false := by
  have e : x &&& 0x80 = x &&& 2 ^ 7 := rfl
  rw [e, Nat.and_two_pow]
  cases x.testBit 7 <;> simp

theorem bit7_or (x k : Nat) (hk : k.testBit 7 = false) :
    (x ||| k) &&& 0x80 = 0 ↔ x &&& 0x80 = 0 := by
  rw [and80_iff, and80_iff, Nat.testBit_or, hk, Bool.or_false]

theorem bit7_and_keep (x k : Nat) (hk : k.testBit 7 = true) :
    (x &&& k) &&& 0x80 = 0 ↔ x &&& 0x80 = 0 := by
  rw [and80_iff, and80_iff, Nat.testBit_and, hk, Bool.and_true]

theorem bit7_and_clear (x k : Nat) (hk : k.testBit 7 = false) : (x &&& k) &&& 0x80 = 0 := by
  rw [and80_iff, Nat.testBit_and, hk, Bool.and_false]

theorem bit7_or_set (x : Nat) : (x ||| 0x80) &&& 0x80 ≠ 0 := by
  intro h
  rw [and80_iff, Nat.testBit_or] at h
  have : (0x80 : Nat).testBit 7 = true := by decide
  rw [this, Bool.or_true] at h
  exact absurd h (by decide)

theorem sv_dot257_bit7 (d : Int) (o : Bool) (i : Nat) (s : StatView) :
    (sv_dot257 d o i s).status &&& 0x80 = 0 ↔ s.status &&& 0x80 = 0 := by
  unfold sv_dot257
  by_cases hd : d = 257
  · rw [if_pos hd]
    dsimp only
    cases o
    · exact bit7_and_keep _ 0xDF (by decide)
    · exact bit7_or _ 0x20 (by decide)
  · rw [if_neg hd]

theorem ppu_clock_ctrl (w : World) : (ppu_clock w).ppu.ctrl = w.ppu.ctrl := by
  obtain ⟨A, he, -, hf⟩ := evalv_ppu_clock w
  rw [ctrl_of_evalv hf, ctrl_dot257, ctrl_clock_eval, ctrl_eval_init]
  exact ctrl_of_evalv he

/-- The view before block 5 of a `ppu_clock`: the NMI fields after `nmi_step`
and bit 7 of PPUSTATUS as before. -/
theorem sview_before_vblank (w : World) :
    ∃ s : StatView, sview (ppu_clock w) =
        sv_vblank w.ppu.scanline w.ppu.dot (IS_PRERENDER_LINE w) w.ppu.ctrl w.ppu_is_pal s ∧
      (s.status &&& 0x80 = 0 ↔ w.ppu.status &&& 0x80 = 0) ∧
      s.nmi_prev = w.ppu.nmi_prev ∧ s.nmi_delay = w.ppu.nmi_delay - 1 ∧
      s.nmi_calls = (if w.ppu.nmi_delay = 1 ∧ (w.ppu.ctrl &&& 0x80) ≠ 0 ∧
        (w.ppu.status &&& 0x80) ≠ 0 then w.cpu.nmi_calls + 1 else w.cpu.nmi_calls) := by
  obtain ⟨s2, s4, h2, h4, hf⟩ := sview_ppu_clock w
  have a2 : (s2.status &&& 0x80 = 0 ↔ w.ppu.status &&& 0x80 = 0) ∧
      s2.nmi_prev = w.ppu.nmi_prev ∧ s2.nmi_delay = w.ppu.nmi_delay - 1 ∧
      s2.nmi_calls = (if w.ppu.nmi_delay = 1 ∧ (w.ppu.ctrl &&& 0x80) ≠ 0 ∧
        (w.ppu.status &&& 0x80) ≠ 0 then w.cpu.nmi_calls + 1 else w.cpu.nmi_calls) := by
    rcases h2 with e | ⟨e, -⟩
    · rw [e]; exact ⟨Iff.rfl, rfl, rfl, rfl⟩
    · rw [e]; exact ⟨bit7_or _ 0x40 (by decide), rfl, rfl, rfl⟩
  have a4 : s4.status = s2.status ∧ s4.nmi_prev = s2.nmi_prev ∧ s4.nmi_delay = s2.nmi_delay ∧
      s4.nmi_calls = s2.nmi_calls := by
    obtain ⟨b1, b2, b3, b4, -, -⟩ := sv_shift_rest (RENDERING_ENABLED w) w.ppu.dot s2
    rcases h4 with e4 | ⟨r, -⟩
    · rw [e4]; exact ⟨b1, b2, b3, b4⟩
    · obtain ⟨-, -, -, -, r5, r6, r7, r8, -, -⟩ := r
      exact ⟨r5.trans b1, r6.trans b2, r7.trans b3, r8.trans b4⟩
  obtain ⟨-, -, -, -, u5, u6, u7⟩ := sv_dot257_regs w.ppu.dot w.ppu.eval_overflow
    w.ppu.eval_sec_idx s4
  refine ⟨_, hf, ?_, ?_, ?_, ?_⟩
  · rw [sv_dot257_bit7, a4.1]; exact a2.1
  · rw [u5, a4.2.1]; exact a2.2.1
  · rw [u6, a4.2.2.1]; exact a2.2.2.1
  · rw [u7, a4.2.2.2]; exact a2.2.2.2

/-- The number of `nes_nmi` calls after one `ppu_clock`. -/
theorem nmi_calls_ppu_clock (w : World) :
    (ppu_clock w).cpu.nmi_calls =
      (if w.ppu.nmi_delay = 1 ∧ (w.ppu.ctrl &&& 0x80) ≠ 0 ∧ (w.ppu.status &&& 0x80) ≠ 0
       then w.cpu.nmi_calls + 1 else w.cpu.nmi_calls) := by
  obtain ⟨s, hf, -, -, -, h4⟩ := sview_before_vblank w
  have e : (ppu_clock w).cpu.nmi_calls = (sview (ppu_clock w)).nmi_calls := rfl
  rw [e, hf, (sv_vblank_regs _ _ _ _ _ _).2.2.2.2.2.2, h4]

/-- The clock of line 241, dot 1: the VBlank flag is set and `nmi_check` runs
on it. -/
theorem nmi_at_vblank (w : World) (hl : w.ppu.scanline = 241) (hd : w.ppu.dot = 1) :
    (ppu_clock w).ppu.status &&& 0x80 ≠ 0 ∧
    (ppu_clock w).ppu.nmi_prev = ((w.ppu.ctrl &&& 0x80) != 0) ∧
    (ppu_clock w).ppu.nmi_delay =
      (if (((w.ppu.ctrl &&& 0x80) != 0) && !w.ppu.nmi_prev) = true then
        (if w.ppu_is_pal then 7 else 6) else w.ppu.nmi_delay - 1) := by
  obtain ⟨s, hf, -, h2, h3, -⟩ := sview_before_vblank w
  have npre : IS_PRERENDER_LINE w = false := by
    unfold IS_PRERENDER_LINE
    rw [hl]
    split <;> decide
  have ev : sv_vblank w.ppu.scanline w.ppu.dot (IS_PRERENDER_LINE w) w.ppu.ctrl w.ppu_is_pal s
      = sv_nmi_check w.ppu.ctrl w.ppu_is_pal { s with status := s.status ||| 0x80 } := by
    unfold sv_vblank
    dsimp only
    rw [npre, if_neg (by simp), if_pos ⟨hl, hd⟩]
  rw [ev] at hf
  have e1 : (ppu_clock w).ppu.status = (sview (ppu_clock w)).status := rfl
  have e2 : (ppu_clock w).ppu.nmi_prev = (sview (ppu_clock w)).nmi_prev := rfl
  have e3 : (ppu_clock w).ppu.nmi_delay = (sview (ppu_clock w)).nmi_delay := rfl
  have b7 : (((s.status ||| 0x80) &&& 0x80) != 0) = true := by
    have := bit7_or_set s.status
    simpa using this
  rw [e1, e2, e3, hf]
  unfold sv_nmi_check
  dsimp only
  rw [b7, Bool.and_true, h2, h3]
  exact ⟨bit7_or_set _, rfl, rfl⟩

/-- A `ppu_clock` away from line 241, dot 1. -/
theorem nmi_off_vblank (w : World) (h : ¬ (w.ppu.scanline = 241 ∧ w.ppu.dot = 1)) :
    (w.ppu.status &&& 0x80 = 0 → (ppu_clock w).ppu.status &&& 0x80 = 0) ∧
    (ppu_clock w).ppu.nmi_delay = w.ppu.nmi_delay - 1 ∧
    (¬ (IS_PRERENDER_LINE w = true ∧ w.ppu.dot = 1) →
      ((ppu_clock w).ppu.status &&& 0x80 = 0 ↔ w.ppu.status &&& 0x80 = 0)) := by
  obtain ⟨s, hf, h1, h2, h3, -⟩ := sview_before_vblank w
  have e1 : (ppu_clock w).ppu.status = (sview (ppu_clock w)).status := rfl
  have e3 : (ppu_clock w).ppu.nmi_delay = (sview (ppu_clock w)).nmi_delay := rfl
  rw [e1, e3, hf]
  unfold sv_vblank
  dsimp only
  rw [if_neg h]
  by_cases hp : IS_PRERENDER_LINE w = true ∧ w.ppu.dot = 1
  · rw [if_pos hp]
    have b7 : (((s.status &&& 0x1F) &&& 0x80) != 0) = false := by
      have := bit7_and_clear s.status 0x1F (by decide)
      simp [this]
    refine ⟨fun _ => bit7_and_clear _ 0x1F (by decide), ?_, fun g => absurd hp g⟩
    unfold sv_nmi_check
    dsimp only
    rw [b7, Bool.and_false, Bool.false_and, if_neg (by decide)]
    exact h3
  · rw [if_neg hp]
    exact ⟨fun g => h1.2 g, h3, fun _ => h1⟩

/-- With no delay pending, clocks away from line 241, dot 1 call no NMI. -/
theorem nmi_quiet (m : Nat) (x : World) (h0 : x.ppu.nmi_delay = 0)
    (hq : ∀ i, i < m → ¬ at_vblank_start (ppu_clocks i x)) :
    (ppu_clocks m x).cpu.nmi_calls = x.cpu.nmi_calls ∧ (ppu_clocks m x).ppu.nmi_delay = 0 := by
  induction m with
  | zero => exact ⟨rfl, h0⟩
  | succ m ih =>
    obtain ⟨a1, a2⟩ := ih (fun i hi => hq i (Nat.lt_succ_of_lt hi))
    obtain ⟨-, b2, -⟩ := nmi_off_vblank (ppu_clocks m x) (hq m (Nat.lt_succ_self m))
    rw [ppu_clocks_succ, nmi_calls_ppu_clock, if_neg (by rw [a2]; simp), b2, a2]
    exact ⟨a1, rfl⟩

/-- With the VBlank flag clear, clocks away from line 241, dot 1 call no NMI. -/
theorem nmi_silent (m : Nat) (x : World) (h0 : x.ppu.status &&& 0x80 = 0)
    (hq : ∀ i, i < m → ¬ at_vblank_start (ppu_clocks i x)) :
    (ppu_clocks m x).cpu.nmi_calls = x.cpu.nmi_calls ∧
    (ppu_clocks m x).ppu.status &&& 0x80 = 0 := by
  induction m with
  | zero => exact ⟨rfl, h0⟩
  | succ m ih =>
    obtain ⟨a1, a2⟩ := ih (fun i hi => hq i (Nat.lt_succ_of_lt hi))
    obtain ⟨b1, -, -⟩ := nmi_off_vblank (ppu_clocks m x) (hq m (Nat.lt_succ_self m))
    rw [ppu_clocks_succ, nmi_calls_ppu_clock, if_neg (fun g => g.2.2 a2)]
    exact ⟨a1, b1 a2⟩

/-- On one line, from dot 2 on, the beam does not come back to dot 1. -/
theorem not_vblank_start_in_line (x : World) (hd : 2 ≤ x.ppu.dot) (i : Nat)
    (hi : x.ppu.dot + i ≤ 339) : ¬ at_vblank_start (ppu_clocks i x) := by
  intro h
  have := h.2
  rw [(clocks_pos i x hi).1] at this
  omega

/-- The countdown after the rising edge: the state after `j ≤ n` clocks. -/
theorem nmi_countdown (n : Nat) (u : World) (hl : u.ppu.scanline = 241) (hd : u.ppu.dot = 2)
    (hc : (u.ppu.ctrl &&& 0x80) ≠ 0) (hs : u.ppu.status &&& 0x80 ≠ 0)
    (hn : u.ppu.nmi_delay = n) (hn1 : 1 ≤ n) (hn2 : n ≤ 300) (j : Nat) (hj : j ≤ n) :
    (ppu_clocks j u).ppu.scanline = 241 ∧ (ppu_clocks j u).ppu.dot = 2 + j ∧
    ((ppu_clocks j u).ppu.ctrl &&& 0x80) ≠ 0 ∧ (ppu_clocks j u).ppu.status &&& 0x80 ≠ 0 ∧
    (ppu_clocks j u).ppu.nmi_delay = n - j ∧
    (ppu_clocks j u).cpu.nmi_calls = (if j = n then u.cpu.nmi_calls + 1 else u.cpu.nmi_calls) := by
  induction j with
  | zero =>
    refine ⟨hl, hd.trans rfl, hc, hs, hn, ?_⟩
    rw [if_neg (by omega)]
    rfl
  | succ j ih =>
    obtain ⟨a1, a2, a3, a4, a5, a6⟩ := ih (by omega)
    obtain ⟨X, hX⟩ : ∃ X : World, X = ppu_clocks j u := ⟨_, rfl⟩
    rw [← hX] at a1 a2 a3 a4 a5 a6
    rw [ppu_clocks_succ, ← hX]
    obtain ⟨p1, p2, -, -⟩ := clock_pos X (by rw [a2]; omega)
    have nv : ¬ (X.ppu.scanline = 241 ∧ X.ppu.dot = 1) := fun g => by
      have := g.2; rw [a2] at this; omega
    have np : ¬ (IS_PRERENDER_LINE X = true ∧ X.ppu.dot = 1) := fun g => by
      have := g.2; rw [a2] at this; omega
    obtain ⟨-, q2, q3⟩ := nmi_off_vblank X nv
    refine ⟨p2.trans a1, by rw [p1, a2]; push_cast; ring, by rw [ppu_clock_ctrl]; exact a3,
      fun g => a4 ((q3 np).1 g), by rw [q2, a5]; omega, ?_⟩
    rw [nmi_calls_ppu_clock, a6, a5, if_neg (by omega : ¬ j = n)]
    by_cases hjn : j + 1 = n
    · rw [if_pos hjn, if_pos ⟨by omega, a3, a4⟩]
    · rw [if_neg hjn, if_neg (fun g => hjn (by have := g.1; omega))]

theorem ppu_read_2002_nmi (x : World) :
    (ppu_read 0x2002 x).2.cpu.nmi_calls = x.cpu.nmi_calls ∧
    (ppu_read 0x2002 x).2.ppu.status &&& 0x80 = 0 ∧
    (ppu_read 0x2002 x).2.ppu.dot = x.ppu.dot ∧
    (ppu_read 0x2002 x).2.ppu.scanline = x.ppu.scanline := by
  obtain ⟨k1, k2, -⟩ := ppu_read_keep 0x2002 x
  refine ⟨?_, ?_, k1, k2⟩
  · rw [ppu_read_2002]
    unfold ppu_read_status nmi_check
    dsimp only
    split_ifs <;> rfl
  · rw [ppu_read_2002, (ppu_read_status_spec x).2.1]
    exact bit7_and_clear _ 0x7F (by decide)

/-- C34. NMI delivery delay: on line 241, dot 1, with bit 7 of PPUCTRL set, the
VBlank flag clear and the NMI condition not asserted before, the `ppu_clock`
sets bit 7 of PPUSTATUS; with no register access, `nes_nmi` is not called by
that clock nor by the next `N - 1` clocks, it is called by the `N`-th
following clock, executed at dot `N + 1` (`N` is 6 on NTSC, 7 on PAL), and by
no later clock until the beam is on line 241, dot 1 again (in particular by
none of the rest of line 241); and if `$2002` is read before that `N`-th
clock, no clock calls `nes_nmi` until the beam is on line 241, dot 1 again. -/
theorem C34_nmi_delay (w : World) (hl : w.ppu.scanline = 241) (hd : w.ppu.dot = 1)
    (hc : (w.ppu.ctrl &&& 0x80) ≠ 0) (hs : w.ppu.status &&& 0x80 = 0)
    (hp : w.ppu.nmi_prev = false) :
    (ppu_clock w).ppu.status &&& 0x80 ≠ 0 ∧
    (∀ j, j < nmi_delay_dots w.ppu_is_pal →
      (ppu_clocks j (ppu_clock w)).cpu.nmi_calls = w.cpu.nmi_calls ∧
      (ppu_clocks j (ppu_clock w)).ppu.dot = 2 + j) ∧
    (ppu_clocks (nmi_delay_dots w.ppu_is_pal) (ppu_clock w)).cpu.nmi_calls
      = w.cpu.nmi_calls + 1 ∧
    (∀ m, (∀ i, i < m → ¬ at_vblank_start
        (ppu_clocks (nmi_delay_dots w.ppu_is_pal + i) (ppu_clock w))) →
      (ppu_clocks (nmi_delay_dots w.ppu_is_pal + m) (ppu_clock w)).cpu.nmi_calls
        = w.cpu.nmi_calls + 1) ∧
    (∀ k, nmi_delay_dots w.ppu_is_pal ≤ k → k ≤ 337 →
      (ppu_clocks k (ppu_clock w)).cpu.nmi_calls = w.cpu.nmi_calls + 1) ∧
    (∀ j, j < nmi_delay_dots w.ppu_is_pal → ∀ m,
      (∀ i, i < m → ¬ at_vblank_start
        (ppu_clocks i (ppu_read 0x2002 (ppu_clocks j (ppu_clock w))).2)) →
      (ppu_clocks m (ppu_read 0x2002 (ppu_clocks j (ppu_clock w))).2).cpu.nmi_calls
        = w.cpu.nmi_calls) ∧
    (∀ j, j < nmi_delay_dots w.ppu_is_pal → ∀ m, m ≤ 330 →
      (ppu_clocks m (ppu_read 0x2002 (ppu_clocks j (ppu_clock w))).2).cpu.nmi_calls
        = w.cpu.nmi_calls) := by
  obtain ⟨v1, -, v3⟩ := nmi_at_vblank w hl hd
  have c7 : ((w.ppu.ctrl &&& 0x80) != 0) = true := by simpa using hc
  rw [c7, hp] at v3
  have v3' : (ppu_clock w).ppu.nmi_delay = nmi_delay_dots w.ppu_is_pal := v3
  have hN : 1 ≤ nmi_delay_dots w.ppu_is_pal ∧ nmi_delay_dots w.ppu_is_pal ≤ 7 := by
    unfold nmi_delay_dots; split <;> exact ⟨by decide, by decide⟩
  obtain ⟨p1, p2, -, -⟩ := clock_pos w (by rw [hd]; decide)
  have ud : (ppu_clock w).ppu.dot = 2 := by rw [p1, hd]; rfl
  have ul : (ppu_clock w).ppu.scanline = 241 := p2.trans hl
  have uc : ((ppu_clock w).ppu.ctrl &&& 0x80) ≠ 0 := by rw [ppu_clock_ctrl]; exact hc
  have un : (ppu_clock w).cpu.nmi_calls = w.cpu.nmi_calls := by
    rw [nmi_calls_ppu_clock, if_neg (fun g => g.2.2 hs)]
  obtain ⟨U, hU⟩ : ∃ U : World, U = ppu_clock w := ⟨_, rfl⟩
  rw [← hU] at v1 v3' ud ul uc un ⊢
  have cd := nmi_countdown (nmi_delay_dots w.ppu_is_pal) U ul ud uc v1 v3' hN.1 (by omega)
  -- the state after the delivering clock
  obtain ⟨-, n2, -, -, n5, n6⟩ := cd (nmi_delay_dots w.ppu_is_pal) (le_refl _)
  rw [if_pos rfl, un] at n6
  rw [Nat.sub_self] at n5
  have after : ∀ m, (∀ i, i < m → ¬ at_vblank_start
      (ppu_clocks (nmi_delay_dots w.ppu_is_pal + i) U)) →
      (ppu_clocks (nmi_delay_dots w.ppu_is_pal + m) U).cpu.nmi_calls = w.cpu.nmi_calls + 1 := by
    intro m hq
    rw [ppu_clocks_add, (nmi_quiet m _ n5 (fun i hi => by
      rw [← ppu_clocks_add]; exact hq i hi)).1]
    exact n6
  have rd : ∀ j, j < nmi_delay_dots w.ppu_is_pal → ∀ m,
      (∀ i, i < m → ¬ at_vblank_start (ppu_clocks i (ppu_read 0x2002 (ppu_clocks j U)).2)) →
      (ppu_clocks m (ppu_read 0x2002 (ppu_clocks j U)).2).cpu.nmi_calls = w.cpu.nmi_calls := by
    intro j hj m hq
    obtain ⟨-, -, -, -, -, c6⟩ := cd j (le_of_lt hj)
    rw [if_neg (by omega), un] at c6
    obtain ⟨r1, r2, -, -⟩ := ppu_read_2002_nmi (ppu_clocks j U)
    rw [(nmi_silent m _ r2 hq).1, r1, c6]
  refine ⟨v1, fun j hj => ?_, n6, after, fun k hk1 hk2 => ?_, rd, fun j hj m hm => ?_⟩
  · obtain ⟨-, c2, -, -, -, c6⟩ := cd j (le_of_lt hj)
    rw [if_neg (by omega), un] at c6
    exact ⟨c6, c2⟩
  · have e : k = nmi_delay_dots w.ppu_is_pal + (k - nmi_delay_dots w.ppu_is_pal) := by omega
    rw [e]
    apply after
    intro i hi
    apply not_vblank_start_in_line U (by rw [ud]) _ (by rw [ud]; omega)
  · apply rd j hj m
    intro i hi
    obtain ⟨-, c2, -⟩ := cd j (le_of_lt hj)
    obtain ⟨-, -, r3, -⟩ := ppu_read_2002_nmi (ppu_clocks j U)
    apply not_vblank_start_in_line _ (by rw [r3, c2]; omega) _ (by rw [r3, c2]; omega)

theorem C34_nmi_delay_witness :
    (ppu_clocks (nmi_delay_dots (vblank_machine false).ppu_is_pal)
      (ppu_clock (vblank_machine false))).cpu.nmi_calls
        = (vblank_machine false).cpu.nmi_calls + 1 ∧
    (ppu_clocks (nmi_delay_dots (vblank_machine true).ppu_is_pal)
      (ppu_clock (vblank_machine true))).cpu.nmi_calls
        = (vblank_machine true).cpu.nmi_calls + 1 :=
  ⟨(C34_nmi_delay (vblank_machine false) rfl rfl (by decide) rfl rfl).2.2.1,
   (C34_nmi_delay (vblank_machine true) rfl rfl (by decide) rfl rfl).2.2.1⟩

/-! ### The PAL accumulator through `ppu_clock` -/

/-- Machines with the same `ppu` record have the same PAL accumulator. -/
theorem accv_congr (w w' : World) (h1 : w'.ppu = w.ppu) : accv w' = accv w := by
  simp [accv, h1]

theorem accv_track (addr : Nat) (w : World) : accv (mmc3_track_a12 addr w) = accv w :=
  accv_congr _ _ (mmc3_track_a12_ppu addr w).1

theorem accv_chr_read (addr : Nat) (w : World) : accv (chr_read addr w).2 = accv w := by
  rw [chr_read_world]; exact accv_track addr w

theorem accv_bus_read (addr : Nat) (w : World) : accv (ppu_bus_read addr w).2 = accv w := by
  unfold ppu_bus_read
  simp only
  split_ifs
  all_goals first | rfl | exact accv_chr_read _ w

theorem accv_latch_sprite0 (w : World) : accv (clock_latch_sprite0 w) = accv w := by
  unfold clock_latch_sprite0; split <;> rfl

theorem accv_sprite_shift (w : World) : accv (sprite_shift w) = accv w := rfl

theorem accv_inc_x (w : World) : accv (inc_x w) = accv w := by
  unfold inc_x; split <;> rfl

theorem accv_inc_y (w : World) : accv (inc_y w) = accv w := by
  unfold inc_y; split <;> simp [accv]

theorem accv_copy_x (w : World) : accv (copy_x_from_t w) = accv w := rfl

theorem accv_copy_y (w : World) : accv (copy_y_from_t w) = accv w := rfl

theorem accv_latchfunc (b t : Nat) (w : World) : accv (call_latchfunc b t w) = accv w := by
  unfold call_latchfunc; split <;> rfl

/-- Replacing the `ppu` record by one with the same accumulator. -/
theorem accv_set_ppu (w : World) (p : ppu_s) (h1 : p.pal_ppu_accum = w.ppu.pal_ppu_accum) :
    accv { w with ppu := p } = accv w := h1

theorem accv_ite (c : Prop) [Decidable c] (a b w : World) (ha : accv a = accv w)
    (hb : accv b = accv w) : accv (if c then a else b) = accv w := by
  split <;> assumption

theorem accv_bg_fetch_nt (w : World) : accv (bg_fetch_nt w) = accv w := by
  unfold bg_fetch_nt
  exact (rfl : accv _ = accv (ppu_bus_read _ w).2).trans (accv_bus_read _ w)

theorem accv_bg_fetch_at (w : World) : accv (bg_fetch_at w) = accv w := by
  unfold bg_fetch_at
  exact (rfl : accv _ = accv (ppu_bus_read _ w).2).trans (accv_bus_read _ w)

theorem accv_bg_fetch_pt_lo (w : World) : accv (bg_fetch_pt_lo w) = accv w := by
  unfold bg_fetch_pt_lo
  exact (rfl : accv _ = accv (chr_read _ (call_latchfunc _ _ w)).2).trans
    ((accv_chr_read _ _).trans (accv_latchfunc _ _ w))

theorem accv_eval_init (w : World) : accv (clock_eval_init w) = accv w := by
  unfold clock_eval_init; split <;> rfl

theorem accv_eval_read (w : World) : accv (eval_sprite_read_primary w) = accv w := by
  unfold eval_sprite_read_primary
  simp only
  split_ifs <;> rfl

theorem accv_eval_advance (w : World) : accv (eval_advance w) = accv w := rfl

theorem accv_eval_write (w : World) : accv (eval_sprite_write_secondary w) = accv w := by
  unfold eval_sprite_write_secondary
  simp only
  split_ifs <;> rfl

theorem accv_clock_eval (w : World) : accv (clock_eval w) = accv w := by
  unfold clock_eval
  exact accv_ite _ _ _ _ (accv_ite _ _ _ _ (accv_eval_read w) (accv_eval_write w)) rfl

theorem accv_sprite_fetch_lo (h c : Nat) (w : World) :
    accv (sprite_fetch_lo h c w) = accv w := by
  unfold sprite_fetch_lo
  exact (accv_set_ppu _ _ rfl).trans
    ((accv_chr_read _ _).trans
      ((accv_set_ppu _ _ rfl).trans (accv_latchfunc _ _ w)))

theorem accv_sprite_fetch_hi (w : World) : accv (sprite_fetch_hi w) = accv w := by
  unfold sprite_fetch_hi
  exact (accv_set_ppu _ _ rfl).trans (accv_chr_read _ w)

theorem accv_sprite_fetch_dummy (w : World) : accv (sprite_fetch_dummy w) = accv w := by
  unfold sprite_fetch_dummy
  exact accv_chr_read _ w

theorem accv_sprite_fetch_load (slot : Nat) (w : World) :
    accv (sprite_fetch_load slot w) = accv w := by
  unfold sprite_fetch_load
  exact accv_ite _ _ _ _
    ((accv_set_ppu _ _ rfl).trans (accv_chr_read _ w)) (accv_chr_read _ w)

theorem accv_clock_sprite_fetch (w : World) : accv (clock_sprite_fetch w) = accv w := by
  unfold clock_sprite_fetch
  refine accv_ite _ _ _ _ ?_ rfl
  have h0 : accv { w with ppu := { w.ppu with
      spr_fetch_slot := ((w.ppu.dot - 257) % 256).toNat >>> 3,
      spr_fetch_phase := ((w.ppu.dot - 257) % 256).toNat &&& 7 } } = accv w :=
    accv_set_ppu _ _ rfl
  exact accv_ite _ _ _ _ ((accv_set_ppu _ _ rfl).trans h0)
    (accv_ite _ _ _ _ ((accv_set_ppu _ _ rfl).trans h0)
    (accv_ite _ _ _ _ ((accv_set_ppu _ _ rfl).trans h0)
    (accv_ite _ _ _ _ ((accv_set_ppu _ _ rfl).trans h0)
    (accv_ite _ _ _ _ ((accv_sprite_fetch_lo _ _ _).trans h0)
    (accv_ite _ _ _ _ ((accv_sprite_fetch_hi _).trans h0)
    (accv_ite _ _ _ _ ((accv_sprite_fetch_dummy _).trans h0)
      ((accv_sprite_fetch_load _ _).trans h0)))))))

theorem accv_dot321 (w : World) : accv (clock_dot321 w) = accv w := by
  unfold clock_dot321; split <;> rfl

theorem accv_INC_DOT (w : World) : accv (INC_DOT w) = accv w := by
  unfold INC_DOT
  split_ifs <;> rfl

theorem accv_clock_odd_skip (w : World) : accv (clock_odd_skip w) = accv w := by
  unfold clock_odd_skip
  exact accv_ite _ _ _ _ (accv_INC_DOT w) rfl

theorem accv_clock_frame_end (w : World) : accv (clock_frame_end w) = accv w := by
  unfold clock_frame_end
  split <;> rfl

theorem accv_apply_emphasis (idx mask : Nat) (w : World) :
    accv (apply_emphasis_idx idx mask w).2 = accv w := by
  unfold apply_emphasis_idx init_emphasis_lut
  dsimp only
  split <;> rfl

theorem accv_nmi_step (w : World) : accv (nmi_step w) = accv w := by
  unfold nmi_step nes_nmi
  simp only
  split_ifs <;> rfl

theorem accv_sprite0_hit (i : Nat) (w : World) : accv (sprite0_hit i w) = accv w := by
  unfold sprite0_hit
  simp only
  split_ifs
  all_goals rfl

theorem accv_sprite_pixel_loop (n i : Nat) (w : World) :
    accv (sprite_pixel_loop n i w).2 = accv w := by
  induction n generalizing i with
  | zero => rfl
  | succ n ih =>
    unfold sprite_pixel_loop
    simp only
    split_ifs
    all_goals first | exact ih _ | exact accv_sprite0_hit i w

theorem accv_sprite_pixel (w : World) : accv (sprite_pixel w).2 = accv w := by
  unfold sprite_pixel
  split_ifs
  all_goals first | rfl | exact accv_sprite_pixel_loop 8 0 w

theorem accv_bg_shift (w : World) : accv (bg_shift w) = accv w := rfl

theorem accv_clock_shift (w : World) : accv (clock_shift w) = accv w := by
  unfold clock_shift
  simp only
  split_ifs
  all_goals rfl

theorem accv_reload (w : World) : accv (bg_reload_shifters w) = accv w := rfl

theorem accv_bg_fetch_pt_hi (w : World) : accv (bg_fetch_pt_hi w) = accv w := by
  unfold bg_fetch_pt_hi
  exact (accv_reload _).trans ((accv_set_ppu _ _ rfl).trans (accv_chr_read _ w))

theorem accv_bg_fetch_switch (w : World) : accv (bg_fetch_switch w) = accv w := by
  unfold bg_fetch_switch
  exact accv_ite _ _ _ _ (accv_bg_fetch_nt w) (accv_ite _ _ _ _ (accv_bg_fetch_at w)
    (accv_ite _ _ _ _ (accv_bg_fetch_pt_lo w) (accv_ite _ _ _ _ (accv_bg_fetch_pt_hi w) rfl)))

theorem accv_bg_fetch (w : World) : accv (bg_fetch w) = accv w := by
  unfold bg_fetch
  exact accv_ite _ _ _ _ ((accv_inc_x _).trans (accv_bg_fetch_switch w))
    (accv_bg_fetch_switch w)

theorem accv_clock_bg_tail (w1 w : World) (h : accv w1 = accv w) :
    accv (if w1.ppu.dot = 256 then inc_y w1
      else if w1.ppu.dot = 257 then copy_x_from_t w1
      else if IS_PRERENDER_LINE w1 = true ∧ 280 ≤ w1.ppu.dot ∧ w1.ppu.dot ≤ 304 then
        copy_y_from_t w1
      else w1) = accv w :=
  accv_ite _ _ _ _ ((accv_inc_y _).trans h) (accv_ite _ _ _ _ ((accv_copy_x _).trans h)
    (accv_ite _ _ _ _ ((accv_copy_y _).trans h) h))

theorem accv_clock_bg (w : World) : accv (clock_bg w) = accv w := by
  unfold clock_bg
  exact accv_ite _ _ _ _
    (accv_clock_bg_tail _ w (accv_ite _ _ _ _ (accv_bg_fetch w) rfl)) rfl

theorem accv_nmi_check (w : World) : accv (nmi_check w) = accv w := by
  unfold nmi_check
  dsimp only
  split_ifs <;> rfl

theorem accv_clock_vblank (w : World) : accv (clock_vblank w) = accv w := by
  unfold clock_vblank clock_vblank_clear clock_vblank_set
  exact accv_ite _ _ _ _ ((accv_nmi_check _).trans
      (accv_ite _ _ _ _ (accv_nmi_check _) rfl))
    (accv_ite _ _ _ _ (accv_nmi_check _) rfl)

theorem accv_set_fb (w : World) (f : Int → Nat) :
    accv { w with ppu := { w.ppu with fb := f } } = accv w := rfl

theorem accv_clock_pixel (w : World) : accv (clock_pixel w) = accv w := by
  unfold clock_pixel
  by_cases c0 : IS_VISIBLE_LINE w = true ∧ 1 ≤ w.ppu.dot ∧ w.ppu.dot ≤ 256
  · rw [if_pos c0]
    dsimp only
    refine Eq.trans ?_ (accv_sprite_pixel w)
    split_ifs
    all_goals first
      | rfl
      | exact (accv_set_fb _ _).trans (accv_apply_emphasis _ _ _)
  · rw [if_neg c0]

theorem accv_dot257 (w : World) : accv (clock_dot257 w) = accv w := by
  unfold clock_dot257; split <;> rfl

/-- A `ppu_clock` leaves the PAL accumulator alone. -/
theorem accv_ppu_clock (w : World) : accv (ppu_clock w) = accv w := by
  unfold ppu_clock
  dsimp only
  rw [accv_clock_frame_end, accv_INC_DOT, accv_clock_odd_skip, accv_clock_vblank, accv_dot321,
    accv_clock_sprite_fetch, accv_dot257, accv_clock_eval, accv_eval_init, accv_clock_bg,
    accv_clock_shift, accv_clock_pixel, accv_latch_sprite0, accv_nmi_step]

/-! ### The A12 filter through a `ppu_clock` that makes no CHR access -/

theorem a12v_set_ppu (w : World) (p : ppu_s) : a12v { w with ppu := p } = a12v w := rfl

theorem a12v_ite (c : Prop) [Decidable c] (a b w : World) (ha : a12v a = a12v w)
    (hb : a12v b = a12v w) : a12v (if c then a else b) = a12v w := by
  split <;> assumption

theorem a12v_nmi_step (w : World) : a12v (nmi_step w) = a12v w := by
  unfold nmi_step nes_nmi
  simp only
  split_ifs <;> rfl

theorem a12v_latch_sprite0 (w : World) : a12v (clock_latch_sprite0 w) = a12v w := by
  unfold clock_latch_sprite0; split <;> rfl

theorem a12v_sprite0_hit (i : Nat) (w : World) : a12v (sprite0_hit i w) = a12v w := by
  unfold sprite0_hit
  simp only
  split_ifs
  all_goals rfl

theorem a12v_sprite_pixel_loop (n i : Nat) (w : World) :
    a12v (sprite_pixel_loop n i w).2 = a12v w := by
  induction n generalizing i with
  | zero => rfl
  | succ n ih =>
    unfold sprite_pixel_loop
    simp only
    split_ifs
    all_goals first | exact ih _ | exact a12v_sprite0_hit i w

theorem a12v_sprite_pixel (w : World) : a12v (sprite_pixel w).2 = a12v w := by
  unfold sprite_pixel
  split_ifs
  all_goals first | rfl | exact a12v_sprite_pixel_loop 8 0 w

theorem a12v_apply_emphasis (idx mask : Nat) (w : World) :
    a12v (apply_emphasis_idx idx mask w).2 = a12v w := by
  unfold apply_emphasis_idx init_emphasis_lut
  dsimp only
  split <;> rfl

theorem a12v_clock_pixel (w : World) : a12v (clock_pixel w) = a12v w := by
  unfold clock_pixel
  by_cases c0 : IS_VISIBLE_LINE w = true ∧ 1 ≤ w.ppu.dot ∧ w.ppu.dot ≤ 256
  · rw [if_pos c0]
    dsimp only
    refine Eq.trans ?_ (a12v_sprite_pixel w)
    split_ifs
    all_goals first
      | rfl
      | exact (a12v_set_ppu _ _).trans (a12v_apply_emphasis _ _ _)
  · rw [if_neg c0]

theorem a12v_clock_shift (w : World) : a12v (clock_shift w) = a12v w := by
  unfold clock_shift
  simp only
  split_ifs
  all_goals rfl

theorem a12v_eval_init (w : World) : a12v (clock_eval_init w) = a12v w := by
  unfold clock_eval_init; split <;> rfl

theorem a12v_eval_read (w : World) : a12v (eval_sprite_read_primary w) = a12v w := by
  unfold eval_sprite_read_primary
  simp only
  split_ifs <;> rfl

theorem a12v_eval_write (w : World) : a12v (eval_sprite_write_secondary w) = a12v w := by
  unfold eval_sprite_write_secondary
  simp only
  split_ifs <;> rfl

theorem a12v_clock_eval (w : World) : a12v (clock_eval w) = a12v w := by
  unfold clock_eval
  exact a12v_ite _ _ _ _ (a12v_ite _ _ _ _ (a12v_eval_read w) (a12v_eval_write w)) rfl

theorem a12v_dot257 (w : World) : a12v (clock_dot257 w) = a12v w := by
  unfold clock_dot257; split <;> rfl

theorem a12v_dot321 (w : World) : a12v (clock_dot321 w) = a12v w := by
  unfold clock_dot321; split <;> rfl

theorem a12v_nmi_check (w : World) : a12v (nmi_check w) = a12v w := by
  unfold nmi_check
  dsimp only
  split_ifs <;> rfl

theorem a12v_clock_vblank (w : World) : a12v (clock_vblank w) = a12v w := by
  unfold clock_vblank clock_vblank_clear clock_vblank_set
  exact a12v_ite _ _ _ _ ((a12v_nmi_check _).trans
      (a12v_ite _ _ _ _ (a12v_nmi_check _) rfl))
    (a12v_ite _ _ _ _ (a12v_nmi_check _) rfl)

theorem a12v_INC_DOT (w : World) : a12v (INC_DOT w) = a12v w := by
  unfold INC_DOT
  split_ifs <;> rfl

theorem a12v_clock_odd_skip (w : World) : a12v (clock_odd_skip w) = a12v w := by
  unfold clock_odd_skip
  exact a12v_ite _ _ _ _ (a12v_INC_DOT w) rfl

theorem a12v_clock_frame_end (w : World) : a12v (clock_frame_end w) = a12v w := by
  unfold clock_frame_end
  split <;> rfl

theorem rendering_of_core {a w : World} (h : core a = core w) :
    RENDERING_ENABLED a = RENDERING_ENABLED w := by
  have m : a.ppu.mask = w.ppu.mask := congrArg Beam.mask (beam_of_core h).1
  unfold RENDERING_ENABLED
  rw [m]

theorem clock_bg_off (w : World) (hr : RENDERING_ENABLED w = false) : clock_bg w = w := by
  unfold clock_bg
  rw [if_neg (fun g => by rw [hr] at g; exact absurd g.1 (by decide))]

theorem clock_sprite_fetch_off (w : World) (hr : RENDERING_ENABLED w = false) :
    clock_sprite_fetch w = w := by
  unfold clock_sprite_fetch
  rw [if_neg (fun g => by rw [hr] at g; exact absurd g.2.1 (by decide))]

/-- With rendering disabled a `ppu_clock` makes no CHR access: the A12 filter
keeps its state, and rendering stays disabled. -/
theorem a12v_ppu_clock (w : World) (hr : RENDERING_ENABLED w = false) :
    a12v (ppu_clock w) = a12v w ∧ RENDERING_ENABLED (ppu_clock w) = false := by
  have hm : (ppu_clock w).ppu.mask = w.ppu.mask :=
    (congrArg Beam.mask (beam_ppu_clock w)).trans (Beam.step_is_pal (beam w)).2
  have hren : RENDERING_ENABLED (ppu_clock w) = false := by
    unfold RENDERING_ENABLED at hr ⊢
    rw [hm]; exact hr
  refine ⟨?_, hren⟩
  have r3 : RENDERING_ENABLED (clock_shift (clock_pixel (clock_latch_sprite0 (nmi_step w))))
      = false := by
    rw [rendering_of_core (by
      rw [core_clock_shift, core_clock_pixel, core_latch_sprite0, core_nmi_step] :
      core (clock_shift (clock_pixel (clock_latch_sprite0 (nmi_step w)))) = core w)]
    exact hr
  have e3 := clock_bg_off _ r3
  have r7 : RENDERING_ENABLED (clock_dot257 (clock_eval (clock_eval_init
      (clock_shift (clock_pixel (clock_latch_sprite0 (nmi_step w))))))) = false := by
    rw [rendering_of_core (by
      rw [core_dot257, core_clock_eval, core_eval_init, core_clock_shift, core_clock_pixel,
        core_latch_sprite0, core_nmi_step] :
      core (clock_dot257 (clock_eval (clock_eval_init
        (clock_shift (clock_pixel (clock_latch_sprite0 (nmi_step w))))))) = core w)]
    exact hr
  have e7 := clock_sprite_fetch_off _ r7
  unfold ppu_clock
  dsimp only
  rw [e3, e7, a12v_clock_frame_end, a12v_INC_DOT, a12v_clock_odd_skip, a12v_clock_vblank,
    a12v_dot321, a12v_dot257, a12v_clock_eval, a12v_eval_init, a12v_clock_shift,
    a12v_clock_pixel, a12v_latch_sprite0, a12v_nmi_step]

/-! ### One CPU cycle of PPU time, and the burn loop of the OAM DMA -/

theorem clock_and_count_facts (w : World) :
    (clock_and_count w).nes.ppu_cycles_total = (w.nes.ppu_cycles_total + 1) % 2 ^ 64 ∧
    accv (clock_and_count w) = accv w ∧
    (clock_and_count w).ppu.is_pal_system = w.ppu.is_pal_system ∧
    (RENDERING_ENABLED w = false →
      a12v (clock_and_count w) = a12v w ∧ RENDERING_ENABLED (clock_and_count w) = false) := by
  have hn := nes_clock_and_count w
  refine ⟨by rw [hn], accv_ppu_clock w, (kept_clock_and_count w).2.2.2.2, fun hr => ?_⟩
  exact a12v_ppu_clock w hr

/-- The `while` loop of the PAL branch: one `ppu_clock` per 5 units of the
accumulator. -/
theorem pal_loop_spec : ∀ (fuel : Nat) (w : World), accv w / 5 ≤ fuel →
    w.nes.ppu_cycles_total + accv w / 5 < 2 ^ 64 →
    (pal_accum_loop fuel w).nes.ppu_cycles_total = w.nes.ppu_cycles_total + accv w / 5 ∧
    accv (pal_accum_loop fuel w) = accv w % 5 ∧
    (pal_accum_loop fuel w).ppu.is_pal_system = w.ppu.is_pal_system ∧
    (RENDERING_ENABLED w = false →
      a12v (pal_accum_loop fuel w) = a12v w ∧
      RENDERING_ENABLED (pal_accum_loop fuel w) = false) := by
  intro fuel
  induction fuel with
  | zero =>
    intro w hf _
    have h5 : accv w < 5 := by omega
    have e0 : accv w / 5 = 0 := by omega
    have e1 : accv w % 5 = accv w := by omega
    rw [e0, e1]
    exact ⟨rfl, rfl, rfl, fun hr => ⟨rfl, hr⟩⟩
  | succ fuel ih =>
    intro w hf hb
    by_cases h5 : 5 ≤ w.ppu.pal_ppu_accum
    · obtain ⟨c1, c2, c3, c4⟩ := clock_and_count_facts w
      obtain ⟨W, hW⟩ : ∃ W : World, W = { clock_and_count w with ppu :=
          { (clock_and_count w).ppu with
            pal_ppu_accum := (clock_and_count w).ppu.pal_ppu_accum - 5 } } := ⟨_, rfl⟩
      have e : pal_accum_loop (fuel + 1) w = pal_accum_loop fuel W := by
        rw [hW, pal_accum_loop, if_pos h5]
      have a5 : 5 ≤ accv w := h5
      have wa : accv W = accv w - 5 := by
        rw [hW]
        show (clock_and_count w).ppu.pal_ppu_accum - 5 = accv w - 5
        have : (clock_and_count w).ppu.pal_ppu_accum = accv w := c2
        rw [this]
      have wt : W.nes.ppu_cycles_total = w.nes.ppu_cycles_total + 1 := by
        rw [hW]
        show (clock_and_count w).nes.ppu_cycles_total = _
        rw [c1]
        omega
      have wp : W.ppu.is_pal_system = w.ppu.is_pal_system := by rw [hW]; exact c3
      have wr : RENDERING_ENABLED w = false → a12v W = a12v w ∧ RENDERING_ENABLED W = false := by
        intro hr
        obtain ⟨d1, d2⟩ := c4 hr
        rw [hW]
        exact ⟨d1, d2⟩
      obtain ⟨i1, i2, i3, i4⟩ := ih W (by rw [wa]; omega) (by rw [wa, wt]; omega)
      rw [e, i1, i2, i3, wa, wt, wp]
      refine ⟨by omega, by omega, rfl, fun hr => ?_⟩
      obtain ⟨d1, d2⟩ := wr hr
      obtain ⟨j1, j2⟩ := i4 d2
      exact ⟨j1.trans d1, j2⟩
    · have e : pal_accum_loop (fuel + 1) w = w := by
        rw [pal_accum_loop, if_neg h5]
      have a5 : accv w < 5 := by
        have : ¬ 5 ≤ accv w := h5
        omega
      have e0 : accv w / 5 = 0 := by omega
      have e1 : accv w % 5 = accv w := by omega
      rw [e, e0, e1]
      exact ⟨rfl, rfl, rfl, fun hr => ⟨rfl, hr⟩⟩

/-- `ppu_step_one_cpu_cycle`: the dots of one CPU cycle. -/
theorem step_one_spec (w : World) (hacc : w.ppu.is_pal_system = true → accv w < 5)
    (hb : w.nes.ppu_cycles_total + dma_dots w.ppu.is_pal_system (accv w) 1 < 2 ^ 64) :
    (ppu_step_one_cpu_cycle w).nes.ppu_cycles_total
      = w.nes.ppu_cycles_total + dma_dots w.ppu.is_pal_system (accv w) 1 ∧
    accv (ppu_step_one_cpu_cycle w)
      = (if w.ppu.is_pal_system then (accv w + 16) % 5 else accv w) ∧
    (ppu_step_one_cpu_cycle w).ppu.is_pal_system = w.ppu.is_pal_system ∧
    (RENDERING_ENABLED w = false →
      a12v (ppu_step_one_cpu_cycle w) = a12v w ∧
      RENDERING_ENABLED (ppu_step_one_cpu_cycle w) = false) := by
  have hk := (kept_step_one w).2.2.2.2
  by_cases hp : w.ppu.is_pal_system = false
  · have hd : dma_dots w.ppu.is_pal_system (accv w) 1 = 3 := by
      rw [hp]
      rfl
    have hn := nes_step_one_ntsc w hp (by rw [hd] at hb; exact hb)
    have e : ppu_step_one_cpu_cycle w =
        { clock_and_count (clock_and_count (clock_and_count w)) with ppu :=
          { (clock_and_count (clock_and_count (clock_and_count w))).ppu with
            phase_mod3 := ((clock_and_count (clock_and_count
              (clock_and_count w))).ppu.phase_mod3 + 1) % 3 } } := by
      unfold ppu_step_one_cpu_cycle
      rw [if_pos hp]
    obtain ⟨-, a2, -, a4⟩ := clock_and_count_facts w
    obtain ⟨-, b2, -, b4⟩ := clock_and_count_facts (clock_and_count w)
    obtain ⟨-, c2, -, c4⟩ := clock_and_count_facts (clock_and_count (clock_and_count w))
    refine ⟨?_, ?_, hk, fun hr => ?_⟩
    · rw [hn, hp]
      show w.nes.ppu_cycles_total + 3 = w.nes.ppu_cycles_total + dma_dots false (accv w) 1
      unfold dma_dots
      rw [if_neg (by decide)]
    · rw [hp, if_neg (by decide), e]
      exact c2.trans (b2.trans a2)
    · obtain ⟨x1, x2⟩ := a4 hr
      obtain ⟨y1, y2⟩ := b4 x2
      obtain ⟨z1, z2⟩ := c4 y2
      rw [e]
      exact ⟨z1.trans (y1.trans x1), z2⟩
  · have hp' : w.ppu.is_pal_system = true := by
      cases h : w.ppu.is_pal_system
      · exact absurd h hp
      · rfl
    have ha := hacc hp'
    have hd : dma_dots w.ppu.is_pal_system (accv w) 1 = (accv w + 16) / 5 := by
      rw [hp']
      rfl
    rw [hd] at hb
    obtain ⟨W, hW⟩ : ∃ W : World, W = { w with ppu := { w.ppu with
        pal_ppu_accum := (w.ppu.pal_ppu_accum + 16) % 256 } } := ⟨_, rfl⟩
    have e : ppu_step_one_cpu_cycle w = pal_accum_loop 256 W := by
      unfold ppu_step_one_cpu_cycle
      rw [if_neg hp, hW]
    have wa : accv W = accv w + 16 := by
      rw [hW]
      show (w.ppu.pal_ppu_accum + 16) % 256 = accv w + 16
      have : w.ppu.pal_ppu_accum = accv w := rfl
      rw [this]
      omega
    have wt : W.nes.ppu_cycles_total = w.nes.ppu_cycles_total := by rw [hW]
    have wr : RENDERING_ENABLED W = RENDERING_ENABLED w := by rw [hW]; rfl
    have wv : a12v W = a12v w := by rw [hW]; rfl
    obtain ⟨i1, i2, -, i4⟩ := pal_loop_spec 256 W (by rw [wa]; omega) (by rw [wa, wt]; omega)
    rw [e, i1, i2, wa, wt, hp', if_pos rfl]
    refine ⟨?_, rfl, by rw [← e]; exact hk.trans hp', fun hr => ?_⟩
    · unfold dma_dots
      rw [if_pos rfl]
    · obtain ⟨j1, j2⟩ := i4 (wr.trans hr)
      exact ⟨j1.trans wv, j2⟩

/-- What `ppu_mmc3_m2_tick(1)` does: the count of low M2 cycles goes up by one,
saturating at 8, while A12 is low. -/
theorem m2_tick_one (w : World) :
    a12v (ppu_mmc3_m2_tick 1 w) =
      (w.a12_prev,
       (if w.mmc3_a12_level then w.mmc3_a12_low_m2_count
        else if 8 < w.mmc3_a12_low_m2_count + 1 then 8 else w.mmc3_a12_low_m2_count + 1),
       w.mmc3_a12_level) ∧
    (ppu_mmc3_m2_tick 1 w).ppu = w.ppu ∧ (ppu_mmc3_m2_tick 1 w).nes = w.nes ∧
    (ppu_mmc3_m2_tick 1 w).cpu = w.cpu := by
  cases h : w.mmc3_a12_level
  · have e : ppu_mmc3_m2_tick 1 w = { w with mmc3_a12_low_m2_count :=
        if 8 < w.mmc3_a12_low_m2_count + 1 then 8 else w.mmc3_a12_low_m2_count + 1 } := by
      unfold ppu_mmc3_m2_tick
      rw [h]
      rfl
    rw [e]
    refine ⟨?_, rfl, rfl, rfl⟩
    show (w.a12_prev, _, w.mmc3_a12_level) = _
    rw [h]
    rfl
  · have e : ppu_mmc3_m2_tick 1 w = w := by
      unfold ppu_mmc3_m2_tick
      rw [h]
      rfl
    rw [e]
    refine ⟨?_, rfl, rfl, rfl⟩
    show (w.a12_prev, w.mmc3_a12_low_m2_count, w.mmc3_a12_level) = _
    rw [h]
    rfl

/-- The PAL loop with rendering disabled leaves the A12 filter alone. -/
theorem pal_loop_a12v : ∀ (fuel : Nat) (w : World), RENDERING_ENABLED w = false →
    a12v (pal_accum_loop fuel w) = a12v w ∧
    RENDERING_ENABLED (pal_accum_loop fuel w) = false := by
  intro fuel
  induction fuel with
  | zero => intro w hr; exact ⟨rfl, hr⟩
  | succ fuel ih =>
    intro w hr
    by_cases h5 : 5 ≤ w.ppu.pal_ppu_accum
    · obtain ⟨-, -, -, c4⟩ := clock_and_count_facts w
      obtain ⟨W, hW⟩ : ∃ W : World, W = { clock_and_count w with ppu :=
          { (clock_and_count w).ppu with
            pal_ppu_accum := (clock_and_count w).ppu.pal_ppu_accum - 5 } } := ⟨_, rfl⟩
      have e : pal_accum_loop (fuel + 1) w = pal_accum_loop fuel W := by
        rw [hW, pal_accum_loop, if_pos h5]
      have wr : a12v W = a12v w ∧ RENDERING_ENABLED W = false := by
        obtain ⟨d1, d2⟩ := c4 hr
        rw [hW]
        exact ⟨d1, d2⟩
      obtain ⟨j1, j2⟩ := ih W wr.2
      rw [e]
      exact ⟨j1.trans wr.1, j2⟩
    · have e : pal_accum_loop (fuel + 1) w = w := by
        rw [pal_accum_loop, if_neg h5]
      rw [e]
      exact ⟨rfl, hr⟩

/-- With rendering disabled the PPU makes no CHR access, so one CPU cycle of
PPU time leaves the A12 filter alone, in both regions. -/
theorem step_one_a12v (w : World) (hr : RENDERING_ENABLED w = false) :
    a12v (ppu_step_one_cpu_cycle w) = a12v w ∧
    RENDERING_ENABLED (ppu_step_one_cpu_cycle w) = false := by
  by_cases hp : w.ppu.is_pal_system = false
  · have e : ppu_step_one_cpu_cycle w =
        { clock_and_count (clock_and_count (clock_and_count w)) with ppu :=
          { (clock_and_count (clock_and_count (clock_and_count w))).ppu with
            phase_mod3 := ((clock_and_count (clock_and_count
              (clock_and_count w))).ppu.phase_mod3 + 1) % 3 } } := by
      unfold ppu_step_one_cpu_cycle
      rw [if_pos hp]
    obtain ⟨-, -, -, a4⟩ := clock_and_count_facts w
    obtain ⟨-, -, -, b4⟩ := clock_and_count_facts (clock_and_count w)
    obtain ⟨-, -, -, c4⟩ := clock_and_count_facts (clock_and_count (clock_and_count w))
    obtain ⟨x1, x2⟩ := a4 hr
    obtain ⟨y1, y2⟩ := b4 x2
    obtain ⟨z1, z2⟩ := c4 y2
    rw [e]
    exact ⟨z1.trans (y1.trans x1), z2⟩
  · obtain ⟨W, hW⟩ : ∃ W : World, W = { w with ppu := { w.ppu with
        pal_ppu_accum := (w.ppu.pal_ppu_accum + 16) % 256 } } := ⟨_, rfl⟩
    have e : ppu_step_one_cpu_cycle w = pal_accum_loop 256 W := by
      unfold ppu_step_one_cpu_cycle
      rw [if_neg hp, hW]
    have wr : RENDERING_ENABLED W = RENDERING_ENABLED w := by rw [hW]; rfl
    have wv : a12v W = a12v w := by rw [hW]; rfl
    obtain ⟨j1, j2⟩ := pal_loop_a12v 256 W (wr.trans hr)
    rw [e]
    exact ⟨j1.trans wv, j2⟩

/-- One round of the burn loop: the M2 tick comes first, then the PPU step for
one CPU cycle runs on the ticked machine, then the burn and the count. -/
theorem dma_burn_step_eq (w : World) :
    dma_burn_step w =
      { ppu_step_one_cpu_cycle (ppu_mmc3_m2_tick 1 w) with
        cpu := { (ppu_step_one_cpu_cycle (ppu_mmc3_m2_tick 1 w)).cpu with
          burned := (ppu_step_one_cpu_cycle (ppu_mmc3_m2_tick 1 w)).cpu.burned + 1 },
        nes := { (ppu_step_one_cpu_cycle (ppu_mmc3_m2_tick 1 w)).nes with
          cpu_cycles_total :=
            ((ppu_step_one_cpu_cycle (ppu_mmc3_m2_tick 1 w)).nes.cpu_cycles_total + 1)
              % 2 ^ 64 } } := rfl

theorem dma_burn_step_dots (w : World) (hacc : w.ppu.is_pal_system = true → accv w < 5)
    (hb : w.nes.ppu_cycles_total + dma_dots w.ppu.is_pal_system (accv w) 1 < 2 ^ 64) :
    (dma_burn_step w).nes.ppu_cycles_total
      = w.nes.ppu_cycles_total + dma_dots w.ppu.is_pal_system (accv w) 1 ∧
    accv (dma_burn_step w)
      = (if w.ppu.is_pal_system then (accv w + 16) % 5 else accv w) ∧
    (dma_burn_step w).ppu.is_pal_system = w.ppu.is_pal_system := by
  obtain ⟨-, t2, t3, -⟩ := m2_tick_one w
  obtain ⟨T, hT⟩ : ∃ T : World, T = ppu_mmc3_m2_tick 1 w := ⟨_, rfl⟩
  rw [← hT] at t2 t3
  have ta : accv T = accv w := by
    show T.ppu.pal_ppu_accum = w.ppu.pal_ppu_accum
    rw [t2]
  obtain ⟨s1, s2, s3, -⟩ := step_one_spec T (by rw [t2, ta]; exact hacc)
    (by rw [t2, t3, ta]; exact hb)
  rw [t2, t3, ta] at s1
  rw [t2, ta] at s2
  rw [t2] at s3
  rw [dma_burn_step_eq, ← hT]
  exact ⟨s1, s2, s3⟩

theorem dma_burn_step_a12v (w : World) (hr : RENDERING_ENABLED w = false) :
    a12v (dma_burn_step w) =
      (w.a12_prev,
       (if w.mmc3_a12_level then w.mmc3_a12_low_m2_count
        else if 8 < w.mmc3_a12_low_m2_count + 1 then 8 else w.mmc3_a12_low_m2_count + 1),
       w.mmc3_a12_level) ∧
    RENDERING_ENABLED (dma_burn_step w) = false := by
  obtain ⟨t1, t2, -, -⟩ := m2_tick_one w
  obtain ⟨T, hT⟩ : ∃ T : World, T = ppu_mmc3_m2_tick 1 w := ⟨_, rfl⟩
  rw [← hT] at t1 t2
  have tr : RENDERING_ENABLED T = false := by
    have : RENDERING_ENABLED T = RENDERING_ENABLED w := by
      unfold RENDERING_ENABLED
      rw [t2]
    exact this.trans hr
  obtain ⟨s1, s2⟩ := step_one_a12v T tr
  rw [dma_burn_step_eq, ← hT]
  exact ⟨s1.trans t1, s2⟩

/-- After `k` rounds of the burn loop the dot counter has grown by the dots of
`k` CPU cycles, in both regions. -/
theorem burn_iter_dots (w : World) (hacc : w.ppu.is_pal_system = true → accv w < 5) :
    ∀ k : Nat, w.nes.ppu_cycles_total + dma_dots w.ppu.is_pal_system (accv w) k < 2 ^ 64 →
    (dma_burn_step^[k] w).nes.ppu_cycles_total
      = w.nes.ppu_cycles_total + dma_dots w.ppu.is_pal_system (accv w) k ∧
    accv (dma_burn_step^[k] w)
      = (if w.ppu.is_pal_system then (accv w + 16 * k) % 5 else accv w) ∧
    (dma_burn_step^[k] w).ppu.is_pal_system = w.ppu.is_pal_system := by
  intro k
  induction k with
  | zero =>
    intro _
    cases hp : w.ppu.is_pal_system
    · exact ⟨rfl, rfl, hp⟩
    · have ha := hacc hp
      have hd : dma_dots true (accv w) 0 = 0 := by
        unfold dma_dots
        rw [if_pos rfl]
        omega
      refine ⟨?_, ?_, hp⟩
      · show w.nes.ppu_cycles_total = _
        rw [hd]
        rfl
      · show accv w = _
        rw [if_pos rfl]
        omega
  | succ k ih =>
    intro hb
    obtain ⟨S, hS⟩ : ∃ S : World, S = dma_burn_step^[k] w := ⟨_, rfl⟩
    rw [Function.iterate_succ_apply', ← hS]
    rw [← hS] at ih
    cases hp : w.ppu.is_pal_system
    · rw [hp] at ih hb
      have hd : ∀ j, dma_dots false (accv w) j = 3 * j := fun j => rfl
      have hd2 : ∀ a, dma_dots false a 1 = 3 := fun a => rfl
      rw [hd] at hb
      obtain ⟨i1, i2, i3⟩ := ih (by rw [hd]; omega)
      rw [hd] at i1
      rw [if_neg (by decide)] at i2
      obtain ⟨s1, s2, s3⟩ := dma_burn_step_dots S (by rw [i3]; intro h; cases h)
        (by rw [i3, hd2, i1]; omega)
      rw [i3, hd2, i1] at s1
      rw [i3, if_neg (by decide), i2] at s2
      rw [hd, if_neg (by decide)]
      exact ⟨by rw [s1]; omega, s2, s3.trans i3⟩
    · rw [hp] at ih hb
      have ha := hacc hp
      have hd : ∀ a j, dma_dots true a j = (a + 16 * j) / 5 := fun a j => rfl
      rw [hd] at hb
      obtain ⟨i1, i2, i3⟩ := ih (by rw [hd]; omega)
      rw [hd] at i1
      rw [if_pos rfl] at i2
      obtain ⟨s1, s2, s3⟩ := dma_burn_step_dots S
        (by intro _; rw [i2]; exact Nat.mod_lt _ (by decide))
        (by rw [i3, hd, i1, i2]; omega)
      rw [i3, hd, i1, i2] at s1
      rw [i3, if_pos rfl, i2] at s2
      rw [hd, if_pos rfl]
      exact ⟨by rw [s1]; omega, by rw [s2]; omega, s3.trans i3⟩

/-- After `k` rounds of the burn loop with rendering disabled the M2 counter of
the A12 filter has been ticked `k` times. -/
theorem burn_iter_a12v (w : World) (hr : RENDERING_ENABLED w = false) :
    ∀ k : Nat,
    a12v (dma_burn_step^[k] w) =
      (w.a12_prev, m2_after w.mmc3_a12_level w.mmc3_a12_low_m2_count k, w.mmc3_a12_level) ∧
    RENDERING_ENABLED (dma_burn_step^[k] w) = false := by
  intro k
  induction k with
  | zero =>
    refine ⟨?_, hr⟩
    show (w.a12_prev, w.mmc3_a12_low_m2_count, w.mmc3_a12_level) = _
    unfold m2_after
    rw [if_pos (Or.inr rfl)]
  | succ k ih =>
    obtain ⟨S, hS⟩ : ∃ S : World, S = dma_burn_step^[k] w := ⟨_, rfl⟩
    rw [Function.iterate_succ_apply', ← hS]
    rw [← hS] at ih
    obtain ⟨i1, i2⟩ := ih
    obtain ⟨s1, s2⟩ := dma_burn_step_a12v S i2
    have e1 : S.a12_prev = w.a12_prev := congrArg Prod.fst i1
    have e2 : S.mmc3_a12_low_m2_count
        = m2_after w.mmc3_a12_level w.mmc3_a12_low_m2_count k :=
      congrArg (fun p => p.2.1) i1
    have e3 : S.mmc3_a12_level = w.mmc3_a12_level := congrArg (fun p => p.2.2) i1
    refine ⟨?_, s2⟩
    rw [s1, e1, e2, e3]
    congr 2
    unfold m2_after
    cases w.mmc3_a12_level
    · by_cases hk : k = 0
      · subst hk
        simp
      · simp only [Bool.false_eq_true, false_or, if_neg hk, if_false, Nat.succ_ne_zero,
          Nat.cast_add, Nat.cast_one]
        split_ifs <;> omega
    · simp

/-- The copy loop of the OAM DMA touches only OAM and OAMADDR. -/
theorem oam_dma_copy_frame (base : Nat) : ∀ (n i : Nat) (w : World),
    a12v (oam_dma_copy base n i w) = a12v w ∧
    accv (oam_dma_copy base n i w) = accv w ∧
    RENDERING_ENABLED (oam_dma_copy base n i w) = RENDERING_ENABLED w := by
  intro n
  induction n with
  | zero => intro i w; exact ⟨rfl, rfl, rfl⟩
  | succ n ih =>
    intro i w
    rw [oam_dma_copy]
    obtain ⟨a, b, c⟩ := ih (i + 1) { w with ppu := { w.ppu with
      oam := Function.update w.ppu.oam w.ppu.oam_addr (w.cpu.getbyte (base + i)),
      oam_addr := (w.ppu.oam_addr + 1) % 256 } }
    exact ⟨a.trans rfl, b.trans rfl, c.trans rfl⟩

/-! ### The burn loop during VBlank -/

theorem clock_bg_line (w : World) (hv : IS_VISIBLE_LINE w = false)
    (hp : IS_PRERENDER_LINE w = false) : clock_bg w = w := by
  unfold clock_bg
  rw [if_neg (fun g => by
    rcases g.2 with h | h
    · rw [hv] at h; exact absurd h (by decide)
    · rw [hp] at h; exact absurd h (by decide))]

theorem clock_sprite_fetch_line (w : World) (hv : IS_VISIBLE_LINE w = false)
    (hp : IS_PRERENDER_LINE w = false) : clock_sprite_fetch w = w := by
  unfold clock_sprite_fetch
  rw [if_neg (fun g => by
    rcases g.1 with h | h
    · rw [hv] at h; exact absurd h (by decide)
    · rw [hp] at h; exact absurd h (by decide))]

theorem lines_of_core {a w : World} (h : core a = core w) :
    IS_VISIBLE_LINE a = IS_VISIBLE_LINE w ∧ IS_PRERENDER_LINE a = IS_PRERENDER_LINE w := by
  have b := (beam_of_core h).1
  have s : a.ppu.scanline = w.ppu.scanline := congrArg Beam.scanline b
  have p : a.ppu_is_pal = w.ppu_is_pal := congrArg Beam.is_pal b
  unfold IS_VISIBLE_LINE IS_PRERENDER_LINE
  rw [s, p]
  exact ⟨rfl, rfl⟩

/-- On a line that is neither visible nor the pre-render line a `ppu_clock`
makes no CHR access: the A12 filter keeps its state. -/
theorem a12v_ppu_clock_line (w : World) (hv : IS_VISIBLE_LINE w = false)
    (hp : IS_PRERENDER_LINE w = false) : a12v (ppu_clock w) = a12v w := by
  have c3 : core (clock_shift (clock_pixel (clock_latch_sprite0 (nmi_step w)))) = core w := by
    rw [core_clock_shift, core_clock_pixel, core_latch_sprite0, core_nmi_step]
  have l3 := lines_of_core c3
  have e3 := clock_bg_line _ (l3.1.trans hv) (l3.2.trans hp)
  have c7 : core (clock_dot257 (clock_eval (clock_eval_init
      (clock_shift (clock_pixel (clock_latch_sprite0 (nmi_step w))))))) = core w := by
    rw [core_dot257, core_clock_eval, core_eval_init, core_clock_shift, core_clock_pixel,
      core_latch_sprite0, core_nmi_step]
  have l7 := lines_of_core c7
  have e7 := clock_sprite_fetch_line _ (l7.1.trans hv) (l7.2.trans hp)
  unfold ppu_clock
  dsimp only
  rw [e3, e7, a12v_clock_frame_end, a12v_INC_DOT, a12v_clock_odd_skip, a12v_clock_vblank,
    a12v_dot321, a12v_dot257, a12v_clock_eval, a12v_eval_init, a12v_clock_shift,
    a12v_clock_pixel, a12v_latch_sprite0, a12v_nmi_step]

/-- The beam on the lines 240..260: one dot to the right, and to dot 0 of the
next line after dot 340. -/
theorem step_on_vblank_lines (b : Beam) (hs : 240 ≤ b.scanline) (hs2 : b.scanline ≤ 260) :
    (Beam.step b).scanline = (if b.dot = 340 then b.scanline + 1 else b.scanline) ∧
    (Beam.step b).dot = (if b.dot = 340 then 0 else b.dot + 1) := by
  unfold Beam.step Beam.vbl
  have k1 : (Beam.vset b).dot = b.dot ∧ (Beam.vset b).scanline = b.scanline ∧
      (Beam.vset b).is_pal = b.is_pal := by
    unfold Beam.vset; split <;> exact ⟨rfl, rfl, rfl⟩
  have k2 : ∀ c : Beam, (Beam.vclr c).dot = c.dot ∧ (Beam.vclr c).scanline = c.scanline ∧
      (Beam.vclr c).is_pal = c.is_pal := by
    intro c; unfold Beam.vclr; split <;> exact ⟨rfl, rfl, rfl⟩
  obtain ⟨C, hC⟩ : ∃ C : Beam, C = Beam.vclr (Beam.vset b) := ⟨_, rfl⟩
  have kc : C.dot = b.dot ∧ C.scanline = b.scanline ∧ C.is_pal = b.is_pal := by
    obtain ⟨a1, a2, a3⟩ := k2 (Beam.vset b)
    rw [hC]
    exact ⟨a1.trans k1.1, a2.trans k1.2.1, a3.trans k1.2.2⟩
  rw [← hC]
  have cp : C.prerender = false := by
    unfold Beam.prerender
    rw [kc.2.1]
    cases C.is_pal <;> simp <;> omega
  have e3 : Beam.skip C = C := by
    unfold Beam.skip
    rw [if_neg (fun g => by rw [cp] at g; exact absurd g.2.1 (by decide))]
  rw [e3]
  have e4 : (Beam.inc C).scanline = (if b.dot = 340 then b.scanline + 1 else b.scanline) ∧
      (Beam.inc C).dot = (if b.dot = 340 then 0 else b.dot + 1) := by
    unfold Beam.inc
    by_cases h341 : C.dot + 1 = 341
    · have hd : b.dot = 340 := by rw [← kc.1]; omega
      have hne : ¬ C.scanline + 1 = (if C.is_pal = true then 312 else 262) := by
        rw [kc.2.1]
        cases C.is_pal <;> simp <;> omega
      rw [if_pos h341, if_neg hne, if_pos hd, if_pos hd]
      exact ⟨by show C.scanline + 1 = _; rw [kc.2.1], rfl⟩
    · have hd : ¬ b.dot = 340 := by rw [← kc.1]; omega
      rw [if_neg h341, if_neg hd, if_neg hd]
      exact ⟨kc.2.1, by show C.dot + 1 = _; rw [kc.1]⟩
  have e5 : Beam.fin (Beam.inc C) = Beam.inc C := by
    unfold Beam.fin
    rw [if_neg (fun g => by
      have := e4.1
      rw [g.1] at this
      split_ifs at this <;> omega)]
  rw [e5]
  exact e4

/-- A clock with room for it on the lines 240..260 leaves the A12 filter alone
and uses up one dot of the room. -/
theorem clock_room (w : World) (m : Nat) (h : vblank_room w (m + 1)) :
    a12v (ppu_clock w) = a12v w ∧ vblank_room (ppu_clock w) m := by
  obtain ⟨r1, r2, r3, r4⟩ := h
  have hs2 : w.ppu.scanline ≤ 260 := by push_cast at r4; omega
  have hv : IS_VISIBLE_LINE w = false := by
    unfold IS_VISIBLE_LINE
    simp only [decide_eq_false_iff_not, not_lt]
    omega
  have hp : IS_PRERENDER_LINE w = false := by
    unfold IS_PRERENDER_LINE
    simp only [decide_eq_false_iff_not]
    split_ifs <;> omega
  refine ⟨a12v_ppu_clock_line w hv hp, ?_⟩
  obtain ⟨s1, s2⟩ := step_on_vblank_lines (beam w) r1 hs2
  have bc := beam_ppu_clock w
  have d1 : (ppu_clock w).ppu.scanline
      = (if w.ppu.dot = 340 then w.ppu.scanline + 1 else w.ppu.scanline) :=
    (congrArg Beam.scanline bc).trans s1
  have d2 : (ppu_clock w).ppu.dot = (if w.ppu.dot = 340 then 0 else w.ppu.dot + 1) :=
    (congrArg Beam.dot bc).trans s2
  unfold vblank_room
  rw [d1, d2]
  push_cast at r4 ⊢
  split_ifs <;> refine ⟨?_, ?_, ?_, ?_⟩ <;> omega

theorem room_mono {w : World} {a b : Nat} (h : vblank_room w a) (hab : b ≤ a) :
    vblank_room w b := by
  obtain ⟨r1, r2, r3, r4⟩ := h
  refine ⟨r1, r2, r3, ?_⟩
  have : (b : Int) ≤ a := by exact_mod_cast hab
  omega

theorem room_congr {a w : World} (m : Nat) (h : a.ppu = w.ppu) :
    vblank_room a m ↔ vblank_room w m := by
  unfold vblank_room
  rw [h]

theorem clock_and_count_room (w : World) (m : Nat) (h : vblank_room w (m + 1)) :
    a12v (clock_and_count w) = a12v w ∧ vblank_room (clock_and_count w) m :=
  clock_room w m h

/-- The PAL loop with room on the lines 240..260. -/
theorem pal_loop_room : ∀ (fuel : Nat) (w : World) (m : Nat), accv w / 5 ≤ fuel →
    vblank_room w (accv w / 5 + m) →
    a12v (pal_accum_loop fuel w) = a12v w ∧ vblank_room (pal_accum_loop fuel w) m ∧
    accv (pal_accum_loop fuel w) = accv w % 5 := by
  intro fuel
  induction fuel with
  | zero =>
    intro w m hf h
    have e0 : accv w / 5 = 0 := by omega
    have e1 : accv w % 5 = accv w := by omega
    rw [e0, Nat.zero_add] at h
    rw [e1]
    exact ⟨rfl, h, rfl⟩
  | succ fuel ih =>
    intro w m hf h
    by_cases h5 : 5 ≤ w.ppu.pal_ppu_accum
    · obtain ⟨-, c2, -, -⟩ := clock_and_count_facts w
      obtain ⟨W, hW⟩ : ∃ W : World, W = { clock_and_count w with ppu :=
          { (clock_and_count w).ppu with
            pal_ppu_accum := (clock_and_count w).ppu.pal_ppu_accum - 5 } } := ⟨_, rfl⟩
      have e : pal_accum_loop (fuel + 1) w = pal_accum_loop fuel W := by
        rw [hW, pal_accum_loop, if_pos h5]
      have a5 : 5 ≤ accv w := h5
      have wa : accv W = accv w - 5 := by
        rw [hW]
        show (clock_and_count w).ppu.pal_ppu_accum - 5 = accv w - 5
        have : (clock_and_count w).ppu.pal_ppu_accum = accv w := c2
        rw [this]
      have hq : accv w / 5 + m = ((accv w - 5) / 5 + m) + 1 := by omega
      rw [hq] at h
      obtain ⟨d1, d2⟩ := clock_and_count_room w _ h
      have wr : vblank_room W ((accv w - 5) / 5 + m) := by
        rw [hW]
        exact d2
      have wv : a12v W = a12v w := by rw [hW]; exact d1
      obtain ⟨i1, i2, i3⟩ := ih W m (by rw [wa]; omega) (by rw [wa]; exact wr)
      rw [e, i3, wa]
      exact ⟨i1.trans wv, i2, by omega⟩
    · have e : pal_accum_loop (fuel + 1) w = w := by
        rw [pal_accum_loop, if_neg h5]
      have a5 : accv w < 5 := by
        have : ¬ 5 ≤ accv w := h5
        omega
      have e0 : accv w / 5 = 0 := by omega
      have e1 : accv w % 5 = accv w := by omega
      rw [e0, Nat.zero_add] at h
      rw [e, e1]
      exact ⟨rfl, h, rfl⟩

/-- One CPU cycle of PPU time with room on the lines 240..260. -/
theorem step_one_room (w : World) (m : Nat)
    (hacc : w.ppu.is_pal_system = true → accv w < 5)
    (h : vblank_room w (dma_dots w.ppu.is_pal_system (accv w) 1 + m)) :
    a12v (ppu_step_one_cpu_cycle w) = a12v w ∧
    vblank_room (ppu_step_one_cpu_cycle w) m ∧
    accv (ppu_step_one_cpu_cycle w)
      = (if w.ppu.is_pal_system then (accv w + 16) % 5 else accv w) ∧
    (ppu_step_one_cpu_cycle w).ppu.is_pal_system = w.ppu.is_pal_system := by
  have hk := (kept_step_one w).2.2.2.2
  by_cases hp : w.ppu.is_pal_system = false
  · have hd : dma_dots w.ppu.is_pal_system (accv w) 1 + m = ((m + 1) + 1) + 1 := by
      rw [hp]
      show 3 * 1 + m = _
      omega
    rw [hd] at h
    have e : ppu_step_one_cpu_cycle w =
        { clock_and_count (clock_and_count (clock_and_count w)) with ppu :=
          { (clock_and_count (clock_and_count (clock_and_count w))).ppu with
            phase_mod3 := ((clock_and_count (clock_and_count
              (clock_and_count w))).ppu.phase_mod3 + 1) % 3 } } := by
      unfold ppu_step_one_cpu_cycle
      rw [if_pos hp]
    obtain ⟨-, a2, -, -⟩ := clock_and_count_facts w
    obtain ⟨-, b2, -, -⟩ := clock_and_count_facts (clock_and_count w)
    obtain ⟨-, c2, -, -⟩ := clock_and_count_facts (clock_and_count (clock_and_count w))
    obtain ⟨x1, x2⟩ := clock_and_count_room w _ h
    obtain ⟨y1, y2⟩ := clock_and_count_room _ _ x2
    obtain ⟨z1, z2⟩ := clock_and_count_room _ _ y2
    refine ⟨?_, ?_, ?_, hk⟩
    · rw [e]
      exact z1.trans (y1.trans x1)
    · rw [e]
      exact z2
    · rw [hp, if_neg (by decide), e]
      exact c2.trans (b2.trans a2)
  · have hp' : w.ppu.is_pal_system = true := by
      cases h : w.ppu.is_pal_system
      · exact absurd h hp
      · rfl
    have ha := hacc hp'
    have hd : dma_dots w.ppu.is_pal_system (accv w) 1 = (accv w + 16) / 5 := by
      rw [hp']
      rfl
    rw [hd] at h
    obtain ⟨W, hW⟩ : ∃ W : World, W = { w with ppu := { w.ppu with
        pal_ppu_accum := (w.ppu.pal_ppu_accum + 16) % 256 } } := ⟨_, rfl⟩
    have e : ppu_step_one_cpu_cycle w = pal_accum_loop 256 W := by
      unfold ppu_step_one_cpu_cycle
      rw [if_neg hp, hW]
    have wa : accv W = accv w + 16 := by
      rw [hW]
      show (w.ppu.pal_ppu_accum + 16) % 256 = accv w + 16
      have : w.ppu.pal_ppu_accum = accv w := rfl
      rw [this]
      omega
    have wv : a12v W = a12v w := by rw [hW]; rfl
    have wr : vblank_room W ((accv w + 16) / 5 + m) := by
      rw [hW]
      exact h
    obtain ⟨i1, i2, i3⟩ := pal_loop_room 256 W m (by rw [wa]; omega) (by rw [wa]; exact wr)
    rw [e, i3, wa, hp', if_pos rfl]
    exact ⟨i1.trans wv, i2, rfl, by rw [← e]; exact hk.trans hp'⟩

/-- One round of the burn loop with room on the lines 240..260. -/
theorem dma_burn_step_room (w : World) (m : Nat)
    (hacc : w.ppu.is_pal_system = true → accv w < 5)
    (h : vblank_room w (dma_dots w.ppu.is_pal_system (accv w) 1 + m)) :
    a12v (dma_burn_step w) =
      (w.a12_prev,
       (if w.mmc3_a12_level then w.mmc3_a12_low_m2_count
        else if 8 < w.mmc3_a12_low_m2_count + 1 then 8 else w.mmc3_a12_low_m2_count + 1),
       w.mmc3_a12_level) ∧
    vblank_room (dma_burn_step w) m ∧
    accv (dma_burn_step w) = (if w.ppu.is_pal_system then (accv w + 16) % 5 else accv w) ∧
    (dma_burn_step w).ppu.is_pal_system = w.ppu.is_pal_system := by
  obtain ⟨t1, t2, -, -⟩ := m2_tick_one w
  obtain ⟨T, hT⟩ : ∃ T : World, T = ppu_mmc3_m2_tick 1 w := ⟨_, rfl⟩
  rw [← hT] at t1 t2
  have ta : accv T = accv w := by
    show T.ppu.pal_ppu_accum = w.ppu.pal_ppu_accum
    rw [t2]
  obtain ⟨s1, s2, s3, s4⟩ := step_one_room T m (by rw [t2, ta]; exact hacc)
    (by rw [t2, ta]; exact (room_congr _ t2).2 h)
  rw [t2, ta] at s3
  rw [t2] at s4
  rw [dma_burn_step_eq, ← hT]
  exact ⟨s1.trans t1, s2, s3, s4⟩

theorem dma_dots_succ (pal : Bool) (acc k : Nat) (ha : pal = true → acc < 5) :
    dma_dots pal acc (k + 1)
      = dma_dots pal acc k + dma_dots pal (if pal then (acc + 16 * k) % 5 else acc) 1 := by
  cases pal
  · show 3 * (k + 1) = 3 * k + 3 * 1
    omega
  · show (acc + 16 * (k + 1)) / 5 = (acc + 16 * k) / 5 + ((acc + 16 * k) % 5 + 16 * 1) / 5
    omega

/-- After `k` rounds of the burn loop with room on the lines 240..260 the M2
counter of the A12 filter has been ticked `k` times. -/
theorem burn_iter_room (w : World) (hacc : w.ppu.is_pal_system = true → accv w < 5) :
    ∀ (k m : Nat), vblank_room w (dma_dots w.ppu.is_pal_system (accv w) k + m) →
    a12v (dma_burn_step^[k] w) =
      (w.a12_prev, m2_after w.mmc3_a12_level w.mmc3_a12_low_m2_count k, w.mmc3_a12_level) ∧
    vblank_room (dma_burn_step^[k] w) m ∧
    accv (dma_burn_step^[k] w)
      = (if w.ppu.is_pal_system then (accv w + 16 * k) % 5 else accv w) ∧
    (dma_burn_step^[k] w).ppu.is_pal_system = w.ppu.is_pal_system := by
  intro k
  induction k with
  | zero =>
    intro m h
    have hd : dma_dots w.ppu.is_pal_system (accv w) 0 = 0 := by
      cases hp : w.ppu.is_pal_system
      · rfl
      · have := hacc hp
        show (accv w + 16 * 0) / 5 = 0
        omega
    rw [hd, Nat.zero_add] at h
    refine ⟨?_, h, ?_, rfl⟩
    · show (w.a12_prev, w.mmc3_a12_low_m2_count, w.mmc3_a12_level) = _
      unfold m2_after
      rw [if_pos (Or.inr rfl)]
    · show accv w = _
      cases hp : w.ppu.is_pal_system
      · rfl
      · have := hacc hp
        rw [if_pos rfl]
        omega
  | succ k ih =>
    intro m h
    obtain ⟨S, hS⟩ : ∃ S : World, S = dma_burn_step^[k] w := ⟨_, rfl⟩
    rw [Function.iterate_succ_apply', ← hS]
    rw [← hS] at ih
    rw [dma_dots_succ _ _ _ hacc, Nat.add_assoc] at h
    obtain ⟨i1, i2, i3, i4⟩ := ih _ h
    have sacc : S.ppu.is_pal_system = true → accv S < 5 := by
      intro hp
      rw [i3, ← i4, hp, if_pos rfl]
      exact Nat.mod_lt _ (by decide)
    obtain ⟨s1, s2, s3, s4⟩ := dma_burn_step_room S m sacc (by rw [i4, i3]; exact i2)
    have e1 : S.a12_prev = w.a12_prev := congrArg Prod.fst i1
    have e2 : S.mmc3_a12_low_m2_count
        = m2_after w.mmc3_a12_level w.mmc3_a12_low_m2_count k :=
      congrArg (fun p => p.2.1) i1
    have e3 : S.mmc3_a12_level = w.mmc3_a12_level := congrArg (fun p => p.2.2) i1
    refine ⟨?_, s2, ?_, s4.trans i4⟩
    · rw [s1, e1, e2, e3]
      congr 2
      unfold m2_after
      cases w.mmc3_a12_level
      · by_cases hk : k = 0
        · subst hk
          simp
        · simp only [Bool.false_eq_true, false_or, if_neg hk, if_false, Nat.succ_ne_zero,
            Nat.cast_add, Nat.cast_one]
          split_ifs <;> omega
      · simp
    · rw [s3, i4, i3]
      cases w.ppu.is_pal_system
      · rfl
      · simp only [if_true]
        omega

theorem oam_dma_copy_beam (base : Nat) : ∀ (n i : Nat) (w : World),
    (oam_dma_copy base n i w).ppu.scanline = w.ppu.scanline ∧
    (oam_dma_copy base n i w).ppu.dot = w.ppu.dot := by
  intro n
  induction n with
  | zero => intro i w; exact ⟨rfl, rfl⟩
  | succ n ih =>
    intro i w
    rw [oam_dma_copy]
    obtain ⟨a, b⟩ := ih (i + 1) { w with ppu := { w.ppu with
      oam := Function.update w.ppu.oam w.ppu.oam_addr (w.cpu.getbyte (base + i)),
      oam_addr := (w.ppu.oam_addr + 1) % 256 } }
    exact ⟨a.trans rfl, b.trans rfl⟩

theorem dma_burn_step_count (w : World) :
    dma_burn_step w = burn_and_count (ppu_step_one_cpu_cycle (ppu_mmc3_m2_tick 1 w)) := rfl

/-- C14. OAM DMA postcondition: after `ppu_writehigh($4014, val)` with OAMADDR
`a` at the start, `OAM[(a + i) mod 256]` is the CPU byte at `val * 256 + i` for
every `i` in 0..255, OAMADDR is 0, `cpu_cycles_total` has grown by `n = 513`
when the CPU cycle count at the start was even and by `n = 514` when it was
odd, `n` cycles have been burned and the CPU released once.  The machine is
the one after the copy run through exactly `n` rounds of `dma_burn_step` and
then released.  Every round is one M2 tick, which moves the count of low M2
cycles by one (saturating at 8, and only while A12 is low), then one PPU step
for one CPU cycle on the ticked machine, then the burn and the count.  After
`k` rounds, for every `k` up to `n`, `k` cycles are burned and counted and the
PPU has run the dots of `k` CPU cycles (`3 * k` on NTSC, `(acc + 16 * k) / 5`
on PAL with the remainder in the accumulator).  Whenever the PPU itself makes
no CHR access during the transfer, because rendering is disabled or because
the transfer runs on the lines 240..260, the M2 count after `k` rounds is the
count at the start ticked `k` times and the A12 level is unchanged; the same
holds of the final machine with `k = n`.  The 64-bit counters are assumed not
to wrap around. -/
theorem C14_oam_dma (w : World) (val n : Nat) (hval : val < 256) (ha : w.ppu.oam_addr < 256)
    (hn : n = if w.cpu.total_cycles % 2 = 1 then 514 else 513)
    (hc : w.nes.cpu_cycles_total + n < 2 ^ 64) :
    (∀ i, i < 256 → (ppu_writehigh 0x4014 val w).ppu.oam ((w.ppu.oam_addr + i) % 256)
        = w.cpu.getbyte (val * 256 + i)) ∧
    (ppu_writehigh 0x4014 val w).ppu.oam_addr = 0 ∧
    (ppu_writehigh 0x4014 val w).nes.cpu_cycles_total = w.nes.cpu_cycles_total + n ∧
    (ppu_writehigh 0x4014 val w).cpu.burned = w.cpu.burned + n ∧
    (ppu_writehigh 0x4014 val w).cpu.release_calls = w.cpu.release_calls + 1 ∧
    (w.ppu.is_pal_system = false → w.nes.ppu_cycles_total + 3 * n < 2 ^ 64 →
      (ppu_writehigh 0x4014 val w).nes.ppu_cycles_total = w.nes.ppu_cycles_total + 3 * n) ∧
    ppu_writehigh 0x4014 val w =
      { dma_burn_step^[n] (dma_after_copy val w) with
        cpu := { (dma_burn_step^[n] (dma_after_copy val w)).cpu with
          release_calls := (dma_burn_step^[n] (dma_after_copy val w)).cpu.release_calls + 1 } } ∧
    (∀ k, k < n →
      (ppu_mmc3_m2_tick 1 (dma_burn_step^[k] (dma_after_copy val w))).mmc3_a12_low_m2_count
        = (if (dma_burn_step^[k] (dma_after_copy val w)).mmc3_a12_level then
            (dma_burn_step^[k] (dma_after_copy val w)).mmc3_a12_low_m2_count
          else if 8 < (dma_burn_step^[k] (dma_after_copy val w)).mmc3_a12_low_m2_count + 1
            then 8
          else (dma_burn_step^[k] (dma_after_copy val w)).mmc3_a12_low_m2_count + 1) ∧
      dma_burn_step^[k + 1] (dma_after_copy val w) =
        burn_and_count (ppu_step_one_cpu_cycle
          (ppu_mmc3_m2_tick 1 (dma_burn_step^[k] (dma_after_copy val w))))) ∧
    (∀ k, k ≤ n →
      (dma_burn_step^[k] (dma_after_copy val w)).cpu.burned = w.cpu.burned + k ∧
      (dma_burn_step^[k] (dma_after_copy val w)).nes.cpu_cycles_total
        = w.nes.cpu_cycles_total + k ∧
      ((w.ppu.is_pal_system = true → w.ppu.pal_ppu_accum < 5) →
        w.nes.ppu_cycles_total + dma_dots w.ppu.is_pal_system w.ppu.pal_ppu_accum k < 2 ^ 64 →
        (dma_burn_step^[k] (dma_after_copy val w)).nes.ppu_cycles_total
          = w.nes.ppu_cycles_total + dma_dots w.ppu.is_pal_system w.ppu.pal_ppu_accum k ∧
        (dma_burn_step^[k] (dma_after_copy val w)).ppu.pal_ppu_accum
          = (if w.ppu.is_pal_system then (w.ppu.pal_ppu_accum + 16 * k) % 5
             else w.ppu.pal_ppu_accum)) ∧
      (RENDERING_ENABLED w = false →
        (dma_burn_step^[k] (dma_after_copy val w)).mmc3_a12_low_m2_count
          = m2_after w.mmc3_a12_level w.mmc3_a12_low_m2_count k ∧
        (dma_burn_step^[k] (dma_after_copy val w)).mmc3_a12_level = w.mmc3_a12_level) ∧
      ((w.ppu.is_pal_system = true → w.ppu.pal_ppu_accum < 5) →
        vblank_room w (dma_dots w.ppu.is_pal_system w.ppu.pal_ppu_accum k) →
        (dma_burn_step^[k] (dma_after_copy val w)).mmc3_a12_low_m2_count
          = m2_after w.mmc3_a12_level w.mmc3_a12_low_m2_count k ∧
        (dma_burn_step^[k] (dma_after_copy val w)).mmc3_a12_level = w.mmc3_a12_level)) ∧
    ((w.ppu.is_pal_system = true → w.ppu.pal_ppu_accum < 5) →
      w.nes.ppu_cycles_total + dma_dots w.ppu.is_pal_system w.ppu.pal_ppu_accum n < 2 ^ 64 →
      (ppu_writehigh 0x4014 val w).nes.ppu_cycles_total
        = w.nes.ppu_cycles_total + dma_dots w.ppu.is_pal_system w.ppu.pal_ppu_accum n) ∧
    (RENDERING_ENABLED w = false →
      (ppu_writehigh 0x4014 val w).mmc3_a12_low_m2_count
        = m2_after w.mmc3_a12_level w.mmc3_a12_low_m2_count n ∧
      (ppu_writehigh 0x4014 val w).mmc3_a12_level = w.mmc3_a12_level) ∧
    ((w.ppu.is_pal_system = true → w.ppu.pal_ppu_accum < 5) →
      vblank_room w (dma_dots w.ppu.is_pal_system w.ppu.pal_ppu_accum n) →
      (ppu_writehigh 0x4014 val w).mmc3_a12_low_m2_count
        = m2_after w.mmc3_a12_level w.mmc3_a12_low_m2_count n ∧
      (ppu_writehigh 0x4014 val w).mmc3_a12_level = w.mmc3_a12_level) := by
  have hbase : (val <<< 8) % 65536 = val * 256 := by
    rw [Nat.shiftLeft_eq]; omega
  have hcyc : (if (w.cpu.total_cycles &&& 1) ≠ 0 then 514 else 513) = n := by
    rw [hn, Nat.and_one_is_mod]
    rcases Nat.mod_two_eq_zero_or_one w.cpu.total_cycles with h | h <;> simp [h]
  obtain ⟨c1, -, c3, c4, c5⟩ := oam_dma_copy_spec (val * 256) 256 0 w (le_refl _) ha
  obtain ⟨f1, f2, f3⟩ := oam_dma_copy_frame (val * 256) 256 0 w
  obtain ⟨f4, f5⟩ := oam_dma_copy_beam (val * 256) 256 0 w
  obtain ⟨X, hX⟩ : ∃ X : World, X = oam_dma_copy (val * 256) 256 0 w := ⟨_, rfl⟩
  rw [← hX] at c1 c3 c4 c5 f1 f2 f3 f4 f5
  have hD : dma_after_copy val w = { X with ppu := { X.ppu with oam_addr := 0 } } := by
    unfold dma_after_copy
    simp only [hbase]
    rw [← hX]
  obtain ⟨D, hDD⟩ : ∃ D : World, D = dma_after_copy val w := ⟨_, rfl⟩
  rw [← hDD] at hD
  have dcpu : D.cpu = w.cpu := by rw [hD]; exact c3
  have dnes : D.nes = w.nes := by rw [hD]; exact c4
  have dpal : D.ppu.is_pal_system = w.ppu.is_pal_system := by rw [hD]; exact c5
  have dacc : accv D = accv w := by rw [hD]; exact f2
  have da12 : a12v D = a12v w := by rw [hD]; exact f1
  have dren : RENDERING_ENABLED D = RENDERING_ENABLED w := by rw [hD]; exact f3
  have daddr : D.ppu.oam_addr = 0 := by rw [hD]
  have doam : D.ppu.oam = X.ppu.oam := by rw [hD]
  have e : ppu_writehigh 0x4014 val w =
      { dma_burn_step^[n] D with
        cpu := { (dma_burn_step^[n] D).cpu with
          release_calls := (dma_burn_step^[n] D).cpu.release_calls + 1 } } := by
    unfold ppu_writehigh
    rw [if_pos rfl]
    simp only [hbase]
    rw [← hX]
    have : (if (X.cpu.total_cycles &&& 1) ≠ 0 then 514 else 513) = n := by
      rw [c3]; exact hcyc
    simp only [this]
    rw [← hD, dma_burn_loop_iterate]
  have hk : ∀ k, k ≤ n →
      (dma_burn_step^[k] D).ppu.oam = D.ppu.oam ∧ (dma_burn_step^[k] D).ppu.oam_addr = 0 ∧
      (dma_burn_step^[k] D).cpu.burned = w.cpu.burned + k ∧
      (dma_burn_step^[k] D).cpu.release_calls = w.cpu.release_calls ∧
      (dma_burn_step^[k] D).nes.cpu_cycles_total = w.nes.cpu_cycles_total + k := by
    intro k hkn
    obtain ⟨l1, l2, l3, l4, l5⟩ := dma_burn_loop_spec k D daddr (by rw [dnes]; omega)
    rw [dma_burn_loop_iterate] at l1 l2 l3 l4 l5
    rw [dcpu] at l3 l4
    rw [dnes] at l5
    exact ⟨l1, l2, l3, l4, l5⟩
  have hdots : ∀ k, (w.ppu.is_pal_system = true → w.ppu.pal_ppu_accum < 5) →
      w.nes.ppu_cycles_total + dma_dots w.ppu.is_pal_system w.ppu.pal_ppu_accum k < 2 ^ 64 →
      (dma_burn_step^[k] D).nes.ppu_cycles_total
        = w.nes.ppu_cycles_total + dma_dots w.ppu.is_pal_system w.ppu.pal_ppu_accum k ∧
      (dma_burn_step^[k] D).ppu.pal_ppu_accum
        = (if w.ppu.is_pal_system then (w.ppu.pal_ppu_accum + 16 * k) % 5
           else w.ppu.pal_ppu_accum) := by
    intro k hacc hb
    have wa : accv w = w.ppu.pal_ppu_accum := rfl
    obtain ⟨b1, b2, -⟩ := burn_iter_dots D (by rw [dpal, dacc]; exact hacc) k
      (by rw [dnes, dpal, dacc]; exact hb)
    rw [dnes, dpal, dacc, wa] at b1
    rw [dpal, dacc, wa] at b2
    exact ⟨b1, b2⟩
  have ha12 : ∀ k, RENDERING_ENABLED w = false →
      (dma_burn_step^[k] D).mmc3_a12_low_m2_count
        = m2_after w.mmc3_a12_level w.mmc3_a12_low_m2_count k ∧
      (dma_burn_step^[k] D).mmc3_a12_level = w.mmc3_a12_level := by
    intro k hr
    obtain ⟨b1, -⟩ := burn_iter_a12v D (dren.trans hr) k
    have d2 : D.mmc3_a12_low_m2_count = w.mmc3_a12_low_m2_count :=
      congrArg (fun p => p.2.1) da12
    have d3 : D.mmc3_a12_level = w.mmc3_a12_level := congrArg (fun p => p.2.2) da12
    rw [d2, d3] at b1
    exact ⟨congrArg (fun p => p.2.1) b1, congrArg (fun p => p.2.2) b1⟩
  have droom : ∀ m, vblank_room w m → vblank_room D m := by
    intro m hm
    have hs : D.ppu.scanline = w.ppu.scanline := by rw [hD]; exact f4
    have hd : D.ppu.dot = w.ppu.dot := by rw [hD]; exact f5
    unfold vblank_room at hm ⊢
    rw [hs, hd]
    exact hm
  have hroom : ∀ k, (w.ppu.is_pal_system = true → w.ppu.pal_ppu_accum < 5) →
      vblank_room w (dma_dots w.ppu.is_pal_system w.ppu.pal_ppu_accum k) →
      (dma_burn_step^[k] D).mmc3_a12_low_m2_count
        = m2_after w.mmc3_a12_level w.mmc3_a12_low_m2_count k ∧
      (dma_burn_step^[k] D).mmc3_a12_level = w.mmc3_a12_level := by
    intro k hacc hm
    have wa : accv w = w.ppu.pal_ppu_accum := rfl
    obtain ⟨b1, -, -, -⟩ := burn_iter_room D (by rw [dpal, dacc]; exact hacc) k 0
      (by rw [dpal, dacc, wa, Nat.add_zero]; exact droom _ hm)
    have d2 : D.mmc3_a12_low_m2_count = w.mmc3_a12_low_m2_count :=
      congrArg (fun p => p.2.1) da12
    have d3 : D.mmc3_a12_level = w.mmc3_a12_level := congrArg (fun p => p.2.2) da12
    rw [d2, d3] at b1
    exact ⟨congrArg (fun p => p.2.1) b1, congrArg (fun p => p.2.2) b1⟩
  obtain ⟨l1, l2, l3, l4, l5⟩ := hk n (le_refl _)
  rw [← hDD]
  refine ⟨?_, ?_, ?_, ?_, ?_, ?_, e, ?_, ?_, ?_, ?_, ?_⟩
  · intro i hi
    have := c1 i hi
    rw [Nat.add_zero] at this
    rw [e]
    exact (congrFun (l1.trans doam) _).trans this
  · rw [e]; exact l2
  · rw [e]; exact l5
  · rw [e]; exact l3
  · rw [e]; exact congrArg (· + 1) l4
  · intro hp hb
    have hd : dma_dots w.ppu.is_pal_system w.ppu.pal_ppu_accum n = 3 * n := by
      rw [hp]; rfl
    obtain ⟨b1, -⟩ := hdots n (fun h => absurd (hp.symm.trans h) (by decide))
      (by rw [hd]; exact hb)
    rw [e]
    exact b1.trans (by rw [hd])
  · intro k _
    obtain ⟨t1, -, -, -⟩ := m2_tick_one (dma_burn_step^[k] D)
    refine ⟨congrArg (fun p => p.2.1) t1, ?_⟩
    rw [Function.iterate_succ_apply', dma_burn_step_count]
  · intro k hkn
    obtain ⟨-, -, k3, -, k5⟩ := hk k hkn
    exact ⟨k3, k5, hdots k, ha12 k, hroom k⟩
  · intro hacc hb
    rw [e]
    exact (hdots n hacc hb).1
  · intro hr
    rw [e]
    exact ha12 n hr
  · intro hacc hm
    rw [e]
    exact hroom n hacc hm

theorem C14_oam_dma_witness :
    (ppu_writehigh 0x4014 2
      { cpu := { getbyte := fun a => a % 7, total_cycles := 3 } }).ppu.oam_addr = 0 ∧
    (ppu_writehigh 0x4014 2
      { cpu := { getbyte := fun a => a % 7, total_cycles := 3 } }).nes.cpu_cycles_total = 514 ∧
    (ppu_writehigh 0x4014 2
      { cpu := { getbyte := fun a => a % 7, total_cycles := 3 } }).nes.ppu_cycles_total = 1542 ∧
    (ppu_writehigh 0x4014 2
      { cpu := { getbyte := fun a => a % 7, total_cycles := 3 } }).mmc3_a12_low_m2_count = 8 ∧
    (ppu_writehigh 0x4014 2
      { cpu := { getbyte := fun a => a % 7, total_cycles := 2 },
        ppu := { is_pal_system := true } }).nes.ppu_cycles_total = 1641 ∧
    (ppu_writehigh 0x4014 2
      { cpu := { getbyte := fun a => a % 7, total_cycles := 3 },
        ppu := { scanline := 241, dot := 5, mask := 0x18 } }).mmc3_a12_low_m2_count = 8 :=
  ⟨(C14_oam_dma { cpu := { getbyte := fun a => a % 7, total_cycles := 3 } } 2 514
      (by decide) (by decide) rfl (by decide)).2.1,
   (C14_oam_dma { cpu := { getbyte := fun a => a % 7, total_cycles := 3 } } 2 514
      (by decide) (by decide) rfl (by decide)).2.2.1.trans (by decide),
   ((C14_oam_dma { cpu := { getbyte := fun a => a % 7, total_cycles := 3 } } 2 514
      (by decide) (by decide) rfl (by decide)).2.2.2.2.2.1 rfl (by decide)).trans
        (by decide),
   ((C14_oam_dma { cpu := { getbyte := fun a => a % 7, total_cycles := 3 } } 2 514
      (by decide) (by decide) rfl (by decide)).2.2.2.2.2.2.2.2.2.2.1 rfl).1.trans
        (by decide),
   ((C14_oam_dma
      { cpu := { getbyte := fun a => a % 7, total_cycles := 2 }, ppu := { is_pal_system := true } }
      2 513
      (by decide) (by decide) rfl (by decide)).2.2.2.2.2.2.2.2.2.1
        (fun _ => by decide) (by decide)).trans (by decide),
   ((C14_oam_dma
      { cpu := { getbyte := fun a => a % 7, total_cycles := 3 }, ppu := { scanline := 241, dot := 5, mask := 0x18 } }
      2 514
      (by decide) (by decide) rfl (by decide)).2.2.2.2.2.2.2.2.2.2.2
        (fun h => absurd h (by decide)) (by decide)).1.trans (by decide)⟩

/-! ### Rendering switched off after an overflow -/

theorem ppu_write_2001 (v : Nat) (w : World) :
    ppu_write 0x2001 v w = { w with ppu := { w.ppu with open_bus := v, mask := v } } := rfl

/-- With rendering disabled the overflow flag stays set as long as no clock
runs at dot 1. -/
theorem overflow_kept_no_render (n : Nat) : ∀ w : World, RENDERING_ENABLED w = false →
    0 ≤ w.ppu.dot → w.ppu.dot ≤ 340 → w.ppu.eval_overflow = true →
    (∀ k, k < n → (ppu_clocks k w).ppu.dot ≠ 1) →
    (ppu_clocks n w).ppu.eval_overflow = true := by
  induction n with
  | zero => intro w _ _ _ h _; exact h
  | succ n ih =>
    intro w hr h0 h1 h hk
    have i := ih w hr h0 h1 h (fun k hkn => hk k (Nat.lt_succ_of_lt hkn))
    rw [ppu_clocks_succ, (eval_ppu_clock _).2.2.1, if_neg (hk n (Nat.lt_succ_self n)), i]
    rfl

/-- With rendering disabled, bit 5 of PPUSTATUS after the next clock of dot 257
is clear exactly when the overflow flag is clear or dot 1 comes first. -/
theorem bit5_no_render (w : World) (hr : RENDERING_ENABLED w = false) (h0 : 0 ≤ w.ppu.dot)
    (h1 : w.ppu.dot ≤ 340) :
    (ppu_clocks (((257 - w.ppu.dot) % 341).toNat + 1) w).ppu.status &&& 0x20 = 0 ↔
      (w.ppu.eval_overflow = false ∨ w.ppu.dot ≤ 1 ∨ 257 < w.ppu.dot) := by
  obtain ⟨k1, -⟩ := clocks_to_257 w hr h0 h1
  have hk : (((257 - w.ppu.dot) % 341).toNat : Int) = (257 - w.ppu.dot) % 341 :=
    Int.toNat_of_nonneg (Int.emod_nonneg _ (by decide))
  have hs := status_bit5_257 _ k1
  rw [ppu_clocks_succ]
  constructor
  · intro hz
    by_contra hc
    push_neg at hc
    obtain ⟨c1, c2, c3⟩ := hc
    have c1' : w.ppu.eval_overflow = true := by
      cases h : w.ppu.eval_overflow
      · exact absurd h c1
      · rfl
    have ov := overflow_kept_no_render ((257 - w.ppu.dot) % 341).toNat w hr h0 h1 c1'
      (by
        intro k hkn
        rw [(clocks_no_render k w hr h0 h1).1]
        omega)
    exact (hs.2 ov) hz
  · intro hc
    have ov : (ppu_clocks ((257 - w.ppu.dot) % 341).toNat w).ppu.eval_overflow = false := by
      apply overflow_no_render _ w hr h0 h1
      rcases hc with hc | hc | hc
      · exact Or.inl hc
      · right
        refine ⟨(1 - w.ppu.dot).toNat, by omega, ?_⟩
        rw [(clocks_no_render _ w hr h0 h1).1]
        omega
      · right
        refine ⟨(342 - w.ppu.dot).toNat, by omega, ?_⟩
        rw [(clocks_no_render _ w hr h0 h1).1]
        omega
    have := hs.not
    rw [ov] at this
    simpa using this

theorem overflow_machine_event :
    overflow_machine.ppu.eval_overflow = false ∧ overflow_event overflow_machine = true ∧
    overflow_machine.ppu.dot = 130 ∧ RENDERING_ENABLED overflow_machine = true :=
  ⟨rfl, by decide, rfl, by decide⟩

/-- The overflow machine after its clock of dot 130 and a write of 0 to
PPUMASK: rendering is off, the beam is on dot 131 and the overflow flag is
set. -/
theorem overflow_machine_off :
    RENDERING_ENABLED (ppu_write 0x2001 0 (ppu_clock overflow_machine)) = false ∧
    (ppu_write 0x2001 0 (ppu_clock overflow_machine)).ppu.dot = 131 ∧
    (ppu_write 0x2001 0 (ppu_clock overflow_machine)).ppu.eval_overflow = true := by
  obtain ⟨m1, m2, m3, -⟩ := overflow_machine_event
  have e := (eval_ppu_clock overflow_machine).2.2.1
  rw [m1, m2, m3] at e
  obtain ⟨p1, -, -, -⟩ := clock_pos overflow_machine (by rw [m3]; decide)
  rw [m3] at p1
  obtain ⟨P, hP⟩ : ∃ P : World, P = ppu_clock overflow_machine := ⟨_, rfl⟩
  rw [← hP] at e p1 ⊢
  rw [ppu_write_2001]
  refine ⟨?_, p1, e⟩
  simp [RENDERING_ENABLED]

/-- C38 as claimed fails in its last clause.  On dot 130 of a visible line with
rendering enabled the evaluation finds a ninth sprite in range and the clock
sets the overflow flag; a write of 0 to PPUMASK then disables rendering on dot
131.  The flag is cleared only at dot 1, so the clock of the next dot 257, the
127th from there, sets bit 5 of PPUSTATUS instead of clearing it. -/
theorem C38_counterexample :
    RENDERING_ENABLED overflow_machine = true ∧
    overflow_machine.ppu.status &&& 0x20 = 0 ∧
    (ppu_clock overflow_machine).ppu.eval_overflow = true ∧
    RENDERING_ENABLED (ppu_write 0x2001 0 (ppu_clock overflow_machine)) = false ∧
    (ppu_clocks 126 (ppu_write 0x2001 0 (ppu_clock overflow_machine))).ppu.dot = 257 ∧
    (ppu_clocks 127 (ppu_write 0x2001 0 (ppu_clock overflow_machine))).ppu.status
      &&& 0x20 ≠ 0 := by
  obtain ⟨o1, o2, o3⟩ := overflow_machine_off
  have e := (eval_ppu_clock overflow_machine).2.2.1
  rw [overflow_machine_event.1, overflow_machine_event.2.1, overflow_machine_event.2.2.1] at e
  obtain ⟨W, hW⟩ : ∃ W : World, W = ppu_write 0x2001 0 (ppu_clock overflow_machine) :=
    ⟨_, rfl⟩
  rw [← hW] at o1 o2 o3 ⊢
  have k := clocks_to_257 W o1 (by rw [o2]; decide) (by rw [o2]; decide)
  have b := bit5_no_render W o1 (by rw [o2]; decide) (by rw [o2]; decide)
  rw [o2] at k b
  have n126 : ((257 - 131 : Int) % 341).toNat = 126 := by decide
  rw [n126] at k b
  refine ⟨overflow_machine_event.2.2.2, by decide, e, o1, k.1, fun hz => ?_⟩
  rcases b.1 hz with h | h | h
  · rw [o3] at h; cases h
  · omega
  · omega

/-- C38. Dot-257 side effects are unconditional: on every scanline and with
every mask value a `ppu_clock` executed at dot 257 sets OAMADDR to 0, clears
the `$2004`-write-during-evaluation flag and leaves the evaluation-overflow
flag of the line in bit 5 of PPUSTATUS.  With rendering disabled, the clock of
dot 257 is reached within 341 clocks from any dot, so that a value written
through `$2003` is 0 again after at most 341 clocks; bit 5 is clear after the
next clock of dot 257 exactly when the overflow flag was clear or dot 1 lies
on the way, and set when the flag was set on a dot from 2 to 257, since only
the clock of dot 1 clears the flag. -/
theorem C38_dot257_unconditional (w : World) :
    (w.ppu.dot = 257 →
      (ppu_clock w).ppu.oam_addr = 0 ∧ (ppu_clock w).ppu.oam_write_during_eval = false ∧
      (((ppu_clock w).ppu.status &&& 0x20 ≠ 0) ↔ w.ppu.eval_overflow = true)) ∧
    (RENDERING_ENABLED w = false → 0 ≤ w.ppu.dot → w.ppu.dot ≤ 340 →
      (ppu_clocks ((257 - w.ppu.dot) % 341).toNat w).ppu.dot = 257 ∧
      ((257 - w.ppu.dot) % 341).toNat + 1 ≤ 341 ∧
      (∀ v : Nat, (ppu_write 0x2003 v w).ppu.oam_addr = v ∧
        (ppu_clocks (((257 - w.ppu.dot) % 341).toNat + 1)
          (ppu_write 0x2003 v w)).ppu.oam_addr = 0 ∧
        (ppu_clocks 341 (ppu_write 0x2003 v w)).ppu.oam_addr = 0) ∧
      ((ppu_clocks (((257 - w.ppu.dot) % 341).toNat + 1) w).ppu.status &&& 0x20 = 0 ↔
        (w.ppu.eval_overflow = false ∨ w.ppu.dot ≤ 1 ∨ 257 < w.ppu.dot)) ∧
      (w.ppu.eval_overflow = true → 2 ≤ w.ppu.dot → w.ppu.dot ≤ 257 →
        (ppu_clocks (((257 - w.ppu.dot) % 341).toNat + 1) w).ppu.status &&& 0x20 ≠ 0)) := by
  refine ⟨fun hd => ?_, fun hr h0 h1 => ?_⟩
  · refine ⟨?_, (eval_ppu_clock w).2.2.2 hd, status_bit5_257 w hd⟩
    rw [oam_addr_ppu_clock, if_pos hd]
  · obtain ⟨k1, k2⟩ := clocks_to_257 w hr h0 h1
    have hk : (((257 - w.ppu.dot) % 341).toNat : Int) = (257 - w.ppu.dot) % 341 :=
      Int.toNat_of_nonneg (Int.emod_nonneg _ (by decide))
    have hb := bit5_no_render w hr h0 h1
    refine ⟨k1, k2, fun v => ?_, hb, fun hov h2 h257 hz => ?_⟩
    · obtain ⟨W, hW⟩ : ∃ W : World, W = ppu_write 0x2003 v w := ⟨_, rfl⟩
      have wd : W.ppu.dot = w.ppu.dot := by rw [hW, ppu_write_2003]
      have wr : RENDERING_ENABLED W = false := by rw [hW, ppu_write_2003]; exact hr
      have wa : W.ppu.oam_addr = v := by rw [hW, ppu_write_2003]
      rw [← hW]
      obtain ⟨j1, -⟩ := clocks_to_257 W wr (by rw [wd]; exact h0) (by rw [wd]; exact h1)
      rw [wd] at j1
      have z : (ppu_clocks (((257 - w.ppu.dot) % 341).toNat + 1) W).ppu.oam_addr = 0 := by
        rw [ppu_clocks_succ, oam_addr_ppu_clock, if_pos j1]
      refine ⟨wa, z, ?_⟩
      have e : 341 = (((257 - w.ppu.dot) % 341).toNat + 1) +
          (341 - (((257 - w.ppu.dot) % 341).toNat + 1)) := by omega
      rw [e, ppu_clocks_add]
      exact oam_addr_stays_zero _ _ z
    · rcases hb.1 hz with h | h | h
      · rw [hov] at h; cases h
      · omega
      · omega

/-! ### Shifts between two reloads -/

/-- On a visible line with rendering enabled block 3 reloads the shifters on
the dots 7, 15, ..., 255 and on 327 and 335. -/
theorem reload_dots (d : Int) (h0 : 0 ≤ d) (h1 : d ≤ 340) :
    reload_dot (shift_window_machine d) ↔ (d % 8 = 7 ∧ (d ≤ 255 ∨ d = 327 ∨ d = 335)) := by
  have hv : IS_VISIBLE_LINE (shift_window_machine d) = true := rfl
  have hd : (shift_window_machine d).ppu.dot = d := rfl
  unfold reload_dot
  rw [hv, hd]
  constructor
  · rintro ⟨-, h, h7⟩
    refine ⟨h7, ?_⟩
    omega
  · rintro ⟨h7, h⟩
    refine ⟨Or.inl rfl, ?_, h7⟩
    omega

set_option maxRecDepth 100000 in
/-- Between two reloads of the visible window the code shifts 8 times; from the
reload of dot 255 to that of dot 327 it shifts 9 times, from 327 to 335 it
shifts 8 times and from 335 to dot 7 of the next line 7 times. -/
theorem shift_counts_code :
    (∀ k, 1 ≤ k → k ≤ 31 → shift_count (fun d => decide (shift_window d)) (8 * k) 8 = 8) ∧
    shift_count (fun d => decide (shift_window d)) 256 72 = 9 ∧
    shift_count (fun d => decide (shift_window d)) 328 8 = 8 ∧
    shift_count (fun d => decide (shift_window d)) 336 5
      + shift_count (fun d => decide (shift_window d)) 0 8 = 7 := by
  refine ⟨?_, by decide, by decide, by decide⟩
  intro k h1 h31
  interval_cases k <;> decide

set_option maxRecDepth 100000 in
/-- With the window of the specification the count is 8 between every two
reloads. -/
theorem shift_counts_claimed :
    (∀ k, 1 ≤ k → k ≤ 31 →
      shift_count (fun d => decide (claimed_shift_window d)) (8 * k) 8 = 8) ∧
    shift_count (fun d => decide (claimed_shift_window d)) 256 72 = 8 ∧
    shift_count (fun d => decide (claimed_shift_window d)) 328 8 = 8 ∧
    shift_count (fun d => decide (claimed_shift_window d)) 336 5
      + shift_count (fun d => decide (claimed_shift_window d)) 0 8 = 8 := by
  refine ⟨?_, by decide, by decide, by decide⟩
  intro k h1 h31
  interval_cases k <;> decide

/-- What block 2 of `ppu_clock` does with rendering enabled, and when the whole
clock leaves the same registers. -/
theorem shift_window_code (w : World) (hr : RENDERING_ENABLED w = true) :
    regs4 (clock_shift w) =
      (if (2 ≤ w.ppu.dot ∧ w.ppu.dot ≤ 257) ∨ (321 ≤ w.ppu.dot ∧ w.ppu.dot ≤ 336) then
        ((w.ppu.bg.pt_lo <<< 1) % 65536, (w.ppu.bg.pt_hi <<< 1) % 65536,
         (w.ppu.bg.at_lo <<< 1) % 65536, (w.ppu.bg.at_hi <<< 1) % 65536)
       else regs4 w) ∧
    regs_after_shift w = regs4 (clock_shift w) ∧
    (¬ reload_dot w → regs4 (ppu_clock w) = regs4 (clock_shift w)) ∧
    ((regs4 (ppu_clock w)).1 % 256 = (regs4 (clock_shift w)).1 % 256 ∧
     (regs4 (ppu_clock w)).2.1 % 256 = (regs4 (clock_shift w)).2.1 % 256 ∧
     (regs4 (ppu_clock w)).2.2.1 % 256 = (regs4 (clock_shift w)).2.2.1 % 256 ∧
     (regs4 (ppu_clock w)).2.2.2 % 256 = (regs4 (clock_shift w)).2.2.2 % 256) := by
  have e1 : regs4 (clock_shift w) = regs_after_shift w := by
    rw [regs4_eq, sview_clock_shift]
    exact sv_shift_regs w (sview w) rfl rfl rfl rfl
  have e0 : regs_after_shift w =
      (if (2 ≤ w.ppu.dot ∧ w.ppu.dot ≤ 257) ∨ (321 ≤ w.ppu.dot ∧ w.ppu.dot ≤ 336) then
        ((w.ppu.bg.pt_lo <<< 1) % 65536, (w.ppu.bg.pt_hi <<< 1) % 65536,
         (w.ppu.bg.at_lo <<< 1) % 65536, (w.ppu.bg.at_hi <<< 1) % 65536)
       else regs4 w) := by
    unfold regs_after_shift shift_window
    by_cases c : (2 ≤ w.ppu.dot ∧ w.ppu.dot ≤ 257) ∨ (321 ≤ w.ppu.dot ∧ w.ppu.dot ≤ 336)
    · rw [if_pos ⟨hr, c⟩, if_pos c]; rfl
    · rw [if_neg (fun h => c h.2), if_neg c]
  rw [e1]
  refine ⟨e0, rfl, ?_, ?_⟩
  · intro hn
    rcases regs_ppu_clock w with h | ⟨-, h, -⟩
    · exact h
    · exact absurd h hn
  · rcases regs_ppu_clock w with h | ⟨-, -, h⟩
    · rw [h]; exact ⟨rfl, rfl, rfl, rfl⟩
    · exact h

/-- C33, the code does not do what the claim says: its second shift window is
one dot early.  With rendering enabled block 2 of `ppu_clock` shifts the four
registers exactly on the dots `2..257` and `321..336`, and the whole clock
leaves that result whenever block 3 does not reload in the same call.  On dot
321 of a visible line the clock shifts (`$0100` becomes `$0200`) although 321
is outside the claimed window, and on dot 337 it does not although 337 is
inside.  Block 3 reloads on the dots 7, 15, ..., 255, 327 and 335 after the
shift of the same clock.  Between two reloads of the visible window the code
shifts 8 times, once per pixel of a tile, but from the reload of dot 255 to
that of 327 it shifts 9 times and from that of 335 to dot 7 of the next line 7
times; with the claimed window `322..337` the count is 8 between every two
reloads. -/
theorem C33_shift_window_one_dot_early :
    (∀ w : World, RENDERING_ENABLED w = true →
      regs4 (clock_shift w) = (if shift_window w.ppu.dot then regs4 (bg_shift w) else regs4 w) ∧
      regs4 (bg_shift w) =
        ((w.ppu.bg.pt_lo <<< 1) % 65536, (w.ppu.bg.pt_hi <<< 1) % 65536,
         (w.ppu.bg.at_lo <<< 1) % 65536, (w.ppu.bg.at_hi <<< 1) % 65536) ∧
      (¬ reload_dot w → regs4 (ppu_clock w) = regs4 (clock_shift w))) ∧
    (RENDERING_ENABLED (shift_window_machine 321) = true ∧
     regs4 (shift_window_machine 321) = (0x0100, 0x0100, 0x0100, 0x0100) ∧
     regs4 (ppu_clock (shift_window_machine 321)) = (0x0200, 0x0200, 0x0200, 0x0200) ∧
     ¬ claimed_shift_window (shift_window_machine 321).ppu.dot) ∧
    (RENDERING_ENABLED (shift_window_machine 337) = true ∧
     regs4 (ppu_clock (shift_window_machine 337)) = regs4 (shift_window_machine 337) ∧
     claimed_shift_window (shift_window_machine 337).ppu.dot) ∧
    (∀ d : Int, shift_window d ↔ (2 ≤ d ∧ d ≤ 257) ∨ (321 ≤ d ∧ d ≤ 336)) ∧
    (∀ d : Int, 0 ≤ d → d ≤ 340 →
      (reload_dot (shift_window_machine d) ↔ (d % 8 = 7 ∧ (d ≤ 255 ∨ d = 327 ∨ d = 335)))) ∧
    ((∀ k, 1 ≤ k → k ≤ 31 → shift_count (fun d => decide (shift_window d)) (8 * k) 8 = 8) ∧
     shift_count (fun d => decide (shift_window d)) 256 72 = 9 ∧
     shift_count (fun d => decide (shift_window d)) 328 8 = 8 ∧
     shift_count (fun d => decide (shift_window d)) 336 5
       + shift_count (fun d => decide (shift_window d)) 0 8 = 7) ∧
    ((∀ k, 1 ≤ k → k ≤ 31 →
        shift_count (fun d => decide (claimed_shift_window d)) (8 * k) 8 = 8) ∧
     shift_count (fun d => decide (claimed_shift_window d)) 256 72 = 8 ∧
     shift_count (fun d => decide (claimed_shift_window d)) 328 8 = 8 ∧
     shift_count (fun d => decide (claimed_shift_window d)) 336 5
       + shift_count (fun d => decide (claimed_shift_window d)) 0 8 = 8) := by
  refine ⟨fun w hr => ?_, ⟨rfl, rfl, shift_window_machine_321, by decide⟩,
    ⟨rfl, shift_window_machine_337, by decide⟩, fun d => Iff.rfl, reload_dots,
    shift_counts_code, shift_counts_claimed⟩
  obtain ⟨a1, a2, a3, -⟩ := shift_window_code w hr
  refine ⟨?_, rfl, a3⟩
  rw [← a2]
  unfold regs_after_shift
  by_cases c : shift_window w.ppu.dot
  · rw [if_pos ⟨hr, c⟩, if_pos c]
  · rw [if_neg (fun h => c h.2), if_neg c]

end Nofrendo
